import Mathlib

/-!
# Formspec menu: style cascade and inventory interaction

A shallow embedding of `src/gui/guiFormSpecMenu.cpp`: the style cascade
(`parseStyle`, `getStyleForElement`), the pointer interaction state machine
(`verifySelectedItem`, `updateSelectedItem`, `getItemAtPos`, the mouse branch of
`OnEvent`), the element parsers behind `parseElement`, the submit of the fields
(`acceptInput`), the regeneration of the layout (`regenerateGui`) and the
initial focus (`setInitialFocus`).  Member variables keep their source names.
Types that the source only uses (item stacks, inventories, style specs, string
helpers) are modelled from their use and marked as such.
-/

namespace FormSpec

/-! ## String helpers -/

/-- Modelled from the spec: the escape-aware split of the text services
(`split(str, delim)`, declared in util/string.h).  A backslash keeps the next
character (delimiter included) inside the current token, together with the
backslash; `cur` is the token being built, `esc` says the previous character
was an unconsumed backslash. -/
def splitAux (delim : Char) : List Char → List Char → Bool → List (List Char)
  | [], cur, _ => [cur]
  | c :: cs, cur, true => splitAux delim cs (cur ++ ['\\', c]) false
  | c :: cs, cur, false =>
    if c = delim then cur :: splitAux delim cs [] false
    else if c = '\\' then splitAux delim cs cur true
    else splitAux delim cs (cur ++ [c]) false

/-- Modelled from the spec: `split(s, delim)` of util/string.h. -/
def split (s : String) (delim : Char) : List String :=
  (splitAux delim s.data [] false).map String.mk

/-- Modelled from the spec: the characters `trim` of util/string.h strips
(C `isspace`). -/
def isSpace (c : Char) : Bool :=
  c = ' ' || c = '\t' || c = '\n' || c = '\r' || c.toNat = 11 || c.toNat = 12

/-- Modelled from the spec: `trim(str)` of util/string.h, which removes
leading and trailing whitespace. -/
def trim (s : String) : String :=
  String.mk (((s.data.dropWhile isSpace).reverse.dropWhile isSpace).reverse)

/-- Modelled from the spec: `unescape_string` of the text services: every
backslash is dropped and the character after it is kept. -/
def unescapeAux : List Char → List Char
  | [] => []
  | '\\' :: c :: cs => c :: unescapeAux cs
  | ['\\'] => []
  | c :: cs => c :: unescapeAux cs

/-- Modelled from the spec: `unescape_string(s)` of util/string.h. -/
def unescape_string (s : String) : String := String.mk (unescapeAux s.data)

/-- Modelled from the spec: `::tolower` applied to every character
(`std::transform(..., ::tolower)`), ASCII letters only. -/
def tolower (s : String) : String :=
  String.mk (s.data.map fun c =>
    if 65 ≤ c.toNat ∧ c.toNat ≤ 90 then Char.ofNat (c.toNat + 32) else c)

/-- The position of the first `=` in a part, as `std::string::find('=')`
(`none` is `npos`). -/
def findEq : List Char → Option Nat
  | [] => none
  | c :: cs => if c = '=' then some 0 else (findEq cs).map (· + 1)

/-! ## Style specs and the two cascades -/

/-- Modelled from the spec: the properties of a `StyleSpec` (StyleSpec.h is not
among the sources; these are the property names the source reads). -/
inductive Property
  | TEXTCOLOR | BGCOLOR | BGCOLOR_HOVERED | BGCOLOR_PRESSED | NOCLIP | BORDER
  | BGIMG | BGIMG_HOVERED | BGIMG_PRESSED | ALPHA | NONE
  deriving DecidableEq, Repr

/-- Modelled from the spec: `StyleSpec`, a partial record of named properties
(StyleSpec.h is not among the sources).  `none` is an unset property. -/
structure StyleSpec where
  properties : Property → Option String := fun _ => none

/-- Modelled from the spec: `StyleSpec::GetPropertyByName`; an unknown name
gives `NONE`. -/
def StyleSpec.GetPropertyByName (name : String) : Property :=
  if name = "textcolor" then .TEXTCOLOR
  else if name = "bgcolor" then .BGCOLOR
  else if name = "bgcolor_hovered" then .BGCOLOR_HOVERED
  else if name = "bgcolor_pressed" then .BGCOLOR_PRESSED
  else if name = "noclip" then .NOCLIP
  else if name = "border" then .BORDER
  else if name = "bgimg" then .BGIMG
  else if name = "bgimg_hovered" then .BGIMG_HOVERED
  else if name = "bgimg_pressed" then .BGIMG_PRESSED
  else if name = "alpha" then .ALPHA
  else .NONE

/-- Modelled from the spec: `StyleSpec::set(prop, value)` gives one property an
explicit value. -/
def StyleSpec.set (s : StyleSpec) (prop : Property) (value : String) : StyleSpec :=
  { properties := fun p => if p = prop then some value else s.properties p }

/-- Modelled from the spec: `StyleSpec::operator|=`, the overlay: per property,
an explicit value of `other` replaces the one of `s`; a property `other` leaves
unset is untouched. -/
def StyleSpec.overlay (s other : StyleSpec) : StyleSpec :=
  { properties := fun p =>
      match other.properties p with
      | some v => some v
      | none => s.properties p }

/-- A cascade: `std::unordered_map<std::string, StyleSpec>`. -/
abbrev Theme := String → Option StyleSpec

/-- The statement `theme[selector] |= spec`: `operator[]` default-constructs a missing entry,
then the overlay is applied to it. -/
def Theme.overlayAt (t : Theme) (selector : String) (spec : StyleSpec) : Theme :=
  fun k =>
    if k = selector then
      some (((t selector).getD {}).overlay spec)
    else t k

/-! ## Inventory collaborator -/

/-- Modelled from the spec: an inventory location, a key with equality
(inventorymanager.h is not among the sources); represented by its `dump()`
text. -/
abbrev InventoryLocation := String

/-- Modelled from the spec: the default-constructed `InventoryLocation()`. -/
def undefinedLocation : InventoryLocation := "undefined"

/-- Modelled from the spec: an item stack of the inventory collaborator
(inventory.h is not among the sources).  The source reads `name` and `count`;
`count` is a u16 there.  The default value is `ItemStack()`. -/
structure ItemStack where
  name : String := ""
  count : Nat := 0
  deriving DecidableEq, Repr

/-- Modelled from the spec: `ItemStack::empty()`. -/
def ItemStack.empty (s : ItemStack) : Bool := s.count == 0

/-- Modelled from the spec: an inventory list (`InventoryList`): a name and its
slots; `getSize()` is the number of slots. -/
structure InventoryList where
  name : String
  items : List ItemStack
  deriving DecidableEq, Repr

/-- Source method `InventoryList::getSize()`. -/
def InventoryList.getSize (l : InventoryList) : Nat := l.items.length

/-- Source method `InventoryList::getItem(i)`. -/
def InventoryList.getItem (l : InventoryList) (i : Nat) : ItemStack := l.items.getD i {}

/-- Modelled from the spec: an inventory (`Inventory`): its lists, and `addr`,
the identity of the object, which is what `inv_selected == inv_s` compares. -/
structure Inventory where
  addr : Nat
  lists : List InventoryList
  deriving DecidableEq, Repr

/-- Source method `Inventory::getList(name)`: the list of that name, or NULL. -/
def Inventory.getList (inv : Inventory) (name : String) : Option InventoryList :=
  inv.lists.find? fun l => l.name == name

/-- Modelled from the spec: the collaborators an event reads: the inventory
manager (`m_invmgr->getInventory(loc)`, `none` is NULL) and the item definitions
behind `ItemStack::addItem(newitem, idef)`; `addItem self newitem` is the pair of
`self` after the call and the leftover it returns. -/
structure Collab where
  getInventory : InventoryLocation → Option Inventory
  addItem : ItemStack → ItemStack → ItemStack × ItemStack

/-- Modelled from the spec: the usual `ItemStack::addItem` for stacks of at
most `stack_max` items: an empty stack takes the new item, a stack of another
name takes nothing, otherwise the free space is filled. -/
def addItemMax (stack_max : Nat) (self newitem : ItemStack) : ItemStack × ItemStack :=
  if newitem.empty then (self, newitem)
  else if self.empty then (newitem, {})
  else if self.name ≠ newitem.name then (self, newitem)
  else if newitem.count ≤ stack_max - self.count then
    ({ self with count := self.count + newitem.count }, {})
  else
    ({ self with count := self.count + (stack_max - self.count) },
     { newitem with count := newitem.count - (stack_max - self.count) })

/-! ## Menu state -/

/-- A 2D integer vector (`v2s32`). -/
structure v2s32 where
  X : Int := 0
  Y : Int := 0
  deriving DecidableEq, Repr

/-- An integer rectangle (`core::rect<s32>`). -/
structure Rect where
  UpperLeftCorner : v2s32 := {}
  LowerRightCorner : v2s32 := {}
  deriving DecidableEq, Repr

/-- Source method `core::rect<s32>::isPointInside`: borders included. -/
def Rect.isPointInside (r : Rect) (p : v2s32) : Bool :=
  decide (r.UpperLeftCorner.X ≤ p.X) && decide (r.UpperLeftCorner.Y ≤ p.Y) &&
  decide (r.LowerRightCorner.X ≥ p.X) && decide (r.LowerRightCorner.Y ≥ p.Y)

/-- The struct `ItemSpec`: a slot reference; index -1 is the invalid slot. -/
structure ItemSpec where
  inventoryloc : InventoryLocation := undefinedLocation
  listname : String := ""
  i : Int := -1
  deriving DecidableEq, Repr

/-- Source method `ItemSpec::isValid()`. -/
def ItemSpec.isValid (s : ItemSpec) : Bool := s.i != -1

/-- The struct `ListDrawSpec`: one `list[]` element. -/
structure ListDrawSpec where
  inventoryloc : InventoryLocation
  listname : String
  pos : v2s32
  geom : v2s32
  start_item_i : Int
  real_coordinates : Bool
  deriving DecidableEq, Repr

/-- The struct `ListRingSpec`: one entry of the list ring. -/
structure ListRingSpec where
  inventoryloc : InventoryLocation
  listname : String
  deriving DecidableEq, Repr

/-! ## Layout: numbers, specs and the parser state

Floating-point values are modelled as the rationals they denote: `float` and
`f32` values are binary32 numbers, `double` values are binary64 numbers, and
every operation and conversion rounds its exact result to the format of its
C++ type (`f32`, `f64`: to nearest, ties to even, subnormals included); each
operation is rounded on its own, without fused multiply-add or excess
precision.  Infinities and NaN are not modelled.  A conversion to `s32` truncates toward
zero.  Arithmetic on `s32` wraps around where the embedding says so.  Wide
strings are strings (`utf8_to_wide` and `wide_to_utf8` are
the identity).  The widgets the parsers create in the GUI environment are not
part of the state; what is kept are the registries the menu itself fills. -/

/-- A 2D float vector (`v2f32`, `v2f`); the components are the rationals that
the binary32 values denote. -/
structure v2f32 where
  X : ℚ := 0
  Y : ℚ := 0
  deriving DecidableEq

/-- A 2D unsigned vector (`v2u32`). -/
structure v2u32 where
  X : Nat := 0
  Y : Nat := 0
  deriving DecidableEq, Repr

/-- The conversion of an integer value to `s32`, which wraps around. -/
def wrapS32 (x : Int) : Int := (x + 2147483648) % 4294967296 - 2147483648

/-- The quotient `a / d` rounded to the nearest integer, a tie to the even
one. -/
def roundEvenDiv (a d : Nat) : Nat :=
  let q := a / d
  let r := a % d
  if 2 * r < d then q
  else if d < 2 * r then q + 1
  else if q % 2 = 0 then q else q + 1

/-- The position of the leading bit of `n`, found by halving at most `fuel`
times. -/
def log2Fuel : Nat → Nat → Nat
  | 0, _ => 0
  | fuel + 1, n => if n < 2 then 0 else log2Fuel fuel (n / 2) + 1

/-- The position of the leading bit of `n` (0 for `n = 0`). -/
def ilog2 (n : Nat) : Nat := log2Fuel n n

/-- The binary exponent of the positive fraction `a / d`: the `e` with
`2 ^ e ≤ a / d < 2 ^ (e + 1)`. -/
def binade (a d : Nat) : Int :=
  let e0 : Int := (ilog2 a : Int) - (ilog2 d : Int)
  if (if 0 ≤ e0 then d * 2 ^ e0.toNat ≤ a else d ≤ a * 2 ^ (-e0).toNat) then e0 else e0 - 1

/-- The rounding of IEEE 754 binary formats, to nearest with ties to even: the
value of `x` in the format with `p` significant bits and least exponent
`emin` (below `2 ^ emin` the values are subnormal).  The format has no upper
limit here: infinities are not modelled. -/
def roundBin (p : Nat) (emin : Int) (x : ℚ) : ℚ :=
  if x.num = 0 then 0
  else
    let a := x.num.natAbs
    let d := x.den
    let e := max (binade a d) emin
    let s : Int := (p : Int) - 1 - e
    let m : Nat :=
      if 0 ≤ s then roundEvenDiv (a * 2 ^ s.toNat) d else roundEvenDiv a (d * 2 ^ (-s).toNat)
    let v : ℚ := if 0 ≤ s then mkRat m (2 ^ s.toNat) else ((m * 2 ^ (-s).toNat : Nat) : ℚ)
    if x.num < 0 then -v else v

/-- The rounding to binary32 (`float`, `f32`): the result of an operation or
a conversion whose C++ type is `float`. -/
def f32 (x : ℚ) : ℚ := roundBin 24 (-126) x

/-- The rounding to binary64 (`double`). -/
def f64 (x : ℚ) : ℚ := roundBin 53 (-1022) x

/-- The conversion `(s32) x` of a float or double: truncation toward zero.  A
value outside the range of `s32` gives -2147483648, the result of the
conversion instruction of x86 (undefined behaviour in C++). -/
def truncS32 (x : ℚ) : Int :=
  let t := Int.tdiv x.num x.den
  if -2147483648 ≤ t ∧ t ≤ 2147483647 then t else -2147483648

/-- The value of a string of decimal digits. -/
def digitsVal (cs : List Char) : Nat :=
  cs.foldl (fun acc c => 10 * acc + (c.toNat - 48)) 0

/-- The decimal number at the head of a text: leading whitespace, an optional
sign, digits and an optional fraction; what follows is ignored and text
without a number gives 0. -/
def decimalValue (s : String) : ℚ :=
  let cs := s.data.dropWhile isSpace
  let neg := cs.head? = some '-'
  let cs := if cs.head? = some '-' ∨ cs.head? = some '+' then cs.tail else cs
  let ip := cs.takeWhile Char.isDigit
  let rest := cs.dropWhile Char.isDigit
  let fp := if rest.head? = some '.' then rest.tail.takeWhile Char.isDigit else []
  let v : ℚ := mkRat (Int.ofNat (digitsVal (ip ++ fp))) (10 ^ fp.length)
  if neg then -v else v

/-- Modelled from the spec: `stof` (`mystof` of util/string.h, which returns
the `double` of C `atof` as a `float`) on decimal text: the decimal number
rounded to binary64 and then to binary32.  Exponents, hexadecimal text, `inf`
and `nan` are not modelled. -/
def stof (s : String) : ℚ := f32 (f64 (decimalValue s))

/-- The integer at the head of a text: leading whitespace, an optional sign
and digits; text without a number gives 0. -/
def integerValue (s : String) : Int :=
  let cs := s.data.dropWhile isSpace
  let neg := cs.head? = some '-'
  let cs := if cs.head? = some '-' ∨ cs.head? = some '+' then cs.tail else cs
  let v := Int.ofNat (digitsVal (cs.takeWhile Char.isDigit))
  if neg then -v else v

/-- Modelled from the spec: `stoi` (`mystoi` of util/string.h, C `atoi`) as the
C library computes it: the integer at the head of the text as `strtol` reads
it, limited to the range of a 64-bit `long`, and converted to `int`, which
wraps around. -/
def stoi (s : String) : Int :=
  wrapS32 (max (-9223372036854775808) (min (integerValue s) 9223372036854775807))

/-- Modelled from the spec: `is_yes` of util/string.h: `y`, `yes`, `true` in
any case, or a non-zero number. -/
def is_yes (s : String) : Bool :=
  let s2 := tolower (trim s)
  s2 = "y" || s2 = "yes" || s2 = "true" || stoi s2 != 0

/-- Modelled from the spec: `is_number` of util/string.h: a non-empty string
of decimal digits. -/
def is_number (s : String) : Bool :=
  s.data.all Char.isDigit && !s.data.isEmpty

/-- The text before the first `;` of a part
(`parts[1].substr(0, parts[1].find(10))` with the semicolon as needle); a part
without one is kept whole. -/
def beforeSemicolon (s : String) : String :=
  String.mk (s.data.takeWhile fun c => c != ';')

/-- A colour (`video::SColor`) as its 32-bit ARGB value. -/
abbrev SColor := Nat

/-- Modelled from the spec: the enum `FormspecFieldType` of guiFormSpecMenu.h
(the header is not among the sources; these are the values the source
uses). -/
inductive FormspecFieldType
  | f_Button | f_Table | f_TabHeader | f_CheckBox | f_DropDown | f_ScrollBar | f_Unknown
  deriving DecidableEq, Repr

/-- Modelled from the spec: the struct `FieldSpec` of guiFormSpecMenu.h, an
entry of the field registry. -/
structure FieldSpec where
  fname : String := ""
  flabel : String := ""
  fdefault : String := ""
  fid : Int := 0
  send : Bool := false
  ftype : FormspecFieldType := .f_Unknown
  is_exit : Bool := false
  rect : Rect := {}
  deriving DecidableEq, Repr

/-- Modelled from the spec: the struct `ImageDrawSpec` of guiFormSpecMenu.h
with the members its constructors set; `parent_button` is the id of the button
the image belongs to. -/
structure ImageDrawSpec where
  name : String := ""
  item_name : String := ""
  parent_button : Option Int := none
  pos : v2s32 := {}
  geom : v2s32 := {}
  middle : Rect := {}
  scale : Bool := true
  clip : Bool := false
  deriving DecidableEq, Repr

/-- Modelled from the spec: the struct `BoxDrawSpec` of guiFormSpecMenu.h. -/
structure BoxDrawSpec where
  pos : v2s32
  geom : v2s32
  color : SColor
  deriving DecidableEq, Repr

/-- Modelled from the spec: the struct `TooltipSpec` of guiFormSpecMenu.h. -/
structure TooltipSpec where
  tooltip : String
  bgcolor : SColor
  color : SColor
  deriving DecidableEq, Repr

/-- Modelled from the spec: the struct `StaticTextSpec` of guiFormSpecMenu.h;
`parent_button` is the id of the button the text belongs to. -/
structure StaticTextSpec where
  text : String
  rect : Rect
  parent_button : Option Int := none
  deriving DecidableEq, Repr

/-- Modelled from the spec: a column of `tablecolumns[]`
(`GUITable::TableColumn` of guiTable.h): its type and its options, each option
as the unescaped text handed to `GUITable::splitOption`. -/
structure TableColumn where
  type : String := ""
  options : List String := []
  deriving DecidableEq, Repr

/-- Assignment `map[key] = value` on a map kept as an association list. -/
def mapSet {α : Type} (l : List (String × α)) (key : String) (value : α) : List (String × α) :=
  (key, value) :: l.filter fun kv => kv.1 != key

/-- What the parsers use from outside the menu: the constant
`FORMSPEC_API_VERSION` (network/networkprotocol.h), `parseColorString`
(util/string.h; `none` is a failed parse, the second argument is the default
alpha), the translation helpers, `InventoryLocation::deSerialize`, the
description of an item from the item definitions, and the form source
(`m_form_src->resolveText`, `none` when there is no form source). -/
structure ParseEnv where
  FORMSPEC_API_VERSION : Nat
  parseColorString : String → Nat → Option SColor
  translate_string : String → String
  unescape_enriched : String → String
  deSerialize : String → InventoryLocation
  itemDescription : String → String
  m_form_src : Option (String → String)

/-- The struct `parserData` as far as the embedded parsers use it
(`table_dyndata` only feeds the table widgets and is left out). -/
structure parserData where
  explicit_size : Bool := false
  invsize : v2f32 := {}
  size : v2s32 := {}
  offset : v2f32 := {}
  anchor : v2f32 := {}
  rect : Rect := {}
  basepos : v2s32 := {}
  screensize : v2u32 := {}
  focused_fieldname : String := ""
  table_options : List String := []
  table_columns : List TableColumn := []
  real_coordinates : Bool := false
  deriving DecidableEq

/-- Modelled from the spec: the struct `fs_key_pendig` of guiFormSpecMenu.h,
the key events that wait to be reported on the next submit. -/
structure fs_key_pendig where
  key_up : Bool := false
  key_down : Bool := false
  key_enter : Bool := false
  key_escape : Bool := false
  deriving DecidableEq, Repr

/-! ## The menu -/

/-- The members of `GUIFormSpecMenu` that the embedded functions read or write.
`slot_x real cx` and `slot_y real cy` are the pixel offsets of column `cx` and
row `cy` of a list, which the source computes in floating point
(`cx * spacing.X`, or `cx * (imgsize.X * 1.25)` in real-coordinate mode) and
truncates to s32.
`warningstream` and `errorstream` collect the lines the parsers write to these
logs.  `m_client` says whether a client is present (`m_client != 0`).  The
registries of widgets (`m_checkboxes`, `m_scrollbars`, `m_tables`,
`m_dropdowns`) keep the field spec of each entry, and the maps `m_tooltips`
and `field_close_on_enter` are association lists; the stack
`container_stack` has its top at the head.  `m_text_dst` says whether there is
a text destination (`m_text_dst != 0`). -/
structure GUIFormSpecMenu where
  theme_by_type : Theme := fun _ => none
  theme_by_name : Theme := fun _ => none
  property_warned : List String := []
  warningstream : List String := []
  errorstream : List String := []
  m_inventorylists : List ListDrawSpec := []
  m_inventory_rings : List ListRingSpec := []
  imgsize : v2s32 := {}
  slot_x : Bool → Int → Int := fun _ _ => 0
  slot_y : Bool → Int → Int := fun _ _ => 0
  AbsoluteClippingRect : Rect := {}
  m_pointer : v2s32 := {}
  m_old_pointer : v2s32 := {}
  m_selected_item : Option ItemSpec := none
  m_selected_amount : Nat := 0
  m_selected_dragging : Bool := false
  m_selected_swap : ItemStack := {}
  m_auto_place : Bool := false
  m_client : Bool := true
  m_current_inventory_location : InventoryLocation := undefinedLocation
  m_formspec_version : Nat := 1
  m_fields : List FieldSpec := []
  m_images : List ImageDrawSpec := []
  m_itemimages : List ImageDrawSpec := []
  m_backgrounds : List ImageDrawSpec := []
  m_boxes : List BoxDrawSpec := []
  m_tooltips : List (String × TooltipSpec) := []
  m_tooltip_rects : List (Rect × TooltipSpec) := []
  m_static_texts : List StaticTextSpec := []
  m_checkboxes : List FieldSpec := []
  m_scrollbars : List FieldSpec := []
  m_tables : List FieldSpec := []
  m_dropdowns : List (FieldSpec × List String) := []
  field_close_on_enter : List (String × Bool) := []
  container_stack : List v2f32 := []
  pos_offset : v2f32 := {}
  padding : v2s32 := {}
  spacing : v2f32 := {}
  m_btn_height : Int := 0
  AbsoluteRect : Rect := {}
  DesiredRect : Rect := {}
  m_bgcolor : SColor := 0
  m_bgfullscreen : Bool := false
  m_slotbg_n : SColor := 0
  m_slotbg_h : SColor := 0
  m_slotbordercolor : SColor := 0
  m_slotborder : Bool := false
  m_default_tooltip_bgcolor : SColor := 0
  m_default_tooltip_color : SColor := 0
  m_lock : Bool := false
  m_lockscreensize : v2u32 := {}
  m_formspec_string : String := ""
  m_formspec_prepend : String := ""
  m_focused_element : String := ""
  offset : v2s32 := {}
  m_fullscreen_bgcolor : SColor := 0
  m_text_dst : Bool := true
  current_keys_pending : fs_key_pendig := {}
  current_field_enter_pending : String := ""

/-! ## `parseStyle` and `getStyleForElement` -/

/-- Source method `std::unordered_set::insert`: a name already present is not added again. -/
def insertSet (x : String) (xs : List String) : List String :=
  if x ∈ xs then xs else x :: xs

/-- The loop of `parseStyle` over `parts[1..]`: `none` is the early
`return false`; the menu carries the log and the warned set. -/
def parseStyleProps (element : String) :
    List String → GUIFormSpecMenu → StyleSpec → GUIFormSpecMenu × Option StyleSpec
  | [], m, spec => (m, some spec)
  | part :: rest, m, spec =>
    match findEq part.data with
    | none =>
      ({ m with errorstream := m.errorstream ++
          ["Invalid style element (Property missing value): '" ++ element ++ "'"] }, none)
    | some equal_pos =>
      let propname := tolower (trim (String.mk (part.data.take equal_pos)))
      let value := trim (unescape_string (String.mk (part.data.drop (equal_pos + 1))))
      let prop := StyleSpec.GetPropertyByName propname
      if prop = Property.NONE then
        if propname ∈ m.property_warned then
          ({ m with
              warningstream := m.warningstream ++
                ["Invalid style element (Unknown property " ++ propname ++ "): '"
                  ++ element ++ "'"],
              property_warned := insertSet propname m.property_warned }, none)
        else (m, none)
      else parseStyleProps element rest m (spec.set prop value)

/-- Source function `GUIFormSpecMenu::parseStyle(data, element, style_type)`. -/
def parseStyle (m : GUIFormSpecMenu) (element : String) (style_type : Bool) :
    GUIFormSpecMenu × Bool :=
  let parts := split element ';'
  if parts.length < 2 then
    ({ m with errorstream := m.errorstream ++
        ["Invalid style element (" ++ toString parts.length ++ "): '" ++ element ++ "'"] },
      false)
  else
    let selector := trim (parts.headD "")
    if selector = "" then
      ({ m with errorstream := m.errorstream ++
          ["Invalid style element (Selector required): '" ++ element ++ "'"] }, false)
    else
      match parseStyleProps element parts.tail m {} with
      | (m1, none) => (m1, false)
      | (m1, some spec) =>
        if style_type then
          ({ m1 with theme_by_type := m1.theme_by_type.overlayAt selector spec }, true)
        else
          ({ m1 with theme_by_name := m1.theme_by_name.overlayAt selector spec }, true)

/-- Source function `GUIFormSpecMenu::getStyleForElement(type, name, parent_type)`. -/
def getStyleForElement (m : GUIFormSpecMenu) (type name parent_type : String) : StyleSpec :=
  let ret : StyleSpec := {}
  let ret :=
    if parent_type ≠ "" then
      match m.theme_by_type parent_type with
      | some s => ret.overlay s
      | none => ret
    else ret
  let ret :=
    match m.theme_by_type type with
    | some s => ret.overlay s
    | none => ret
  match m.theme_by_name name with
  | some s => ret.overlay s
  | none => ret

/-- The menu after `style_type[button;bgcolor=#fff]` then
`style[mybtn;bgcolor=#000]`, parsed from the initial menu. -/
def styleExample : GUIFormSpecMenu :=
  (parseStyle (parseStyle {} "button;bgcolor=#fff" true).1 "mybtn;bgcolor=#000" false).1

/-! ## Selection validation -/

/-- The conversion `(u32) i` of an s32 index. -/
def toU32 (i : Int) : Nat := (i % 4294967296).toNat

/-- Subtraction of u32 values (`a -= b`), wrapping below zero. -/
def subU32 (a b : Nat) : Nat := if b ≤ a then a - b else a + 4294967296 - b

/-- The tail of `verifySelectedItem` ("selection was not valid"): the slot is
deleted, amount and dragging are reset, and `ItemStack()` is returned. -/
def clearInvalidSelection (m : GUIFormSpecMenu) : GUIFormSpecMenu × ItemStack :=
  ({ m with m_selected_item := none, m_selected_amount := 0, m_selected_dragging := false }, {})

/-- Source function `GUIFormSpecMenu::verifySelectedItem()`: the menu after the call and the
returned stack. -/
def verifySelectedItem (c : Collab) (m : GUIFormSpecMenu) : GUIFormSpecMenu × ItemStack :=
  match m.m_selected_item with
  | none => (m, {})
  | some sel =>
    if sel.isValid then
      match c.getInventory sel.inventoryloc with
      | some inv =>
        match inv.getList sel.listname with
        | some list =>
          if toU32 sel.i < list.getSize then
            let stack := list.getItem (toU32 sel.i)
            let m1 :=
              if !m.m_selected_swap.empty then
                if m.m_selected_swap.name == stack.name &&
                    m.m_selected_swap.count == stack.count then
                  { m with m_selected_swap := {} }
                else m
              else { m with m_selected_amount := min m.m_selected_amount stack.count }
            if !stack.empty then (m1, stack)
            else clearInvalidSelection m1
          else clearInvalidSelection m
        | none => clearInvalidSelection m
      | none => clearInvalidSelection m
    else clearInvalidSelection m

/-- The loop of `updateSelectedItem` over `m_inventorylists`: the first
`craftpreview` list whose inventory has a non-empty `craftresult` slot 0 gives
the slot to grab and its count. -/
def findCraftResult (c : Collab) : List ListDrawSpec → Option (ItemSpec × Nat)
  | [] => none
  | s :: rest =>
    if s.listname != "craftpreview" then findCraftResult c rest
    else
      match c.getInventory s.inventoryloc with
      | none => findCraftResult c rest
      | some inv =>
        match inv.getList "craftresult" with
        | none => findCraftResult c rest
        | some list =>
          if list.getSize == 0 then findCraftResult c rest
          else if (list.getItem 0).empty then findCraftResult c rest
          else
            some ({ inventoryloc := s.inventoryloc, listname := "craftresult", i := 0 },
                  (list.getItem 0).count)

/-- The middle of `updateSelectedItem`: "if craftresult is nonempty and nothing
else is selected, select it now". -/
def grabCraftResult (c : Collab) (m : GUIFormSpecMenu) : GUIFormSpecMenu :=
  match m.m_selected_item with
  | some _ => m
  | none =>
    match findCraftResult c m.m_inventorylists with
    | some (sel, cnt) =>
      { m with m_selected_item := some sel, m_selected_amount := cnt,
               m_selected_dragging := false }
    | none => m

/-- The end of `updateSelectedItem`: "if craftresult is selected, keep the
whole stack selected" (`m_selected_amount = verifySelectedItem().count`). -/
def keepCraftResult (c : Collab) (m : GUIFormSpecMenu) : GUIFormSpecMenu :=
  match m.m_selected_item with
  | some sel =>
    if sel.listname == "craftresult" then
      { (verifySelectedItem c m).1 with m_selected_amount := (verifySelectedItem c m).2.count }
    else m
  | none => m

/-- Source function `GUIFormSpecMenu::updateSelectedItem()`. -/
def updateSelectedItem (c : Collab) (m : GUIFormSpecMenu) : GUIFormSpecMenu :=
  keepCraftResult c (grabCraftResult c (verifySelectedItem c m).1)

/-- The relation `sameFrame m n`: the menu `n` is `m` up to the four selection members. -/
def GUIFormSpecMenu.sameFrame (m n : GUIFormSpecMenu) : Prop :=
  n = { m with
        m_selected_item := n.m_selected_item,
        m_selected_amount := n.m_selected_amount,
        m_selected_dragging := n.m_selected_dragging,
        m_selected_swap := n.m_selected_swap }

/-! ## Hit test -/

/-- The rectangle of slot `i` of a list: `imgrect + s.pos + p0`. -/
def slotRect (m : GUIFormSpecMenu) (s : ListDrawSpec) (i : Int) : Rect :=
  let x := m.slot_x s.real_coordinates (Int.tmod i s.geom.X)
  let y := m.slot_y s.real_coordinates (Int.tdiv i s.geom.X)
  { UpperLeftCorner := { X := 0 + s.pos.X + x, Y := 0 + s.pos.Y + y },
    LowerRightCorner := { X := m.imgsize.X + s.pos.X + x, Y := m.imgsize.Y + s.pos.Y + y } }

/-- The outer loop of `getItemAtPos` over the lists; the inner loop runs `i`
from 0 while `i < s.geom.X * s.geom.Y`.  The product and the sum
`i + s.start_item_i` are `s32` values and wrap around. -/
def getItemAtPosAux (m : GUIFormSpecMenu) (p : v2s32) : List ListDrawSpec → ItemSpec
  | [] => { inventoryloc := undefinedLocation, listname := "", i := -1 }
  | s :: rest =>
    match (List.range (wrapS32 (s.geom.X * s.geom.Y)).toNat).find?
        fun (i : Nat) => (slotRect m s (Int.ofNat i)).isPointInside p with
    | some i => { inventoryloc := s.inventoryloc, listname := s.listname,
                  i := wrapS32 (Int.ofNat i + s.start_item_i) }
    | none => getItemAtPosAux m p rest

/-- Source function `GUIFormSpecMenu::getItemAtPos(p)`. -/
def getItemAtPos (m : GUIFormSpecMenu) (p : v2s32) : ItemSpec :=
  getItemAtPosAux m p m.m_inventorylists

/-! ## Pointer events -/

/-- The enum `ButtonEventType`. -/
inductive ButtonEventType
  | BET_LEFT | BET_RIGHT | BET_MIDDLE | BET_WHEEL_UP | BET_WHEEL_DOWN
  | BET_UP | BET_DOWN | BET_MOVE | BET_OTHER
  deriving DecidableEq, Repr

/-- The mouse input events the source distinguishes; `EMIE_OTHER` is any other
value (the `default:` case). -/
inductive EMOUSE_INPUT_EVENT
  | EMIE_LMOUSE_PRESSED_DOWN | EMIE_RMOUSE_PRESSED_DOWN | EMIE_MMOUSE_PRESSED_DOWN
  | EMIE_LMOUSE_LEFT_UP | EMIE_RMOUSE_LEFT_UP | EMIE_MMOUSE_LEFT_UP
  | EMIE_MOUSE_MOVED | EMIE_MOUSE_WHEEL | EMIE_OTHER
  deriving DecidableEq, Repr

/-- What the source reads of `event.MouseInput`: `WheelUp` is `Wheel > 0`,
`RightPressed` is `isRightPressed()`. -/
structure SMouseInput where
  Event : EMOUSE_INPUT_EVENT
  WheelUp : Bool := false
  Shift : Bool := false
  RightPressed : Bool := false
  deriving DecidableEq, Repr

/-- Modelled from the spec: the actions handed to
`m_invmgr->inventoryAction` (inventorymanager.h is not among the sources), with
the fields the source sets; `to_i` is -1 when the source leaves it unset. -/
inductive InventoryAction
  | IMoveAction (count : Nat) (from_inv : InventoryLocation) (from_list : String)
      (from_i : Int) (to_inv : InventoryLocation) (to_list : String) (to_i : Int)
      (move_somewhere : Bool)
  | IDropAction (count : Nat) (from_inv : InventoryLocation) (from_list : String)
      (from_i : Int)
  | ICraftAction (count : Nat) (craft_inv : InventoryLocation)
  deriving DecidableEq, Repr

/-- The hovered slot after the "breakable" block of `OnEvent`: `s` (made
invalid when its inventory, list or index does not exist), `inv_s`, `list_s`
and `s_count`. -/
structure Hovered where
  s : ItemSpec
  inv_s : Option Inventory := none
  list_s : Option InventoryList := none
  s_count : Nat := 0

/-- The `if (s.isValid()) do { ... } while(0)` block of `OnEvent`. -/
def resolveHovered (c : Collab) (s : ItemSpec) : Hovered :=
  if s.isValid then
    match c.getInventory s.inventoryloc with
    | none => { s := { s with i := -1 } }
    | some inv =>
      match inv.getList s.listname with
      | none => { s := { s with i := -1 }, inv_s := some inv }
      | some list =>
        if toU32 s.i ≥ list.getSize then
          { s := { s with i := -1 }, inv_s := some inv, list_s := some list }
        else
          { s := s, inv_s := some inv, list_s := some list,
            s_count := (list.getItem (toU32 s.i)).count }
  else { s := s }

/-- The four amounts the `switch (updown)` of `OnEvent` computes. -/
structure Amounts where
  move_amount : Nat := 0
  shift_move_amount : Nat := 0
  drop_amount : Nat := 0
  craft_amount : Nat := 0
  deriving DecidableEq, Repr

/-- The `switch (event.MouseInput.Event)` of `OnEvent`: `(button, updown)`. -/
def buttonOf (ev : SMouseInput) : ButtonEventType × ButtonEventType :=
  match ev.Event with
  | .EMIE_LMOUSE_PRESSED_DOWN => (.BET_LEFT, .BET_DOWN)
  | .EMIE_RMOUSE_PRESSED_DOWN => (.BET_RIGHT, .BET_DOWN)
  | .EMIE_MMOUSE_PRESSED_DOWN => (.BET_MIDDLE, .BET_DOWN)
  | .EMIE_MOUSE_WHEEL => (if ev.WheelUp then .BET_WHEEL_UP else .BET_WHEEL_DOWN, .BET_DOWN)
  | .EMIE_LMOUSE_LEFT_UP => (.BET_LEFT, .BET_UP)
  | .EMIE_RMOUSE_LEFT_UP => (.BET_RIGHT, .BET_UP)
  | .EMIE_MMOUSE_LEFT_UP => (.BET_MIDDLE, .BET_UP)
  | .EMIE_MOUSE_MOVED => (.BET_LEFT, .BET_MOVE)
  | .EMIE_OTHER => (.BET_LEFT, .BET_OTHER)

/-- The result of a step of `OnEvent`: the menu and the actions handed to the
inventory manager; `none` is a failed `assert` or `sanity_check`. -/
abbrev Step := Option (GUIFormSpecMenu × List InventoryAction)

/-- The `case BET_DOWN` of `OnEvent`: some mouse button has been pressed. -/
def onButtonDown (m : GUIFormSpecMenu) (h : Hovered) (identical : Bool)
    (button : ButtonEventType) (shift : Bool) : Option (GUIFormSpecMenu × Amounts) :=
  let m := { m with m_selected_dragging := false }
  if h.s.isValid && h.s.listname == "craftpreview" then
    some (m, { craft_amount := if button = .BET_MIDDLE then 10 else 1 })
  else
    match m.m_selected_item with
    | none =>
      if h.s_count != 0 && button != .BET_WHEEL_UP then
        let m := { m with m_selected_item := some h.s }
        let count :=
          if button = .BET_RIGHT then (h.s_count + 1) / 2
          else if button = .BET_MIDDLE then min h.s_count 10
          else if button = .BET_WHEEL_DOWN then 1
          else h.s_count
        if !shift then
          some ({ m with m_selected_amount := count,
                         m_selected_dragging := button != .BET_WHEEL_DOWN,
                         m_auto_place := false }, {})
        else
          some (m, { shift_move_amount := if button = .BET_RIGHT then 1 else count })
      else some (m, {})
    | some _ =>
      if m.m_selected_amount ≥ 1 then
        if h.s.isValid then
          let move_amount :=
            if button = .BET_RIGHT ∨ button = .BET_WHEEL_UP then 1
            else if button = .BET_MIDDLE then min m.m_selected_amount 10
            else if button = .BET_LEFT then m.m_selected_amount
            else 0
          if identical then
            if button = .BET_WHEEL_DOWN then
              if m.m_selected_amount < h.s_count then
                some ({ m with m_selected_amount := m.m_selected_amount + 1 }, {})
              else some (m, {})
            else
              if move_amount ≥ m.m_selected_amount then
                some ({ m with m_selected_amount := 0 }, {})
              else
                some ({ m with m_selected_amount := subU32 m.m_selected_amount move_amount }, {})
          else some (m, { move_amount := move_amount })
        else if !m.AbsoluteClippingRect.isPointInside m.m_pointer
            && button != .BET_WHEEL_DOWN then
          let drop_amount :=
            if button = .BET_RIGHT ∨ button = .BET_WHEEL_UP then 1
            else if button = .BET_MIDDLE then min m.m_selected_amount 10
            else m.m_selected_amount
          some (m, { drop_amount := drop_amount })
        else some (m, {})
      else none

/-- The `case BET_UP` of `OnEvent`: some mouse button has been released. -/
def onButtonUp (m : GUIFormSpecMenu) (h : Hovered) (identical : Bool) :
    GUIFormSpecMenu × Amounts :=
  let a : Amounts :=
    if m.m_selected_dragging && m.m_selected_item.isSome then
      if h.s.isValid then
        if !identical then { move_amount := m.m_selected_amount } else {}
      else if !m.AbsoluteClippingRect.isPointInside m.m_pointer then
        { drop_amount := m.m_selected_amount }
      else {}
    else {}
  let m := { m with m_selected_dragging := false }
  (if m.m_selected_item.isSome then { m with m_auto_place := true } else m, a)

/-- The `case BET_MOVE` of `OnEvent`: the pointer entered a new slot with the right
button down. -/
def onMouseMove (m : GUIFormSpecMenu) (h : Hovered) (inv_selected : Option Inventory) :
    Option (GUIFormSpecMenu × Amounts) :=
  match m.m_selected_item with
  | some sel =>
    if h.s.isValid && h.s.listname != "craftpreview" then
      if m.m_auto_place then
        match inv_selected.bind (·.getList sel.listname), h.list_s with
        | some list_from, some list_to =>
          let stack_from := list_from.getItem (toU32 sel.i)
          let stack_to := list_to.getItem (toU32 h.s.i)
          if stack_to.empty || stack_to.name == stack_from.name then
            some (m, { move_amount := 1 })
          else some (m, {})
        | _, _ => none
      else some (m, {})
    else some (m, {})
  | none => some (m, {})

/-- The `if (move_amount > 0)` block of `OnEvent`: move resolution. -/
def moveResolution (c : Collab) (m : GUIFormSpecMenu) (h : Hovered)
    (inv_selected : Option Inventory) (move_amount : Nat) : Step :=
  match m.m_selected_item with
  | none => none
  | some sel =>
    if sel.isValid && h.s.isValid then
      match inv_selected, h.inv_s with
      | some inv_sel, some _ =>
        match inv_sel.getList sel.listname, h.list_s with
        | some list_from, some list_to =>
          let stack_from0 := list_from.getItem (toU32 sel.i)
          let stack_to0 := list_to.getItem (toU32 h.s.i)
          let move_amount := min move_amount stack_from0.count
          let stack_from : ItemStack := { stack_from0 with count := move_amount }
          let stack_to := (c.addItem stack_to0 stack_from).1
          let leftover := (c.addItem stack_to0 stack_from).2
          let act (n : Nat) : InventoryAction :=
            .IMoveAction n sel.inventoryloc sel.listname sel.i
              h.s.inventoryloc h.s.listname h.s.i false
          if leftover.count == stack_from.count && leftover.name == stack_from.name then
            if m.m_selected_swap.empty then
              some ({ m with m_selected_amount := stack_to.count,
                             m_selected_dragging := false,
                             m_selected_swap := stack_to }, [act move_amount])
            else some (m, [])
          else if leftover.empty then
            some ({ m with m_selected_amount := subU32 m.m_selected_amount move_amount },
                  [act move_amount])
          else
            let move_amount := subU32 move_amount leftover.count
            some ({ m with m_selected_amount := subU32 m.m_selected_amount move_amount },
                  [act move_amount])
        | _, _ => none
      | _, _ => none
    else none

/-- The `else if (shift_move_amount > 0)` block of `OnEvent`: shift-move
resolution over the list ring. -/
def shiftMoveResolution (c : Collab) (m : GUIFormSpecMenu) (h : Hovered)
    (shift_move_amount : Nat) : Step :=
  let mis := m.m_inventory_rings.length
  let i := m.m_inventory_rings.findIdx fun sp =>
    sp.inventoryloc == h.s.inventoryloc && sp.listname == h.s.listname
  if i ≥ mis then some (m, [])
  else
    match m.m_inventory_rings.get? ((i + 1) % mis) with
    | none => some (m, [])
    | some to_inv_sp =>
      if !h.s.isValid then some (m, [])
      else
        match c.getInventory to_inv_sp.inventoryloc with
        | none => some (m, [])
        | some inv_to =>
          match inv_to.getList to_inv_sp.listname with
          | none => some (m, [])
          | some _ =>
            match h.list_s with
            | none => none
            | some list_from =>
              if shift_move_amount ≤ (list_from.getItem (toU32 h.s.i)).count then
                some (m, [.IMoveAction shift_move_amount h.s.inventoryloc h.s.listname h.s.i
                            to_inv_sp.inventoryloc to_inv_sp.listname (-1) true])
              else none

/-- The `else if (drop_amount > 0)` block of `OnEvent`: drop resolution. -/
def dropResolution (m : GUIFormSpecMenu) (inv_selected : Option Inventory)
    (drop_amount : Nat) : Step :=
  match m.m_selected_item with
  | none => none
  | some sel =>
    if sel.isValid then
      match inv_selected.bind (·.getList sel.listname) with
      | none => none
      | some list_from =>
        let stack_from := list_from.getItem (toU32 sel.i)
        let drop_amount := min drop_amount stack_from.count
        if drop_amount > 0 ∧ drop_amount ≤ m.m_selected_amount then
          some ({ m with m_selected_amount := subU32 m.m_selected_amount drop_amount },
                [.IDropAction drop_amount sel.inventoryloc sel.listname sel.i])
        else none
    else none

/-- The `else if (craft_amount > 0)` block of `OnEvent`. -/
def craftResolution (m : GUIFormSpecMenu) (h : Hovered) (craft_amount : Nat) : Step :=
  if h.s.isValid then
    if m.m_selected_item.all fun sel => !sel.isValid || sel.listname == "craftresult" then
      match h.inv_s with
      | some _ => some (m, [.ICraftAction craft_amount h.s.inventoryloc])
      | none => none
    else some (m, [])
  else none

/-- The "possibly send inventory action to server" chain of `OnEvent`. -/
def sendAction (c : Collab) (m : GUIFormSpecMenu) (h : Hovered)
    (inv_selected : Option Inventory) (a : Amounts) : Step :=
  if a.move_amount > 0 then moveResolution c m h inv_selected a.move_amount
  else if a.shift_move_amount > 0 then shiftMoveResolution c m h a.shift_move_amount
  else if a.drop_amount > 0 then dropResolution m inv_selected a.drop_amount
  else if a.craft_amount > 0 then craftResolution m h a.craft_amount
  else some (m, [])

/-- The end of the mouse branch of `OnEvent`: "if m_selected_amount has been
decreased to zero, deselect". -/
def deselectOnZero (m : GUIFormSpecMenu) : GUIFormSpecMenu :=
  if m.m_selected_amount = 0 then
    { m with m_selected_swap := {}, m_selected_item := none, m_selected_amount := 0,
             m_selected_dragging := false }
  else m

/-- The lookup of `inv_selected` at the head of the mouse branch, with its two
`sanity_check`s: the outer `none` is a failed check, `some none` is NULL. -/
def selectedInventory (c : Collab) (m : GUIFormSpecMenu) : Option (Option Inventory) :=
  match m.m_selected_item with
  | none => some none
  | some sel =>
    match c.getInventory sel.inventoryloc with
    | none => none
    | some inv => if (inv.getList sel.listname).isSome then some (some inv) else none

/-- The `identical` flag of `OnEvent`: the hovered slot is the selected one
(same inventory object, list name and index). -/
def identicalSlot (m : GUIFormSpecMenu) (inv_selected : Option Inventory) (h : Hovered) :
    Bool :=
  match m.m_selected_item with
  | none => false
  | some sel =>
    h.s.isValid && (inv_selected.map (·.addr) == h.inv_s.map (·.addr)) &&
      (sel.listname == h.s.listname) && (sel.i == h.s.i)

/-- The `switch (updown)` of `OnEvent`. -/
def dispatch (m : GUIFormSpecMenu) (h : Hovered) (inv_selected : Option Inventory)
    (ev : SMouseInput) : Option (GUIFormSpecMenu × Amounts) :=
  match (buttonOf ev).2 with
  | .BET_DOWN =>
    onButtonDown m h (identicalSlot m inv_selected h) (buttonOf ev).1 ev.Shift
  | .BET_UP => some (onButtonUp m h (identicalSlot m inv_selected h))
  | .BET_MOVE => onMouseMove m h inv_selected
  | _ => some (m, {})

/-- The entry condition of the mouse branch of `OnEvent`: any mouse event other
than a movement, or a movement with the right button down whose hovered slot
index differs from the one under the previous pointer position. -/
def handlesMouse (m : GUIFormSpecMenu) (ev : SMouseInput) : Bool :=
  ev.Event != .EMIE_MOUSE_MOVED ||
    (ev.Event == .EMIE_MOUSE_MOVED && ev.RightPressed &&
      (getItemAtPos m m.m_pointer).i != (getItemAtPos m m.m_old_pointer).i)

/-- The hovered slot as `OnEvent` resolves it: `getItemAtPos(m_pointer)`, then
the existence checks. -/
def hoveredSlot (c : Collab) (m : GUIFormSpecMenu) : Hovered :=
  resolveHovered c (getItemAtPos m m.m_pointer)

/-- The mouse branch of `GUIFormSpecMenu::OnEvent` (an `EET_MOUSE_INPUT_EVENT`):
the menu after the event and the inventory actions it emitted, `none` when an
`assert` or `sanity_check` fails.  The reset of the tooltip id and the boolean
result are left out. -/
def OnEvent (c : Collab) (m : GUIFormSpecMenu) (ev : SMouseInput) : Step :=
  if handlesMouse m ev then
    let m := updateSelectedItem c m
    let h := hoveredSlot c m
    match selectedInventory c m with
    | none => none
    | some inv_selected =>
      match dispatch m h inv_selected ev with
      | none => none
      | some (m, a) =>
        match sendAction c m h inv_selected a with
        | none => none
        | some (m, acts) =>
          some ({ deselectOnZero m with m_old_pointer := m.m_pointer }, acts)
  else some (m, [])

/-- The predicate `SelectionLive c m`: a selected slot exists in the inventory and holds a
non-empty stack (what a validation pass leaves behind). -/
def SelectionLive (c : Collab) (m : GUIFormSpecMenu) : Prop :=
  ∀ sel, m.m_selected_item = some sel →
    sel.isValid = true ∧ ∃ inv list, c.getInventory sel.inventoryloc = some inv ∧
      inv.getList sel.listname = some list ∧ toU32 sel.i < list.getSize ∧
      (list.getItem (toU32 sel.i)).count ≠ 0

/-- The Move action from the selected slot `sel` to the hovered slot `s`, as
the move resolution fills it in. -/
def moveAction (sel : ItemSpec) (s : ItemSpec) (n : Nat) : InventoryAction :=
  .IMoveAction n sel.inventoryloc sel.listname sel.i s.inventoryloc s.listname s.i false

/-! ## Reachable menus -/

/-- The menus reachable from an initial one (nothing selected, amount 0, not
dragging, no pending swap): by a pointer event handled by `OnEvent`, by a
validation pass (`verifySelectedItem`, `updateSelectedItem`), each against any
state of the inventory, and by any change that leaves the four selection
members alone (`layout`: regeneration, pointer tracking). -/
inductive Reachable : GUIFormSpecMenu → Prop
  | init (m : GUIFormSpecMenu) (h1 : m.m_selected_item = none) (h2 : m.m_selected_amount = 0)
      (h3 : m.m_selected_dragging = false) (h4 : m.m_selected_swap = {}) : Reachable m
  | event (c : Collab) (m n : GUIFormSpecMenu) (ev : SMouseInput) (acts : List InventoryAction)
      (hm : Reachable m) (h : OnEvent c m ev = some (n, acts)) : Reachable n
  | verify (c : Collab) (m : GUIFormSpecMenu) (hm : Reachable m) :
      Reachable (verifySelectedItem c m).1
  | update (c : Collab) (m : GUIFormSpecMenu) (hm : Reachable m) :
      Reachable (updateSelectedItem c m)
  | layout (m n : GUIFormSpecMenu) (hm : Reachable m)
      (h1 : n.m_selected_item = m.m_selected_item)
      (h2 : n.m_selected_amount = m.m_selected_amount)
      (h3 : n.m_selected_dragging = m.m_selected_dragging)
      (h4 : n.m_selected_swap = m.m_selected_swap) : Reachable n

/-! ## An example menu -/

/-- The `main` list of the example inventory: 10 stone, nothing, 3 dirt and
95 stone. -/
def exMain : InventoryList :=
  { name := "main",
    items := [{ name := "stone", count := 10 }, {}, { name := "dirt", count := 3 },
              { name := "stone", count := 95 }] }

/-- An example inventory with the one list `main`. -/
def exInventory : Inventory := { addr := 1, lists := [exMain] }

/-- Example collaborators: the player inventory, and stacks of at most 99. -/
def exCollab : Collab :=
  { getInventory := fun loc => if loc = "current_player" then some exInventory else none,
    addItem := addItemMax 99 }

/-- An example menu: `list[current_player;main;0,0;4,1;]` with slots of 10x10
pixels every 12 pixels, in a dialog of 100x100 pixels. -/
def exMenu : GUIFormSpecMenu :=
  { m_inventorylists :=
      [{ inventoryloc := "current_player", listname := "main", pos := { X := 0, Y := 0 },
         geom := { X := 4, Y := 1 }, start_item_i := 0, real_coordinates := false }],
    imgsize := { X := 10, Y := 10 },
    slot_x := fun _ k => 12 * k,
    slot_y := fun _ k => 12 * k,
    AbsoluteClippingRect := { UpperLeftCorner := { X := 0, Y := 0 },
                              LowerRightCorner := { X := 100, Y := 100 } } }

/-- A press of the right button. -/
def rightDown : SMouseInput := { Event := .EMIE_RMOUSE_PRESSED_DOWN }

/-- A press of the left button. -/
def leftDown : SMouseInput := { Event := .EMIE_LMOUSE_PRESSED_DOWN }

/-- The example menu with the pointer at pixel `(x, 5)`: slot `k` of the list
covers the pixels `12 k` to `12 k + 10`. -/
def exMenuAt (x : Int) : GUIFormSpecMenu := { exMenu with m_pointer := { X := x, Y := 5 } }

/-- Slot `i` of the example list. -/
def exSlot (i : Int) : ItemSpec :=
  { inventoryloc := "current_player", listname := "main", i := i }

/-- The example menu with `a` items of slot `i` selected and the pointer at
pixel `(x, 5)`. -/
def exMenuSel (i : Int) (a : Nat) (x : Int) : GUIFormSpecMenu :=
  { exMenu with
    m_selected_item := some (exSlot i),
    m_selected_amount := a,
    m_pointer := { X := x, Y := 5 } }

/-- The example menu with the 10 stone of slot 0 selected while a swap with one
gold is pending, the pointer on slot 2. -/
def exMenuSwapPending : GUIFormSpecMenu :=
  { exMenuSel 0 10 29 with m_selected_swap := { name := "gold", count := 1 } }

/-- The menu of `step`, or `m` itself when the step failed. -/
def menuAfter (step : Step) (m : GUIFormSpecMenu) : GUIFormSpecMenu :=
  match step with
  | some r => r.1
  | none => m

/-- The example menu after a left click on slot 0 (the 10 stone get
selected). -/
def exPicked : GUIFormSpecMenu := menuAfter (OnEvent exCollab (exMenuAt 5) leftDown) exMenu

/-- The menu `exPicked` with the pointer moved out of the dialog. -/
def exPickedOutside : GUIFormSpecMenu := { exPicked with m_pointer := { X := 200, Y := 5 } }

/-- The example menu after picking up slot 0 and a left click outside the
dialog (everything is dropped). -/
def exDropped : GUIFormSpecMenu :=
  menuAfter (OnEvent exCollab exPickedOutside leftDown) exMenu

/-! ## Element parsers

Each parser takes the layout session `data` and the menu and gives both back.
Widgets are created in the GUI environment, which is not part of the state, so
what only goes to a widget (its rectangle, its style, the focus) is left out;
every write of a parser to a registry, to `errorstream` and `warningstream`
or to the session is kept.  What helpers outside the source file may log
(`parseColorString`) is not. -/

/-- The statement `errorstream << msg << std::endl`. -/
def GUIFormSpecMenu.err (m : GUIFormSpecMenu) (msg : String) : GUIFormSpecMenu :=
  { m with errorstream := m.errorstream ++ [msg] }

/-- The statement `warningstream << msg << std::endl`. -/
def GUIFormSpecMenu.warn (m : GUIFormSpecMenu) (msg : String) : GUIFormSpecMenu :=
  { m with warningstream := m.warningstream ++ [msg] }

/-- The line the macro `MY_CHECKPOS(a, b)` logs, `part` being `parts[b]`. -/
def invalidPos (a part : String) : String :=
  "Invalid pos for element " ++ a ++ "specified: \"" ++ part ++ "\""

/-- The line the macro `MY_CHECKGEOM(a, b)` logs, `part` being `parts[b]`. -/
def invalidGeom (a part : String) : String :=
  "Invalid geometry for element " ++ a ++ "specified: \"" ++ part ++ "\""

/-- The line a parser logs for a wrong part count:
`"Invalid <what>(" << parts.size() << "): '" << element << "'"`. -/
def invalidElement (what : String) (n : Nat) (element : String) : String :=
  "Invalid " ++ what ++ "(" ++ toString n ++ "): '" ++ element ++ "'"

/-- The line a parser logs for an element used without `size[]`. -/
def withoutSize (what : String) : String :=
  "invalid use of " ++ what ++ " without a size[] element"

/-- Modelled from the spec: the constructor
`FieldSpec(name, label, default_text, id)` of guiFormSpecMenu.h: the default
text is translated and unescaped, `send` and `is_exit` are false and the type
is `f_Unknown`. -/
def FieldSpec.new (env : ParseEnv) (name label default_text : String) (id : Int) : FieldSpec :=
  { fname := name, flabel := label,
    fdefault := env.unescape_enriched (env.translate_string default_text),
    fid := id, send := false, ftype := .f_Unknown, is_exit := false }

/-- The id the parsers give a new field: `258 + m_fields.size()`. -/
def nextFieldId (m : GUIFormSpecMenu) : Int := 258 + Int.ofNat m.m_fields.length

/-- The statement `m_fields.push_back(spec)`. -/
def GUIFormSpecMenu.pushField (m : GUIFormSpecMenu) (spec : FieldSpec) : GUIFormSpecMenu :=
  { m with m_fields := m.m_fields ++ [spec] }

/-- The local `pos_f` of `getElementBasePos` before the conversion to
`v2s32`; the `s32` sum `pos += AbsoluteRect.UpperLeftCorner` wraps around. -/
def getElementBasePosF (m : GUIFormSpecMenu) (absolute : Bool) (v_pos : Option (List String)) :
    v2f32 :=
  let pos : v2s32 := m.padding
  let pos : v2s32 :=
    if absolute then
      { X := wrapS32 (pos.X + m.AbsoluteRect.UpperLeftCorner.X),
        Y := wrapS32 (pos.Y + m.AbsoluteRect.UpperLeftCorner.Y) }
    else pos
  let pos_f : v2f32 :=
    { X := f32 (f32 (pos.X : ℚ) + f32 (m.pos_offset.X * m.spacing.X)),
      Y := f32 (f32 (pos.Y : ℚ) + f32 (m.pos_offset.Y * m.spacing.Y)) }
  match v_pos with
  | some v =>
    { X := f32 (pos_f.X + f32 (stof (v.getD 0 "") * m.spacing.X)),
      Y := f32 (pos_f.Y + f32 (stof (v.getD 1 "") * m.spacing.Y)) }
  | none => pos_f

/-- Source function `GUIFormSpecMenu::getElementBasePos(absolute, v_pos)`;
`none` is the null pointer. -/
def getElementBasePos (m : GUIFormSpecMenu) (absolute : Bool) (v_pos : Option (List String)) :
    v2s32 :=
  { X := truncS32 (getElementBasePosF m absolute v_pos).X,
    Y := truncS32 (getElementBasePosF m absolute v_pos).Y }

/-- The local `pos_f` of `getRealCoordinateBasePos`: the position field plus
`pos_offset`, in grid units. -/
def getRealCoordinateBasePosF (m : GUIFormSpecMenu) (v_pos : List String) : v2f32 :=
  { X := f32 (0 + f32 (stof (v_pos.getD 0 "") + m.pos_offset.X)),
    Y := f32 (0 + f32 (stof (v_pos.getD 1 "") + m.pos_offset.Y)) }

/-- Source function `GUIFormSpecMenu::getRealCoordinateBasePos(absolute, v_pos)`. -/
def getRealCoordinateBasePos (m : GUIFormSpecMenu) (absolute : Bool) (v_pos : List String) :
    v2s32 :=
  let pos_f := getRealCoordinateBasePosF m v_pos
  if absolute then
    { X := truncS32 (f32 (f32 (pos_f.X * f32 (m.imgsize.X : ℚ)) +
        f32 (m.AbsoluteRect.UpperLeftCorner.X : ℚ))),
      Y := truncS32 (f32 (f32 (pos_f.Y * f32 (m.imgsize.Y : ℚ)) +
        f32 (m.AbsoluteRect.UpperLeftCorner.Y : ℚ))) }
  else
    { X := truncS32 (f32 (pos_f.X * f32 (m.imgsize.X : ℚ))),
      Y := truncS32 (f32 (pos_f.Y * f32 (m.imgsize.Y : ℚ))) }

/-- Source function `GUIFormSpecMenu::getRealCoordinateGeometry(v_geom)`. -/
def getRealCoordinateGeometry (m : GUIFormSpecMenu) (v_geom : List String) : v2s32 :=
  { X := truncS32 (f32 (stof (v_geom.getD 0 "") * f32 (m.imgsize.X : ℚ))),
    Y := truncS32 (f32 (stof (v_geom.getD 1 "") * f32 (m.imgsize.Y : ℚ))) }

/-- Modelled from the spec: `lockSize(lock, basescreensize)` of
guiFormSpecMenu.h, which stores both arguments. -/
def GUIFormSpecMenu.lockSize (m : GUIFormSpecMenu) (lock : Bool) (basescreensize : v2u32) :
    GUIFormSpecMenu :=
  { m with m_lock := lock, m_lockscreensize := basescreensize }

/-- Source function `GUIFormSpecMenu::parseSize(data, element)` on a desktop
target (the `#ifndef __ANDROID__` block is compiled in). -/
def parseSize (env : ParseEnv) (data : parserData) (m : GUIFormSpecMenu) (element : String) :
    parserData × GUIFormSpecMenu :=
  let parts := split element ','
  if (parts.length = 2 ∨ parts.length = 3) ∨
      (parts.length > 3 ∧ m.m_formspec_version > env.FORMSPEC_API_VERSION) then
    let part1 := beforeSemicolon (parts.getD 1 "")
    let data := { data with
      invsize := { X := max 0 (stof (parts.getD 0 "")), Y := max 0 (stof part1) } }
    let m := m.lockSize false {}
    let m :=
      if parts.length = 3 ∧ parts.getD 2 "" = "true" then m.lockSize true { X := 800, Y := 600 }
      else m
    ({ data with explicit_size := true }, m)
  else
    (data, m.err ("Invalid size element (" ++ toString parts.length ++ "): '" ++ element ++ "'"))

/-- Source function `GUIFormSpecMenu::parseContainer(data, element)`. -/
def parseContainer (data : parserData) (m : GUIFormSpecMenu) (element : String) :
    parserData × GUIFormSpecMenu :=
  let parts := split element ','
  if parts.length ≥ 2 then
    let part1 := beforeSemicolon (parts.getD 1 "")
    (data, { m with
      container_stack := m.pos_offset :: m.container_stack,
      pos_offset := { X := f32 (m.pos_offset.X + stof (parts.getD 0 "")),
                      Y := f32 (m.pos_offset.Y + stof part1) } })
  else
    (data, m.err ("Invalid container start element (" ++ toString parts.length ++ "): '"
      ++ element ++ "'"))

/-- Source function `GUIFormSpecMenu::parseContainerEnd(data)`. -/
def parseContainerEnd (data : parserData) (m : GUIFormSpecMenu) : parserData × GUIFormSpecMenu :=
  match m.container_stack with
  | [] => (data, m.err "Invalid container end element, no matching container start element")
  | top :: rest => (data, { m with pos_offset := top, container_stack := rest })

/-- The location a `list[]` or `listring[]` names: `context` and `current_name`
stand for the current inventory location. -/
def resolveLocation (env : ParseEnv) (m : GUIFormSpecMenu) (location : String) :
    InventoryLocation :=
  if location = "context" ∨ location = "current_name" then m.m_current_inventory_location
  else env.deSerialize location

/-- Source function `GUIFormSpecMenu::parseList(data, element)`. -/
def parseList (env : ParseEnv) (data : parserData) (m : GUIFormSpecMenu) (element : String) :
    parserData × GUIFormSpecMenu :=
  if !m.m_client then (data, m.warn "invalid use of 'list' with m_client==0")
  else
    let parts := split element ';'
    if (parts.length = 4 ∨ parts.length = 5) ∨
        (parts.length > 5 ∧ m.m_formspec_version > env.FORMSPEC_API_VERSION) then
      let location := parts.getD 0 ""
      let listname := parts.getD 1 ""
      let v_pos := split (parts.getD 2 "") ','
      let v_geom := split (parts.getD 3 "") ','
      let startindex := if parts.length = 5 then parts.getD 4 "" else ""
      if v_pos.length ≠ 2 then (data, m.err (invalidPos "list" (parts.getD 2 "")))
      else if v_geom.length ≠ 2 then (data, m.err (invalidGeom "list" (parts.getD 3 "")))
      else
        let loc := resolveLocation env m location
        let pos :=
          if data.real_coordinates then getRealCoordinateBasePos m true v_pos
          else getElementBasePos m true (some v_pos)
        let geom : v2s32 := { X := stoi (v_geom.getD 0 ""), Y := stoi (v_geom.getD 1 "") }
        let start_i : Int := if startindex ≠ "" then stoi startindex else 0
        if geom.X < 0 ∨ geom.Y < 0 ∨ start_i < 0 then
          (data, m.err ("Invalid list element: '" ++ element ++ "'"))
        else
          let m := if !data.explicit_size then m.warn (withoutSize "list") else m
          (data, { m with m_inventorylists := m.m_inventorylists ++
            [{ inventoryloc := loc, listname := listname, pos := pos, geom := geom,
               start_item_i := start_i, real_coordinates := data.real_coordinates }] })
    else (data, m.err (invalidElement "list element" parts.length element))

/-- Source function `GUIFormSpecMenu::parseListRing(data, element)`. -/
def parseListRing (env : ParseEnv) (data : parserData) (m : GUIFormSpecMenu) (element : String) :
    parserData × GUIFormSpecMenu :=
  if !m.m_client then
    (data, m.err "WARNING: invalid use of 'listring' with m_client==0")
  else
    let parts := split element ';'
    if parts.length = 2 then
      let loc := resolveLocation env m (parts.getD 0 "")
      (data, { m with m_inventory_rings := m.m_inventory_rings ++
        [{ inventoryloc := loc, listname := parts.getD 1 "" }] })
    else if element = "" ∧ m.m_inventorylists.length > 1 then
      let siz := m.m_inventorylists.length
      match m.m_inventorylists.get? (siz - 2), m.m_inventorylists.get? (siz - 1) with
      | some spa, some spb =>
        (data, { m with m_inventory_rings := m.m_inventory_rings ++
          [{ inventoryloc := spa.inventoryloc, listname := spa.listname },
           { inventoryloc := spb.inventoryloc, listname := spb.listname }] })
      | _, _ => (data, m)
    else
      (data, m.err ("Invalid list ring element(" ++ toString parts.length ++ ", " ++
        toString m.m_inventorylists.length ++ "): '" ++ element ++ "'"))

/-- Source function `GUIFormSpecMenu::parseCheckbox(data, element)`. -/
def parseCheckbox (env : ParseEnv) (data : parserData) (m : GUIFormSpecMenu) (element : String) :
    parserData × GUIFormSpecMenu :=
  let parts := split element ';'
  if (parts.length ≥ 3 ∧ parts.length ≤ 4) ∨
      (parts.length > 4 ∧ m.m_formspec_version > env.FORMSPEC_API_VERSION) then
    let v_pos := split (parts.getD 0 "") ','
    let name := parts.getD 1 ""
    let label := parts.getD 2 ""
    if v_pos.length ≠ 2 then (data, m.err (invalidPos "checkbox" (parts.getD 0 "")))
    else
      let wlabel := env.translate_string (unescape_string label)
      let spec : FieldSpec :=
        { (FieldSpec.new env name wlabel wlabel (nextFieldId m)) with ftype := .f_CheckBox }
      (data, { m with m_checkboxes := m.m_checkboxes ++ [spec] }.pushField spec)
  else (data, m.err (invalidElement "checkbox element" parts.length element))

/-- Source function `GUIFormSpecMenu::parseScrollBar(data, element)`. -/
def parseScrollBar (env : ParseEnv) (data : parserData) (m : GUIFormSpecMenu)
    (element : String) : parserData × GUIFormSpecMenu :=
  let parts := split element ';'
  if parts.length ≥ 5 then
    let v_pos := split (parts.getD 0 "") ','
    let v_geom := split (parts.getD 1 "") ','
    let name := parts.getD 3 ""
    if v_pos.length ≠ 2 then (data, m.err (invalidPos "scrollbar" (parts.getD 0 "")))
    else if v_geom.length ≠ 2 then (data, m.err (invalidGeom "scrollbar" (parts.getD 1 "")))
    else
      let spec : FieldSpec :=
        { (FieldSpec.new env name "" "" (nextFieldId m)) with
          ftype := .f_ScrollBar, send := true }
      (data, { m with m_scrollbars := m.m_scrollbars ++ [spec] }.pushField spec)
  else (data, m.err (invalidElement "scrollbar element" parts.length element))

/-- Source function `GUIFormSpecMenu::parseImage(data, element)`. -/
def parseImage (env : ParseEnv) (data : parserData) (m : GUIFormSpecMenu) (element : String) :
    parserData × GUIFormSpecMenu :=
  let parts := split element ';'
  if parts.length = 3 ∨
      (parts.length > 3 ∧ m.m_formspec_version > env.FORMSPEC_API_VERSION) then
    let v_pos := split (parts.getD 0 "") ','
    let v_geom := split (parts.getD 1 "") ','
    let name := unescape_string (parts.getD 2 "")
    if v_pos.length ≠ 2 then (data, m.err (invalidPos "image" (parts.getD 0 "")))
    else if v_geom.length ≠ 2 then (data, m.err (invalidGeom "image" (parts.getD 1 "")))
    else
      let pos :=
        if data.real_coordinates then getRealCoordinateBasePos m true v_pos
        else getElementBasePos m true (some v_pos)
      let geom : v2s32 :=
        if data.real_coordinates then getRealCoordinateGeometry m v_geom
        else { X := truncS32 (f32 (stof (v_geom.getD 0 "") * f32 (m.imgsize.X : ℚ))),
               Y := truncS32 (f32 (stof (v_geom.getD 1 "") * f32 (m.imgsize.Y : ℚ))) }
      let m := if !data.explicit_size then m.warn (withoutSize "image") else m
      (data, { m with m_images := m.m_images ++ [{ name := name, pos := pos, geom := geom }] })
  else if parts.length = 2 then
    let v_pos := split (parts.getD 0 "") ','
    let name := unescape_string (parts.getD 1 "")
    if v_pos.length ≠ 2 then (data, m.err (invalidPos "image" (parts.getD 0 "")))
    else
      let pos := getElementBasePos m true (some v_pos)
      let m := if !data.explicit_size then m.warn (withoutSize "image") else m
      (data, { m with m_images := m.m_images ++ [{ name := name, pos := pos, scale := false }] })
  else (data, m.err (invalidElement "image element" parts.length element))

/-- Source function `GUIFormSpecMenu::parseItemImage(data, element)`. -/
def parseItemImage (env : ParseEnv) (data : parserData) (m : GUIFormSpecMenu)
    (element : String) : parserData × GUIFormSpecMenu :=
  let parts := split element ';'
  if parts.length = 3 ∨
      (parts.length > 3 ∧ m.m_formspec_version > env.FORMSPEC_API_VERSION) then
    let v_pos := split (parts.getD 0 "") ','
    let v_geom := split (parts.getD 1 "") ','
    let name := parts.getD 2 ""
    if v_pos.length ≠ 2 then (data, m.err (invalidPos "itemimage" (parts.getD 0 "")))
    else if v_geom.length ≠ 2 then (data, m.err (invalidGeom "itemimage" (parts.getD 1 "")))
    else
      let pos :=
        if data.real_coordinates then getRealCoordinateBasePos m true v_pos
        else getElementBasePos m true (some v_pos)
      let geom : v2s32 :=
        if data.real_coordinates then getRealCoordinateGeometry m v_geom
        else { X := truncS32 (f32 (stof (v_geom.getD 0 "") * f32 (m.imgsize.X : ℚ))),
               Y := truncS32 (f32 (stof (v_geom.getD 1 "") * f32 (m.imgsize.Y : ℚ))) }
      let m := if !data.explicit_size then m.warn (withoutSize "item_image") else m
      (data, { m with m_itemimages := m.m_itemimages ++
        [{ name := "", item_name := name, pos := pos, geom := geom }] })
  else (data, m.err (invalidElement "ItemImage element" parts.length element))

/-- Source function `GUIFormSpecMenu::parseButton(data, element, type)`. -/
def parseButton (env : ParseEnv) (data : parserData) (m : GUIFormSpecMenu)
    (element type : String) : parserData × GUIFormSpecMenu :=
  let parts := split element ';'
  if parts.length = 4 ∨
      (parts.length > 4 ∧ m.m_formspec_version > env.FORMSPEC_API_VERSION) then
    let v_pos := split (parts.getD 0 "") ','
    let v_geom := split (parts.getD 1 "") ','
    let name := parts.getD 2 ""
    let label := parts.getD 3 ""
    if v_pos.length ≠ 2 then (data, m.err (invalidPos "button" (parts.getD 0 "")))
    else if v_geom.length ≠ 2 then (data, m.err (invalidGeom "button" (parts.getD 1 "")))
    else
      let m := if !data.explicit_size then m.warn (withoutSize "button") else m
      let wlabel := env.translate_string (unescape_string label)
      let spec : FieldSpec :=
        { (FieldSpec.new env name wlabel "" (nextFieldId m)) with
          ftype := .f_Button, is_exit := decide (type = "button_exit") }
      (data, m.pushField spec)
  else (data, m.err (invalidElement "button element" parts.length element))

/-- The `middle` rectangle of a `background9[]`: one, two or four numbers;
`none` is any other count (a warning is logged and the rectangle stays
empty). -/
def parseMiddle (v_middle : List String) : Option Rect :=
  if v_middle.length = 1 then
    let x := stoi (v_middle.getD 0 "")
    some { UpperLeftCorner := { X := x, Y := x }, LowerRightCorner := { X := -x, Y := -x } }
  else if v_middle.length = 2 then
    let x := stoi (v_middle.getD 0 "")
    let y := stoi (v_middle.getD 1 "")
    some { UpperLeftCorner := { X := x, Y := y }, LowerRightCorner := { X := -x, Y := -y } }
  else if v_middle.length = 4 then
    some { UpperLeftCorner := { X := stoi (v_middle.getD 0 ""), Y := stoi (v_middle.getD 1 "") },
           LowerRightCorner := { X := stoi (v_middle.getD 2 ""), Y := stoi (v_middle.getD 3 "") } }
  else none

/-- Source function `GUIFormSpecMenu::parseBackground(data, element)`. -/
def parseBackground (env : ParseEnv) (data : parserData) (m : GUIFormSpecMenu)
    (element : String) : parserData × GUIFormSpecMenu :=
  let parts := split element ';'
  if (parts.length ≥ 3 ∧ parts.length ≤ 5) ∨
      (parts.length > 5 ∧ m.m_formspec_version > env.FORMSPEC_API_VERSION) then
    let v_pos := split (parts.getD 0 "") ','
    let v_geom := split (parts.getD 1 "") ','
    let name := unescape_string (parts.getD 2 "")
    if v_pos.length ≠ 2 then (data, m.err (invalidPos "background" (parts.getD 0 "")))
    else if v_geom.length ≠ 2 then (data, m.err (invalidGeom "background" (parts.getD 1 "")))
    else
      let pos : v2s32 :=
        if data.real_coordinates then getRealCoordinateBasePos m true v_pos
        else
          let pos := getElementBasePos m true (some v_pos)
          { X := truncS32 (f32 (f32 (pos.X : ℚ) -
              f32 (f32 (m.spacing.X - f32 (m.imgsize.X : ℚ)) / 2))),
            Y := truncS32 (f32 (f32 (pos.Y : ℚ) -
              f32 (f32 (m.spacing.Y - f32 (m.imgsize.Y : ℚ)) / 2))) }
      let geom : v2s32 :=
        if data.real_coordinates then getRealCoordinateGeometry m v_geom
        else { X := truncS32 (f32 (stof (v_geom.getD 0 "") * m.spacing.X)),
               Y := truncS32 (f32 (stof (v_geom.getD 1 "") * m.spacing.Y)) }
      let clip : Bool := decide (parts.length ≥ 4) && is_yes (parts.getD 3 "")
      let pos : v2s32 :=
        if clip then
          if data.real_coordinates then
            { X := (getRealCoordinateBasePos m false v_pos).X * -1,
              Y := (getRealCoordinateBasePos m false v_pos).Y * -1 }
          else { X := stoi (v_pos.getD 0 ""), Y := stoi (v_pos.getD 1 "") }
        else pos
      let geom : v2s32 := if clip && data.real_coordinates then { X := 0, Y := 0 } else geom
      let v_middle := split (parts.getD 4 "") ','
      let middle : Rect := if parts.length ≥ 5 then (parseMiddle v_middle).getD {} else {}
      let m :=
        if parts.length ≥ 5 ∧ parseMiddle v_middle = none then
          m.warn "Invalid rectangle given to middle param of background[] element"
        else m
      let m :=
        if !data.explicit_size && !clip then
          m.warn "invalid use of unclipped background without a size[] element"
        else m
      (data, { m with m_backgrounds := m.m_backgrounds ++
        [{ name := name, pos := pos, geom := geom, middle := middle, clip := clip }] })
  else (data, m.err (invalidElement "background element" parts.length element))

/-- Source function `GUIFormSpecMenu::parseTableOptions(data, element)`; an
option is kept as the text handed to `GUITable::splitOption`. -/
def parseTableOptions (data : parserData) (m : GUIFormSpecMenu) (element : String) :
    parserData × GUIFormSpecMenu :=
  let parts := split element ';'
  ({ data with table_options := parts.map unescape_string }, m)

/-- Source function `GUIFormSpecMenu::parseTableColumns(data, element)`. -/
def parseTableColumns (data : parserData) (m : GUIFormSpecMenu) (element : String) :
    parserData × GUIFormSpecMenu :=
  let parts := split element ';'
  ({ data with table_columns := parts.map fun part =>
      let col_parts := split part ','
      { type := col_parts.headD "", options := col_parts.tail.map unescape_string } }, m)

/-- The common body of `parseTable` and `parseTextList` after the part-count
test: both register a field of type `f_Table` in `m_tables` and `m_fields`;
`what` is the element name in the log lines. -/
def registerTable (env : ParseEnv) (data : parserData) (m : GUIFormSpecMenu)
    (parts : List String) (what : String) : parserData × GUIFormSpecMenu :=
  let v_pos := split (parts.getD 0 "") ','
  let v_geom := split (parts.getD 1 "") ','
  let name := parts.getD 2 ""
  if v_pos.length ≠ 2 then (data, m.err (invalidPos what (parts.getD 0 "")))
  else if v_geom.length ≠ 2 then (data, m.err (invalidGeom what (parts.getD 1 "")))
  else
    let spec : FieldSpec :=
      { (FieldSpec.new env name "" "" (nextFieldId m)) with ftype := .f_Table }
    (data, { m with m_tables := m.m_tables ++ [spec] }.pushField spec)

/-- Source function `GUIFormSpecMenu::parseTable(data, element)`. -/
def parseTable (env : ParseEnv) (data : parserData) (m : GUIFormSpecMenu) (element : String) :
    parserData × GUIFormSpecMenu :=
  let parts := split element ';'
  if (parts.length = 4 ∨ parts.length = 5) ∨
      (parts.length > 5 ∧ m.m_formspec_version > env.FORMSPEC_API_VERSION) then
    registerTable env data m parts "table"
  else (data, m.err (invalidElement "table element" parts.length element))

/-- Source function `GUIFormSpecMenu::parseTextList(data, element)`. -/
def parseTextList (env : ParseEnv) (data : parserData) (m : GUIFormSpecMenu)
    (element : String) : parserData × GUIFormSpecMenu :=
  let parts := split element ';'
  if (parts.length = 4 ∨ parts.length = 5 ∨ parts.length = 6) ∨
      (parts.length > 6 ∧ m.m_formspec_version > env.FORMSPEC_API_VERSION) then
    registerTable env data m parts "textlist"
  else (data, m.err (invalidElement "textlist element" parts.length element))

/-- Source function `GUIFormSpecMenu::parseDropDown(data, element)`. -/
def parseDropDown (env : ParseEnv) (data : parserData) (m : GUIFormSpecMenu)
    (element : String) : parserData × GUIFormSpecMenu :=
  let parts := split element ';'
  if parts.length = 5 ∨
      (parts.length > 5 ∧ m.m_formspec_version > env.FORMSPEC_API_VERSION) then
    let v_pos := split (parts.getD 0 "") ','
    let name := parts.getD 2 ""
    let items := split (parts.getD 3 "") ','
    let v_geom0 := split (parts.getD 1 "") ','
    let v_geom := if v_geom0.length = 1 then v_geom0 ++ ["1"] else v_geom0
    if v_pos.length ≠ 2 then (data, m.err (invalidPos "dropdown" (parts.getD 0 "")))
    else if data.real_coordinates ∧ v_geom.length ≠ 2 then
      (data, m.err (invalidGeom "dropdown" (parts.getD 1 "")))
    else
      let spec : FieldSpec :=
        { (FieldSpec.new env name "" "" (nextFieldId m)) with
          ftype := .f_DropDown, send := true }
      let m := m.pushField spec
      (data, { m with m_dropdowns := m.m_dropdowns ++ [(spec, items.map unescape_string)] })
  else (data, m.err (invalidElement "dropdown element" parts.length element))

/-- Source function `GUIFormSpecMenu::parseFieldCloseOnEnter(data, element)`. -/
def parseFieldCloseOnEnter (env : ParseEnv) (data : parserData) (m : GUIFormSpecMenu)
    (element : String) : parserData × GUIFormSpecMenu :=
  let parts := split element ';'
  if parts.length = 2 ∨
      (parts.length > 2 ∧ m.m_formspec_version > env.FORMSPEC_API_VERSION) then
    (data, { m with
      field_close_on_enter :=
        mapSet m.field_close_on_enter (parts.getD 0 "") (is_yes (parts.getD 1 "")) })
  else (data, m)

/-- The deprecated trailing parameter of the field parsers: a warning and
`field_close_on_enter[name] = is_yes(value)`. -/
def closeOnEnterParam (m : GUIFormSpecMenu) (msg name value : String) : GUIFormSpecMenu :=
  { (m.warn msg) with
    field_close_on_enter := mapSet m.field_close_on_enter name (is_yes value) }

/-- Source function `GUIFormSpecMenu::parsePwdField(data, element)`. -/
def parsePwdField (env : ParseEnv) (data : parserData) (m : GUIFormSpecMenu)
    (element : String) : parserData × GUIFormSpecMenu :=
  let parts := split element ';'
  if parts.length = 4 ∨ parts.length = 5 ∨
      (parts.length > 5 ∧ m.m_formspec_version > env.FORMSPEC_API_VERSION) then
    let v_pos := split (parts.getD 0 "") ','
    let v_geom := split (parts.getD 1 "") ','
    let name := parts.getD 2 ""
    let label := parts.getD 3 ""
    if v_pos.length ≠ 2 then (data, m.err (invalidPos "pwdfield" (parts.getD 0 "")))
    else if v_geom.length ≠ 2 then (data, m.err (invalidGeom "pwdfield" (parts.getD 1 "")))
    else
      let wlabel := env.translate_string (unescape_string label)
      let spec : FieldSpec :=
        { (FieldSpec.new env name wlabel "" (nextFieldId m)) with send := true }
      let m :=
        if parts.length ≥ 5 then
          closeOnEnterParam m
            "pwdfield: use field_close_on_enter[name, enabled] instead of the 5th param"
            name (parts.getD 4 "")
        else m
      (data, m.pushField spec)
  else (data, m.err (invalidElement "pwdfield element" parts.length element))

/-- Source function `GUIFormSpecMenu::createTextField(data, spec, rect, is_multiline)`:
what it does to `spec`. -/
def createTextField (spec : FieldSpec) (is_multiline : Bool) : FieldSpec :=
  let is_editable := spec.fname != ""
  if !is_editable && !is_multiline then spec
  else if is_editable then { spec with send := true }
  else if is_multiline && spec.fdefault == "" && spec.flabel != "" then
    { spec with flabel := spec.fdefault, fdefault := spec.flabel }
  else spec

/-- The text `m_form_src->resolveText(text)` when there is a form source. -/
def resolveText (form_src : Option (String → String)) (text : String) : String :=
  match form_src with
  | some f => f text
  | none => text

/-- Source function `GUIFormSpecMenu::parseSimpleField(data, parts)`. -/
def parseSimpleField (env : ParseEnv) (data : parserData) (m : GUIFormSpecMenu)
    (parts : List String) : parserData × GUIFormSpecMenu :=
  let name := parts.getD 0 ""
  let label := parts.getD 1 ""
  let default_val := parts.getD 2 ""
  let m :=
    if data.explicit_size then m.warn "invalid use of unpositioned \"field\" in inventory"
    else m
  let default_val := resolveText env.m_form_src default_val
  let wlabel := env.translate_string (unescape_string label)
  let spec := FieldSpec.new env name wlabel (unescape_string default_val) (nextFieldId m)
  let spec := createTextField spec false
  let m :=
    if parts.length ≥ 4 then
      closeOnEnterParam m
        "field/simple: use field_close_on_enter[name, enabled] instead of the 4th param"
        name (parts.getD 3 "")
    else m
  (data, m.pushField spec)

/-- Source function `GUIFormSpecMenu::parseTextArea(data, parts, type)`. -/
def parseTextArea (env : ParseEnv) (data : parserData) (m : GUIFormSpecMenu)
    (parts : List String) (type : String) : parserData × GUIFormSpecMenu :=
  let v_pos := split (parts.getD 0 "") ','
  let v_geom := split (parts.getD 1 "") ','
  let name := parts.getD 2 ""
  let label := parts.getD 3 ""
  let default_val := parts.getD 4 ""
  if v_pos.length ≠ 2 then (data, m.err (invalidPos type (parts.getD 0 "")))
  else if v_geom.length ≠ 2 then (data, m.err (invalidGeom type (parts.getD 1 "")))
  else
    let m :=
      if !data.explicit_size then
        m.warn ("invalid use of positioned " ++ type ++ " without a size[] element")
      else m
    let default_val := resolveText env.m_form_src default_val
    let wlabel := env.translate_string (unescape_string label)
    let spec := FieldSpec.new env name wlabel (unescape_string default_val) (nextFieldId m)
    let spec := createTextField spec (type == "textarea")
    let m :=
      if parts.length ≥ 6 then
        closeOnEnterParam m
          "field/textarea: use field_close_on_enter[name, enabled] instead of the 6th param"
          name (parts.getD 5 "")
      else m
    (data, m.pushField spec)

/-- Source function `GUIFormSpecMenu::parseField(data, element, type)`. -/
def parseField (env : ParseEnv) (data : parserData) (m : GUIFormSpecMenu) (element type : String) :
    parserData × GUIFormSpecMenu :=
  let parts := split element ';'
  if parts.length = 3 ∨ parts.length = 4 then parseSimpleField env data m parts
  else if parts.length = 5 ∨ parts.length = 6 ∨
      (parts.length > 6 ∧ m.m_formspec_version > env.FORMSPEC_API_VERSION) then
    parseTextArea env data m parts type
  else (data, m.err (invalidElement "field element" parts.length element))

/-- Source function `GUIFormSpecMenu::parseHyperText(data, element)`.  The
source reads `parts[0]` to `parts[3]` once its test has passed; `none` is a
read past the end of `parts` (undefined behaviour). -/
def parseHyperText (env : ParseEnv) (data : parserData) (m : GUIFormSpecMenu) (element : String) :
    Option (parserData × GUIFormSpecMenu) :=
  let parts := split element ';'
  if parts.length ≠ 4 ∧ m.m_formspec_version < env.FORMSPEC_API_VERSION then
    some (data, m.err (invalidElement "text element" parts.length element))
  else
    match parts.get? 0, parts.get? 1, parts.get? 2, parts.get? 3 with
    | some part0, some part1, some name, some text =>
      let v_pos := split part0 ','
      let v_geom := split part1 ','
      if v_pos.length ≠ 2 then some (data, m.err (invalidPos "hypertext" part0))
      else if v_geom.length ≠ 2 then some (data, m.err (invalidGeom "hypertext" part1))
      else
        let text := resolveText env.m_form_src text
        let spec : FieldSpec :=
          { (FieldSpec.new env name (unescape_string text) "" (nextFieldId m)) with
            ftype := .f_Unknown }
        some (data, m.pushField spec)
    | _, _, _, _ => none

/-- The loop of `parseLabel` over the lines of the text: every line registers
a field of its own, whose id is taken when the line is reached. -/
def parseLabelLines (env : ParseEnv) : List String → GUIFormSpecMenu → GUIFormSpecMenu
  | [], m => m
  | line :: rest, m =>
    let wlabel_colors := env.translate_string (unescape_string line)
    let spec := FieldSpec.new env "" wlabel_colors "" (nextFieldId m)
    parseLabelLines env rest (m.pushField spec)

/-- Source function `GUIFormSpecMenu::parseLabel(data, element)`. -/
def parseLabel (env : ParseEnv) (data : parserData) (m : GUIFormSpecMenu) (element : String) :
    parserData × GUIFormSpecMenu :=
  let parts := split element ';'
  if parts.length = 2 ∨
      (parts.length > 2 ∧ m.m_formspec_version > env.FORMSPEC_API_VERSION) then
    let v_pos := split (parts.getD 0 "") ','
    let text := parts.getD 1 ""
    if v_pos.length ≠ 2 then (data, m.err (invalidPos "label" (parts.getD 0 "")))
    else
      let m := if !data.explicit_size then m.warn (withoutSize "label") else m
      (data, parseLabelLines env (split text '\n') m)
  else (data, m.err (invalidElement "label element" parts.length element))

/-- Source function `GUIFormSpecMenu::parseVertLabel(data, element)`; the
position check logs `parts[1]`. -/
def parseVertLabel (env : ParseEnv) (data : parserData) (m : GUIFormSpecMenu)
    (element : String) : parserData × GUIFormSpecMenu :=
  let parts := split element ';'
  if parts.length = 2 ∨
      (parts.length > 2 ∧ m.m_formspec_version > env.FORMSPEC_API_VERSION) then
    let v_pos := split (parts.getD 0 "") ','
    let text := env.unescape_enriched (env.translate_string (unescape_string (parts.getD 1 "")))
    if v_pos.length ≠ 2 then (data, m.err (invalidPos "vertlabel" (parts.getD 1 "")))
    else
      let m := if !data.explicit_size then m.warn (withoutSize "label") else m
      let label := String.mk (text.data.flatMap fun c => [c, '\n'])
      let spec := FieldSpec.new env "" label "" (nextFieldId m)
      (data, m.pushField spec)
  else (data, m.err (invalidElement "vertlabel element" parts.length element))

/-- Source function `GUIFormSpecMenu::parseImageButton(data, element, type)`. -/
def parseImageButton (env : ParseEnv) (data : parserData) (m : GUIFormSpecMenu)
    (element type : String) : parserData × GUIFormSpecMenu :=
  let parts := split element ';'
  if ((parts.length ≥ 5 ∧ parts.length ≤ 8) ∧ parts.length ≠ 6) ∨
      (parts.length > 8 ∧ m.m_formspec_version > env.FORMSPEC_API_VERSION) then
    let v_pos := split (parts.getD 0 "") ','
    let v_geom := split (parts.getD 1 "") ','
    let image_name := parts.getD 2 ""
    let name := parts.getD 3 ""
    let label := parts.getD 4 ""
    if v_pos.length ≠ 2 then (data, m.err (invalidPos "imagebutton" (parts.getD 0 "")))
    else if v_geom.length ≠ 2 then (data, m.err (invalidGeom "imagebutton" (parts.getD 1 "")))
    else
      let m := if !data.explicit_size then m.warn (withoutSize "image_button") else m
      let image_name := unescape_string image_name
      let wlabel := unescape_string label
      let spec : FieldSpec :=
        { (FieldSpec.new env name wlabel image_name (nextFieldId m)) with
          ftype := .f_Button, is_exit := decide (type = "image_button_exit") }
      (data, m.pushField spec)
  else (data, m.err (invalidElement "imagebutton element" parts.length element))

/-- Source function `GUIFormSpecMenu::parseTabHeader(data, element)`. -/
def parseTabHeader (env : ParseEnv) (data : parserData) (m : GUIFormSpecMenu)
    (element : String) : parserData × GUIFormSpecMenu :=
  let parts := split element ';'
  if (parts.length = 4 ∨ parts.length = 6) ∨ (parts.length = 7 ∧ data.real_coordinates) ∨
      (parts.length > 6 ∧ m.m_formspec_version > env.FORMSPEC_API_VERSION) then
    let v_pos := split (parts.getD 0 "") ','
    let i : Nat := if parts.length = 7 then 1 else 0
    let v_geom : List String :=
      if parts.length = 7 then
        let v := split (parts.getD 1 "") ','
        if v.length = 1 then "1" :: v else v
      else ["1", "0.75"]
    let name := parts.getD (i + 1) ""
    if v_pos.length ≠ 2 then (data, m.err (invalidPos "tabheader" (parts.getD 0 "")))
    else if data.real_coordinates ∧ v_geom.length ≠ 2 then
      (data, m.err (invalidGeom "tabheader" (parts.getD 1 "")))
    else
      let spec : FieldSpec :=
        { (FieldSpec.new env name "" "" (nextFieldId m)) with ftype := .f_TabHeader }
      (data, m.pushField spec)
  else
    (data, m.err ("Invalid TabHeader element(" ++ toString parts.length ++ "): '" ++ element
      ++ "'"))

/-- The rectangle `rect + d` (`core::rect<s32>::operator+=`). -/
def Rect.shift (r : Rect) (d : v2s32) : Rect :=
  { UpperLeftCorner := { X := r.UpperLeftCorner.X + d.X, Y := r.UpperLeftCorner.Y + d.Y },
    LowerRightCorner := { X := r.LowerRightCorner.X + d.X, Y := r.LowerRightCorner.Y + d.Y } }

/-- Source function `GUIFormSpecMenu::parseItemImageButton(data, element)`. -/
def parseItemImageButton (env : ParseEnv) (data : parserData) (m : GUIFormSpecMenu)
    (element : String) : parserData × GUIFormSpecMenu :=
  if !m.m_client then (data, m.warn "invalid use of item_image_button with m_client==0")
  else
    let parts := split element ';'
    if parts.length = 5 ∨
        (parts.length > 5 ∧ m.m_formspec_version > env.FORMSPEC_API_VERSION) then
      let v_pos := split (parts.getD 0 "") ','
      let v_geom := split (parts.getD 1 "") ','
      let name := parts.getD 3 ""
      let label := unescape_string (parts.getD 4 "")
      let item_name := unescape_string (parts.getD 2 "")
      if v_pos.length ≠ 2 then (data, m.err (invalidPos "itemimagebutton" (parts.getD 0 "")))
      else if v_geom.length ≠ 2 then
        (data, m.err (invalidGeom "itemimagebutton" (parts.getD 1 "")))
      else
        let pos : v2s32 :=
          if data.real_coordinates then getRealCoordinateBasePos m false v_pos
          else getElementBasePos m false (some v_pos)
        let geom : v2s32 :=
          if data.real_coordinates then getRealCoordinateGeometry m v_geom
          else
            { X := truncS32 (f32 (f32 (stof (v_geom.getD 0 "") * m.spacing.X) -
                f32 (m.spacing.X - f32 (m.imgsize.X : ℚ)))),
              Y := truncS32 (f32 (f32 (stof (v_geom.getD 1 "") * m.spacing.Y) -
                f32 (m.spacing.Y - f32 (m.imgsize.Y : ℚ)))) }
        let rect : Rect :=
          { UpperLeftCorner := { X := pos.X, Y := pos.Y },
            LowerRightCorner := { X := pos.X + geom.X, Y := pos.Y + geom.Y } }
        let m := if !data.explicit_size then m.warn (withoutSize "item_image_button") else m
        let m := { m with
          m_tooltips := mapSet m.m_tooltips name
            { tooltip := env.itemDescription item_name,
              bgcolor := m.m_default_tooltip_bgcolor,
              color := m.m_default_tooltip_color } }
        let rect := rect.shift
          { X := data.basepos.X - m.padding.X, Y := data.basepos.Y - m.padding.Y }
        let spec : FieldSpec :=
          { (FieldSpec.new env name label item_name (nextFieldId m)) with
            ftype := .f_Button, rect := rect }
        let m := m.pushField spec
        let pos : v2s32 :=
          if data.real_coordinates then getRealCoordinateBasePos m true v_pos
          else getElementBasePos m true (some v_pos)
        (data, { m with
          m_itemimages := m.m_itemimages ++
            [{ name := "", item_name := item_name, parent_button := some spec.fid,
               pos := pos, geom := geom }],
          m_static_texts := m.m_static_texts ++
            [{ text := label, rect := rect, parent_button := some spec.fid }] })
    else (data, m.err (invalidElement "ItemImagebutton element" parts.length element))

/-- Source function `GUIFormSpecMenu::parseBox(data, element)`. -/
def parseBox (env : ParseEnv) (data : parserData) (m : GUIFormSpecMenu) (element : String) :
    parserData × GUIFormSpecMenu :=
  let parts := split element ';'
  if parts.length = 3 ∨
      (parts.length > 3 ∧ m.m_formspec_version > env.FORMSPEC_API_VERSION) then
    let v_pos := split (parts.getD 0 "") ','
    let v_geom := split (parts.getD 1 "") ','
    if v_pos.length ≠ 2 then (data, m.err (invalidPos "box" (parts.getD 0 "")))
    else if v_geom.length ≠ 2 then (data, m.err (invalidGeom "box" (parts.getD 1 "")))
    else
      let pos : v2s32 :=
        if data.real_coordinates then getRealCoordinateBasePos m true v_pos
        else getElementBasePos m true (some v_pos)
      let geom : v2s32 :=
        if data.real_coordinates then getRealCoordinateGeometry m v_geom
        else { X := truncS32 (f32 (stof (v_geom.getD 0 "") * m.spacing.X)),
               Y := truncS32 (f32 (stof (v_geom.getD 1 "") * m.spacing.Y)) }
      match env.parseColorString (parts.getD 2 "") 140 with
      | some tmp_color =>
        (data, { m with m_boxes := m.m_boxes ++ [{ pos := pos, geom := geom, color := tmp_color }] })
      | none =>
        (data, m.err ("Invalid Box element(" ++ toString parts.length ++ "): '" ++ element
          ++ "'  INVALID COLOR"))
  else (data, m.err (invalidElement "Box element" parts.length element))

/-- Source function `GUIFormSpecMenu::parseBackgroundColor(data, element)`; a
colour that does not parse leaves `m_bgcolor` as it is. -/
def parseBackgroundColor (env : ParseEnv) (data : parserData) (m : GUIFormSpecMenu)
    (element : String) : parserData × GUIFormSpecMenu :=
  let parts := split element ';'
  if (parts.length = 1 ∨ parts.length = 2) ∨
      (parts.length > 2 ∧ m.m_formspec_version > env.FORMSPEC_API_VERSION) then
    let m := { m with
      m_bgcolor := (env.parseColorString (parts.getD 0 "") 255).getD m.m_bgcolor }
    if parts.length = 2 then (data, { m with m_bgfullscreen := is_yes (parts.getD 1 "") })
    else (data, m)
  else (data, m.err (invalidElement "bgcolor element" parts.length element))

/-- Source function `GUIFormSpecMenu::parseListColors(data, element)`. -/
def parseListColors (env : ParseEnv) (data : parserData) (m : GUIFormSpecMenu)
    (element : String) : parserData × GUIFormSpecMenu :=
  let parts := split element ';'
  if (parts.length = 2 ∨ parts.length = 3 ∨ parts.length = 5) ∨
      (parts.length > 5 ∧ m.m_formspec_version > env.FORMSPEC_API_VERSION) then
    let m := { m with
      m_slotbg_n := (env.parseColorString (parts.getD 0 "") 255).getD m.m_slotbg_n,
      m_slotbg_h := (env.parseColorString (parts.getD 1 "") 255).getD m.m_slotbg_h }
    let m :=
      if parts.length ≥ 3 then
        match env.parseColorString (parts.getD 2 "") 255 with
        | some col => { m with m_slotbordercolor := col, m_slotborder := true }
        | none => m
      else m
    let m :=
      if parts.length = 5 then
        { m with
          m_default_tooltip_bgcolor :=
            (env.parseColorString (parts.getD 3 "") 255).getD m.m_default_tooltip_bgcolor,
          m_default_tooltip_color :=
            (env.parseColorString (parts.getD 4 "") 255).getD m.m_default_tooltip_color }
      else m
    (data, m)
  else (data, m.err (invalidElement "listcolors element" parts.length element))

/-- Source function `GUIFormSpecMenu::parseTooltip(data, element)`. -/
def parseTooltip (env : ParseEnv) (data : parserData) (m : GUIFormSpecMenu) (element : String) :
    parserData × GUIFormSpecMenu :=
  let parts := split element ';'
  if parts.length < 2 then (data, m.err (invalidElement "tooltip element" parts.length element))
  else
    let rect_mode : Bool := (parts.getD 0 "").data.contains ','
    let base_size : Nat := if rect_mode then 3 else 2
    if parts.length ≠ base_size ∧ parts.length ≠ base_size + 2 then
      (data, m.err (invalidElement "tooltip element" parts.length element))
    else
      let bg := env.parseColorString (parts.getD base_size "") 255
      let fg := env.parseColorString (parts.getD (base_size + 1) "") 255
      if parts.length = base_size + 2 ∧ (bg = none ∨ fg = none) then
        (data, m.err ("Invalid color in tooltip element(" ++ toString parts.length ++ "): '"
          ++ element ++ "'"))
      else
        let bgcolor :=
          if parts.length = base_size + 2 then bg.getD m.m_default_tooltip_bgcolor
          else m.m_default_tooltip_bgcolor
        let color :=
          if parts.length = base_size + 2 then fg.getD m.m_default_tooltip_color
          else m.m_default_tooltip_color
        let text := unescape_string (parts.getD (if rect_mode then 2 else 1) "")
        let spec : TooltipSpec := { tooltip := text, bgcolor := bgcolor, color := color }
        if rect_mode then
          let v_pos := split (parts.getD 0 "") ','
          let v_geom := split (parts.getD 1 "") ','
          if v_pos.length ≠ 2 then (data, m.err (invalidPos "tooltip" (parts.getD 0 "")))
          else if v_geom.length ≠ 2 then (data, m.err (invalidGeom "tooltip" (parts.getD 1 "")))
          else
            let pos : v2s32 :=
              if data.real_coordinates then getRealCoordinateBasePos m true v_pos
              else getElementBasePos m true (some v_pos)
            let geom : v2s32 :=
              if data.real_coordinates then getRealCoordinateGeometry m v_geom
              else { X := truncS32 (f32 (stof (v_geom.getD 0 "") * m.spacing.X)),
                     Y := truncS32 (f32 (stof (v_geom.getD 1 "") * m.spacing.Y)) }
            let rect : Rect :=
              { UpperLeftCorner := pos,
                LowerRightCorner := { X := pos.X + geom.X, Y := pos.Y + geom.Y } }
            (data, { m with m_tooltip_rects := m.m_tooltip_rects ++ [(rect, spec)] })
        else (data, { m with m_tooltips := mapSet m.m_tooltips (parts.getD 0 "") spec })

/-- Source function `GUIFormSpecMenu::parseVersionDirect(data)`: the menu and
the returned flag; the version member is a `u16`. -/
def parseVersionDirect (m : GUIFormSpecMenu) (data : String) : GUIFormSpecMenu × Bool :=
  if data = "" then (m, false)
  else
    let parts := split data '['
    if parts.length < 2 then (m, false)
    else if parts.getD 0 "" ≠ "formspec_version" then (m, false)
    else if is_number (parts.getD 1 "") then
      ({ m with m_formspec_version := (stoi (parts.getD 1 "") % 65536).toNat }, true)
    else (m, false)

/-- The "ugly workaround to keep compatibility" of `parseElement`: for an
`image` element the pieces after the second `[` are glued back onto
`parts[1]`. -/
def glueImageParts (parts : List String) : String :=
  (parts.drop 2).foldl (fun acc p => acc ++ "[" ++ p) (parts.getD 1 "")

/-- The chain `if (type == ...) { parse...(data, description); return; }` of
`parseElement`; `none` is the undefined behaviour of `parseHyperText`.  The
line written to `infostream` for an unknown element type is left out. -/
def dispatchElement (env : ParseEnv) (data : parserData) (m : GUIFormSpecMenu)
    (type description : String) : Option (parserData × GUIFormSpecMenu) :=
  if type = "container" then some (parseContainer data m description)
  else if type = "container_end" then some (parseContainerEnd data m)
  else if type = "list" then some (parseList env data m description)
  else if type = "listring" then some (parseListRing env data m description)
  else if type = "checkbox" then some (parseCheckbox env data m description)
  else if type = "image" then some (parseImage env data m description)
  else if type = "item_image" then some (parseItemImage env data m description)
  else if type = "button" ∨ type = "button_exit" then
    some (parseButton env data m description type)
  else if type = "background" ∨ type = "background9" then
    some (parseBackground env data m description)
  else if type = "tableoptions" then some (parseTableOptions data m description)
  else if type = "tablecolumns" then some (parseTableColumns data m description)
  else if type = "table" then some (parseTable env data m description)
  else if type = "textlist" then some (parseTextList env data m description)
  else if type = "dropdown" then some (parseDropDown env data m description)
  else if type = "field_close_on_enter" then
    some (parseFieldCloseOnEnter env data m description)
  else if type = "pwdfield" then some (parsePwdField env data m description)
  else if type = "field" ∨ type = "textarea" then
    some (parseField env data m description type)
  else if type = "hypertext" then parseHyperText env data m description
  else if type = "label" then some (parseLabel env data m description)
  else if type = "vertlabel" then some (parseVertLabel env data m description)
  else if type = "item_image_button" then
    some (parseItemImageButton env data m description)
  else if type = "image_button" ∨ type = "image_button_exit" then
    some (parseImageButton env data m description type)
  else if type = "tabheader" then some (parseTabHeader env data m description)
  else if type = "box" then some (parseBox env data m description)
  else if type = "bgcolor" then some (parseBackgroundColor env data m description)
  else if type = "listcolors" then some (parseListColors env data m description)
  else if type = "tooltip" then some (parseTooltip env data m description)
  else if type = "scrollbar" then some (parseScrollBar env data m description)
  else if type = "real_coordinates" then
    some ({ data with real_coordinates := is_yes description }, m)
  else if type = "style" then some (data, (parseStyle m description false).1)
  else if type = "style_type" then some (data, (parseStyle m description true).1)
  else some (data, m)

/-- Source function `GUIFormSpecMenu::parseElement(data, element)`: the
prechecks, the version directive, the split at `[` and the dispatch on the
element type. -/
def parseElement (env : ParseEnv) (data : parserData) (m : GUIFormSpecMenu) (element : String) :
    Option (parserData × GUIFormSpecMenu) :=
  if element = "" then some (data, m)
  else if (parseVersionDirect m element).2 then some (data, (parseVersionDirect m element).1)
  else
    let parts := split element '['
    if parts.length > 2 ∧ trim (parts.getD 0 "") ≠ "image" then some (data, m)
    else if parts.length < 2 then some (data, m)
    else
      dispatchElement env data m (trim (parts.getD 0 ""))
        (trim (if parts.length > 2 then glueImageParts parts else parts.getD 1 ""))

/-- The element loop of `regenerateGui`:
`for (...) parseElement(&mydata, elements[i])`. -/
def parseElements (env : ParseEnv) :
    List String → parserData × GUIFormSpecMenu → Option (parserData × GUIFormSpecMenu)
  | [], s => some s
  | element :: rest, s =>
    match parseElement env s.1 s.2 element with
    | none => none
    | some s' => parseElements env rest s'

/-- The reset at the head of `regenerateGui`: every registry and both style
cascades are cleared, the background is not fullscreen and the format version
is 1. -/
def regenerateGui_reset (m : GUIFormSpecMenu) : GUIFormSpecMenu :=
  { m with
    m_inventorylists := [], m_images := [], m_backgrounds := [], m_itemimages := [],
    m_tables := [], m_checkboxes := [], m_scrollbars := [], m_fields := [], m_boxes := [],
    m_tooltips := [], m_tooltip_rects := [], m_inventory_rings := [], m_static_texts := [],
    m_dropdowns := [], theme_by_name := fun _ => none, theme_by_type := fun _ => none,
    m_bgfullscreen := false, m_formspec_version := 1 }

/-- The field-id invariant: the `i`-th entry of a field registry has id
`258 + i`. -/
def FieldIdsOk (fields : List FieldSpec) : Prop :=
  ∀ (i : Nat) (h : i < fields.length), (fields.get ⟨i, h⟩).fid = 258 + Int.ofNat i

/-- The registry `new` is `old` followed by fields whose ids continue the
numbering `258 + index`. -/
def FieldsExtend (old new : List FieldSpec) : Prop :=
  ∃ added : List FieldSpec, new = old ++ added ∧
    ∀ (j : Nat) (h : j < added.length),
      (added.get ⟨j, h⟩).fid = 258 + Int.ofNat (old.length + j)

/-! ## Example data for the parsers -/

/-- An example environment: format version 2 is current, a colour parses when
it starts with `#`, texts are not translated and there is no form source. -/
def exEnv : ParseEnv :=
  { FORMSPEC_API_VERSION := 2,
    parseColorString := fun s _ => if s.data.head? = some '#' then some 4278190080 else none,
    translate_string := fun s => s,
    unescape_enriched := fun s => s,
    deSerialize := fun s => s,
    itemDescription := fun s => s,
    m_form_src := none }

/-- An example layout: slots of 40 pixels every 50 by 46 pixels, a padding of
15 pixels, inside a container at offset (1, 2). -/
def exLayout : GUIFormSpecMenu :=
  { imgsize := { X := 40, Y := 40 },
    spacing := { X := 50, Y := 46 },
    padding := { X := 15, Y := 15 },
    m_btn_height := 16,
    pos_offset := { X := 1, Y := 2 },
    container_stack := [{ X := 0, Y := 0 }] }

/-- An example document: a label of two lines, a button, a button whose body
has only two parts, and an exit button. -/
def exDocument : List String :=
  ["label[0,0;one\ntwo", "button[0,1;2,1;ok;OK", "button[1,1;bad",
   "button_exit[0,2;2,1;quit;Quit"]

/-- The session and the menu after parsing the example document from the
initial state. -/
def exParsed : parserData × GUIFormSpecMenu :=
  (parseElements exEnv exDocument ({}, {})).getD ({}, {})

/-- A scrollbar element whose body has six parts. -/
def exScrollbar : String := "scrollbar[1,1;2,2;horizontal;sb;0;extra"

/-! ## Further example data for the pointer events -/

/-- The `main` list once the server has swapped slots 0 and 2 of `exMain`. -/
def exMainSwapped : InventoryList :=
  { name := "main",
    items := [{ name := "dirt", count := 3 }, {}, { name := "stone", count := 10 },
              { name := "stone", count := 95 }] }

/-- The collaborators of `exCollab` after that swap. -/
def exCollabSwapped : Collab :=
  { getInventory := fun loc =>
      if loc = "current_player" then some { addr := 1, lists := [exMainSwapped] } else none,
    addItem := addItemMax 99 }

/-- The menu `exPicked` with the pointer on slot 2 (the 3 dirt). -/
def exPickedOnDirt : GUIFormSpecMenu := { exPicked with m_pointer := { X := 29, Y := 5 } }

/-- The menu after a left click there: the 10 stone cannot merge into the dirt,
so a swap is pending and 3 are selected. -/
def exSwapped : GUIFormSpecMenu := menuAfter (OnEvent exCollab exPickedOnDirt leftDown) exMenu

/-- The menu `exSwapped` with the pointer back on slot 0. -/
def exSwappedBack : GUIFormSpecMenu := { exSwapped with m_pointer := { X := 5, Y := 5 } }

/-- The menu after a right click on the selected slot 0 while the inventory
has not changed yet: one item is put back, 2 stay selected, the swap is still
pending. -/
def exSwapTouched : GUIFormSpecMenu := menuAfter (OnEvent exCollab exSwappedBack rightDown) exMenu

/-- The example menu with the list ring `main`, `craft` and the pointer at
pixel `(x, 5)`. -/
def exRingMenu (x : Int) : GUIFormSpecMenu :=
  { exMenuAt x with
    m_inventory_rings :=
      [{ inventoryloc := "current_player", listname := "main" },
       { inventoryloc := "current_player", listname := "craft" }] }

/-- An empty craft grid of two slots. -/
def exCraft : InventoryList := { name := "craft", items := [{}, {}] }

/-- Example collaborators whose player inventory has the lists `main` and
`craft`. -/
def exRingCollab : Collab :=
  { getInventory := fun loc =>
      if loc = "current_player" then some { addr := 1, lists := [exMain, exCraft] } else none,
    addItem := addItemMax 99 }

/-- A press of the middle button with shift held. -/
def shiftMiddleDown : SMouseInput := { Event := .EMIE_MMOUSE_PRESSED_DOWN, Shift := true }

/-- A release of the left button. -/
def leftUp : SMouseInput := { Event := .EMIE_LMOUSE_LEFT_UP }

/-- The menu `exPicked` (10 stone of slot 0 selected, dragging) with the
pointer on the empty slot 1. -/
def exPickedOnSlot1 : GUIFormSpecMenu := { exPicked with m_pointer := { X := 17, Y := 5 } }

/-- A pointer movement with the right button held. -/
def rightMove : SMouseInput := { Event := .EMIE_MOUSE_MOVED, RightPressed := true }

/-- Modelled from the spec: the enum `FormspecQuitMode` of guiFormSpecMenu.h. -/
inductive FormspecQuitMode
  | quit_mode_no | quit_mode_try | quit_mode_accept | quit_mode_cancel
  deriving DecidableEq, Repr

/-- Modelled from the spec: the element types of the GUI toolkit that the
source compares `getType()` with (enum `EGUI_ELEMENT_TYPE`); `EGUIET_ELEMENT`
stands for every other type. -/
inductive EGUI_ELEMENT_TYPE
  | EGUIET_BUTTON | EGUIET_CHECK_BOX | EGUIET_COMBO_BOX | EGUIET_EDIT_BOX | EGUIET_SCROLL_BAR
  | EGUIET_STATIC_TEXT | EGUIET_TAB_CONTROL | EGUIET_ELEMENT
  deriving DecidableEq, Repr

/-- Modelled from the spec: a widget of the GUI toolkit as the menu queries
it: `getType()`, `getTypeName()`, `getText()`, and the value of its kind
(`getSelected()` of a combo box, `getActiveTab()` of a tab control,
`isChecked()` of a check box, `getPos()` of a scroll bar). -/
structure IGUIElement where
  type : EGUI_ELEMENT_TYPE := .EGUIET_ELEMENT
  typeName : String := ""
  text : String := ""
  selected : Int := -1
  activeTab : Int := -1
  checked : Bool := false
  pos : Int := 0
  deriving DecidableEq, Repr

/-- The widgets as `acceptInput` queries them: `getElementFromId(id)` (`none`
is the null pointer) and `checkEvent()` of the table widget that was created
with a given id. -/
structure GuiEnv where
  getElementFromId : Int → Option IGUIElement
  checkEvent : Int → String

/-- The field map `StringMap` handed to the text destination, as an
association list without repeated keys (`std::map` keeps its entries ordered
by key, the list keeps the latest assignment first). -/
abbrev StringMap := List (String × String)

/-- Source function `GUIFormSpecMenu::getTable(tablename)`: the first
registered table of that name, as its field spec (the widget was created with
the id of the spec); `none` is the null pointer. -/
def getTable (m : GUIFormSpecMenu) (tablename : String) : Option FieldSpec :=
  m.m_tables.find? fun table => tablename == table.fname

/-- Source function `GUIFormSpecMenu::getDropDownValues(name)`; `none` is the
null pointer. -/
def getDropDownValues (m : GUIFormSpecMenu) (name : String) : Option (List String) :=
  (m.m_dropdowns.find? fun dropdown => name == dropdown.1.fname).map fun dropdown => dropdown.2

/-- The widget `getElementFromId(id)` when it exists and has the given type,
as the source obtains it before a `static_cast`. -/
def elementOfType (w : GuiEnv) (id : Int) (type : EGUI_ELEMENT_TYPE) : Option IGUIElement :=
  match w.getElementFromId id with
  | some element => if element.type = type then some element else none
  | none => none

/-- The body of the loop of `acceptInput` over the field registry, for the
field `s`; `none` is the call `e->getSelected()` on a null pointer, which the
source makes for a drop-down whose widget is missing or is no combo box. -/
def acceptInputField (w : GuiEnv) (m : GUIFormSpecMenu) (fields : StringMap) (s : FieldSpec) :
    Option StringMap :=
  if s.send then
    let name := s.fname
    if s.ftype = .f_Button then some (mapSet fields name s.flabel)
    else if s.ftype = .f_Table then
      match getTable m s.fname with
      | some table => some (mapSet fields name (w.checkEvent table.fid))
      | none => some fields
    else if s.ftype = .f_DropDown then
      match elementOfType w s.fid .EGUIET_COMBO_BOX with
      | none => none
      | some e =>
        if e.selected ≥ 0 then
          match getDropDownValues m s.fname with
          | some dropdown_values =>
            if e.selected < Int.ofNat dropdown_values.length then
              some (mapSet fields name (dropdown_values.getD e.selected.toNat ""))
            else some fields
          | none => some fields
        else some fields
    else if s.ftype = .f_TabHeader then
      match elementOfType w s.fid .EGUIET_TAB_CONTROL with
      | some e => some (mapSet fields name (toString (e.activeTab + 1)))
      | none => some fields
    else if s.ftype = .f_CheckBox then
      match elementOfType w s.fid .EGUIET_CHECK_BOX with
      | some e => some (mapSet fields name (if e.checked then "true" else "false"))
      | none => some fields
    else if s.ftype = .f_ScrollBar then
      match elementOfType w s.fid .EGUIET_SCROLL_BAR with
      | some e =>
        if s.fdefault = "Changed" then some (mapSet fields name ("CHG:" ++ toString e.pos))
        else some (mapSet fields name ("VAL:" ++ toString e.pos))
      | none => some fields
    else
      match w.getElementFromId s.fid with
      | some e => some (mapSet fields name e.text)
      | none => some fields
  else some fields

/-- The loop `for (const FieldSpec &s : m_fields)` of `acceptInput`. -/
def acceptInputFields (w : GuiEnv) (m : GUIFormSpecMenu) :
    List FieldSpec → StringMap → Option StringMap
  | [], fields => some fields
  | s :: rest, fields =>
    match acceptInputField w m fields s with
    | none => none
    | some fields => acceptInputFields w m rest fields

/-- The block `if (current_keys_pending.key_down) ...` of `acceptInput`: the
pending event is reported and the flag is cleared. -/
def pendingKeyDown (m : GUIFormSpecMenu) (fields : StringMap) : StringMap × GUIFormSpecMenu :=
  if m.current_keys_pending.key_down then
    (mapSet fields "key_down" "true",
      { m with current_keys_pending := { m.current_keys_pending with key_down := false } })
  else (fields, m)

/-- The block `if (current_keys_pending.key_up) ...` of `acceptInput`. -/
def pendingKeyUp (m : GUIFormSpecMenu) (fields : StringMap) : StringMap × GUIFormSpecMenu :=
  if m.current_keys_pending.key_up then
    (mapSet fields "key_up" "true",
      { m with current_keys_pending := { m.current_keys_pending with key_up := false } })
  else (fields, m)

/-- The block `if (current_keys_pending.key_enter) ...` of `acceptInput`. -/
def pendingKeyEnter (m : GUIFormSpecMenu) (fields : StringMap) : StringMap × GUIFormSpecMenu :=
  if m.current_keys_pending.key_enter then
    (mapSet fields "key_enter" "true",
      { m with current_keys_pending := { m.current_keys_pending with key_enter := false } })
  else (fields, m)

/-- The block `if (!current_field_enter_pending.empty()) ...` of
`acceptInput`. -/
def pendingEnterField (m : GUIFormSpecMenu) (fields : StringMap) : StringMap × GUIFormSpecMenu :=
  if m.current_field_enter_pending ≠ "" then
    (mapSet fields "key_enter_field" m.current_field_enter_pending,
      { m with current_field_enter_pending := "" })
  else (fields, m)

/-- The block `if (current_keys_pending.key_escape) ...` of `acceptInput`. -/
def pendingKeyEscape (m : GUIFormSpecMenu) (fields : StringMap) : StringMap × GUIFormSpecMenu :=
  if m.current_keys_pending.key_escape then
    (mapSet fields "key_escape" "true",
      { m with current_keys_pending := { m.current_keys_pending with key_escape := false } })
  else (fields, m)

/-- The five blocks of `acceptInput` that report the pending key events, in
the order of the source. -/
def acceptInputKeys (m : GUIFormSpecMenu) (fields : StringMap) : StringMap × GUIFormSpecMenu :=
  let r := pendingKeyDown m fields
  let r := pendingKeyUp r.2 r.1
  let r := pendingKeyEnter r.2 r.1
  let r := pendingEnterField r.2 r.1
  pendingKeyEscape r.2 r.1

/-- Source function `GUIFormSpecMenu::acceptInput(quitmode)`: the menu
afterwards and the map handed to `m_text_dst->gotText`, if any; the outer
`none` is the null-pointer call of `acceptInputField`. -/
def acceptInput (w : GuiEnv) (m : GUIFormSpecMenu) (quitmode : FormspecQuitMode) :
    Option (GUIFormSpecMenu × Option StringMap) :=
  if m.m_text_dst then
    let fields : StringMap := []
    let fields := if quitmode = .quit_mode_accept then mapSet fields "quit" "true" else fields
    if quitmode = .quit_mode_cancel then some (m, some (mapSet fields "quit" "true"))
    else
      let km := acceptInputKeys m fields
      match acceptInputFields w km.2 km.2.m_fields km.1 with
      | none => none
      | some fields => some (km.2, some fields)
  else some (m, none)

/-- The keys of a field map are synthetic keys or names of sent fields of the
registry `F`, and no key is repeated. -/
def KeysOk (F : List FieldSpec) (fields : StringMap) : Prop :=
  (∀ key ∈ fields.map Prod.fst,
    key ∈ ["quit", "key_up", "key_down", "key_enter", "key_enter_field", "key_escape"] ∨
    ∃ s ∈ F, s.send = true ∧ s.fname = key) ∧
  (fields.map Prod.fst).Nodup

/-! ## The parts of a style statement -/

/-- The reading of one property part in the loop of `parseStyle`: the property
and its value; `none` when the part has no `=` or names an unknown
property. -/
def styleProperty (part : String) : Option (Property × String) :=
  match findEq part.data with
  | none => none
  | some equal_pos =>
    let propname := tolower (trim (String.mk (part.data.take equal_pos)))
    let value := trim (unescape_string (String.mk (part.data.drop (equal_pos + 1))))
    let prop := StyleSpec.GetPropertyByName propname
    if prop = Property.NONE then none else some (prop, value)

/-- The statement `spec.set(prop, value)` for a part that was read. -/
def setStyleProperty (spec : StyleSpec) (part : String) : StyleSpec :=
  match styleProperty part with
  | some (prop, value) => spec.set prop value
  | none => spec

/-! ## Regeneration

The function `regenerateGui` in the order of the source: the reset, the head
of the document, the layout, the prepend, the elements and the end. -/

/-- What `regenerateGui` uses from the GUI toolkit, the settings and the
rendering engine: the id of the focused element when that element is a child
of the menu (`Environment->getFocus()`), the two background colours built from
the settings `formspec_default_bg_*` and `formspec_fullscreen_bg_*`, the
setting `gui_scaling`, `RenderingEngine::getDisplayDensity()`, the screen size
of the video driver, `font_line_height(m_font)` of the default font, and
`recalculateAbsolutePosition(false)` of the toolkit, which gives `AbsoluteRect`
and `AbsoluteClippingRect` for a `DesiredRect`. -/
structure RenderEnv where
  getFocus : Option Int
  formspec_default_bg : SColor
  formspec_fullscreen_bg : SColor
  gui_scaling : ℚ
  getDisplayDensity : ℚ
  getScreenSize : v2u32
  font_line_height : Nat
  recalculateAbsolutePosition : Rect → Rect × Rect

/-- The colour `video::SColor(a, r, g, b)` as its 32-bit ARGB value. -/
def SColor.argb (a r g b : Nat) : SColor := a * 16777216 + r * 65536 + g * 256 + b

/-- Modelled from the spec: `getBasePos()` of guiFormSpecMenu.h, the sum of
`padding`, `offset` and the upper left corner of `AbsoluteRect`. -/
def getBasePos (m : GUIFormSpecMenu) : v2s32 :=
  { X := m.padding.X + m.offset.X + m.AbsoluteRect.UpperLeftCorner.X,
    Y := m.padding.Y + m.offset.Y + m.AbsoluteRect.UpperLeftCorner.Y }

/-- The statement `recalculateAbsolutePosition(false)`. -/
def GUIFormSpecMenu.recalculate (r : RenderEnv) (m : GUIFormSpecMenu) : GUIFormSpecMenu :=
  { m with
    AbsoluteRect := (r.recalculateAbsolutePosition m.DesiredRect).1,
    AbsoluteClippingRect := (r.recalculateAbsolutePosition m.DesiredRect).2 }

/-- Source function `GUIFormSpecMenu::parseSizeDirect(data, element)`: the
session and the menu, and the returned flag.  The deprecation note logged for
`invsize` is left out. -/
def parseSizeDirect (env : ParseEnv) (data : parserData) (m : GUIFormSpecMenu) (element : String) :
    (parserData × GUIFormSpecMenu) × Bool :=
  if element = "" then ((data, m), false)
  else
    let parts := split element '['
    if parts.length < 2 then ((data, m), false)
    else
      let type := trim (parts.getD 0 "")
      let description := trim (parts.getD 1 "")
      if type ≠ "size" ∧ type ≠ "invsize" then ((data, m), false)
      else (parseSize env data m description, true)

/-- Source function `GUIFormSpecMenu::parsePosition(data, element)`. -/
def parsePosition (data : parserData) (m : GUIFormSpecMenu) (element : String) :
    parserData × GUIFormSpecMenu :=
  let parts := split element ','
  if parts.length = 2 then
    ({ data with offset := { X := stof (parts.getD 0 ""), Y := stof (parts.getD 1 "") } }, m)
  else
    (data, m.err ("Invalid position element (" ++ toString parts.length ++ "): '" ++ element
      ++ "'"))

/-- Source function `GUIFormSpecMenu::parsePositionDirect(data, element)`. -/
def parsePositionDirect (data : parserData) (m : GUIFormSpecMenu) (element : String) :
    (parserData × GUIFormSpecMenu) × Bool :=
  if element = "" then ((data, m), false)
  else
    let parts := split element '['
    if parts.length ≠ 2 then ((data, m), false)
    else
      let type := trim (parts.getD 0 "")
      let description := trim (parts.getD 1 "")
      if type ≠ "position" then ((data, m), false)
      else (parsePosition data m description, true)

/-- Source function `GUIFormSpecMenu::parseAnchor(data, element)`. -/
def parseAnchor (data : parserData) (m : GUIFormSpecMenu) (element : String) :
    parserData × GUIFormSpecMenu :=
  let parts := split element ','
  if parts.length = 2 then
    ({ data with anchor := { X := stof (parts.getD 0 ""), Y := stof (parts.getD 1 "") } }, m)
  else
    (data, m.err ("Invalid anchor element (" ++ toString parts.length ++ "): '" ++ element
      ++ "'"))

/-- Source function `GUIFormSpecMenu::parseAnchorDirect(data, element)`. -/
def parseAnchorDirect (data : parserData) (m : GUIFormSpecMenu) (element : String) :
    (parserData × GUIFormSpecMenu) × Bool :=
  if element = "" then ((data, m), false)
  else
    let parts := split element '['
    if parts.length ≠ 2 then ((data, m), false)
    else
      let type := trim (parts.getD 0 "")
      let description := trim (parts.getD 1 "")
      if type ≠ "anchor" then ((data, m), false)
      else (parseAnchor data m description, true)

/-- A loop `for (; i < elements.size(); i++) if (!parse(&mydata, elements[i]))
break;` of `regenerateGui` over the elements from index `i` on: the state
afterwards and the elements that are left. -/
def parseDirects
    (parse : parserData → GUIFormSpecMenu → String → (parserData × GUIFormSpecMenu) × Bool) :
    List String → parserData × GUIFormSpecMenu → (parserData × GUIFormSpecMenu) × List String
  | [], s => (s, [])
  | element :: rest, s =>
    if (parse s.1 s.2 element).2 then parseDirects parse rest (parse s.1 s.2 element).1
    else ((parse s.1 s.2 element).1, element :: rest)

/-- The loop of `regenerateGui` over leading `no_prepend` elements: the flag
`enable_prepends` and the elements that are left. -/
def noPrependLoop : List String → Bool → Bool × List String
  | [], enable_prepends => (enable_prepends, [])
  | element :: rest, enable_prepends =>
    if element = "" then (enable_prepends, element :: rest)
    else if trim ((split element '[').getD 0 "") = "no_prepend" then noPrependLoop rest false
    else (enable_prepends, element :: rest)

/-- The loop of `regenerateGui` over leading `real_coordinates` elements: the
coordinate mode and the elements that are left. -/
def realCoordinatesLoop : List String → Bool → Bool × List String
  | [], real_coordinates => (real_coordinates, [])
  | element :: rest, real_coordinates =>
    if trim ((split element '[').getD 0 "") ≠ "real_coordinates" ∨
        (split element '[').length ≠ 2 then
      (real_coordinates, element :: rest)
    else realCoordinatesLoop rest (is_yes (trim ((split element '[').getD 1 "")))

/-- The focused field name `regenerateGui` keeps: `m_focused_element` when it
is set, replaced by the name of the field whose widget has the focus when that
widget is a child of the menu with an id above 257. -/
def regenerateGui_focus (r : RenderEnv) (m : GUIFormSpecMenu) : String :=
  let focused_fieldname := if m.m_focused_element ≠ "" then m.m_focused_element else ""
  match r.getFocus with
  | some focused_id =>
    if focused_id > 257 then
      match m.m_fields.find? fun field => field.fid == focused_id with
      | some field => field.fname
      | none => focused_fieldname
    else focused_fieldname
  | none => focused_fieldname

/-- The defaults `regenerateGui` sets after clearing the registries: the
background colours of the settings, the slot colours, the tooltip colours and
the slot border. -/
def regenerateGui_colors (r : RenderEnv) (m : GUIFormSpecMenu) : GUIFormSpecMenu :=
  { m with
    m_bgcolor := r.formspec_default_bg,
    m_fullscreen_bgcolor := r.formspec_fullscreen_bg,
    m_slotbg_n := SColor.argb 255 128 128 128,
    m_slotbg_h := SColor.argb 255 192 192 192,
    m_default_tooltip_bgcolor := SColor.argb 255 110 130 60,
    m_default_tooltip_color := SColor.argb 255 255 255 255,
    m_slotbordercolor := SColor.argb 200 0 0 0,
    m_slotborder := false }

/-- The head of the document in `regenerateGui`: the version directive, read
from the first element only, then the leading `size`, `position`, `anchor`,
`no_prepend` and `real_coordinates` elements, in that order.  The result is
the session, the menu, `enable_prepends` and the elements that are left for
`parseElement`. -/
def regenerateGui_head (env : ParseEnv) (mydata : parserData) (m : GUIFormSpecMenu) :
    (parserData × GUIFormSpecMenu) × Bool × List String :=
  let elements := split m.m_formspec_string ']'
  let v := parseVersionDirect m (elements.headD "")
  let m := if elements.isEmpty then m else v.1
  let elements := if !elements.isEmpty && v.2 then elements.tail else elements
  let mydata := { mydata with explicit_size := false }
  let s := parseDirects (parseSizeDirect env) elements (mydata, m)
  let s := parseDirects parsePositionDirect s.2 s.1
  let s := parseDirects parseAnchorDirect s.2 s.1
  let p := noPrependLoop s.2 true
  let rc := realCoordinatesLoop p.2 (decide (s.1.2.m_formspec_version ≥ 2))
  (({ s.1.1 with real_coordinates := rc.1 }, s.1.2), p.1, rc.2)

/-- The image size `use_imgsize` of `regenerateGui` on a desktop target, for
an explicit size.  In fixed-size mode it is 0.5555 inch times `gui_scaling`;
else 1/15 of the screen height times `gui_scaling`, scaled down to what fits
the form on the screen, but not below 0.3 inch times `gui_scaling`.  A grid
height of 0 makes `fity_imgsize` infinite, so the minimum ignores it. -/
def use_imgsize (r : RenderEnv) (mydata : parserData) (m : GUIFormSpecMenu) : ℚ :=
  let gui_scaling := r.gui_scaling
  let screen_dpi := f32 (r.getDisplayDensity * 96)
  if m.m_lock then f64 (f64 (f64 (5555 / 10000) * screen_dpi) * gui_scaling)
  else
    let prefer_imgsize : ℚ := f64 (((mydata.screensize.Y / 15 : Nat) : ℚ) * gui_scaling)
    let fitx_imgsize : ℚ :=
      f64 ((mydata.screensize.X : ℚ) / f64 ((5 / 4) * f64 (1 / 2 + mydata.invsize.X)))
    let fity_imgsize : ℚ :=
      f64 ((mydata.screensize.Y : ℚ) /
        f64 (f64 (15 / 13) * f64 (f64 (85 / 100) * mydata.invsize.Y)))
    let min_imgsize : ℚ := f64 (f64 (f64 (3 / 10) * screen_dpi) * gui_scaling)
    let fit : ℚ := if mydata.invsize.Y = 0 then fitx_imgsize else min fitx_imgsize fity_imgsize
    max min_imgsize (min prefer_imgsize fit)

/-- The layout step of `regenerateGui`: for an explicit size the offset of a
locked form, the image size and what is scaled with it, the size of the form
and `DesiredRect`; without one the button height of the default font and the
fallback rectangle.  Then the absolute position is recalculated and the base
position is taken. -/
def regenerateGui_layout (r : RenderEnv) (mydata : parserData) (m : GUIFormSpecMenu) :
    parserData × GUIFormSpecMenu :=
  let s : parserData × GUIFormSpecMenu :=
    if mydata.explicit_size then
      let current_screensize := r.getScreenSize
      let delta : v2u32 :=
        { X := if current_screensize.X > m.m_lockscreensize.X then
            subU32 current_screensize.X m.m_lockscreensize.X / 2 else 0,
          Y := if current_screensize.Y > m.m_lockscreensize.Y then
            subU32 current_screensize.Y m.m_lockscreensize.Y / 2 else 0 }
      let offset : v2s32 :=
        if m.m_lock then { X := wrapS32 delta.X, Y := wrapS32 delta.Y } else { X := 0, Y := 0 }
      let mydata := if m.m_lock then { mydata with screensize := m.m_lockscreensize } else mydata
      let use := use_imgsize r mydata m
      let imgsize : v2s32 := { X := truncS32 use, Y := truncS32 use }
      let spacing : v2f32 :=
        { X := f32 (f64 (f64 (use * 5) / 4)), Y := f32 (f64 (f64 (use * 15) / 13)) }
      let padding : v2s32 :=
        { X := truncS32 (f64 (f64 (use * 3) / 8)), Y := truncS32 (f64 (f64 (use * 3) / 8)) }
      let m_btn_height : Int :=
        truncS32 (f64 (f64 (f64 (use * 15) / 13) * f64 (35 / 100)))
      let size : v2s32 :=
        if mydata.real_coordinates then
          { X := truncS32 (f32 (mydata.invsize.X * f32 (imgsize.X : ℚ))),
            Y := truncS32 (f32 (mydata.invsize.Y * f32 (imgsize.Y : ℚ))) }
        else
          { X := truncS32 (f64 (f64 ((padding.X * 2 : Int) +
              f64 (spacing.X * f64 (mydata.invsize.X - 1))) + (imgsize.X : ℚ))),
            Y := truncS32 (f64 (f64 (f64 ((padding.Y * 2 : Int) +
              f64 (spacing.Y * f64 (mydata.invsize.Y - 1))) + (imgsize.Y : ℚ)) +
              f64 (f64 ((m_btn_height : ℚ) * 2) / 3))) }
      let rect : Rect :=
        { UpperLeftCorner :=
            { X := truncS32 (f32 (f32 (mydata.screensize.X : ℚ) * mydata.offset.X))
                - truncS32 (f32 (mydata.anchor.X * f32 (size.X : ℚ))) + offset.X,
              Y := truncS32 (f32 (f32 (mydata.screensize.Y : ℚ) * mydata.offset.Y))
                - truncS32 (f32 (mydata.anchor.Y * f32 (size.Y : ℚ))) + offset.Y },
          LowerRightCorner :=
            { X := truncS32 (f32 (f32 (mydata.screensize.X : ℚ) * mydata.offset.X))
                + truncS32 (f64 (f64 (1 - mydata.anchor.X) * f32 (size.X : ℚ))) + offset.X,
              Y := truncS32 (f32 (f32 (mydata.screensize.Y : ℚ) * mydata.offset.Y))
                + truncS32 (f64 (f64 (1 - mydata.anchor.Y) * f32 (size.Y : ℚ))) + offset.Y } }
      ({ mydata with size := size, rect := rect },
        { m with offset := offset, imgsize := imgsize, spacing := spacing, padding := padding,
                 m_btn_height := m_btn_height, DesiredRect := rect })
    else
      (mydata,
        { m with
          m_btn_height := truncS32 (f64 ((r.font_line_height : ℚ) * (875 / 1000))),
          DesiredRect :=
            { UpperLeftCorner :=
                { X := truncS32 (f32 (f32 (mydata.screensize.X : ℚ) * mydata.offset.X))
                    - truncS32 (f64 (mydata.anchor.X * 580)),
                  Y := truncS32 (f32 (f32 (mydata.screensize.Y : ℚ) * mydata.offset.Y))
                    - truncS32 (f64 (mydata.anchor.Y * 300)) },
              LowerRightCorner :=
                { X := truncS32 (f32 (f32 (mydata.screensize.X : ℚ) * mydata.offset.X))
                    + truncS32 (f64 (f64 (1 - mydata.anchor.X) * 580)),
                  Y := truncS32 (f32 (f32 (mydata.screensize.Y : ℚ) * mydata.offset.Y))
                    + truncS32 (f64 (f64 (1 - mydata.anchor.Y) * 300)) } } })
  let m := s.2.recalculate r
  ({ s.1 with basepos := getBasePos m }, m)

/-- The prepend step of `regenerateGui`: with prepends enabled, the coordinate
mode and the format version are backed up, the elements of the prepend string
are parsed from the legacy coordinate mode on, and both are restored.  The
value `none` is the undefined behaviour of `parseHyperText`. -/
def regenerateGui_prepend (env : ParseEnv) (enable_prepends : Bool) (mydata : parserData)
    (m : GUIFormSpecMenu) : Option (parserData × GUIFormSpecMenu) :=
  if enable_prepends then
    let rc_backup := mydata.real_coordinates
    let version_backup := m.m_formspec_version
    let mydata := { mydata with real_coordinates := false }
    let prepend_elements := split m.m_formspec_prepend ']'
    match parseElements env prepend_elements (mydata, m) with
    | none => none
    | some s =>
      some ({ s.1 with real_coordinates := rc_backup },
        { s.2 with m_formspec_version := version_backup })
  else some (mydata, m)

/-- The end of `regenerateGui`: an open container is reported, and when there
are fields but no explicit size the form is resized to hold the fields and the
"Proceed" button (the button itself is a widget). -/
def regenerateGui_finish (r : RenderEnv) (mydata : parserData) (m : GUIFormSpecMenu) :
    GUIFormSpecMenu :=
  let m :=
    if m.container_stack ≠ [] then
      m.err "Invalid formspec string: container was never closed!"
    else m
  if m.m_fields ≠ [] ∧ mydata.explicit_size = false then
    let rect : Rect :=
      { UpperLeftCorner :=
          { X := wrapS32 ((mydata.screensize.X / 2 : Nat) - 580 / 2),
            Y := wrapS32 ((mydata.screensize.Y / 2 : Nat) - 300 / 2) },
        LowerRightCorner :=
          { X := wrapS32 ((mydata.screensize.X / 2 : Nat) + 580 / 2),
            Y := wrapS32 ((mydata.screensize.Y / 2 : Nat) + 240 / 2
              + Int.ofNat (m.m_fields.length * 60)) } }
    { m with DesiredRect := rect }.recalculate r
  else m

/-- Source function `GUIFormSpecMenu::regenerateGui(screensize)`: the menu
afterwards; `none` is the undefined behaviour of `parseHyperText`.  The layout
session `mydata` is local to the call.  The widgets (removing the children,
the tooltip element, the fonts and the initial focus) are left out, and so is
the table state carried over to the new table widgets. -/
def regenerateGui (env : ParseEnv) (r : RenderEnv) (m : GUIFormSpecMenu) (screensize : v2u32) :
    Option GUIFormSpecMenu :=
  if screensize.X ≤ 0 ∨ screensize.Y ≤ 0 then some m
  else
    let mydata : parserData :=
      { focused_fieldname := regenerateGui_focus r m,
        size := { X := 100, Y := 100 },
        screensize := screensize,
        offset := { X := 1 / 2, Y := 1 / 2 },
        anchor := { X := 1 / 2, Y := 1 / 2 },
        basepos := getBasePos m }
    let m := regenerateGui_colors r (regenerateGui_reset m)
    let h := regenerateGui_head env mydata m
    let s := regenerateGui_layout r h.1.1 h.1.2
    let m := { s.2 with pos_offset := {} }
    match regenerateGui_prepend env h.2.1 s.1 m with
    | none => none
    | some s =>
      match parseElements env h.2.2 s with
      | none => none
      | some s => some (regenerateGui_finish r s.1 s.2)

/-! ## Example data for lists, submitting and regeneration -/

/-- An example menu with two declared lists, `main` and `craft`. -/
def exTwoLists : GUIFormSpecMenu :=
  { m_inventorylists :=
      [{ inventoryloc := "current_player", listname := "main", pos := {},
         geom := { X := 8, Y := 4 }, start_item_i := 0, real_coordinates := false },
       { inventoryloc := "current_player", listname := "craft", pos := {},
         geom := { X := 3, Y := 3 }, start_item_i := 0, real_coordinates := false }] }

/-- An example menu to submit: a button, a label that is not sent and a text
field, with the enter key pending. -/
def exSubmitMenu : GUIFormSpecMenu :=
  { m_fields :=
      [{ fname := "ok", flabel := "OK", fid := 258, send := true, ftype := .f_Button },
       { fname := "note", flabel := "Note", fid := 259, send := false },
       { fname := "name", fid := 260, send := true }],
    current_keys_pending := { key_enter := true } }

/-- Example widgets: a static text with id 259 and an edit box with id 260
holding `hello`. -/
def exWidgets : GuiEnv :=
  { getElementFromId := fun id =>
      if id = 259 then some { type := .EGUIET_STATIC_TEXT, text := "Note" }
      else if id = 260 then some { type := .EGUIET_EDIT_BOX, text := "hello" }
      else none,
    checkEvent := fun _ => "" }

/-- An example rendering environment: a screen of 800 by 600 pixels at density
1 and scaling 1, no focused element, and a menu placed in its parent as
desired. -/
def exRender : RenderEnv :=
  { getFocus := none,
    formspec_default_bg := SColor.argb 140 0 0 0,
    formspec_fullscreen_bg := SColor.argb 140 0 0 0,
    gui_scaling := 1,
    getDisplayDensity := 1,
    getScreenSize := { X := 800, Y := 600 },
    font_line_height := 16,
    recalculateAbsolutePosition := fun desired => (desired, desired) }

/-- A menu at format version 2 whose prepend switches to format version 3 and
sets a fullscreen background. -/
def exPrependMenu : GUIFormSpecMenu :=
  { m_formspec_version := 2,
    m_formspec_prepend := "formspec_version[3]bgcolor[#000;true]" }

/-! ## Example data for images, containers, slot crossing and stale swaps -/

/-- An example layout in a dialog whose absolute rectangle starts at pixel
(200, 100): slots of 40 pixels every 50 by 46 pixels, a padding of 15 pixels,
outside any container. -/
def exAbsLayout : GUIFormSpecMenu :=
  { imgsize := { X := 40, Y := 40 },
    spacing := { X := 50, Y := 46 },
    padding := { X := 15, Y := 15 },
    m_btn_height := 16,
    AbsoluteRect := { UpperLeftCorner := { X := 200, Y := 100 },
                      LowerRightCorner := { X := 700, Y := 500 } } }

/-- A session in real-coordinate mode with an explicit size. -/
def exRealSession : parserData := { explicit_size := true, real_coordinates := true }

/-- A menu whose document closes a container that was never opened, places an
image and then leaves two containers open. -/
def exUnclosed : GUIFormSpecMenu :=
  { m_formspec_string := "size[8,9]container_end[]image[0,0;1,1;a.png]container[2,3]container[1,1]" }

/-- The menu `exUnclosed` after a first regeneration at 800 by 600 pixels. -/
def exUnclosedOnce : GUIFormSpecMenu :=
  (regenerateGui exEnv exRender exUnclosed { X := 800, Y := 600 }).getD {}

/-- The menu `exUnclosed` after a second regeneration of the same document at
the same screen size. -/
def exUnclosedTwice : GUIFormSpecMenu :=
  (regenerateGui exEnv exRender exUnclosedOnce { X := 800, Y := 600 }).getD {}

/-- A menu showing `main` (4 slots in the row at y = 0) above `craft` (2 slots
in the row at y = 20), slots of 10x10 pixels every 12 pixels, in auto-place
mode with 5 of the 10 stone of slot 0 of `main` selected; the previous pointer
position is on slot 0 of `main` and the pointer is at pixel `(x, y)`. -/
def exCrossMenu (x y : Int) : GUIFormSpecMenu :=
  { m_inventorylists :=
      [{ inventoryloc := "current_player", listname := "main", pos := { X := 0, Y := 0 },
         geom := { X := 4, Y := 1 }, start_item_i := 0, real_coordinates := false },
       { inventoryloc := "current_player", listname := "craft", pos := { X := 0, Y := 20 },
         geom := { X := 2, Y := 1 }, start_item_i := 0, real_coordinates := false }],
    imgsize := { X := 10, Y := 10 },
    slot_x := fun _ k => 12 * k,
    slot_y := fun _ k => 12 * k,
    AbsoluteClippingRect := { UpperLeftCorner := { X := 0, Y := 0 },
                              LowerRightCorner := { X := 100, Y := 100 } },
    m_selected_item := some (exSlot 0),
    m_selected_amount := 5,
    m_auto_place := true,
    m_old_pointer := { X := 5, Y := 5 },
    m_pointer := { X := x, Y := y } }

/-- The `main` list after the swap of `exSwapped` was carried out and the 3
dirt were then taken out of slot 0: nothing, nothing, 10 stone and 95 stone. -/
def exMainEmptied : InventoryList :=
  { name := "main",
    items := [{}, {}, { name := "stone", count := 10 }, { name := "stone", count := 95 }] }

/-- The collaborators of `exCollab` with that list. -/
def exCollabEmptied : Collab :=
  { getInventory := fun loc =>
      if loc = "current_player" then some { addr := 1, lists := [exMainEmptied] } else none,
    addItem := addItemMax 99 }

/-- The menu `exSwapped` (a swap with 3 dirt pending) after a validation pass
that finds the selected slot 0 empty. -/
def exStale : GUIFormSpecMenu := (verifySelectedItem exCollabEmptied exSwapped).1

/-- The `main` list later on, with one gold in slot 0. -/
def exMainLater : InventoryList :=
  { name := "main",
    items := [{ name := "gold", count := 1 }, {}, { name := "stone", count := 10 },
              { name := "stone", count := 95 }] }

/-- The collaborators of `exCollab` with that list. -/
def exCollabLater : Collab :=
  { getInventory := fun loc =>
      if loc = "current_player" then some { addr := 1, lists := [exMainLater] } else none,
    addItem := addItemMax 99 }

/-- The menu `exStale` with the pointer on slot 0. -/
def exStaleOnGold : GUIFormSpecMenu := { exStale with m_pointer := { X := 5, Y := 5 } }

/-- The menu after a left click there: the one gold is selected. -/
def exStalePicked : GUIFormSpecMenu :=
  menuAfter (OnEvent exCollabLater exStaleOnGold leftDown) exMenu

/-- The menu `exStalePicked` with the pointer on slot 2 (the 10 stone). -/
def exStalePickedOnStone : GUIFormSpecMenu :=
  { exStalePicked with m_pointer := { X := 29, Y := 5 } }

/-- The example menu after a left click on the one gold of slot 0, with the
pointer then on slot 2: the same selection without a stale swap. -/
def exGoldPickedOnStone : GUIFormSpecMenu :=
  { menuAfter (OnEvent exCollabLater (exMenuAt 5) leftDown) exMenu with
    m_pointer := { X := 29, Y := 5 } }

/-- A turn of the wheel down. -/
def wheelDown : SMouseInput := { Event := .EMIE_MOUSE_WHEEL, WheelUp := false }

/-- The menu after a turn of the wheel down on the selected slot 0 of
`exSwappedBack`, while the inventory has not changed yet: one more item is
picked up, 4 are selected, the swap with 3 dirt is still pending. -/
def exSwapWheeled : GUIFormSpecMenu := menuAfter (OnEvent exCollab exSwappedBack wheelDown) exMenu

/-! ## The validation pass on a live slot -/

/-- The menu the validation pass leaves when the selected slot exists and
holds a non-empty stack (`m1` in `verifySelectedItem`). -/
def verifyKept (m : GUIFormSpecMenu) (stack : ItemStack) : GUIFormSpecMenu :=
  if !m.m_selected_swap.empty then
    if m.m_selected_swap.name == stack.name && m.m_selected_swap.count == stack.count then
      { m with m_selected_swap := {} }
    else m
  else { m with m_selected_amount := min m.m_selected_amount stack.count }

/-! ## Initial focus -/

/-- The element the menu hands to `Environment->setFocus`: the child at a
position of the list `children` (the copy without null pointers), or the menu
itself (`this`). -/
inductive FocusTarget
  | child (i : Nat)
  | self
  deriving DecidableEq, Repr

/-- A loop `for (it : children) if (p(it)) return it`, as the position of the
element it returns. -/
def firstChild (p : IGUIElement → Bool) : List IGUIElement → Option Nat
  | [] => none
  | it :: rest => if p it then some 0 else (firstChild p rest).map (· + 1)

/-- The loop of rule 4, from `children.getLast()` backwards to the front. -/
def lastChild (p : IGUIElement → Bool) (children : List IGUIElement) : Option Nat :=
  (firstChild p children.reverse).map fun j => children.length - 1 - j

/-- The test `it->getText()[0] == 0` on the NUL-terminated text of a widget. -/
def IGUIElement.textEmpty (it : IGUIElement) : Bool :=
  it.text.data.headD (Char.ofNat 0) == Char.ofNat 0

/-- Rule 1 of `setInitialFocus`: an edit box whose text is empty. -/
def isEmptyEditBox (it : IGUIElement) : Bool :=
  it.type == .EGUIET_EDIT_BOX && it.textEmpty

/-- Rule 2 of `setInitialFocus`: an edit box. -/
def isEditBox (it : IGUIElement) : Bool := it.type == .EGUIET_EDIT_BOX

/-- Rule 3 of `setInitialFocus`: `it->getTypeName() == std::string("GUITable")`. -/
def isTable (it : IGUIElement) : Bool := it.typeName == "GUITable"

/-- Rule 4 of `setInitialFocus`: a button. -/
def isButton (it : IGUIElement) : Bool := it.type == .EGUIET_BUTTON

/-- Rule 5 of `setInitialFocus`: neither static text nor a tab control. -/
def isFocusable (it : IGUIElement) : Bool :=
  it.type != .EGUIET_STATIC_TEXT && it.type != .EGUIET_TAB_CONTROL

/-- Source function `GUIFormSpecMenu::setInitialFocus()` on the list
`getChildren()` (`none` is a null pointer): the argument of the one
`Environment->setFocus` call it makes. -/
def setInitialFocus (getChildren : List (Option IGUIElement)) : FocusTarget :=
  let children := getChildren.filterMap id
  match firstChild isEmptyEditBox children with
  | some i => .child i
  | none =>
    match firstChild isEditBox children with
    | some i => .child i
    | none =>
      match firstChild isTable children with
      | some i => .child i
      | none =>
        match lastChild isButton children with
        | some i => .child i
        | none =>
          match firstChild isFocusable children with
          | some i => .child i
          | none => if children.isEmpty then .self else .child 0

/-- The element at position `i` of `l` satisfies `p` and no element before it does. -/
def FirstAt (p : IGUIElement → Bool) (l : List IGUIElement) (i : Nat) : Prop :=
  l[i]?.map p = some true ∧ ∀ j, j < i → l[j]?.map p = some false

/-- The element at position `i` of `l` satisfies `p` and no element after it does. -/
def LastAt (p : IGUIElement → Bool) (l : List IGUIElement) (i : Nat) : Prop :=
  l[i]?.map p = some true ∧ ∀ j, j < l.length → i < j → l[j]?.map p = some false

/-- Children for the focus rules: a label, a null pointer, two buttons, a
filled edit box and a table. -/
def exChildren : List (Option IGUIElement) :=
  [some { type := .EGUIET_STATIC_TEXT, text := "Name" },
   none,
   some { type := .EGUIET_BUTTON, text := "Cancel" },
   some { type := .EGUIET_EDIT_BOX, text := "abc" },
   some { type := .EGUIET_ELEMENT, typeName := "GUITable" },
   some { type := .EGUIET_BUTTON, text := "OK" }]

/-- Children none of which is focusable: a label and a tab header. -/
def exLabels : List (Option IGUIElement) :=
  [some { type := .EGUIET_STATIC_TEXT, text := "Name" },
   some { type := .EGUIET_TAB_CONTROL }]

/-! ## Hit test with the divisions watched -/

/-- The rectangle of slot `i` with the two divisions watched: `none` stands
for an evaluation of `i % s.geom.X` or `i / s.geom.X` with `s.geom.X == 0`. -/
def slotRectChecked (m : GUIFormSpecMenu) (s : ListDrawSpec) (i : Int) : Option Rect :=
  if s.geom.X = 0 then none else some (slotRect m s i)

/-- The inner loop of `getItemAtPos` over the values of `i` still to visit:
`some (some i)` is the `return` at slot `i`, `some none` a loop that ends
without a hit, `none` a division by zero. -/
def findSlotChecked (m : GUIFormSpecMenu) (p : v2s32) (s : ListDrawSpec) :
    List Nat → Option (Option Nat)
  | [] => some none
  | i :: rest =>
    match slotRectChecked m s (Int.ofNat i) with
    | none => none
    | some rect => if rect.isPointInside p then some (some i) else findSlotChecked m p s rest

/-- The outer loop of `getItemAtPos` with the divisions watched. -/
def getItemAtPosCheckedAux (m : GUIFormSpecMenu) (p : v2s32) : List ListDrawSpec → Option ItemSpec
  | [] => some { inventoryloc := undefinedLocation, listname := "", i := -1 }
  | s :: rest =>
    match findSlotChecked m p s (List.range (wrapS32 (s.geom.X * s.geom.Y)).toNat) with
    | none => none
    | some (some i) => some { inventoryloc := s.inventoryloc, listname := s.listname,
                              i := wrapS32 (Int.ofNat i + s.start_item_i) }
    | some none => getItemAtPosCheckedAux m p rest

/-- Source function `GUIFormSpecMenu::getItemAtPos(p)` with the divisions
watched: `none` when the run divides by zero. -/
def getItemAtPosChecked (m : GUIFormSpecMenu) (p : v2s32) : Option ItemSpec :=
  getItemAtPosCheckedAux m p m.m_inventorylists

/-- The lists as `parseList` stores them: column count, row count and start
index at least 0. -/
def ListsOk (lists : List ListDrawSpec) : Prop :=
  ∀ s ∈ lists, 0 ≤ s.geom.X ∧ 0 ≤ s.geom.Y ∧ 0 ≤ s.start_item_i

/-- A menu whose first list has no columns and whose second list, 2 by 2 from
index 3, lies under the point (17, 25). -/
def exZeroColumns : GUIFormSpecMenu :=
  { imgsize := { X := 10, Y := 10 },
    slot_x := fun _ k => 12 * k,
    slot_y := fun _ k => 12 * k,
    m_inventorylists :=
      [{ inventoryloc := "current_player", listname := "main",
         pos := { X := 0, Y := 0 }, geom := { X := 0, Y := 4 }, start_item_i := 0,
         real_coordinates := false },
       { inventoryloc := "current_player", listname := "craft",
         pos := { X := 0, Y := 20 }, geom := { X := 2, Y := 2 }, start_item_i := 3,
         real_coordinates := false }] }

/-! ## The amounts handed to the action chain -/

/-- What the `switch (updown)` of `OnEvent` has established when it hands the
four amounts to the action chain, `v` being the menu before the switch, `md`
the menu after it and `h` the hovered slot: a move or drop amount above 0
comes with the selection of `v` kept, a slot selected, and the amount at most
`m_selected_amount`; a shift-move amount above 0 is at most the count of the
hovered slot; a move or a craft amount above 0 comes with a valid hovered
slot. -/
def AmountsOk (v md : GUIFormSpecMenu) (h : Hovered) (a : Amounts) : Prop :=
  (0 < a.move_amount →
    md.m_selected_item = v.m_selected_item ∧ v.m_selected_item ≠ none ∧
    md.m_selected_amount = v.m_selected_amount ∧ a.move_amount ≤ v.m_selected_amount ∧
    h.s.isValid = true) ∧
  (0 < a.shift_move_amount → a.move_amount = 0 ∧ a.shift_move_amount ≤ h.s_count) ∧
  (0 < a.drop_amount →
    a.move_amount = 0 ∧ a.shift_move_amount = 0 ∧
    md.m_selected_item = v.m_selected_item ∧ v.m_selected_item ≠ none ∧
    md.m_selected_amount = v.m_selected_amount ∧ a.drop_amount ≤ v.m_selected_amount) ∧
  (0 < a.craft_amount →
    a.move_amount = 0 ∧ a.shift_move_amount = 0 ∧ a.drop_amount = 0 ∧ h.s.isValid = true)

/-- The menu `exPicked` with the pointer moved to slot 3 (95 stone). -/
def exPickedOnFull : GUIFormSpecMenu := { exPicked with m_pointer := { X := 41, Y := 5 } }

/-! ## Exact float values and list bounds -/

/-- The whole numbers of magnitude at most `2 ^ 24`: binary32 holds each of
them exactly. -/
def fits24 (n : Int) : Prop := -16777216 ≤ n ∧ n ≤ 16777216

/-- The partial sums of the legacy resolver are whole numbers that binary32
holds exactly: the pixel base `pad`, the base plus the container term `a`, and
that plus the position term `b`. -/
def LegacyExact (pad a b : Int) : Prop :=
  fits24 pad ∧ fits24 (pad + a) ∧ fits24 (pad + a + b)

/-- The lists whose slot arithmetic stays inside `s32`: neither
`s.geom.X * s.geom.Y` nor the largest index `s.start_item_i + X * Y - 1`
exceeds 2147483647. -/
def ListsInS32 (lists : List ListDrawSpec) : Prop :=
  ∀ s ∈ lists, s.geom.X * s.geom.Y ≤ 2147483647 ∧
    s.start_item_i + s.geom.X * s.geom.Y ≤ 2147483648

/-- A menu with the list `list[current_player;main;0,0;2,1;2147483647]`, which
`parseList` accepts: two slots from the largest `s32` index on. -/
def exIndexOverflow : GUIFormSpecMenu :=
  { imgsize := { X := 10, Y := 10 },
    slot_x := fun _ k => 12 * k,
    slot_y := fun _ k => 12 * k,
    m_inventorylists :=
      [{ inventoryloc := "current_player", listname := "main",
         pos := { X := 0, Y := 0 }, geom := { X := 2, Y := 1 }, start_item_i := 2147483647,
         real_coordinates := false }] }

/-- An inventory with the list `main` of the examples, a craft preview and a
craft result of 4 planks. -/
def exCraftReadyInventory : Inventory :=
  { addr := 3,
    lists := [exMain,
              { name := "craftpreview", items := [{ name := "wood", count := 1 }] },
              { name := "craftresult", items := [{ name := "planks", count := 4 }] }] }

/-- Example collaborators with that inventory. -/
def exCraftReadyCollab : Collab :=
  { getInventory := fun loc =>
      if loc = "current_player" then some exCraftReadyInventory else none,
    addItem := addItemMax 99 }

/-- A menu showing `main` (4 slots in the row at y = 0) and the craft preview
(1 slot at y = 20), with nothing selected and the pointer on slot 0 of
`main`. -/
def exCraftReadyMenu : GUIFormSpecMenu :=
  { m_inventorylists :=
      [{ inventoryloc := "current_player", listname := "main", pos := { X := 0, Y := 0 },
         geom := { X := 4, Y := 1 }, start_item_i := 0, real_coordinates := false },
       { inventoryloc := "current_player", listname := "craftpreview",
         pos := { X := 0, Y := 20 }, geom := { X := 1, Y := 1 }, start_item_i := 0,
         real_coordinates := false }],
    imgsize := { X := 10, Y := 10 },
    slot_x := fun _ k => 12 * k,
    slot_y := fun _ k => 12 * k,
    AbsoluteClippingRect := { UpperLeftCorner := { X := 0, Y := 0 },
                              LowerRightCorner := { X := 100, Y := 100 } },
    m_pointer := { X := 5, Y := 5 } }

/-- A press of the left button with shift held. -/
def shiftLeftDown : SMouseInput := { Event := .EMIE_LMOUSE_PRESSED_DOWN, Shift := true }

/-! ## Theorems -/

/-- A property of an overlay is the overlaid value when there is one. -/
theorem overlay_properties (s o : StyleSpec) (K : Property) :
    (s.overlay o).properties K = (o.properties K <|> s.properties K) := by
  unfold StyleSpec.overlay
  cases h : o.properties K <;> simp [h]

/-- The default `StyleSpec` sets nothing. -/
theorem default_properties (K : Property) : ({} : StyleSpec).properties K = none := rfl

/-! ### Frame lemmas: validation only touches the selection -/

/-- A menu is itself up to the selection members. -/
theorem sameFrame_refl (m : GUIFormSpecMenu) : m.sameFrame m := by
  cases m; rfl

/-- Changes of the selection members compose. -/
theorem sameFrame_trans {a b d : GUIFormSpecMenu} (h1 : a.sameFrame b) (h2 : b.sameFrame d) :
    a.sameFrame d := by
  unfold GUIFormSpecMenu.sameFrame at *
  rw [h2, h1]

/-- The validation pass changes nothing but the four selection members. -/
theorem verifySelectedItem_frame (c : Collab) (m : GUIFormSpecMenu) :
    m.sameFrame (verifySelectedItem c m).1 := by
  cases m
  unfold GUIFormSpecMenu.sameFrame verifySelectedItem clearInvalidSelection
  dsimp only
  repeat' (first | rfl | split)

/-- Grabbing the craft result changes nothing but the selection members. -/
theorem grabCraftResult_frame (c : Collab) (m : GUIFormSpecMenu) :
    m.sameFrame (grabCraftResult c m) := by
  cases m
  unfold GUIFormSpecMenu.sameFrame grabCraftResult
  dsimp only
  repeat' (first | rfl | split)

/-- Keeping the whole craft result changes nothing but the selection members. -/
theorem keepCraftResult_frame (c : Collab) (m : GUIFormSpecMenu) :
    m.sameFrame (keepCraftResult c m) := by
  unfold keepCraftResult
  split
  · split
    · have h3 := verifySelectedItem_frame c m
      generalize (verifySelectedItem c m).2.count = k
      generalize (verifySelectedItem c m).1 = m3 at h3 ⊢
      unfold GUIFormSpecMenu.sameFrame at h3 ⊢
      rw [h3]
    · exact sameFrame_refl _
  · exact sameFrame_refl _

/-- The whole of `updateSelectedItem` changes nothing but the selection members. -/
theorem updateSelectedItem_frame (c : Collab) (m : GUIFormSpecMenu) :
    m.sameFrame (updateSelectedItem c m) :=
  sameFrame_trans (sameFrame_trans (verifySelectedItem_frame c m) (grabCraftResult_frame c _))
    (keepCraftResult_frame c _)

/-- The hit test reads the slot size and the slot offsets only. -/
theorem getItemAtPosAux_congr {m n : GUIFormSpecMenu} (h1 : n.imgsize = m.imgsize)
    (h2 : n.slot_x = m.slot_x) (h3 : n.slot_y = m.slot_y) (p : v2s32)
    (l : List ListDrawSpec) : getItemAtPosAux n p l = getItemAtPosAux m p l := by
  induction l with
  | nil => rfl
  | cons s rest ih =>
    unfold getItemAtPosAux slotRect
    rw [ih, h1, h2, h3]

/-- The hit test reads none of the selection members. -/
theorem getItemAtPos_frame {m n : GUIFormSpecMenu} (h : m.sameFrame n) (p : v2s32) :
    getItemAtPos n p = getItemAtPos m p := by
  unfold GUIFormSpecMenu.sameFrame at h
  unfold getItemAtPos
  have hl : n.m_inventorylists = m.m_inventorylists := by rw [h]
  rw [hl]
  apply getItemAtPosAux_congr <;> rw [h]

/-- The validation pass does not move the hovered slot. -/
theorem hoveredSlot_update (c : Collab) (m : GUIFormSpecMenu) :
    hoveredSlot c (updateSelectedItem c m) = hoveredSlot c m := by
  have h := updateSelectedItem_frame c m
  unfold hoveredSlot
  rw [getItemAtPos_frame h]
  unfold GUIFormSpecMenu.sameFrame at h
  rw [h]

/-! ### What validation establishes -/

/-- A hovered slot that stays valid exists in the inventory, and the existence
checks return it with its inventory, list and count. -/
theorem resolveHovered_valid (c : Collab) (s : ItemSpec)
    (hv : (resolveHovered c s).s.isValid = true) :
    ∃ inv list, c.getInventory s.inventoryloc = some inv ∧
      inv.getList s.listname = some list ∧ toU32 s.i < list.getSize ∧
      (resolveHovered c s).s = s ∧ (resolveHovered c s).inv_s = some inv ∧
      (resolveHovered c s).list_s = some list ∧
      (resolveHovered c s).s_count = (list.getItem (toU32 s.i)).count := by
  unfold resolveHovered at hv ⊢
  split at hv
  · rename_i h1
    simp only [h1, if_true]
    split at hv
    · simp [ItemSpec.isValid] at hv
    · split at hv
      · simp [ItemSpec.isValid] at hv
      · split at hv
        · simp [ItemSpec.isValid] at hv
        · rename_i inv hinv _ list hlist hlt
          refine ⟨inv, list, hinv, hlist, by omega, ?_⟩
          simp [hinv, hlist, hlt]
  · rename_i h1
    simp [h1] at hv

/-- After `verifySelectedItem` a selected slot exists and holds a non-empty
stack. -/
theorem verifySelectedItem_live (c : Collab) (m : GUIFormSpecMenu) :
    SelectionLive c (verifySelectedItem c m).1 := by
  intro sel hsel
  unfold verifySelectedItem clearInvalidSelection at hsel
  split at hsel
  · rename_i h0; rw [h0] at hsel; cases hsel
  · rename_i sel0 h0
    split at hsel
    · rename_i hvalid
      split at hsel
      · rename_i inv hinv
        split at hsel
        · rename_i list hlist
          split at hsel
          · rename_i hlt
            dsimp only at hsel
            split at hsel
            · rename_i hne
              have : sel = sel0 := by
                split at hsel
                · split at hsel <;> simp_all
                · simp_all
              subst this
              refine ⟨hvalid, inv, list, hinv, hlist, hlt, ?_⟩
              simpa [ItemStack.empty] using hne
            · cases hsel
          · cases hsel
        · cases hsel
      · cases hsel
    · cases hsel

/-- Either `verifySelectedItem` leaves nothing selected and returns the empty
stack, or it leaves a slot selected and returns a non-empty stack. -/
theorem verifySelectedItem_stack (c : Collab) (m : GUIFormSpecMenu) :
    ((verifySelectedItem c m).1.m_selected_item = none ∧ (verifySelectedItem c m).2 = {} ∧
      ((verifySelectedItem c m).1.m_selected_amount = 0 ∨ m.m_selected_item = none)) ∨
    ((verifySelectedItem c m).1.m_selected_item ≠ none ∧ (verifySelectedItem c m).2.count ≠ 0) := by
  unfold verifySelectedItem clearInvalidSelection
  split
  · rename_i h0; left; simp [h0]
  · dsimp only
    repeat' split
    all_goals first
      | (left; refine ⟨rfl, rfl, Or.inl rfl⟩)
      | (right; simp_all [ItemStack.empty])

/-- The slot found by the craft-result scan exists and holds the non-empty stack
whose count is returned. -/
theorem findCraftResult_live (c : Collab) (l : List ListDrawSpec) (sel : ItemSpec) (cnt : Nat)
    (h : findCraftResult c l = some (sel, cnt)) :
    sel.isValid = true ∧ cnt ≠ 0 ∧ ∃ inv list, c.getInventory sel.inventoryloc = some inv ∧
      inv.getList sel.listname = some list ∧ toU32 sel.i < list.getSize ∧
      (list.getItem (toU32 sel.i)).count ≠ 0 := by
  induction l with
  | nil => simp [findCraftResult] at h
  | cons s rest ih =>
    unfold findCraftResult at h
    split at h
    · exact ih h
    · split at h
      · exact ih h
      · rename_i inv hinv
        split at h
        · exact ih h
        · rename_i list hlist
          split at h
          · exact ih h
          · split at h
            · exact ih h
            · rename_i hsz hne
              simp only [Option.some.injEq, Prod.mk.injEq] at h
              obtain ⟨rfl, rfl⟩ := h
              have hsz' : list.getSize ≠ 0 := by simpa using hsz
              have hne' : (list.getItem 0).count ≠ 0 := by simpa [ItemStack.empty] using hne
              refine ⟨by simp [ItemSpec.isValid], hne', inv, list, hinv, hlist, ?_, ?_⟩
              · simp only [toU32]; omega
              · simpa [toU32] using hne'

/-- Grabbing the craft result keeps the selection live. -/
theorem grabCraftResult_live (c : Collab) (m : GUIFormSpecMenu) (h : SelectionLive c m) :
    SelectionLive c (grabCraftResult c m) := by
  unfold grabCraftResult
  split
  · exact h
  · split
    · rename_i sel cnt hf
      intro s hs
      simp only [Option.some.injEq] at hs
      subst hs
      obtain ⟨h1, _, h3⟩ := findCraftResult_live c _ _ _ hf
      exact ⟨h1, h3⟩
    · exact h

/-- Keeping the whole craft result keeps the selection live. -/
theorem keepCraftResult_live (c : Collab) (m : GUIFormSpecMenu) (h : SelectionLive c m) :
    SelectionLive c (keepCraftResult c m) := by
  unfold keepCraftResult
  split
  · split
    · intro s hs
      exact verifySelectedItem_live c m s hs
    · exact h
  · exact h

/-- After `updateSelectedItem` a selected slot exists and holds a non-empty
stack. -/
theorem updateSelectedItem_live (c : Collab) (m : GUIFormSpecMenu) :
    SelectionLive c (updateSelectedItem c m) :=
  keepCraftResult_live c _ (grabCraftResult_live c _ (verifySelectedItem_live c m))

/-- With a live selection both `sanity_check`s at the head of the mouse branch
pass. -/
theorem selectedInventory_live (c : Collab) (m : GUIFormSpecMenu) (h : SelectionLive c m)
    (sel : ItemSpec) (hs : m.m_selected_item = some sel) (inv : Inventory)
    (hinv : c.getInventory sel.inventoryloc = some inv) :
    selectedInventory c m = some (some inv) := by
  obtain ⟨_, inv', list, h1, h2, _, _⟩ := h sel hs
  rw [hinv] at h1
  cases h1
  unfold selectedInventory
  simp [hs, hinv, h2]

/-! ### Unfolding the event pipeline -/

/-- Every button-down event enters the mouse branch. -/
theorem handlesMouse_of_down (m : GUIFormSpecMenu) (ev : SMouseInput)
    (hdown : (buttonOf ev).2 = .BET_DOWN) : handlesMouse m ev = true := by
  unfold handlesMouse
  cases hE : ev.Event <;> simp_all [buttonOf]

/-- The button of a button-down event is left, right, middle, wheel-up or wheel-
down. -/
theorem button_of_down (ev : SMouseInput) (hdown : (buttonOf ev).2 = .BET_DOWN) :
    (buttonOf ev).1 = .BET_LEFT ∨ (buttonOf ev).1 = .BET_RIGHT ∨
      (buttonOf ev).1 = .BET_MIDDLE ∨ (buttonOf ev).1 = .BET_WHEEL_UP ∨
      (buttonOf ev).1 = .BET_WHEEL_DOWN := by
  cases hE : ev.Event <;> simp_all [buttonOf]

/-- The u32 subtraction does not wrap when the subtrahend is not larger. -/
theorem subU32_of_le {a b : Nat} (h : b ≤ a) : subU32 a b = a - b := by
  simp [subU32, h]



/-- Move resolution once its assertions hold: the three-way branch on the
leftover of `addItem`. -/
theorem moveResolution_eq (c : Collab) (m : GUIFormSpecMenu) (h : Hovered) (inv inv2 : Inventory)
    (req : Nat) (sel : ItemSpec) (list_from list_to : InventoryList)
    (stack_from stack_to : ItemStack)
    (hsel : m.m_selected_item = some sel) (hsv : sel.isValid = true)
    (hvalid : h.s.isValid = true) (hinvs : h.inv_s = some inv2)
    (hfrom : inv.getList sel.listname = some list_from) (hto : h.list_s = some list_to)
    (hsf : list_from.getItem (toU32 sel.i) = stack_from)
    (hst : list_to.getItem (toU32 h.s.i) = stack_to) :
    moveResolution c m h (some inv) req =
      if ((c.addItem stack_to { stack_from with count := min req stack_from.count }).2.count
            == min req stack_from.count &&
          (c.addItem stack_to { stack_from with count := min req stack_from.count }).2.name
            == stack_from.name) then
        if m.m_selected_swap.empty then
          some ({ m with
                  m_selected_amount :=
                    (c.addItem stack_to
                      { stack_from with count := min req stack_from.count }).1.count,
                  m_selected_dragging := false,
                  m_selected_swap :=
                    (c.addItem stack_to
                      { stack_from with count := min req stack_from.count }).1 },
                [moveAction sel h.s (min req stack_from.count)])
        else some (m, [])
      else if (c.addItem stack_to
            { stack_from with count := min req stack_from.count }).2.empty then
        some ({ m with m_selected_amount :=
                  subU32 m.m_selected_amount (min req stack_from.count) },
              [moveAction sel h.s (min req stack_from.count)])
      else
        some ({ m with m_selected_amount :=
                  (subU32 m.m_selected_amount
                    (subU32 (min req stack_from.count)
                      (c.addItem stack_to
                        { stack_from with count := min req stack_from.count }).2.count)) },
              [moveAction sel h.s
                (subU32 (min req stack_from.count)
                  (c.addItem stack_to
                    { stack_from with count := min req stack_from.count }).2.count)]) := by
  unfold moveResolution moveAction
  simp only [hsel, hsv, hvalid, hinvs, hfrom, hto, hsf, hst, Bool.and_self, if_true]


/-- The mouse branch as the composition of validation, the `switch (updown)`,
the action chain and the closing deselect step. -/
theorem OnEvent_eq (c : Collab) (m : GUIFormSpecMenu) (ev : SMouseInput)
    (inv_sel : Option Inventory) (md mr : GUIFormSpecMenu) (amt : Amounts)
    (acts : List InventoryAction)
    (hM : handlesMouse m ev = true)
    (hsi : selectedInventory c (updateSelectedItem c m) = some inv_sel)
    (hd : dispatch (updateSelectedItem c m) (hoveredSlot c m) inv_sel ev = some (md, amt))
    (hs : sendAction c md (hoveredSlot c m) inv_sel amt = some (mr, acts)) :
    OnEvent c m ev = some ({ deselectOnZero mr with m_old_pointer := mr.m_pointer }, acts) := by
  unfold OnEvent
  simp only [hM, if_true, hoveredSlot_update, hsi, hd, hs]

/-- The closing deselect step never changes the amount. -/
theorem deselectOnZero_amount (m : GUIFormSpecMenu) :
    (deselectOnZero m).m_selected_amount = m.m_selected_amount := by
  unfold deselectOnZero
  split
  · rename_i h; simp [h]
  · rfl

/-- With amount 0 the closing deselect step clears the slot, the pending swap
and the dragging flag. -/
theorem deselectOnZero_of_zero (m : GUIFormSpecMenu) (h : m.m_selected_amount = 0) :
    (deselectOnZero m).m_selected_item = none ∧ (deselectOnZero m).m_selected_swap = {} ∧
      (deselectOnZero m).m_selected_dragging = false := by
  unfold deselectOnZero
  simp [h]

/-- Members outside the selection are equal in menus that differ in the
selection only. -/
theorem sameFrame_layout {m n : GUIFormSpecMenu} (h : m.sameFrame n) :
    n.AbsoluteClippingRect = m.AbsoluteClippingRect ∧ n.m_pointer = m.m_pointer ∧
      n.m_inventory_rings = m.m_inventory_rings ∧ n.m_auto_place = m.m_auto_place := by
  unfold GUIFormSpecMenu.sameFrame at h
  rw [h]
  exact ⟨rfl, rfl, rfl, rfl⟩

/-- The `switch (updown)` on a button-down event is the `BET_DOWN` case. -/
theorem dispatch_down (v : GUIFormSpecMenu) (h : Hovered) (inv_sel : Option Inventory)
    (ev : SMouseInput) (hdown : (buttonOf ev).2 = .BET_DOWN) :
    dispatch v h inv_sel ev =
      onButtonDown v h (identicalSlot v inv_sel h) (buttonOf ev).1 ev.Shift := by
  unfold dispatch; rw [hdown]

/-- A hovered slot identical to the selected one is valid and has its list name. -/
theorem identicalSlot_valid (v : GUIFormSpecMenu) (inv_sel : Option Inventory) (h : Hovered)
    (hid : identicalSlot v inv_sel h = true) :
    h.s.isValid = true ∧ ∃ sel, v.m_selected_item = some sel ∧ sel.listname = h.s.listname := by
  unfold identicalSlot at hid
  cases hv : v.m_selected_item with
  | none => rw [hv] at hid; cases hid
  | some sel =>
    rw [hv] at hid
    simp only [Bool.and_eq_true, beq_iff_eq] at hid
    exact ⟨hid.1.1.1, sel, rfl, hid.1.2⟩

/-- With all four amounts 0 the action chain does nothing. -/
theorem sendAction_none (c : Collab) (m : GUIFormSpecMenu) (h : Hovered)
    (inv_sel : Option Inventory) : sendAction c m h inv_sel {} = some (m, []) := by
  simp [sendAction]

/-- The three outcomes of `verifySelectedItem`: nothing was selected; the
selection was cleared; the selection was kept, with the amount clamped when
no swap is pending and the pending swap ended when it matches the live
stack. -/
theorem verifySelectedItem_cases (c : Collab) (m : GUIFormSpecMenu) :
    (m.m_selected_item = none ∧ verifySelectedItem c m = (m, {})) ∨
    (m.m_selected_item ≠ none ∧
      (verifySelectedItem c m).1.m_selected_item = none ∧
      (verifySelectedItem c m).1.m_selected_amount = 0 ∧
      (verifySelectedItem c m).1.m_selected_dragging = false ∧
      (verifySelectedItem c m).2 = {}) ∨
    (∃ sel inv list, m.m_selected_item = some sel ∧ sel.isValid = true ∧
      c.getInventory sel.inventoryloc = some inv ∧ inv.getList sel.listname = some list ∧
      toU32 sel.i < list.getSize ∧ (list.getItem (toU32 sel.i)).count ≠ 0 ∧
      (verifySelectedItem c m).2 = list.getItem (toU32 sel.i) ∧
      (verifySelectedItem c m).1.m_selected_item = some sel ∧
      (verifySelectedItem c m).1.m_selected_dragging = m.m_selected_dragging ∧
      ((m.m_selected_swap.empty = true ∧
          (verifySelectedItem c m).1.m_selected_amount =
            min m.m_selected_amount (list.getItem (toU32 sel.i)).count ∧
          (verifySelectedItem c m).1.m_selected_swap = m.m_selected_swap) ∨
        (m.m_selected_swap.empty = false ∧
          (verifySelectedItem c m).1.m_selected_amount = m.m_selected_amount ∧
          (verifySelectedItem c m).1.m_selected_swap =
            (if m.m_selected_swap.name = (list.getItem (toU32 sel.i)).name ∧
                m.m_selected_swap.count = (list.getItem (toU32 sel.i)).count
              then {} else m.m_selected_swap)))) := by
  cases hsel : m.m_selected_item with
  | none =>
    left
    exact ⟨rfl, by unfold verifySelectedItem; simp [hsel]⟩
  | some sel =>
    right
    have hclear : ∀ x : GUIFormSpecMenu × ItemStack,
        x = clearInvalidSelection m → (some sel ≠ none ∧ x.1.m_selected_item = none ∧
        x.1.m_selected_amount = 0 ∧ x.1.m_selected_dragging = false ∧ x.2 = {}) := by
      intro x hx; subst hx
      exact ⟨by simp, rfl, rfl, rfl, rfl⟩
    by_cases hv : sel.isValid = true
    · cases hi : c.getInventory sel.inventoryloc with
      | none =>
        left
        apply hclear
        unfold verifySelectedItem
        simp [hsel, hv, hi]
      | some inv =>
        cases hl : inv.getList sel.listname with
        | none =>
          left
          apply hclear
          unfold verifySelectedItem
          simp [hsel, hv, hi, hl]
        | some list =>
          by_cases hlt : toU32 sel.i < list.getSize
          · by_cases hemp : (list.getItem (toU32 sel.i)).count = 0
            · left
              refine ⟨by simp, ?_⟩
              unfold verifySelectedItem clearInvalidSelection
              simp only [hsel, hv, hi, hl, hlt, if_true, ItemStack.empty, hemp]
              by_cases hsw : m.m_selected_swap.count = 0
              · simp [hsw]
              · by_cases hmatch : m.m_selected_swap.name = (list.getItem (toU32 sel.i)).name
                · simp [hsw, hmatch]
                · simp [hsw, hmatch]
            · right
              refine ⟨sel, inv, list, rfl, hv, hi, hl, hlt, hemp, ?_⟩
              unfold verifySelectedItem
              simp only [hsel, hv, hi, hl, hlt, if_true, ItemStack.empty]
              by_cases hsw : m.m_selected_swap.count = 0
              · simp [hsw, hemp]
              · by_cases hmatch : m.m_selected_swap.name = (list.getItem (toU32 sel.i)).name ∧
                    m.m_selected_swap.count = (list.getItem (toU32 sel.i)).count
                · simp [hmatch.1, hmatch.2, hsw, hemp]
                · have : (m.m_selected_swap.name == (list.getItem (toU32 sel.i)).name &&
                      m.m_selected_swap.count == (list.getItem (toU32 sel.i)).count) = false := by
                    simpa using hmatch
                  simp [this, hmatch, hsw, hemp, hsel]
          · left
            apply hclear
            unfold verifySelectedItem
            simp [hsel, hv, hi, hl, hlt]
    · left
      apply hclear
      unfold verifySelectedItem
      simp [hsel, hv]

/-- The validation pass keeps "amount 0 implies nothing selected". -/
theorem verifySelectedItem_inv (c : Collab) (m : GUIFormSpecMenu)
    (h : m.m_selected_amount = 0 → m.m_selected_item = none) :
    (verifySelectedItem c m).1.m_selected_amount = 0 →
      (verifySelectedItem c m).1.m_selected_item = none := by
  intro h0
  rcases verifySelectedItem_cases c m with ⟨h1, h2⟩ | ⟨_, h2, _⟩ |
    ⟨sel, inv, list, hs, _, _, _, _, hc, _, _, _, ⟨_, ha, _⟩ | ⟨_, ha, _⟩⟩
  · rw [h2]; exact h1
  · exact h2
  · rw [ha] at h0
    have : m.m_selected_amount = 0 := by
      rcases Nat.le_total m.m_selected_amount (list.getItem (toU32 sel.i)).count with hle | hle
      · rwa [min_eq_left hle] at h0
      · rw [min_eq_right hle] at h0; exact absurd h0 hc
    rw [h this] at hs; cases hs
  · rw [ha] at h0
    rw [h h0] at hs; cases hs

/-- Grabbing the craft result keeps "amount 0 implies nothing selected". -/
theorem grabCraftResult_inv (c : Collab) (m : GUIFormSpecMenu)
    (h : m.m_selected_amount = 0 → m.m_selected_item = none) :
    (grabCraftResult c m).m_selected_amount = 0 →
      (grabCraftResult c m).m_selected_item = none := by
  unfold grabCraftResult
  split
  · exact h
  · split
    · rename_i sel cnt hf
      intro h0
      exact absurd h0 (findCraftResult_live c _ _ _ hf).2.1
    · exact h

/-- Keeping the whole craft result keeps "amount 0 implies nothing selected". -/
theorem keepCraftResult_inv (c : Collab) (m : GUIFormSpecMenu)
    (h : m.m_selected_amount = 0 → m.m_selected_item = none) :
    (keepCraftResult c m).m_selected_amount = 0 →
      (keepCraftResult c m).m_selected_item = none := by
  unfold keepCraftResult
  split
  · split
    · intro h0
      simp only at h0 ⊢
      rcases verifySelectedItem_stack c m with ⟨h1, _, _⟩ | ⟨_, h2⟩
      · exact h1
      · exact absurd h0 h2
    · exact h
  · exact h

/-- The whole of `updateSelectedItem` keeps "amount 0 implies nothing selected". -/
theorem updateSelectedItem_inv (c : Collab) (m : GUIFormSpecMenu)
    (h : m.m_selected_amount = 0 → m.m_selected_item = none) :
    (updateSelectedItem c m).m_selected_amount = 0 →
      (updateSelectedItem c m).m_selected_item = none :=
  keepCraftResult_inv c _ (grabCraftResult_inv c _ (verifySelectedItem_inv c m h))

/-- Every mouse event keeps "amount 0 implies nothing selected". -/
theorem OnEvent_inv (c : Collab) (m n : GUIFormSpecMenu) (ev : SMouseInput)
    (acts : List InventoryAction)
    (h : m.m_selected_amount = 0 → m.m_selected_item = none)
    (he : OnEvent c m ev = some (n, acts)) :
    n.m_selected_amount = 0 → n.m_selected_item = none := by
  unfold OnEvent at he
  split at he
  · dsimp only at he
    split at he
    · cases he
    · split at he
      · cases he
      · split at he
        · cases he
        · rename_i mr acts' _
          simp only [Option.some.injEq, Prod.mk.injEq] at he
          obtain ⟨rfl, _⟩ := he
          intro h0
          simp only [deselectOnZero_amount] at h0
          exact (deselectOnZero_of_zero mr h0).1
  · simp only [Option.some.injEq, Prod.mk.injEq] at he
    obtain ⟨rfl, _⟩ := he
    exact h

/-- When nothing is selected and no craft result can be grabbed, the
validation pass at the head of `OnEvent` leaves the menu as it is. -/
theorem updateSelectedItem_none (c : Collab) (m : GUIFormSpecMenu)
    (h1 : m.m_selected_item = none) (h2 : findCraftResult c m.m_inventorylists = none) :
    updateSelectedItem c m = m := by
  have hv : verifySelectedItem c m = (m, {}) := by
    unfold verifySelectedItem; simp [h1]
  unfold updateSelectedItem
  rw [hv]
  have hg : grabCraftResult c m = m := by
    unfold grabCraftResult; simp [h1, h2]
  rw [hg]
  unfold keepCraftResult
  simp [h1]

/-! ### Style cascade -/

/-- Overlaying the entry found in a cascade, if any, onto `r`. -/
theorem overlay_lookup (r : StyleSpec) (o : Option StyleSpec) (K : Property) :
    (match o with
      | some s => r.overlay s
      | none => r).properties K = (o.bind (·.properties K) <|> r.properties K) := by
  cases o with
  | none => simp
  | some s => simp [overlay_properties]

/-- C1: `getStyleForElement(T, N, P)` gives a property K the value of the
by-name entry for N if that entry sets K, otherwise the value of the by-type
entry for T if it sets K, otherwise the value of the by-type entry for a
non-empty P if it sets K, otherwise K is unset; and after
`style_type[button;bgcolor=#fff]`, `style[mybtn;bgcolor=#000]` the pair
(button, mybtn) resolves bgcolor to #000 and (button, other) to #fff. -/
theorem getStyleForElement_cascade :
    (∀ (m : GUIFormSpecMenu) (T N P : String) (K : Property),
      (getStyleForElement m T N P).properties K =
        ((m.theme_by_name N).bind (·.properties K) <|>
          ((m.theme_by_type T).bind (·.properties K) <|>
            (if P ≠ "" then (m.theme_by_type P).bind (·.properties K) else none)))) ∧
    (getStyleForElement styleExample "button" "mybtn" "").properties Property.BGCOLOR
      = some "#000" ∧
    (getStyleForElement styleExample "button" "other" "").properties Property.BGCOLOR
      = some "#fff" := by
  refine ⟨?_, ?_, ?_⟩
  · intro m T N P K
    unfold getStyleForElement
    simp only [overlay_lookup, default_properties]
    by_cases hP : P = ""
    · simp [hP, default_properties]
    · simp [hP, overlay_lookup, default_properties]
  · decide
  · decide

/-! ### Pointer interaction and validation -/

/-- C2, with the condition it needs: a button-down event without shift that
arrives with nothing selected and with no craft result to grab (no
`craftpreview` list of the menu whose inventory has a non-empty slot 0 in its
`craftresult` list), on a valid slot outside a `craftpreview` list that holds
`cnt > 0` items: for left, right, middle and wheel-down the event selects the
hovered slot with amount `(cnt+1)/2` (right), `min cnt 10` (middle), 1
(wheel-down) or `cnt` (left), dragging is set exactly when the button is not
wheel-down, auto-place is off, and no action is emitted; a wheel-up event
selects nothing and emits nothing. -/
theorem OnEvent_down_select (c : Collab) (m : GUIFormSpecMenu) (ev : SMouseInput) (cnt : Nat)
    (hdown : (buttonOf ev).2 = .BET_DOWN)
    (hshift : ev.Shift = false)
    (hsel : m.m_selected_item = none)
    (hgrab : findCraftResult c m.m_inventorylists = none)
    (hvalid : (hoveredSlot c m).s.isValid = true)
    (hcraft : (hoveredSlot c m).s.listname ≠ "craftpreview")
    (hcnt : (hoveredSlot c m).s_count = cnt) (hpos : 0 < cnt) :
    ∃ m', OnEvent c m ev = some (m', []) ∧
      (if (buttonOf ev).1 = .BET_WHEEL_UP then m'.m_selected_item = none
       else m'.m_selected_item = some (hoveredSlot c m).s ∧
            m'.m_selected_amount =
              (match (buttonOf ev).1 with
               | .BET_RIGHT => (cnt + 1) / 2
               | .BET_MIDDLE => min cnt 10
               | .BET_WHEEL_DOWN => 1
               | _ => cnt) ∧
            m'.m_selected_dragging = decide ((buttonOf ev).1 ≠ .BET_WHEEL_DOWN) ∧
            m'.m_auto_place = false) := by
  have hnone : (updateSelectedItem c m).m_selected_item = none := by
    rw [updateSelectedItem_none c m hsel hgrab]
    exact hsel
  have hM := handlesMouse_of_down m ev hdown
  unfold OnEvent
  simp only [hM, if_true, hoveredSlot_update]
  generalize hv : updateSelectedItem c m = v at hnone ⊢
  generalize hh : hoveredSlot c m = h at hvalid hcraft hcnt ⊢
  have hsel : selectedInventory c v = some none := by
    unfold selectedInventory; rw [hnone]
  simp only [hsel, dispatch, hdown, identicalSlot, hnone]
  have hb : (buttonOf ev).1 = .BET_LEFT ∨ (buttonOf ev).1 = .BET_RIGHT ∨
      (buttonOf ev).1 = .BET_MIDDLE ∨ (buttonOf ev).1 = .BET_WHEEL_UP ∨
      (buttonOf ev).1 = .BET_WHEEL_DOWN := by
    cases hE : ev.Event <;> simp_all [buttonOf]
  have hc0 : cnt ≠ 0 := by omega
  have hc1 : (cnt + 1) / 2 ≠ 0 := by omega
  have hc2 : ¬ (cnt + 1 < 2) := by omega
  rcases hb with hb | hb | hb | hb | hb <;>
    simp [onButtonDown, hb, hvalid, hcraft, hnone, hcnt, hshift, hc0, hc1, hc2, sendAction, deselectOnZero]
  split <;> rfl

/-- C4: in move resolution, when the leftover returned by `addItem` equals the
offered stack in name and count and no swap is pending: a Move action from the
source slot to the destination slot is emitted, `m_selected_amount` becomes the
count of the destination stack and `m_selected_swap` that stack (the local
`stack_to` as `addItem` left it, which is the slot's stack whenever a rejecting
`addItem` leaves its stack untouched), dragging becomes false and the selected
slot stays the source slot. -/
theorem moveResolution_swap (c : Collab) (m : GUIFormSpecMenu) (h : Hovered)
    (inv inv2 : Inventory) (req : Nat) (sel : ItemSpec) (list_from list_to : InventoryList)
    (stack_from stack_to offered : ItemStack)
    (hsel : m.m_selected_item = some sel) (hsv : sel.isValid = true)
    (hvalid : h.s.isValid = true) (hinvs : h.inv_s = some inv2)
    (hfrom : inv.getList sel.listname = some list_from) (hto : h.list_s = some list_to)
    (hsf : list_from.getItem (toU32 sel.i) = stack_from)
    (hst : list_to.getItem (toU32 h.s.i) = stack_to)
    (hoff : offered = { stack_from with count := min req stack_from.count })
    (hrej : (c.addItem stack_to offered).2.count = offered.count ∧
      (c.addItem stack_to offered).2.name = offered.name)
    (hswap : m.m_selected_swap.empty = true) :
    ∃ m', moveResolution c m h (some inv) req =
        some (m', [.IMoveAction (min req stack_from.count) sel.inventoryloc sel.listname sel.i
          h.s.inventoryloc h.s.listname h.s.i false]) ∧
      m'.m_selected_amount = (c.addItem stack_to offered).1.count ∧
      m'.m_selected_swap = (c.addItem stack_to offered).1 ∧
      m'.m_selected_dragging = false ∧ m'.m_selected_item = some sel ∧
      ((c.addItem stack_to offered).1 = stack_to →
        m'.m_selected_amount = stack_to.count ∧ m'.m_selected_swap = stack_to) := by
  rw [moveResolution_eq c m h inv inv2 req sel list_from list_to stack_from stack_to
    hsel hsv hvalid hinvs hfrom hto hsf hst]
  subst hoff
  simp only [hrej.1, hrej.2, hswap, beq_self_eq_true, Bool.and_self, if_true]
  refine ⟨_, rfl, rfl, rfl, rfl, hsel, ?_⟩
  intro hkeep
  simp only [hkeep, and_self]


/-- C5: in move resolution, when the leftover returned by `addItem` equals the
offered stack in name and count while a swap is pending (`m_selected_swap` not
empty), nothing happens: no action is emitted and the menu, with its selected
slot, amount and pending swap, is returned as it was. -/
theorem moveResolution_swap_refused (c : Collab) (m : GUIFormSpecMenu) (h : Hovered)
    (inv inv2 : Inventory) (req : Nat) (sel : ItemSpec) (list_from list_to : InventoryList)
    (stack_from stack_to offered : ItemStack)
    (hsel : m.m_selected_item = some sel) (hsv : sel.isValid = true)
    (hvalid : h.s.isValid = true) (hinvs : h.inv_s = some inv2)
    (hfrom : inv.getList sel.listname = some list_from) (hto : h.list_s = some list_to)
    (hsf : list_from.getItem (toU32 sel.i) = stack_from)
    (hst : list_to.getItem (toU32 h.s.i) = stack_to)
    (hoff : offered = { stack_from with count := min req stack_from.count })
    (hrej : (c.addItem stack_to offered).2.count = offered.count ∧
      (c.addItem stack_to offered).2.name = offered.name)
    (hswap : m.m_selected_swap.empty = false) :
    moveResolution c m h (some inv) req = some (m, []) := by
  rw [moveResolution_eq c m h inv inv2 req sel list_from list_to stack_from stack_to
    hsel hsv hvalid hinvs hfrom hto hsf hst]
  subst hoff
  simp [hrej.1, hrej.2, hswap]

/-- C6: in move resolution, when the leftover of `addItem` has a count `l` with
`0 < l` below the count of the offered stack, and the requested amount `r` is
clamped to `min r stack_from.count`: the Move action emitted has count
`min r stack_from.count - l`, the selected amount is reduced by exactly that
count (as a u32 subtraction, which does not wrap when `r` is at most the
selected amount), and the count lies between 1 and the source count. -/
theorem moveResolution_partial (c : Collab) (m : GUIFormSpecMenu) (h : Hovered)
    (inv inv2 : Inventory) (r l : Nat) (sel : ItemSpec) (list_from list_to : InventoryList)
    (stack_from stack_to offered : ItemStack)
    (hsel : m.m_selected_item = some sel) (hsv : sel.isValid = true)
    (hvalid : h.s.isValid = true) (hinvs : h.inv_s = some inv2)
    (hfrom : inv.getList sel.listname = some list_from) (hto : h.list_s = some list_to)
    (hsf : list_from.getItem (toU32 sel.i) = stack_from)
    (hst : list_to.getItem (toU32 h.s.i) = stack_to)
    (hoff : offered = { stack_from with count := min r stack_from.count })
    (hl : (c.addItem stack_to offered).2.count = l)
    (hl0 : l ≠ 0) (hlt : l < offered.count) :
    ∃ m', moveResolution c m h (some inv) r =
        some (m', [.IMoveAction (min r stack_from.count - l) sel.inventoryloc sel.listname
          sel.i h.s.inventoryloc h.s.listname h.s.i false]) ∧
      m'.m_selected_amount = subU32 m.m_selected_amount (min r stack_from.count - l) ∧
      (r ≤ m.m_selected_amount →
        m'.m_selected_amount + (min r stack_from.count - l) = m.m_selected_amount) ∧
      1 ≤ min r stack_from.count - l ∧ min r stack_from.count - l ≤ stack_from.count := by
  rw [moveResolution_eq c m h inv inv2 r sel list_from list_to stack_from stack_to
    hsel hsv hvalid hinvs hfrom hto hsf hst]
  subst hoff
  subst hl
  simp only at hlt
  have hne : ((c.addItem stack_to { stack_from with count := min r stack_from.count }).2.count
        == min r stack_from.count &&
      (c.addItem stack_to { stack_from with count := min r stack_from.count }).2.name
        == stack_from.name) = false := by
    have : ¬ ((c.addItem stack_to { stack_from with count := min r stack_from.count }).2.count
      = min r stack_from.count) := by omega
    simp [this]
  have hemp : (c.addItem stack_to
      { stack_from with count := min r stack_from.count }).2.empty = false := by
    simpa [ItemStack.empty] using hl0
  have hsub : subU32 (min r stack_from.count)
      (c.addItem stack_to { stack_from with count := min r stack_from.count }).2.count
      = min r stack_from.count -
        (c.addItem stack_to { stack_from with count := min r stack_from.count }).2.count :=
    subU32_of_le (by omega)
  simp only [hne, hemp, hsub, if_false, Bool.false_eq_true]
  refine ⟨_, rfl, rfl, ?_, by omega, by omega⟩
  intro hr
  simp only
  rw [subU32_of_le (by omega)]
  omega

/-- C7: in every menu reachable from an initial one by pointer events and
validation passes, `m_selected_amount = 0` implies that no slot is selected. -/
theorem selection_invariant (m : GUIFormSpecMenu) (hr : Reachable m) :
    m.m_selected_amount = 0 → m.m_selected_item = none := by
  induction hr with
  | init m h1 _ _ _ => exact fun _ => h1
  | event c m n ev acts _ h ih => exact OnEvent_inv c m n ev acts ih h
  | verify c m _ ih => exact verifySelectedItem_inv c m ih
  | update c m _ ih => exact updateSelectedItem_inv c m ih
  | layout m n _ h1 h2 _ _ ih =>
    intro h0
    rw [h1]
    exact ih (by rw [← h2]; exact h0)

/-- C10: `verifySelectedItem` clears the selection (no selected slot, amount 0,
not dragging) and returns the empty stack when a slot is selected whose index
is invalid, whose inventory does not exist, whose list does not exist, or whose
list has a size not above the index (compared as u32, as the source does); with
nothing selected it returns the menu unchanged and the empty stack. -/
theorem verifySelectedItem_clears (c : Collab) (m : GUIFormSpecMenu) :
    (∀ sel, m.m_selected_item = some sel →
      (sel.isValid = false ∨ c.getInventory sel.inventoryloc = none ∨
        ∃ inv, c.getInventory sel.inventoryloc = some inv ∧
          (inv.getList sel.listname = none ∨
            ∃ list, inv.getList sel.listname = some list ∧ list.getSize ≤ toU32 sel.i)) →
      (verifySelectedItem c m).1.m_selected_item = none ∧
      (verifySelectedItem c m).1.m_selected_amount = 0 ∧
      (verifySelectedItem c m).1.m_selected_dragging = false ∧
      (verifySelectedItem c m).2 = {}) ∧
    (m.m_selected_item = none → verifySelectedItem c m = (m, {})) := by
  constructor
  · intro sel hsel hbad
    unfold verifySelectedItem clearInvalidSelection
    simp only [hsel]
    rcases hbad with hv | hi | ⟨inv, hi, hl | ⟨list, hl, hsz⟩⟩
    · simp [hv]
    · split
      · simp [hi]
      · simp
    · split
      · simp [hi, hl]
      · simp
    · split
      · simp [hi, hl, Nat.not_lt.mpr hsz]
      · simp
  · intro hnone
    unfold verifySelectedItem
    simp [hnone]

/-! ### Validation of a live selection, shift clicks, releases, auto-place and crafting -/

/-- C11: when the selected slot still exists and holds a non-empty stack of
count `n`, `verifySelectedItem` keeps the selection and returns that stack.
With no swap pending the amount becomes `min m_selected_amount n`.  With a swap
pending the amount is left as it is (not clamped), the pending swap is cleared
exactly when its name and count equal the live stack's and is kept otherwise;
so the amount is `n` afterwards exactly when it was `n` before the call. -/
theorem verifySelectedItem_keeps (c : Collab) (m : GUIFormSpecMenu) (sel : ItemSpec)
    (inv : Inventory) (list : InventoryList) (stack : ItemStack) (n : Nat)
    (hsel : m.m_selected_item = some sel) (hv : sel.isValid = true)
    (hinv : c.getInventory sel.inventoryloc = some inv)
    (hlist : inv.getList sel.listname = some list)
    (hlt : toU32 sel.i < list.getSize)
    (hstack : list.getItem (toU32 sel.i) = stack) (hn : stack.count = n) (hpos : 0 < n) :
    (verifySelectedItem c m).1.m_selected_item = some sel ∧
    (verifySelectedItem c m).2 = stack ∧
    (m.m_selected_swap.empty = true →
      (verifySelectedItem c m).1.m_selected_amount = min m.m_selected_amount n ∧
      (verifySelectedItem c m).1.m_selected_swap = m.m_selected_swap) ∧
    (m.m_selected_swap.empty = false →
      (verifySelectedItem c m).1.m_selected_amount = m.m_selected_amount ∧
      ((verifySelectedItem c m).1.m_selected_swap.empty = true ↔
        (m.m_selected_swap.name = stack.name ∧ m.m_selected_swap.count = n)) ∧
      (verifySelectedItem c m).1.m_selected_swap =
        (if m.m_selected_swap.name = stack.name ∧ m.m_selected_swap.count = n then {}
         else m.m_selected_swap) ∧
      ((verifySelectedItem c m).1.m_selected_amount = n ↔ m.m_selected_amount = n)) := by
  subst hn
  have hemp : stack.count ≠ 0 := by omega
  unfold verifySelectedItem
  simp only [hsel, hv, hinv, hlist, hlt, if_true, ItemStack.empty, hstack]
  by_cases hsw : m.m_selected_swap.count = 0
  · simp [hsw, hemp, hsel]
  · by_cases hmatch : m.m_selected_swap.name = stack.name ∧
        m.m_selected_swap.count = stack.count
    · simp [hmatch.1, hmatch.2, hsw, hemp, hsel]
    · have : (m.m_selected_swap.name == stack.name &&
          m.m_selected_swap.count == stack.count) = false := by
        simpa using hmatch
      simp [this, hmatch, hsw, hemp, hsel]

/-- The shift-move resolution for a hovered slot that passed the existence
checks, with an amount the slot holds: nothing, or one "move somewhere" to an
entry of the ring; the menu is left as it is. -/
theorem shiftMoveResolution_total (c : Collab) (m : GUIFormSpecMenu) (s : ItemSpec) (amt : Nat)
    (hamt : amt ≤ (resolveHovered c s).s_count)
    (hvalid : (resolveHovered c s).s.isValid = true) :
    ∃ acts, shiftMoveResolution c m (resolveHovered c s) amt = some (m, acts) ∧
      (acts = [] ∨ ∃ to_sp ∈ m.m_inventory_rings,
        acts = [.IMoveAction amt (resolveHovered c s).s.inventoryloc
          (resolveHovered c s).s.listname (resolveHovered c s).s.i
          to_sp.inventoryloc to_sp.listname (-1) true]) := by
  obtain ⟨inv, list, _, _, _, hs, _, hl, hc⟩ := resolveHovered_valid c s hvalid
  rw [hc, ← hs] at hamt
  generalize resolveHovered c s = h at *
  unfold shiftMoveResolution
  dsimp only
  split
  · exact ⟨[], rfl, Or.inl rfl⟩
  · split
    · exact ⟨[], rfl, Or.inl rfl⟩
    · rename_i to_sp hto
      simp only [hvalid, Bool.not_true, Bool.false_eq_true, if_false]
      split
      · exact ⟨[], rfl, Or.inl rfl⟩
      · split
        · exact ⟨[], rfl, Or.inl rfl⟩
        · simp only [hl, hamt, if_true]
          exact ⟨_, rfl, Or.inr ⟨to_sp, List.get?_mem hto, rfl⟩⟩

/-- C12, with the condition it needs: a button-down event (left, right, middle
or wheel-down) with shift held that arrives with nothing selected, amount 0
and no craft result to grab (no `craftpreview` list of the menu whose
inventory has a non-empty slot 0 in its `craftresult` list), on a valid slot
outside a `craftpreview` list that holds `cnt > 0` items: the validation pass
leaves the menu as it is, the `switch (updown)` requests the shift-move amount `req` = 1
(right), `min cnt 10` (middle), 1 (wheel-down) or `cnt` (left); the event
returns, after it nothing is selected and the amount is 0, and it emitted
nothing or one "move somewhere" of count `req` from the hovered slot to an
entry of the list ring. -/
theorem OnEvent_down_shift (c : Collab) (m : GUIFormSpecMenu) (ev : SMouseInput) (cnt req : Nat)
    (hdown : (buttonOf ev).2 = .BET_DOWN)
    (hbtn : (buttonOf ev).1 ≠ .BET_WHEEL_UP)
    (hshift : ev.Shift = true)
    (hsel : m.m_selected_item = none)
    (hamount : m.m_selected_amount = 0)
    (hgrab : findCraftResult c m.m_inventorylists = none)
    (hvalid : (hoveredSlot c m).s.isValid = true)
    (hcraft : (hoveredSlot c m).s.listname ≠ "craftpreview")
    (hcnt : (hoveredSlot c m).s_count = cnt) (hpos : 0 < cnt)
    (hreq : req = (match (buttonOf ev).1 with
        | .BET_RIGHT => 1
        | .BET_MIDDLE => min cnt 10
        | .BET_WHEEL_DOWN => 1
        | _ => cnt)) :
    ∃ md m' acts,
      dispatch (updateSelectedItem c m) (hoveredSlot c m) none ev =
        some (md, { shift_move_amount := req }) ∧
      OnEvent c m ev = some (m', acts) ∧
      m'.m_selected_item = none ∧ m'.m_selected_amount = 0 ∧
      (acts = [] ∨ ∃ to_sp ∈ m.m_inventory_rings,
        acts = [.IMoveAction req (hoveredSlot c m).s.inventoryloc
          (hoveredSlot c m).s.listname (hoveredSlot c m).s.i
          to_sp.inventoryloc to_sp.listname (-1) true]) := by
  have hnone : (updateSelectedItem c m).m_selected_item = none := by
    rw [updateSelectedItem_none c m hsel hgrab]
    exact hsel
  have hzero : (updateSelectedItem c m).m_selected_amount = 0 := by
    rw [updateSelectedItem_none c m hsel hgrab]
    exact hamount
  have hM := handlesMouse_of_down m ev hdown
  have hsi : selectedInventory c (updateSelectedItem c m) = some none := by
    unfold selectedInventory; rw [hnone]
  have hrings : (updateSelectedItem c m).m_inventory_rings = m.m_inventory_rings :=
    (sameFrame_layout (updateSelectedItem_frame c m)).2.2.1
  have hc0 : cnt ≠ 0 := by omega
  have hle : req ≤ cnt ∧ 0 < req := by
    rcases button_of_down ev hdown with hb | hb | hb | hb | hb <;>
      simp only [hb] at hreq hbtn <;>
      first
        | omega
        | exact absurd rfl hbtn
        | (subst hreq; exact ⟨Nat.min_le_left _ _, by simp; omega⟩)
  obtain ⟨md, hmd⟩ : ∃ md : GUIFormSpecMenu, md =
      { updateSelectedItem c m with
          m_selected_dragging := false,
          m_selected_item := some (hoveredSlot c m).s } := ⟨_, rfl⟩
  have hmd0 : md.m_selected_amount = 0 := by rw [hmd]; exact hzero
  have hmdr : md.m_inventory_rings = m.m_inventory_rings := by rw [hmd]; exact hrings
  have hd : dispatch (updateSelectedItem c m) (hoveredSlot c m) none ev =
      some (md, { shift_move_amount := req }) := by
    rw [dispatch_down _ _ _ _ hdown, hmd]
    unfold onButtonDown
    rcases button_of_down ev hdown with hb | hb | hb | hb | hb <;>
      simp only [hb] at hreq hbtn <;>
      first
        | exact absurd rfl hbtn
        | (subst hreq; simp [hb, hvalid, hcraft, hnone, hcnt, hshift, hc0])
  obtain ⟨acts, hs, hacts⟩ := shiftMoveResolution_total c md
    (getItemAtPos m m.m_pointer) req (by rw [← hcnt] at hle; exact hle.1) hvalid
  have hsend : sendAction c md (hoveredSlot c m) none { shift_move_amount := req } =
      some (md, acts) := by
    unfold sendAction
    simp only [show ¬ ((0 : Nat) > 0) by omega, if_false, show req > 0 from hle.2, if_true]
    exact hs
  refine ⟨md, _, acts, hd, OnEvent_eq c m ev _ _ _ _ _ hM hsi hd hsend, ?_, ?_, ?_⟩
  · exact (deselectOnZero_of_zero _ hmd0).1
  · rw [deselectOnZero_amount]; exact hmd0
  · rcases hacts with h | ⟨to_sp, hmem, h⟩
    · exact Or.inl h
    · exact Or.inr ⟨to_sp, hmdr ▸ hmem, h⟩

/-- A hovered slot with a non-zero count passed the existence checks. -/
theorem resolveHovered_count (c : Collab) (s : ItemSpec)
    (h : (resolveHovered c s).s_count ≠ 0) : (resolveHovered c s).s.isValid = true := by
  unfold resolveHovered at h ⊢
  split
  · rename_i hv
    simp only [hv, if_true] at h
    split
    · simp_all
    · split
      · simp_all
      · split
        · simp_all
        · exact hv
  · simp_all

/-- The search loop of the shift-move resolution stops at the first entry for
the hovered list. -/
theorem ring_findIdx (rings : List ListRingSpec) (s : ItemSpec) (i : Nat) (sp : ListRingSpec)
    (hi : rings.get? i = some sp)
    (hm : sp.inventoryloc = s.inventoryloc ∧ sp.listname = s.listname)
    (hfirst : ∀ j spj, j < i → rings.get? j = some spj →
      ¬ (spj.inventoryloc = s.inventoryloc ∧ spj.listname = s.listname)) :
    rings.findIdx (fun sp => sp.inventoryloc == s.inventoryloc && sp.listname == s.listname) = i ∧
      i < rings.length := by
  have hlt : i < rings.length := by
    by_contra hc
    rw [List.get?_eq_none.mpr (by omega)] at hi
    cases hi
  refine ⟨(List.findIdx_eq hlt).mpr ⟨?_, ?_⟩, hlt⟩
  · rw [List.get?_eq_get hlt] at hi
    simp only [Option.some.injEq] at hi
    simp only [List.get_eq_getElem] at hi
    rw [hi]
    simp [hm.1, hm.2]
  · intro j hji
    have hj : j < rings.length := by omega
    have := hfirst j rings[j] hji (by rw [List.get?_eq_get hj]; rfl)
    simpa using this

/-- C13: shift-move resolution for a hovered slot and an amount `amt` between
1 and the count of that slot.  If `i` is the first index of the list ring whose
location and list name are the hovered slot's, and the inventory and the list
of ring entry `(i + 1) mod n` exist, exactly one Move action is emitted, with
`move_somewhere` set, the hovered slot as source, the location and list of that
ring entry as destination and count `amt`.  If no ring entry has the hovered
location and list name, no action is emitted.  The menu is left as it is. -/
theorem sendAction_shift_ring (c : Collab) (m : GUIFormSpecMenu) (s : ItemSpec)
    (inv_sel : Option Inventory) (amt : Nat)
    (hpos : 0 < amt) (hamt : amt ≤ (resolveHovered c s).s_count) :
    (∀ i sp to_sp inv_to list_to,
      m.m_inventory_rings.get? i = some sp →
      (sp.inventoryloc = (resolveHovered c s).s.inventoryloc ∧
        sp.listname = (resolveHovered c s).s.listname) →
      (∀ j spj, j < i → m.m_inventory_rings.get? j = some spj →
        ¬ (spj.inventoryloc = (resolveHovered c s).s.inventoryloc ∧
          spj.listname = (resolveHovered c s).s.listname)) →
      m.m_inventory_rings.get? ((i + 1) % m.m_inventory_rings.length) = some to_sp →
      c.getInventory to_sp.inventoryloc = some inv_to →
      inv_to.getList to_sp.listname = some list_to →
      sendAction c m (resolveHovered c s) inv_sel { shift_move_amount := amt } =
        some (m, [.IMoveAction amt (resolveHovered c s).s.inventoryloc
          (resolveHovered c s).s.listname (resolveHovered c s).s.i
          to_sp.inventoryloc to_sp.listname (-1) true])) ∧
    ((∀ sp ∈ m.m_inventory_rings,
        ¬ (sp.inventoryloc = (resolveHovered c s).s.inventoryloc ∧
          sp.listname = (resolveHovered c s).s.listname)) →
      sendAction c m (resolveHovered c s) inv_sel { shift_move_amount := amt } =
        some (m, [])) := by
  have hvalid := resolveHovered_count c s (by omega)
  obtain ⟨inv, list, _, _, _, hs, _, hl, hc⟩ := resolveHovered_valid c s hvalid
  rw [hc, ← hs] at hamt
  have hsend : sendAction c m (resolveHovered c s) inv_sel { shift_move_amount := amt } =
      shiftMoveResolution c m (resolveHovered c s) amt := by
    unfold sendAction
    simp only [show ¬ ((0 : Nat) > 0) by omega, if_false, show amt > 0 from hpos, if_true]
  rw [hsend]
  generalize resolveHovered c s = h at *
  constructor
  · intro i sp to_sp inv_to list_to hi hm hfirst hto hinv hlist
    obtain ⟨hidx, hlt⟩ := ring_findIdx m.m_inventory_rings h.s i sp hi hm hfirst
    unfold shiftMoveResolution
    simp only [hidx, hto, hvalid, hinv, hlist, hl, hamt, if_true, Bool.not_true,
      Bool.false_eq_true, if_false, show ¬ (i ≥ m.m_inventory_rings.length) by omega]
  · intro hnot
    have hidx : m.m_inventory_rings.findIdx (fun sp =>
        sp.inventoryloc == h.s.inventoryloc && sp.listname == h.s.listname) =
        m.m_inventory_rings.length := by
      rw [List.findIdx_eq_length]
      intro x hx
      simpa using hnot x hx
    unfold shiftMoveResolution
    simp only [hidx, ge_iff_le, le_refl, if_true]

/-- Every button-up event enters the mouse branch. -/
theorem handlesMouse_of_up (m : GUIFormSpecMenu) (ev : SMouseInput)
    (hup : (buttonOf ev).2 = .BET_UP) : handlesMouse m ev = true := by
  unfold handlesMouse
  cases hE : ev.Event <;> simp_all [buttonOf]

/-- The `switch (updown)` on a button-up event is the `BET_UP` case. -/
theorem dispatch_up (v : GUIFormSpecMenu) (h : Hovered) (inv_sel : Option Inventory)
    (ev : SMouseInput) (hup : (buttonOf ev).2 = .BET_UP) :
    dispatch v h inv_sel ev = some (onButtonUp v h (identicalSlot v inv_sel h)) := by
  unfold dispatch; rw [hup]

/-- The menu after the `BET_UP` case: dragging is off, auto-place is on when a
slot is selected, the selection is as before. -/
theorem onButtonUp_menu (v : GUIFormSpecMenu) (h : Hovered) (identical : Bool) :
    (onButtonUp v h identical).1.m_selected_dragging = false ∧
    (onButtonUp v h identical).1.m_selected_item = v.m_selected_item ∧
    (onButtonUp v h identical).1.m_selected_amount = v.m_selected_amount ∧
    (v.m_selected_item ≠ none → (onButtonUp v h identical).1.m_auto_place = true) := by
  unfold onButtonUp
  cases hs : v.m_selected_item <;> simp [hs]

/-- The move resolution with its assertions true hands at most one action to
the manager, leaves auto-place alone and never switches dragging on. -/
theorem sendAction_move_some (c : Collab) (md : GUIFormSpecMenu) (h : Hovered)
    (inv inv2 : Inventory) (req : Nat) (sel : ItemSpec) (list_from list_to : InventoryList)
    (hsel : md.m_selected_item = some sel) (hsv : sel.isValid = true)
    (hvalid : h.s.isValid = true) (hinvs : h.inv_s = some inv2)
    (hfrom : inv.getList sel.listname = some list_from) (hto : h.list_s = some list_to)
    (hr1 : 1 ≤ req) :
    ∃ mr acts, sendAction c md h (some inv) { move_amount := req } = some (mr, acts) ∧
      mr.m_auto_place = md.m_auto_place ∧
      (md.m_selected_dragging = false → mr.m_selected_dragging = false) := by
  unfold sendAction
  simp only [show req > 0 from hr1, if_true,
    moveResolution_eq c md h inv inv2 req sel list_from list_to _ _ hsel hsv
      hvalid hinvs hfrom hto rfl rfl]
  split
  · split
    · exact ⟨_, _, rfl, rfl, fun _ => rfl⟩
    · exact ⟨_, _, rfl, rfl, fun hdr => hdr⟩
  · split
    · exact ⟨_, _, rfl, rfl, fun hdr => hdr⟩
    · exact ⟨_, _, rfl, rfl, fun hdr => hdr⟩

/-- The drop resolution for a live selection leaves auto-place and dragging
alone. -/
theorem sendAction_drop_some (c : Collab) (md : GUIFormSpecMenu) (h : Hovered)
    (inv : Inventory) (d : Nat) (sel : ItemSpec) (list_from : InventoryList)
    (hsel : md.m_selected_item = some sel) (hsv : sel.isValid = true)
    (hfrom : inv.getList sel.listname = some list_from)
    (hd1 : 1 ≤ d) (hd2 : d ≤ md.m_selected_amount)
    (hne : (list_from.getItem (toU32 sel.i)).count ≠ 0) :
    ∃ mr acts, sendAction c md h (some inv) { drop_amount := d } = some (mr, acts) ∧
      mr.m_auto_place = md.m_auto_place ∧ mr.m_selected_dragging = md.m_selected_dragging := by
  have h1 : min d (list_from.getItem (toU32 sel.i)).count > 0 := by
    have := Nat.pos_of_ne_zero hne
    omega
  have h2 : min d (list_from.getItem (toU32 sel.i)).count ≤ md.m_selected_amount := by omega
  unfold sendAction dropResolution
  simp only [show ¬ ((0 : Nat) > 0) by omega, if_false, show d > 0 from hd1, if_true, hsel, hsv,
    Option.bind, hfrom, h1, h2, and_self]
  exact ⟨_, _, rfl, rfl, rfl⟩

/-- The closing deselect step leaves auto-place alone and never switches
dragging on. -/
theorem deselectOnZero_frame (m : GUIFormSpecMenu) :
    (deselectOnZero m).m_auto_place = m.m_auto_place ∧
    (m.m_selected_dragging = false → (deselectOnZero m).m_selected_dragging = false) := by
  unfold deselectOnZero
  split
  · exact ⟨rfl, fun _ => rfl⟩
  · exact ⟨rfl, fun h => h⟩

/-- C14: every button-up event returns, with `m_selected_dragging` false and,
when a slot was selected at the release (after the validation pass),
`m_auto_place` true.  When a slot was selected and dragging was on, the
`switch (updown)` requests: on a valid slot other than the selected one a move
of the whole `m_selected_amount`; on the selected slot itself nothing (no
action is emitted and the amount stays); on no slot with the pointer outside
the clipping rectangle a drop of the whole `m_selected_amount`. -/
theorem OnEvent_up (c : Collab) (m : GUIFormSpecMenu) (ev : SMouseInput)
    (hup : (buttonOf ev).2 = .BET_UP) :
    ∃ inv_sel md amt m' acts,
      selectedInventory c (updateSelectedItem c m) = some inv_sel ∧
      dispatch (updateSelectedItem c m) (hoveredSlot c m) inv_sel ev = some (md, amt) ∧
      OnEvent c m ev = some (m', acts) ∧
      m'.m_selected_dragging = false ∧
      ((updateSelectedItem c m).m_selected_item ≠ none → m'.m_auto_place = true) ∧
      ((updateSelectedItem c m).m_selected_item ≠ none →
        (updateSelectedItem c m).m_selected_dragging = true →
          ((hoveredSlot c m).s.isValid = true →
            identicalSlot (updateSelectedItem c m) inv_sel (hoveredSlot c m) = false →
            amt = { move_amount := (updateSelectedItem c m).m_selected_amount }) ∧
          (identicalSlot (updateSelectedItem c m) inv_sel (hoveredSlot c m) = true →
            amt = {} ∧ acts = [] ∧
            m'.m_selected_amount = (updateSelectedItem c m).m_selected_amount) ∧
          ((hoveredSlot c m).s.isValid = false →
            m.AbsoluteClippingRect.isPointInside m.m_pointer = false →
            amt = { drop_amount := (updateSelectedItem c m).m_selected_amount })) := by
  have hM := handlesMouse_of_up m ev hup
  have hlive := updateSelectedItem_live c m
  obtain ⟨hclip, hptr, _, _⟩ := sameFrame_layout (updateSelectedItem_frame c m)
  rw [← hclip, ← hptr]
  generalize hv : updateSelectedItem c m = v at *
  generalize hh : hoveredSlot c m = h at *
  cases hsel : v.m_selected_item with
  | none =>
    have hsi : selectedInventory c v = some none := by
      unfold selectedInventory; rw [hsel]
    have hd := dispatch_up v h none ev hup
    have ha : (onButtonUp v h (identicalSlot v none h)).2 = {} := by
      unfold onButtonUp; simp [hsel]
    obtain ⟨hm1, _, _, _⟩ := onButtonUp_menu v h (identicalSlot v none h)
    generalize onButtonUp v h (identicalSlot v none h) = r at *
    obtain ⟨md, amt⟩ := r
    simp only at ha hm1
    subst ha
    refine ⟨none, md, {}, { deselectOnZero md with m_old_pointer := md.m_pointer }, [], hsi, hd,
      ?_, ?_, ?_, ?_⟩
    · subst hv hh
      exact OnEvent_eq c m ev none md md {} [] hM hsi hd (sendAction_none _ _ _ _)
    · exact (deselectOnZero_frame md).2 hm1
    · intro hne; exact absurd rfl hne
    · intro hne; exact absurd rfl hne
  | some sel =>
    obtain ⟨hsv, inv, list_from, hinv, hfrom, _, hne⟩ := hlive sel hsel
    have hsi := selectedInventory_live c v hlive sel hsel inv hinv
    have hd := dispatch_up v h (some inv) ev hup
    obtain ⟨hm1, hm2, hm3, hm4⟩ := onButtonUp_menu v h (identicalSlot v (some inv) h)
    have ha : (onButtonUp v h (identicalSlot v (some inv) h)).2 =
        (if v.m_selected_dragging && v.m_selected_item.isSome then
          if h.s.isValid then
            if !(identicalSlot v (some inv) h) then { move_amount := v.m_selected_amount }
            else {}
          else if !v.AbsoluteClippingRect.isPointInside v.m_pointer then
            { drop_amount := v.m_selected_amount }
          else {}
        else {}) := rfl
    generalize onButtonUp v h (identicalSlot v (some inv) h) = r at *
    obtain ⟨md, amt⟩ := r
    simp only at ha hm1 hm2 hm3 hm4
    rw [hsel] at hm2
    have hauto : md.m_auto_place = true := hm4 (by rw [hsel]; simp)
    have hsend : ∃ mr acts, sendAction c md h (some inv) amt = some (mr, acts) ∧
        mr.m_auto_place = md.m_auto_place ∧ mr.m_selected_dragging = false ∧
        (amt = {} → acts = [] ∧ mr = md) := by
      by_cases hz : amt = {}
      · subst hz
        exact ⟨md, [], sendAction_none _ _ _ _, rfl, hm1, fun _ => ⟨rfl, rfl⟩⟩
      · rw [ha] at hz
        split at ha
        · split at ha
          · rename_i hvalid
            split at ha
            · by_cases h0 : v.m_selected_amount = 0
              · rw [h0] at ha; subst ha
                exact ⟨md, [], sendAction_none _ _ _ _, rfl, hm1, fun _ => ⟨rfl, rfl⟩⟩
              · obtain ⟨inv2, list2, _, _, _, _, hinvs, hlists, _⟩ :=
                  resolveHovered_valid c _ (by rw [← hh] at hvalid; exact hvalid)
                change (hoveredSlot c m).inv_s = some inv2 at hinvs
                change (hoveredSlot c m).list_s = some list2 at hlists
                rw [hh] at hinvs hlists
                obtain ⟨mr, acts, h1, h2, h3⟩ := sendAction_move_some c md h inv inv2
                  v.m_selected_amount sel list_from list2 hm2 hsv hvalid hinvs hfrom hlists
                  (by omega)
                subst ha
                exact ⟨mr, acts, h1, h2, h3 hm1, fun hc => by simp at hc; omega⟩
            · subst ha
              exact ⟨md, [], sendAction_none _ _ _ _, rfl, hm1, fun _ => ⟨rfl, rfl⟩⟩
          · split at ha
            · by_cases h0 : v.m_selected_amount = 0
              · rw [h0] at ha; subst ha
                exact ⟨md, [], sendAction_none _ _ _ _, rfl, hm1, fun _ => ⟨rfl, rfl⟩⟩
              · obtain ⟨mr, acts, h1, h2, h3⟩ := sendAction_drop_some c md h inv
                  v.m_selected_amount sel list_from hm2 hsv hfrom (by omega) (by omega) hne
                subst ha
                exact ⟨mr, acts, h1, h2, h3 ▸ hm1, fun hc => by simp at hc; omega⟩
            · subst ha
              exact ⟨md, [], sendAction_none _ _ _ _, rfl, hm1, fun _ => ⟨rfl, rfl⟩⟩
        · subst ha
          exact ⟨md, [], sendAction_none _ _ _ _, rfl, hm1, fun _ => ⟨rfl, rfl⟩⟩
    obtain ⟨mr, acts, hs, hs1, hs2, hs3⟩ := hsend
    refine ⟨some inv, md, amt, { deselectOnZero mr with m_old_pointer := mr.m_pointer }, acts,
      hsi, hd, ?_, ?_, ?_, ?_⟩
    · subst hv hh
      exact OnEvent_eq c m ev (some inv) md mr amt acts hM hsi hd hs
    · exact (deselectOnZero_frame mr).2 hs2
    · intro _
      show (deselectOnZero mr).m_auto_place = true
      rw [(deselectOnZero_frame mr).1, hs1, hauto]
    · intro _ hdrag
      simp only [hdrag, hsel, Option.isSome_some, Bool.and_self, if_true] at ha
      refine ⟨?_, ?_, ?_⟩
      · intro hvalid hnid
        simpa [hvalid, hnid] using ha
      · intro hid
        have hvalid := (identicalSlot_valid v (some inv) h hid).1
        have hamt : amt = {} := by simpa [hvalid, hid] using ha
        obtain ⟨h1, h2⟩ := hs3 hamt
        refine ⟨hamt, h1, ?_⟩
        show (deselectOnZero mr).m_selected_amount = v.m_selected_amount
        rw [deselectOnZero_amount, h2, hm3]
      · intro hinvalid hout
        simpa [hinvalid, hout] using ha

/-- A registry extends itself. -/
theorem FieldsExtend.refl (old : List FieldSpec) : FieldsExtend old old :=
  ⟨[], by simp, fun j h => absurd h (Nat.not_lt_zero j)⟩

/-- Pushing a field with the next id extends the registry. -/
theorem FieldsExtend.push (old : List FieldSpec) (spec : FieldSpec)
    (h : spec.fid = 258 + Int.ofNat old.length) : FieldsExtend old (old ++ [spec]) := by
  refine ⟨[spec], rfl, ?_⟩
  intro j hj
  have : j = 0 := by simpa using hj
  subst this
  simpa using h

/-- Extensions compose. -/
theorem FieldsExtend.trans {a b c : List FieldSpec} (h1 : FieldsExtend a b)
    (h2 : FieldsExtend b c) : FieldsExtend a c := by
  obtain ⟨x, rfl, hx⟩ := h1
  obtain ⟨y, rfl, hy⟩ := h2
  refine ⟨x ++ y, by simp, ?_⟩
  intro j hj
  by_cases hjx : j < x.length
  · have := hx j hjx
    simp only [List.get_eq_getElem] at this ⊢
    rw [List.getElem_append_left hjx]
    exact this
  · have hjx' : x.length ≤ j := Nat.le_of_not_lt hjx
    have hlen : j - x.length < y.length := by
      simp only [List.length_append] at hj; omega
    have := hy (j - x.length) hlen
    simp only [List.get_eq_getElem] at this ⊢
    rw [List.getElem_append_right hjx']
    rw [this]
    simp only [List.length_append]
    congr 1
    simp only [Int.ofNat_eq_coe]
    omega

/-- An extension of a registry that satisfies the id invariant satisfies
it. -/
theorem FieldIdsOk.extend {old new : List FieldSpec} (h : FieldIdsOk old)
    (he : FieldsExtend old new) : FieldIdsOk new := by
  obtain ⟨x, rfl, hx⟩ := he
  intro i hi
  by_cases hio : i < old.length
  · have := h i hio
    simp only [List.get_eq_getElem] at this ⊢
    rw [List.getElem_append_left hio]
    exact this
  · have hio' : old.length ≤ i := Nat.le_of_not_lt hio
    have hlen : i - old.length < x.length := by
      simp only [List.length_append] at hi; omega
    have := hx (i - old.length) hlen
    simp only [List.get_eq_getElem] at this ⊢
    rw [List.getElem_append_right hio', this]
    congr 1
    simp only [Int.ofNat_eq_coe]
    omega

/-- The parser `parseContainer` leaves the field registry as it is. -/
theorem parseContainer_fields (data : parserData) (m : GUIFormSpecMenu) (element : String) :
    (parseContainer data m element).2.m_fields = m.m_fields := by
  unfold parseContainer
  dsimp only
  repeat' (first | split_ifs | split)
  all_goals rfl

/-- The parser `parseContainerEnd` leaves the field registry as it is. -/
theorem parseContainerEnd_fields (data : parserData) (m : GUIFormSpecMenu) :
    (parseContainerEnd data m).2.m_fields = m.m_fields := by
  unfold parseContainerEnd
  split <;> rfl

/-- The parser `parseList` leaves the field registry as it is. -/
theorem parseList_fields (env : ParseEnv) (data : parserData) (m : GUIFormSpecMenu) (element : String) :
    (parseList env data m element).2.m_fields = m.m_fields := by
  unfold parseList
  dsimp only
  repeat' (first | split_ifs | split)
  all_goals rfl

/-- The parser `parseListRing` leaves the field registry as it is. -/
theorem parseListRing_fields (env : ParseEnv) (data : parserData) (m : GUIFormSpecMenu) (element : String) :
    (parseListRing env data m element).2.m_fields = m.m_fields := by
  unfold parseListRing
  dsimp only
  repeat' (first | split_ifs | split)
  all_goals rfl

/-- The parser `parseImage` leaves the field registry as it is. -/
theorem parseImage_fields (env : ParseEnv) (data : parserData) (m : GUIFormSpecMenu) (element : String) :
    (parseImage env data m element).2.m_fields = m.m_fields := by
  unfold parseImage
  dsimp only
  repeat' (first | split_ifs | split)
  all_goals rfl

/-- The parser `parseItemImage` leaves the field registry as it is. -/
theorem parseItemImage_fields (env : ParseEnv) (data : parserData) (m : GUIFormSpecMenu) (element : String) :
    (parseItemImage env data m element).2.m_fields = m.m_fields := by
  unfold parseItemImage
  dsimp only
  repeat' (first | split_ifs | split)
  all_goals rfl

/-- The parser `parseBackground` leaves the field registry as it is. -/
theorem parseBackground_fields (env : ParseEnv) (data : parserData) (m : GUIFormSpecMenu) (element : String) :
    (parseBackground env data m element).2.m_fields = m.m_fields := by
  unfold parseBackground
  dsimp only
  repeat' (first | split_ifs | split)
  all_goals rfl

/-- The parser `parseTableOptions` leaves the field registry as it is. -/
theorem parseTableOptions_fields (data : parserData) (m : GUIFormSpecMenu) (element : String) :
    (parseTableOptions data m element).2.m_fields = m.m_fields := by
  rfl

/-- The parser `parseTableColumns` leaves the field registry as it is. -/
theorem parseTableColumns_fields (data : parserData) (m : GUIFormSpecMenu) (element : String) :
    (parseTableColumns data m element).2.m_fields = m.m_fields := by
  rfl

/-- The parser `parseFieldCloseOnEnter` leaves the field registry as it is. -/
theorem parseFieldCloseOnEnter_fields (env : ParseEnv) (data : parserData) (m : GUIFormSpecMenu) (element : String) :
    (parseFieldCloseOnEnter env data m element).2.m_fields = m.m_fields := by
  unfold parseFieldCloseOnEnter
  dsimp only
  repeat' (first | split_ifs | split)
  all_goals rfl

/-- The parser `parseBox` leaves the field registry as it is. -/
theorem parseBox_fields (env : ParseEnv) (data : parserData) (m : GUIFormSpecMenu) (element : String) :
    (parseBox env data m element).2.m_fields = m.m_fields := by
  unfold parseBox
  dsimp only
  repeat' (first | split_ifs | split)
  all_goals rfl

/-- The parser `parseBackgroundColor` leaves the field registry as it is. -/
theorem parseBackgroundColor_fields (env : ParseEnv) (data : parserData) (m : GUIFormSpecMenu) (element : String) :
    (parseBackgroundColor env data m element).2.m_fields = m.m_fields := by
  unfold parseBackgroundColor
  dsimp only
  repeat' (first | split_ifs | split)
  all_goals rfl

/-- The parser `parseListColors` leaves the field registry as it is. -/
theorem parseListColors_fields (env : ParseEnv) (data : parserData) (m : GUIFormSpecMenu) (element : String) :
    (parseListColors env data m element).2.m_fields = m.m_fields := by
  unfold parseListColors
  dsimp only
  repeat' (first | split_ifs | split)
  all_goals rfl

/-- The parser `parseTooltip` leaves the field registry as it is. -/
theorem parseTooltip_fields (env : ParseEnv) (data : parserData) (m : GUIFormSpecMenu) (element : String) :
    (parseTooltip env data m element).2.m_fields = m.m_fields := by
  unfold parseTooltip
  dsimp only
  repeat' (first | split_ifs | split)
  all_goals rfl

/-- The parser `parseCheckbox` extends the field registry. -/
theorem parseCheckbox_fields (env : ParseEnv) (data : parserData) (m : GUIFormSpecMenu) (element : String) :
    FieldsExtend m.m_fields (parseCheckbox env data m element).2.m_fields := by
  unfold parseCheckbox
  dsimp only
  repeat' (first | split_ifs | split)
  all_goals first
    | exact FieldsExtend.refl _
    | exact FieldsExtend.push _ _ (by rfl)

/-- The parser `parseScrollBar` extends the field registry. -/
theorem parseScrollBar_fields (env : ParseEnv) (data : parserData) (m : GUIFormSpecMenu) (element : String) :
    FieldsExtend m.m_fields (parseScrollBar env data m element).2.m_fields := by
  unfold parseScrollBar
  dsimp only
  repeat' (first | split_ifs | split)
  all_goals first
    | exact FieldsExtend.refl _
    | exact FieldsExtend.push _ _ (by rfl)

/-- The parser `parseButton` extends the field registry. -/
theorem parseButton_fields (env : ParseEnv) (data : parserData) (m : GUIFormSpecMenu) (element type : String) :
    FieldsExtend m.m_fields (parseButton env data m element type).2.m_fields := by
  unfold parseButton
  dsimp only
  repeat' (first | split_ifs | split)
  all_goals first
    | exact FieldsExtend.refl _
    | exact FieldsExtend.push _ _ (by rfl)

/-- The parser `parseTable` extends the field registry. -/
theorem parseTable_fields (env : ParseEnv) (data : parserData) (m : GUIFormSpecMenu) (element : String) :
    FieldsExtend m.m_fields (parseTable env data m element).2.m_fields := by
  unfold parseTable registerTable
  dsimp only
  repeat' (first | split_ifs | split)
  all_goals first
    | exact FieldsExtend.refl _
    | exact FieldsExtend.push _ _ (by rfl)

/-- The parser `parseTextList` extends the field registry. -/
theorem parseTextList_fields (env : ParseEnv) (data : parserData) (m : GUIFormSpecMenu) (element : String) :
    FieldsExtend m.m_fields (parseTextList env data m element).2.m_fields := by
  unfold parseTextList registerTable
  dsimp only
  repeat' (first | split_ifs | split)
  all_goals first
    | exact FieldsExtend.refl _
    | exact FieldsExtend.push _ _ (by rfl)

/-- The parser `parseDropDown` extends the field registry. -/
theorem parseDropDown_fields (env : ParseEnv) (data : parserData) (m : GUIFormSpecMenu) (element : String) :
    FieldsExtend m.m_fields (parseDropDown env data m element).2.m_fields := by
  unfold parseDropDown
  dsimp only
  repeat' (first | split_ifs | split)
  all_goals first
    | exact FieldsExtend.refl _
    | exact FieldsExtend.push _ _ (by rfl)

/-- The parser `parsePwdField` extends the field registry. -/
theorem parsePwdField_fields (env : ParseEnv) (data : parserData) (m : GUIFormSpecMenu) (element : String) :
    FieldsExtend m.m_fields (parsePwdField env data m element).2.m_fields := by
  unfold parsePwdField closeOnEnterParam
  dsimp only
  repeat' (first | split_ifs | split)
  all_goals first
    | exact FieldsExtend.refl _
    | exact FieldsExtend.push _ _ (by rfl)

/-- The parser `parseField` extends the field registry. -/
theorem parseField_fields (env : ParseEnv) (data : parserData) (m : GUIFormSpecMenu) (element type : String) :
    FieldsExtend m.m_fields (parseField env data m element type).2.m_fields := by
  unfold parseField parseSimpleField parseTextArea closeOnEnterParam createTextField
  dsimp only
  repeat' (first | split_ifs | split)
  all_goals first
    | exact FieldsExtend.refl _
    | exact FieldsExtend.push _ _ (by rfl)

/-- The parser `parseVertLabel` extends the field registry. -/
theorem parseVertLabel_fields (env : ParseEnv) (data : parserData) (m : GUIFormSpecMenu) (element : String) :
    FieldsExtend m.m_fields (parseVertLabel env data m element).2.m_fields := by
  unfold parseVertLabel
  dsimp only
  repeat' (first | split_ifs | split)
  all_goals first
    | exact FieldsExtend.refl _
    | exact FieldsExtend.push _ _ (by rfl)

/-- The parser `parseImageButton` extends the field registry. -/
theorem parseImageButton_fields (env : ParseEnv) (data : parserData) (m : GUIFormSpecMenu) (element type : String) :
    FieldsExtend m.m_fields (parseImageButton env data m element type).2.m_fields := by
  unfold parseImageButton
  dsimp only
  repeat' (first | split_ifs | split)
  all_goals first
    | exact FieldsExtend.refl _
    | exact FieldsExtend.push _ _ (by rfl)

/-- The parser `parseTabHeader` extends the field registry. -/
theorem parseTabHeader_fields (env : ParseEnv) (data : parserData) (m : GUIFormSpecMenu) (element : String) :
    FieldsExtend m.m_fields (parseTabHeader env data m element).2.m_fields := by
  unfold parseTabHeader
  dsimp only
  repeat' (first | split_ifs | split)
  all_goals first
    | exact FieldsExtend.refl _
    | exact FieldsExtend.push _ _ (by rfl)

/-- The parser `parseItemImageButton` extends the field registry. -/
theorem parseItemImageButton_fields (env : ParseEnv) (data : parserData) (m : GUIFormSpecMenu) (element : String) :
    FieldsExtend m.m_fields (parseItemImageButton env data m element).2.m_fields := by
  unfold parseItemImageButton
  dsimp only
  repeat' (first | split_ifs | split)
  all_goals first
    | exact FieldsExtend.refl _
    | exact FieldsExtend.push _ _ (by rfl)

/-- The loop of `parseLabel` extends the field registry. -/
theorem parseLabelLines_fields (env : ParseEnv) (lines : List String) (m : GUIFormSpecMenu) :
    FieldsExtend m.m_fields (parseLabelLines env lines m).m_fields := by
  induction lines generalizing m with
  | nil => exact FieldsExtend.refl _
  | cons line rest ih =>
    unfold parseLabelLines
    exact FieldsExtend.trans (FieldsExtend.push _ _ (by rfl)) (ih _)

/-- The parser `parseLabel` extends the field registry. -/
theorem parseLabel_fields (env : ParseEnv) (data : parserData) (m : GUIFormSpecMenu)
    (element : String) :
    FieldsExtend m.m_fields (parseLabel env data m element).2.m_fields := by
  unfold parseLabel
  dsimp only
  split_ifs
  · exact FieldsExtend.refl _
  · exact parseLabelLines_fields env _ (m.warn _)
  · exact parseLabelLines_fields env _ m
  · exact FieldsExtend.refl _

/-- The parser `parseHyperText`, when it returns, extends the field
registry. -/
theorem parseHyperText_fields (env : ParseEnv) (data : parserData) (m : GUIFormSpecMenu)
    (element : String) (r : parserData × GUIFormSpecMenu)
    (h : parseHyperText env data m element = some r) :
    FieldsExtend m.m_fields r.2.m_fields := by
  unfold parseHyperText at h
  dsimp only at h
  split at h
  · cases h; exact FieldsExtend.refl _
  · split at h
    · split_ifs at h
      · cases h; exact FieldsExtend.refl _
      · cases h; exact FieldsExtend.refl _
      · cases h; exact FieldsExtend.push _ _ (by rfl)
    · cases h

/-- The function `parseVersionDirect` leaves the field registry as it is. -/
theorem parseVersionDirect_fields (m : GUIFormSpecMenu) (data : String) :
    (parseVersionDirect m data).1.m_fields = m.m_fields := by
  unfold parseVersionDirect
  dsimp only
  split_ifs <;> rfl

/-- The loop of `parseStyle` leaves the field registry as it is. -/
theorem parseStyleProps_fields (element : String) (parts : List String) (m : GUIFormSpecMenu)
    (spec : StyleSpec) : (parseStyleProps element parts m spec).1.m_fields = m.m_fields := by
  induction parts generalizing m spec with
  | nil => rfl
  | cons part rest ih =>
    unfold parseStyleProps
    split
    · rfl
    · dsimp only
      split_ifs
      · rfl
      · rfl
      · exact ih _ _

/-- The function `parseStyle` leaves the field registry as it is. -/
theorem parseStyle_fields (m : GUIFormSpecMenu) (element : String) (style_type : Bool) :
    (parseStyle m element style_type).1.m_fields = m.m_fields := by
  have := parseStyleProps_fields element (split element ';').tail m {}
  unfold parseStyle
  dsimp only
  split_ifs
  · rfl
  · rfl
  · split <;> simp_all
  · split <;> simp_all

/-! ### Containers, field ids and buttons -/

/-- Logging an error leaves the field registry alone. -/
theorem err_fields (m : GUIFormSpecMenu) (msg : String) : (m.err msg).m_fields = m.m_fields := rfl

/-- C19: `parseButton` appends exactly one field, of type `f_Button`, with
`is_exit` set exactly for the type `button_exit`, the next id and the name of
the third part, when the body has exactly 4 parts, or more than 4 while
`m_formspec_version > FORMSPEC_API_VERSION`, and the position part and the
geometry part each split into exactly two components; in every other case the
field registry is left as it is. -/
theorem parseButton_registers (env : ParseEnv) (data : parserData) (m : GUIFormSpecMenu)
    (element type : String) :
    (((split element ';').length = 4 ∨
        ((split element ';').length > 4 ∧ m.m_formspec_version > env.FORMSPEC_API_VERSION)) ∧
      (split ((split element ';').getD 0 "") ',').length = 2 ∧
      (split ((split element ';').getD 1 "") ',').length = 2 →
      ∃ spec : FieldSpec,
        (parseButton env data m element type).2.m_fields = m.m_fields ++ [spec] ∧
        spec.ftype = .f_Button ∧ (spec.is_exit = true ↔ type = "button_exit") ∧
        spec.fid = 258 + Int.ofNat m.m_fields.length ∧
        spec.fname = (split element ';').getD 2 "") ∧
    (¬ (((split element ';').length = 4 ∨
        ((split element ';').length > 4 ∧ m.m_formspec_version > env.FORMSPEC_API_VERSION)) ∧
      (split ((split element ';').getD 0 "") ',').length = 2 ∧
      (split ((split element ';').getD 1 "") ',').length = 2) →
      (parseButton env data m element type).2.m_fields = m.m_fields) := by
  constructor
  · rintro ⟨hn, hp, hg⟩
    refine ⟨{ (FieldSpec.new env ((split element ';').getD 2 "")
        (env.translate_string (unescape_string ((split element ';').getD 3 ""))) ""
        (nextFieldId m)) with
        ftype := .f_Button, is_exit := decide (type = "button_exit") }, ?_, rfl, ?_, rfl, rfl⟩
    · unfold parseButton
      simp only [hn, if_true, hp, hg, ne_eq, not_true_eq_false, if_false]
      split <;> rfl
    · simp
  · intro hno
    unfold parseButton
    by_cases hn : (split element ';').length = 4 ∨
        ((split element ';').length > 4 ∧ m.m_formspec_version > env.FORMSPEC_API_VERSION)
    · simp only [hn, if_true]
      by_cases hp : (split ((split element ';').getD 0 "") ',').length = 2
      · have hg : (split ((split element ';').getD 1 "") ',').length ≠ 2 :=
          fun hg => hno ⟨hn, hp, hg⟩
        simp only [hp, ne_eq, not_true_eq_false, if_false, hg, not_false_eq_true, if_true]
        rfl
      · simp only [ne_eq, hp, not_false_eq_true, if_true]
        rfl
    · simp only [hn, if_false]
      rfl

/-- A registry that is left as it is extends itself. -/
theorem FieldsExtend.of_eq {old new : List FieldSpec} (h : new = old) : FieldsExtend old new :=
  h ▸ FieldsExtend.refl old

/-- Every element type, when its parser returns, extends the field registry. -/
theorem dispatchElement_fields (env : ParseEnv) (data : parserData) (m : GUIFormSpecMenu)
    (type description : String) (r : parserData × GUIFormSpecMenu)
    (h : dispatchElement env data m type description = some r) :
    FieldsExtend m.m_fields r.2.m_fields := by
  unfold dispatchElement at h
  by_cases h0 : type = "container"
  · rw [if_pos h0] at h; cases h; exact FieldsExtend.of_eq (parseContainer_fields _ _ _)
  rw [if_neg h0] at h
  by_cases h1 : type = "container_end"
  · rw [if_pos h1] at h; cases h; exact FieldsExtend.of_eq (parseContainerEnd_fields _ _)
  rw [if_neg h1] at h
  by_cases h2 : type = "list"
  · rw [if_pos h2] at h; cases h; exact FieldsExtend.of_eq (parseList_fields _ _ _ _)
  rw [if_neg h2] at h
  by_cases h3 : type = "listring"
  · rw [if_pos h3] at h; cases h; exact FieldsExtend.of_eq (parseListRing_fields _ _ _ _)
  rw [if_neg h3] at h
  by_cases h4 : type = "checkbox"
  · rw [if_pos h4] at h; cases h; exact parseCheckbox_fields _ _ _ _
  rw [if_neg h4] at h
  by_cases h5 : type = "image"
  · rw [if_pos h5] at h; cases h; exact FieldsExtend.of_eq (parseImage_fields _ _ _ _)
  rw [if_neg h5] at h
  by_cases h6 : type = "item_image"
  · rw [if_pos h6] at h; cases h; exact FieldsExtend.of_eq (parseItemImage_fields _ _ _ _)
  rw [if_neg h6] at h
  by_cases h7 : type = "button" ∨ type = "button_exit"
  · rw [if_pos h7] at h; cases h; exact parseButton_fields _ _ _ _ _
  rw [if_neg h7] at h
  by_cases h8 : type = "background" ∨ type = "background9"
  · rw [if_pos h8] at h; cases h; exact FieldsExtend.of_eq (parseBackground_fields _ _ _ _)
  rw [if_neg h8] at h
  by_cases h9 : type = "tableoptions"
  · rw [if_pos h9] at h; cases h; exact FieldsExtend.of_eq (parseTableOptions_fields _ _ _)
  rw [if_neg h9] at h
  by_cases h10 : type = "tablecolumns"
  · rw [if_pos h10] at h; cases h; exact FieldsExtend.of_eq (parseTableColumns_fields _ _ _)
  rw [if_neg h10] at h
  by_cases h11 : type = "table"
  · rw [if_pos h11] at h; cases h; exact parseTable_fields _ _ _ _
  rw [if_neg h11] at h
  by_cases h12 : type = "textlist"
  · rw [if_pos h12] at h; cases h; exact parseTextList_fields _ _ _ _
  rw [if_neg h12] at h
  by_cases h13 : type = "dropdown"
  · rw [if_pos h13] at h; cases h; exact parseDropDown_fields _ _ _ _
  rw [if_neg h13] at h
  by_cases h14 : type = "field_close_on_enter"
  · rw [if_pos h14] at h; cases h; exact FieldsExtend.of_eq (parseFieldCloseOnEnter_fields _ _ _ _)
  rw [if_neg h14] at h
  by_cases h15 : type = "pwdfield"
  · rw [if_pos h15] at h; cases h; exact parsePwdField_fields _ _ _ _
  rw [if_neg h15] at h
  by_cases h16 : type = "field" ∨ type = "textarea"
  · rw [if_pos h16] at h; cases h; exact parseField_fields _ _ _ _ _
  rw [if_neg h16] at h
  by_cases h17 : type = "hypertext"
  · rw [if_pos h17] at h; exact parseHyperText_fields _ _ _ _ _ h
  rw [if_neg h17] at h
  by_cases h18 : type = "label"
  · rw [if_pos h18] at h; cases h; exact parseLabel_fields _ _ _ _
  rw [if_neg h18] at h
  by_cases h19 : type = "vertlabel"
  · rw [if_pos h19] at h; cases h; exact parseVertLabel_fields _ _ _ _
  rw [if_neg h19] at h
  by_cases h20 : type = "item_image_button"
  · rw [if_pos h20] at h; cases h; exact parseItemImageButton_fields _ _ _ _
  rw [if_neg h20] at h
  by_cases h21 : type = "image_button" ∨ type = "image_button_exit"
  · rw [if_pos h21] at h; cases h; exact parseImageButton_fields _ _ _ _ _
  rw [if_neg h21] at h
  by_cases h22 : type = "tabheader"
  · rw [if_pos h22] at h; cases h; exact parseTabHeader_fields _ _ _ _
  rw [if_neg h22] at h
  by_cases h23 : type = "box"
  · rw [if_pos h23] at h; cases h; exact FieldsExtend.of_eq (parseBox_fields _ _ _ _)
  rw [if_neg h23] at h
  by_cases h24 : type = "bgcolor"
  · rw [if_pos h24] at h; cases h; exact FieldsExtend.of_eq (parseBackgroundColor_fields _ _ _ _)
  rw [if_neg h24] at h
  by_cases h25 : type = "listcolors"
  · rw [if_pos h25] at h; cases h; exact FieldsExtend.of_eq (parseListColors_fields _ _ _ _)
  rw [if_neg h25] at h
  by_cases h26 : type = "tooltip"
  · rw [if_pos h26] at h; cases h; exact FieldsExtend.of_eq (parseTooltip_fields _ _ _ _)
  rw [if_neg h26] at h
  by_cases h27 : type = "scrollbar"
  · rw [if_pos h27] at h; cases h; exact parseScrollBar_fields _ _ _ _
  rw [if_neg h27] at h
  by_cases h28 : type = "real_coordinates"
  · rw [if_pos h28] at h; cases h; exact FieldsExtend.refl _
  rw [if_neg h28] at h
  by_cases h29 : type = "style"
  · rw [if_pos h29] at h; cases h; exact FieldsExtend.of_eq (parseStyle_fields _ _ _)
  rw [if_neg h29] at h
  by_cases h30 : type = "style_type"
  · rw [if_pos h30] at h; cases h; exact FieldsExtend.of_eq (parseStyle_fields _ _ _)
  rw [if_neg h30] at h
  cases h; exact FieldsExtend.refl _

/-- Every element, when `parseElement` returns, extends the field registry. -/
theorem parseElement_fields (env : ParseEnv) (data : parserData) (m : GUIFormSpecMenu)
    (element : String) (r : parserData × GUIFormSpecMenu)
    (h : parseElement env data m element = some r) :
    FieldsExtend m.m_fields r.2.m_fields := by
  unfold parseElement at h
  dsimp only at h
  split_ifs at h
  · cases h; exact FieldsExtend.refl _
  · cases h; exact FieldsExtend.of_eq (parseVersionDirect_fields _ _)
  · cases h; exact FieldsExtend.refl _
  · cases h; exact FieldsExtend.refl _
  · exact dispatchElement_fields _ _ _ _ _ _ h
  · exact dispatchElement_fields _ _ _ _ _ _ h

/-- Every sequence of elements, when the loop returns, extends the field
registry. -/
theorem parseElements_fields (env : ParseEnv) (els : List String)
    (s r : parserData × GUIFormSpecMenu) (h : parseElements env els s = some r) :
    FieldsExtend s.2.m_fields r.2.m_fields := by
  induction els generalizing s with
  | nil =>
    simp only [parseElements, Option.some.injEq] at h
    subst h
    exact FieldsExtend.refl _
  | cons e rest ih =>
    unfold parseElements at h
    split at h
    · cases h
    · rename_i s' hs'
      exact FieldsExtend.trans (parseElement_fields env _ _ _ _ hs') (ih _ h)

/-- In a registry with the id invariant the ids increase strictly, are
pairwise distinct and are all above 257. -/
theorem FieldIdsOk.ids {fields : List FieldSpec} (h : FieldIdsOk fields) :
    (∀ (i j : Nat) (hi : i < fields.length) (hj : j < fields.length), i < j →
      (fields.get ⟨i, hi⟩).fid < (fields.get ⟨j, hj⟩).fid) ∧
    (∀ (i j : Nat) (hi : i < fields.length) (hj : j < fields.length), i ≠ j →
      (fields.get ⟨i, hi⟩).fid ≠ (fields.get ⟨j, hj⟩).fid) ∧
    (∀ (i : Nat) (hi : i < fields.length), 257 < (fields.get ⟨i, hi⟩).fid) := by
  refine ⟨?_, ?_, ?_⟩
  · intro i j hi hj hij
    rw [h i hi, h j hj]
    simp only [Int.ofNat_eq_coe]
    omega
  · intro i j hi hj hij
    rw [h i hi, h j hj]
    simp only [Int.ofNat_eq_coe]
    omega
  · intro i hi
    rw [h i hi]
    simp only [Int.ofNat_eq_coe]
    omega

/-- C18: the field-id invariant.  The reset at the head of `regenerateGui`
leaves an empty field registry, and every sequence of elements parsed by
`parseElement` from a registry whose `i`-th entry has id `258 + i` leaves a
registry whose `i`-th entry has id `258 + i`; so the ids increase strictly in
registration order, are pairwise distinct and are all greater than 257. -/
theorem field_ids (env : ParseEnv) (m0 : GUIFormSpecMenu) :
    FieldIdsOk (regenerateGui_reset m0).m_fields ∧
    ∀ (els : List String) (s r : parserData × GUIFormSpecMenu),
      FieldIdsOk s.2.m_fields → parseElements env els s = some r →
      FieldIdsOk r.2.m_fields ∧
      (∀ (i : Nat) (hi : i < r.2.m_fields.length),
        (r.2.m_fields.get ⟨i, hi⟩).fid = 258 + Int.ofNat i) ∧
      (∀ (i j : Nat) (hi : i < r.2.m_fields.length) (hj : j < r.2.m_fields.length), i < j →
        (r.2.m_fields.get ⟨i, hi⟩).fid < (r.2.m_fields.get ⟨j, hj⟩).fid) ∧
      (∀ (i j : Nat) (hi : i < r.2.m_fields.length) (hj : j < r.2.m_fields.length), i ≠ j →
        (r.2.m_fields.get ⟨i, hi⟩).fid ≠ (r.2.m_fields.get ⟨j, hj⟩).fid) ∧
      (∀ (i : Nat) (hi : i < r.2.m_fields.length), 257 < (r.2.m_fields.get ⟨i, hi⟩).fid) := by
  refine ⟨fun i hi => absurd hi (Nat.not_lt_zero i), ?_⟩
  intro els s r hs h
  have hr := FieldIdsOk.extend hs (parseElements_fields env els s r h)
  exact ⟨hr, hr, hr.ids.1, hr.ids.2.1, hr.ids.2.2⟩

/-! ### The statements at the example menu -/

/-- What a step emitted. -/
theorem menuAfter_spec (step : Step) (m : GUIFormSpecMenu) (acts : List InventoryAction)
    (h : step.map Prod.snd = some acts) : step = some (menuAfter step m, acts) := by
  cases step with
  | none => cases h
  | some r =>
    obtain ⟨n, a⟩ := r
    simp only [Option.map_some', Option.some.injEq] at h
    subst h
    rfl

/-- Witness of C2: a right click on the 10 stone of slot 0 selects 5 of
them. -/
theorem OnEvent_down_select_witness :
    ∃ m', OnEvent exCollab (exMenuAt 5) rightDown = some (m', []) ∧
      (if (buttonOf rightDown).1 = .BET_WHEEL_UP then m'.m_selected_item = none
       else m'.m_selected_item = some (exSlot 0) ∧
            m'.m_selected_amount = 5 ∧
            m'.m_selected_dragging = true ∧
            m'.m_auto_place = false) :=
  OnEvent_down_select exCollab (exMenuAt 5) rightDown 10 (by decide) (by decide) (by decide)
    (by decide) (by decide) (by decide) (by decide) (by decide)

/-- Witness of C4: moving the 10 selected stone of slot 0 onto the 3 dirt of
slot 2 swaps: 3 dirt become the selection and the pending swap. -/
theorem moveResolution_swap_witness :
    ∃ m', moveResolution exCollab (exMenuSel 0 10 29) (hoveredSlot exCollab (exMenuSel 0 10 29))
          (some exInventory) 10 =
        some (m', [.IMoveAction 10 "current_player" "main" 0 "current_player" "main" 2 false]) ∧
      m'.m_selected_amount = 3 ∧ m'.m_selected_swap = { name := "dirt", count := 3 } ∧
      m'.m_selected_dragging = false ∧ m'.m_selected_item = some (exSlot 0) := by
  obtain ⟨m', h1, _, _, h4, h5, h6⟩ :=
    moveResolution_swap exCollab (exMenuSel 0 10 29) (hoveredSlot exCollab (exMenuSel 0 10 29))
      exInventory exInventory 10 (exSlot 0) exMain exMain { name := "stone", count := 10 }
      { name := "dirt", count := 3 } { name := "stone", count := 10 }
      (by decide) (by decide) (by decide) (by decide) (by decide) (by decide) (by decide)
      (by decide) (by decide) (by decide) (by decide)
  exact ⟨m', h1, (h6 (by decide)).1, (h6 (by decide)).2, h4, h5⟩

/-- Witness of C5: the same move while a swap with one gold is pending is
refused. -/
theorem moveResolution_swap_refused_witness :
    moveResolution exCollab exMenuSwapPending (hoveredSlot exCollab exMenuSwapPending)
      (some exInventory) 10 = some (exMenuSwapPending, []) :=
  moveResolution_swap_refused exCollab exMenuSwapPending
    (hoveredSlot exCollab exMenuSwapPending) exInventory exInventory 10 (exSlot 0) exMain exMain
    { name := "stone", count := 10 } { name := "dirt", count := 3 }
    { name := "stone", count := 10 }
    (by decide) (by decide) (by decide) (by decide) (by decide) (by decide) (by decide)
    (by decide) (by decide) (by decide) (by decide)

/-- Witness of C6: moving the 10 selected stone of slot 0 onto the 95 stone of
slot 3 (stacks of at most 99) leaves 6 over: 4 are moved and 6 stay
selected. -/
theorem moveResolution_partial_witness :
    ∃ m', moveResolution exCollab (exMenuSel 0 10 41) (hoveredSlot exCollab (exMenuSel 0 10 41))
          (some exInventory) 10 =
        some (m', [.IMoveAction 4 "current_player" "main" 0 "current_player" "main" 3 false]) ∧
      m'.m_selected_amount = 6 := by
  obtain ⟨m', h1, h2, _, _, _⟩ :=
    moveResolution_partial exCollab (exMenuSel 0 10 41)
      (hoveredSlot exCollab (exMenuSel 0 10 41))
      exInventory exInventory 10 6 (exSlot 0) exMain exMain { name := "stone", count := 10 }
      { name := "stone", count := 95 } { name := "stone", count := 10 }
      (by decide) (by decide) (by decide) (by decide) (by decide) (by decide) (by decide)
      (by decide) (by decide) (by decide) (by decide) (by decide)
  exact ⟨m', h1, h2⟩

/-- Witness of C7: after picking up slot 0 and dropping everything outside the
dialog the amount is 0, and indeed no slot is selected. -/
theorem selection_invariant_witness : exDropped.m_selected_item = none :=
  selection_invariant exDropped
    (Reachable.event exCollab exPickedOutside exDropped leftDown
      [.IDropAction 10 "current_player" "main" 0]
      (Reachable.layout exPicked exPickedOutside
        (Reachable.event exCollab (exMenuAt 5) exPicked leftDown []
          (Reachable.init (exMenuAt 5) rfl rfl rfl rfl)
          (menuAfter_spec _ _ _ (by decide)))
        rfl rfl rfl rfl)
      (menuAfter_spec _ _ _ (by decide)))
    (by decide)

/-- Witness of C10: a selection of slot 7 of the 4-slot list `main` is
cleared. -/
theorem verifySelectedItem_clears_witness :
    (verifySelectedItem exCollab (exMenuSel 7 2 5)).1.m_selected_item = none ∧
      (verifySelectedItem exCollab (exMenuSel 7 2 5)).1.m_selected_amount = 0 ∧
      (verifySelectedItem exCollab (exMenuSel 7 2 5)).1.m_selected_dragging = false ∧
      (verifySelectedItem exCollab (exMenuSel 7 2 5)).2 = {} :=
  (verifySelectedItem_clears exCollab (exMenuSel 7 2 5)).1 (exSlot 7) rfl
    (Or.inr (Or.inr ⟨exInventory, by decide, Or.inr ⟨exMain, by decide, by decide⟩⟩))

/-! ### The further statements at the example menus -/

/-- Witness of C11: with the 10 stone of slot 0 selected and a swap with one
gold pending, validation keeps slot, amount and pending swap and returns the
10 stone. -/
theorem verifySelectedItem_keeps_witness :
    (verifySelectedItem exCollab exMenuSwapPending).1.m_selected_item = some (exSlot 0) ∧
    (verifySelectedItem exCollab exMenuSwapPending).2 = { name := "stone", count := 10 } ∧
    (verifySelectedItem exCollab exMenuSwapPending).1.m_selected_amount = 10 ∧
    (verifySelectedItem exCollab exMenuSwapPending).1.m_selected_swap =
      { name := "gold", count := 1 } := by
  obtain ⟨h1, h2, _, h4⟩ :=
    verifySelectedItem_keeps exCollab exMenuSwapPending (exSlot 0) exInventory exMain
      { name := "stone", count := 10 } 10 (by decide) (by decide) (by decide) (by decide)
      (by decide) (by decide) (by decide) (by decide)
  obtain ⟨h5, _, h6, _⟩ := h4 (by decide)
  exact ⟨h1, h2, h5, h6⟩

/-- Counterexample to C11 as stated: pick up the 10 stone of slot 0, click
them onto the 3 dirt of slot 2 (a swap is pending, 3 selected), put one back
with a right click on slot 0 before the inventory changes (2 selected).  When
slot 0 then holds the 3 dirt, `verifySelectedItem` clears the pending swap and
returns the 3 dirt, and the amount is 2, not 3. -/
theorem verifySelectedItem_swap_counterexample :
    Reachable exSwapTouched ∧
    exSwapTouched.m_selected_item = some (exSlot 0) ∧
    exSwapTouched.m_selected_swap = { name := "dirt", count := 3 } ∧
    (verifySelectedItem exCollabSwapped exSwapTouched).2 = { name := "dirt", count := 3 } ∧
    (verifySelectedItem exCollabSwapped exSwapTouched).1.m_selected_item = some (exSlot 0) ∧
    (verifySelectedItem exCollabSwapped exSwapTouched).1.m_selected_swap = {} ∧
    (verifySelectedItem exCollabSwapped exSwapTouched).1.m_selected_amount = 2 := by
  refine ⟨?_, by decide, by decide, by decide, by decide, by decide, by decide⟩
  exact Reachable.event exCollab exSwappedBack exSwapTouched rightDown []
    (Reachable.layout exSwapped exSwappedBack
      (Reachable.event exCollab exPickedOnDirt exSwapped leftDown
        [.IMoveAction 10 "current_player" "main" 0 "current_player" "main" 2 false]
        (Reachable.layout exPicked exPickedOnDirt
          (Reachable.event exCollab (exMenuAt 5) exPicked leftDown []
            (Reachable.init (exMenuAt 5) rfl rfl rfl rfl)
            (menuAfter_spec _ _ _ (by decide)))
          rfl rfl rfl rfl)
        (menuAfter_spec _ _ _ (by decide)))
      rfl rfl rfl rfl)
    (menuAfter_spec _ _ _ (by decide))

/-- Witness of C12: a shift click with the middle button on the 95 stone of
slot 3 requests a shift-move of 10 and selects nothing. -/
theorem OnEvent_down_shift_witness :
    ∃ md m' acts,
      dispatch (updateSelectedItem exRingCollab (exRingMenu 41))
          (hoveredSlot exRingCollab (exRingMenu 41)) none shiftMiddleDown =
        some (md, { shift_move_amount := 10 }) ∧
      OnEvent exRingCollab (exRingMenu 41) shiftMiddleDown = some (m', acts) ∧
      m'.m_selected_item = none ∧ m'.m_selected_amount = 0 ∧
      (acts = [] ∨ ∃ to_sp ∈ (exRingMenu 41).m_inventory_rings,
        acts = [.IMoveAction 10 (hoveredSlot exRingCollab (exRingMenu 41)).s.inventoryloc
          (hoveredSlot exRingCollab (exRingMenu 41)).s.listname
          (hoveredSlot exRingCollab (exRingMenu 41)).s.i
          to_sp.inventoryloc to_sp.listname (-1) true]) :=
  OnEvent_down_shift exRingCollab (exRingMenu 41) shiftMiddleDown 95 10 (by decide) (by decide)
    (by decide) (by decide) (by decide) (by decide) (by decide) (by decide) (by decide)
    (by decide) (by decide)

/-- Witness of C13: in the ring `main`, `craft` a shift-move of 10 from slot 3
of `main` goes to the list `craft`. -/
theorem sendAction_shift_ring_witness :
    sendAction exRingCollab (exRingMenu 41)
        (resolveHovered exRingCollab (exSlot 3)) none { shift_move_amount := 10 } =
      some (exRingMenu 41,
        [.IMoveAction 10 "current_player" "main" 3 "current_player" "craft" (-1) true]) :=
  (sendAction_shift_ring exRingCollab (exRingMenu 41) (exSlot 3) none 10 (by decide)
    (by decide)).1 0 { inventoryloc := "current_player", listname := "main" }
    { inventoryloc := "current_player", listname := "craft" }
    { addr := 1, lists := [exMain, exCraft] } exCraft
    rfl (by decide) (fun j _ hj => absurd hj (Nat.not_lt_zero j)) rfl (by decide) (by decide)

/-- Witness of C14: a release of the left button over slot 1 while the 10
stone of slot 0 are dragged requests a move of all 10; afterwards dragging is
off and auto-place is on. -/
theorem OnEvent_up_witness :
    ∃ md m' acts,
      dispatch (updateSelectedItem exCollab exPickedOnSlot1)
          (hoveredSlot exCollab exPickedOnSlot1) (some exInventory) leftUp =
        some (md, { move_amount := 10 }) ∧
      OnEvent exCollab exPickedOnSlot1 leftUp = some (m', acts) ∧
      m'.m_selected_dragging = false ∧ m'.m_auto_place = true := by
  obtain ⟨inv_sel, md, amt, m', acts, h1, h2, h3, h4, h5, h6⟩ :=
    OnEvent_up exCollab exPickedOnSlot1 leftUp (by decide)
  have hinv : inv_sel = some exInventory :=
    Option.some.inj (h1.symm.trans (by decide))
  subst hinv
  have hamt := (h6 (by decide) (by decide)).1 (by decide) (by decide)
  rw [hamt] at h2
  exact ⟨md, m', acts, h2, h3, h4, h5 (by decide)⟩

/-- A defined option is `some` of its value. -/
theorem getD_spec {α : Type} (x : Option α) (d : α) (h : x.isSome = true) :
    x = some (x.getD d) := by
  cases x with
  | none => cases h
  | some a => rfl

/-- Witness of C18: the example document registers the fields 258 to 261 (two
label lines and two buttons; the malformed button registers nothing), and the
registry has the id invariant. -/
theorem field_ids_witness :
    exParsed.2.m_fields.map (fun f => f.fid) = [258, 259, 260, 261] ∧
    exParsed.2.m_fields.map (fun f => f.is_exit) = [false, false, false, true] ∧
    exParsed.2.errorstream = ["Invalid button element(2): '1,1;bad'"] ∧
    FieldIdsOk exParsed.2.m_fields :=
  ⟨by decide, by decide, by decide,
    ((field_ids exEnv {}).2 exDocument ({}, {}) exParsed
      (fun i hi => absurd hi (Nat.not_lt_zero i)) (getD_spec _ _ (by decide))).1⟩

/-- C20 at a failing input: at format version 1 (the current version being 2)
a scrollbar body with six parts has a wrong part count, yet between a button
and an exit button it registers a scrollbar and the field 259, so the exit
button gets id 260 instead of 259. -/
theorem parseElements_scrollbar_trailing :
    (split "1,1;2,2;horizontal;sb;0;extra" ';').length = 6 ∧
    ¬ (({} : GUIFormSpecMenu).m_formspec_version > exEnv.FORMSPEC_API_VERSION) ∧
    (parseElements exEnv
        ["button[0,1;2,1;ok;OK", exScrollbar, "button_exit[0,2;2,1;quit;Quit"]
        ({}, {})).map (fun r => (r.2.m_fields.map fun f => (f.fname, f.fid), r.2.m_scrollbars)) =
      some ([("ok", 258), ("sb", 259), ("quit", 260)],
        [{ fname := "sb", fid := 259, send := true, ftype := .f_ScrollBar }]) ∧
    (parseElements exEnv ["button[0,1;2,1;ok;OK", "button_exit[0,2;2,1;quit;Quit"]
        ({}, {})).map (fun r => (r.2.m_fields.map fun f => (f.fname, f.fid), r.2.m_scrollbars)) =
      some ([("ok", 258), ("quit", 259)], []) := by
  decide

/-! ### Lists, list rings and the size -/

/-- An empty body is one empty part. -/
theorem split_empty (delim : Char) : split "" delim = [""] := rfl

/-- C22: `parseListRing`.  With a client present: on an empty body, when at
least two lists have been declared, exactly two entries are appended to the
list ring, the location and list name of the second-to-last declared list and
then those of the last one; on an empty body with fewer than two lists the
list ring is left as it is; on a body of exactly two parts exactly one entry
is appended, with the location the first part names and the list name of the
second part.  Without a client the list ring is left as it is for every
body. -/
theorem parseListRing_links (env : ParseEnv) (data : parserData) (m : GUIFormSpecMenu)
    (element : String) :
    (m.m_client = true → element = "" → m.m_inventorylists.length ≥ 2 →
      ∃ spa spb : ListDrawSpec,
        m.m_inventorylists.get? (m.m_inventorylists.length - 2) = some spa ∧
        m.m_inventorylists.get? (m.m_inventorylists.length - 1) = some spb ∧
        (parseListRing env data m element).2.m_inventory_rings =
          m.m_inventory_rings ++
            [{ inventoryloc := spa.inventoryloc, listname := spa.listname },
             { inventoryloc := spb.inventoryloc, listname := spb.listname }]) ∧
    (element = "" → m.m_inventorylists.length < 2 →
      (parseListRing env data m element).2.m_inventory_rings = m.m_inventory_rings) ∧
    (m.m_client = true → (split element ';').length = 2 →
      (parseListRing env data m element).2.m_inventory_rings =
        m.m_inventory_rings ++
          [{ inventoryloc := resolveLocation env m ((split element ';').getD 0 ""),
             listname := (split element ';').getD 1 "" }]) ∧
    (m.m_client = false →
      (parseListRing env data m element).2.m_inventory_rings = m.m_inventory_rings) := by
  refine ⟨?_, ?_, ?_, ?_⟩
  · intro hclient he hlen
    subst he
    have h2 : m.m_inventorylists.length - 2 < m.m_inventorylists.length := by omega
    have h1 : m.m_inventorylists.length - 1 < m.m_inventorylists.length := by omega
    refine ⟨m.m_inventorylists.get ⟨_, h2⟩, m.m_inventorylists.get ⟨_, h1⟩,
      List.get?_eq_get h2, List.get?_eq_get h1, ?_⟩
    unfold parseListRing
    simp only [hclient, Bool.not_true, Bool.false_eq_true, if_false, split_empty,
      List.length_singleton, OfNat.one_ne_ofNat, true_and,
      show m.m_inventorylists.length > 1 by omega, if_true, List.get?_eq_get h2,
      List.get?_eq_get h1]
  · intro he hlen
    subst he
    unfold parseListRing
    by_cases hclient : m.m_client = true
    · simp only [hclient, Bool.not_true, Bool.false_eq_true, if_false, split_empty,
        List.length_singleton, OfNat.one_ne_ofNat, true_and,
        show ¬ m.m_inventorylists.length > 1 by omega]
      rfl
    · simp only [hclient, Bool.not_false, if_true]
      rfl
  · intro hclient hparts
    unfold parseListRing
    simp only [hclient, Bool.not_true, Bool.false_eq_true, if_false, hparts, if_true]
  · intro hclient
    unfold parseListRing
    simp only [hclient, Bool.not_false, if_true]
    rfl

/-- C23: `parseSize` on a desktop target.  On a body of 2 or 3 comma-separated
parts, with `w` and `h` the first two read by `stof`: the grid size becomes
`(max 0 w, max 0 h)`, so no component is negative, the size is marked as
explicit, and the fixed-size lock is on exactly when there are 3 parts and the
third is the text `true`.  On a body of 1 part, or of more than 3 parts while
`m_formspec_version` does not exceed `FORMSPEC_API_VERSION`, the grid size, the
explicit-size flag and the lock are left as they are. -/
theorem parseSize_sets (env : ParseEnv) (data : parserData) (m : GUIFormSpecMenu)
    (element : String) :
    ((split element ',').length = 2 ∨ (split element ',').length = 3 →
      (parseSize env data m element).1.invsize =
        { X := max 0 (stof ((split element ',').getD 0 "")),
          Y := max 0 (stof (beforeSemicolon ((split element ',').getD 1 ""))) } ∧
      0 ≤ (parseSize env data m element).1.invsize.X ∧
      0 ≤ (parseSize env data m element).1.invsize.Y ∧
      (parseSize env data m element).1.explicit_size = true ∧
      ((parseSize env data m element).2.m_lock = true ↔
        (split element ',').length = 3 ∧ (split element ',').getD 2 "" = "true")) ∧
    ((split element ',').length = 1 ∨
        ((split element ',').length > 3 ∧
          ¬ m.m_formspec_version > env.FORMSPEC_API_VERSION) →
      (parseSize env data m element).1.invsize = data.invsize ∧
      (parseSize env data m element).1.explicit_size = data.explicit_size ∧
      (parseSize env data m element).2.m_lock = m.m_lock) := by
  constructor
  · intro hparts
    have hA : (parseSize env data m element).1 =
        { data with
          invsize := { X := max 0 (stof ((split element ',').getD 0 "")),
                       Y := max 0 (stof (beforeSemicolon ((split element ',').getD 1 ""))) },
          explicit_size := true } := by
      unfold parseSize
      simp only [hparts, true_or, if_true]
    have hB : (parseSize env data m element).2.m_lock =
        decide ((split element ',').length = 3 ∧ (split element ',').getD 2 "" = "true") := by
      unfold parseSize
      simp only [hparts, true_or, if_true]
      by_cases hl : (split element ',').length = 3 ∧ (split element ',').getD 2 "" = "true"
      · simp only [hl, and_self, if_true, decide_True]
        rfl
      · simp only [hl, if_false, decide_False]
        rfl
    refine ⟨by rw [hA], ?_, ?_, by rw [hA], ?_⟩
    · rw [hA]
      exact le_max_left _ _
    · rw [hA]
      exact le_max_left _ _
    · rw [hB]
      simp
  · intro hbad
    have hno : ¬ (((split element ',').length = 2 ∨ (split element ',').length = 3) ∨
        ((split element ',').length > 3 ∧
          m.m_formspec_version > env.FORMSPEC_API_VERSION)) := by
      rcases hbad with h1 | ⟨h3, hv⟩
      · rw [h1]
        simp
      · intro h
        rcases h with (h | h) | ⟨_, h⟩
        · omega
        · omega
        · exact hv h
    unfold parseSize
    simp only [hno, if_false]
    exact ⟨trivial, trivial, rfl⟩

/-! ### The submitted field map -/

/-- The keys after `map[key] = value`. -/
theorem mapSet_keys {α : Type} (l : List (String × α)) (key : String) (value : α) :
    (mapSet l key value).map Prod.fst = key :: (l.map Prod.fst).filter fun k => k != key := by
  unfold mapSet
  simp only [List.map_cons, List.cons.injEq, true_and]
  induction l with
  | nil => rfl
  | cons kv rest ih =>
    simp only [List.filter_cons, List.map_cons]
    by_cases h : (kv.1 != key) = true
    · simp only [h, if_true, List.map_cons, ih]
    · have h' : (kv.1 != key) = false := Bool.not_eq_true _ ▸ h
      simp only [h', Bool.false_eq_true, if_false, ih]

/-- An assignment keeps the keys of a map free of repetitions. -/
theorem mapSet_nodup {α : Type} (l : List (String × α)) (key : String) (value : α)
    (h : (l.map Prod.fst).Nodup) : ((mapSet l key value).map Prod.fst).Nodup := by
  rw [mapSet_keys]
  refine List.nodup_cons.mpr ⟨?_, h.filter _⟩
  intro hmem
  have := (List.mem_filter.mp hmem).2
  simp at this

/-- A key after `map[key] = value` is `key` or a key from before. -/
theorem mapSet_key_mem {α : Type} (l : List (String × α)) (key : String) (value : α) (k : String)
    (h : k ∈ (mapSet l key value).map Prod.fst) : k = key ∨ k ∈ l.map Prod.fst := by
  rw [mapSet_keys] at h
  rcases List.mem_cons.mp h with h | h
  · exact Or.inl h
  · exact Or.inr (List.mem_filter.mp h).1

/-- One step of the submit loop leaves the map as it is or assigns the name of
the field, and assigns only for a field that is sent. -/
theorem acceptInputField_shape (w : GuiEnv) (m : GUIFormSpecMenu) (fields fields' : StringMap)
    (s : FieldSpec) (h : acceptInputField w m fields s = some fields') :
    fields' = fields ∨ (s.send = true ∧ ∃ v, fields' = mapSet fields s.fname v) := by
  unfold acceptInputField at h
  by_cases hsend : s.send = true
  · simp only [hsend, if_true] at h
    repeat' (first | split_ifs at h | split at h)
    all_goals first
      | (cases h; exact Or.inl rfl)
      | (cases h; exact Or.inr ⟨hsend, _, rfl⟩)
      | cases h
  · simp only [hsend, if_false] at h
    cases h
    exact Or.inl rfl

/-- One step of the submit loop fails only at a sent drop-down without a combo
box. -/
theorem acceptInputField_some (w : GuiEnv) (m : GUIFormSpecMenu) (fields : StringMap)
    (s : FieldSpec)
    (h : s.send = true → s.ftype = .f_DropDown →
      ∃ e, w.getElementFromId s.fid = some e ∧ e.type = .EGUIET_COMBO_BOX) :
    ∃ fields', acceptInputField w m fields s = some fields' := by
  unfold acceptInputField
  by_cases hsend : s.send = true
  · simp only [hsend, if_true]
    by_cases hd : s.ftype = .f_DropDown
    · obtain ⟨e, he, ht⟩ := h hsend hd
      simp only [hd, reduceCtorEq, if_false, if_true, elementOfType, he, ht]
      repeat' (first | split_ifs | split)
      all_goals exact ⟨_, rfl⟩
    · simp only [hd, if_false]
      repeat' (first | split_ifs | split)
      all_goals exact ⟨_, rfl⟩
  · simp only [hsend, if_false]
    exact ⟨_, rfl⟩

/-- The empty map has its keys in order. -/
theorem KeysOk.nil (F : List FieldSpec) : KeysOk F [] :=
  ⟨fun _ hk => (nomatch hk), List.nodup_nil⟩

/-- An assignment under a key that is allowed keeps the keys in order. -/
theorem KeysOk.set {F : List FieldSpec} {fields : StringMap} (h : KeysOk F fields)
    (key value : String)
    (hkey : key ∈ ["quit", "key_up", "key_down", "key_enter", "key_enter_field", "key_escape"] ∨
      ∃ s ∈ F, s.send = true ∧ s.fname = key) :
    KeysOk F (mapSet fields key value) := by
  refine ⟨fun k hk => ?_, mapSet_nodup _ _ _ h.2⟩
  rcases mapSet_key_mem _ _ _ _ hk with hk | hk
  · rw [hk]
    exact hkey
  · exact h.1 k hk

/-- Reporting the pending key events keeps the keys in order and leaves the
field registry as it is. -/
theorem acceptInputKeys_spec (F : List FieldSpec) (m : GUIFormSpecMenu) (fields : StringMap)
    (h : KeysOk F fields) :
    KeysOk F (acceptInputKeys m fields).1 ∧ (acceptInputKeys m fields).2.m_fields = m.m_fields := by
  unfold acceptInputKeys
  dsimp only
  have h1 : KeysOk F (pendingKeyDown m fields).1 ∧
      (pendingKeyDown m fields).2.m_fields = m.m_fields := by
    unfold pendingKeyDown
    split
    · exact ⟨h.set _ _ (Or.inl (by decide)), rfl⟩
    · exact ⟨h, rfl⟩
  generalize pendingKeyDown m fields = r1 at h1
  have h2 : KeysOk F (pendingKeyUp r1.2 r1.1).1 ∧
      (pendingKeyUp r1.2 r1.1).2.m_fields = m.m_fields := by
    unfold pendingKeyUp
    split
    · exact ⟨h1.1.set _ _ (Or.inl (by decide)), h1.2⟩
    · exact h1
  generalize pendingKeyUp r1.2 r1.1 = r2 at h2
  have h3 : KeysOk F (pendingKeyEnter r2.2 r2.1).1 ∧
      (pendingKeyEnter r2.2 r2.1).2.m_fields = m.m_fields := by
    unfold pendingKeyEnter
    split
    · exact ⟨h2.1.set _ _ (Or.inl (by decide)), h2.2⟩
    · exact h2
  generalize pendingKeyEnter r2.2 r2.1 = r3 at h3
  have h4 : KeysOk F (pendingEnterField r3.2 r3.1).1 ∧
      (pendingEnterField r3.2 r3.1).2.m_fields = m.m_fields := by
    unfold pendingEnterField
    split
    · exact ⟨h3.1.set _ _ (Or.inl (by decide)), h3.2⟩
    · exact h3
  generalize pendingEnterField r3.2 r3.1 = r4 at h4
  unfold pendingKeyEscape
  split
  · exact ⟨h4.1.set _ _ (Or.inl (by decide)), h4.2⟩
  · exact h4

/-- The submit loop keeps the keys in order. -/
theorem acceptInputFields_keys (w : GuiEnv) (m : GUIFormSpecMenu) (F : List FieldSpec)
    (l : List FieldSpec) (fields fields' : StringMap) (hl : ∀ s ∈ l, s ∈ F)
    (h : acceptInputFields w m l fields = some fields') (hk : KeysOk F fields) :
    KeysOk F fields' := by
  induction l generalizing fields with
  | nil =>
    cases h
    exact hk
  | cons s rest ih =>
    unfold acceptInputFields at h
    split at h
    · cases h
    · next f1 hf1 =>
      apply ih f1 (fun x hx => hl x (List.mem_cons_of_mem _ hx)) h
      rcases acceptInputField_shape w m fields f1 s hf1 with he | ⟨hsend, v, he⟩
      · rw [he]
        exact hk
      · rw [he]
        exact hk.set _ _ (Or.inr ⟨s, hl s (List.mem_cons_self _ _), hsend, rfl⟩)

/-- The submit loop returns when every sent drop-down has its combo box. -/
theorem acceptInputFields_some (w : GuiEnv) (m : GUIFormSpecMenu) (l : List FieldSpec)
    (fields : StringMap)
    (h : ∀ s ∈ l, s.send = true → s.ftype = .f_DropDown →
      ∃ e, w.getElementFromId s.fid = some e ∧ e.type = .EGUIET_COMBO_BOX) :
    ∃ fields', acceptInputFields w m l fields = some fields' := by
  induction l generalizing fields with
  | nil => exact ⟨_, rfl⟩
  | cons s rest ih =>
    obtain ⟨f1, hf1⟩ := acceptInputField_some w m fields s (h s (List.mem_cons_self _ _))
    unfold acceptInputFields
    rw [hf1]
    exact ih f1 fun x hx => h x (List.mem_cons_of_mem _ hx)

/-- C24: on submit, every key of the map that `acceptInput` delivers, other
than the synthetic keys `quit`, `key_up`, `key_down`, `key_enter`,
`key_enter_field` and `key_escape`, is the name of a registered field whose
`send` flag is true, so a name carried only by fields with `send` false never
appears, and no key occurs twice in the map.  A map is delivered whenever
there is a text destination and every sent drop-down field has its combo
box. -/
theorem acceptInput_keys (w : GuiEnv) (m : GUIFormSpecMenu) (quitmode : FormspecQuitMode) :
    (∀ m' fields, acceptInput w m quitmode = some (m', some fields) →
      (∀ key ∈ fields.map Prod.fst,
        key ∈ ["quit", "key_up", "key_down", "key_enter", "key_enter_field", "key_escape"] ∨
        ∃ s ∈ m.m_fields, s.send = true ∧ s.fname = key) ∧
      (∀ key ∈ fields.map Prod.fst,
        key ∉ ["quit", "key_up", "key_down", "key_enter", "key_enter_field", "key_escape"] →
        ¬ ∀ s ∈ m.m_fields, s.fname = key → s.send = false) ∧
      (fields.map Prod.fst).Nodup) ∧
    (m.m_text_dst = true →
      (∀ s ∈ m.m_fields, s.send = true → s.ftype = .f_DropDown →
        ∃ e, w.getElementFromId s.fid = some e ∧ e.type = .EGUIET_COMBO_BOX) →
      ∃ m' fields, acceptInput w m quitmode = some (m', some fields)) := by
  have h0 : KeysOk m.m_fields
      (if quitmode = .quit_mode_accept then mapSet ([] : StringMap) "quit" "true" else []) :=
    by
    split
    · exact (KeysOk.nil _).set _ _ (Or.inl (by decide))
    · exact KeysOk.nil _
  constructor
  · intro m' fields h
    have hok : KeysOk m.m_fields fields := by
      unfold acceptInput at h
      by_cases hdst : m.m_text_dst = true
      · simp only [hdst, if_true] at h
        by_cases hq : quitmode = .quit_mode_cancel
        · simp only [hq, if_true, reduceCtorEq, if_false, Option.some.injEq, Prod.mk.injEq] at h
          rw [← h.2]
          exact (KeysOk.nil _).set _ _ (Or.inl (by decide))
        · simp only [hq, if_false] at h
          obtain ⟨hkeys, hfields⟩ := acceptInputKeys_spec m.m_fields m _ h0
          split at h
          · cases h
          · next f1 hf1 =>
            simp only [Option.some.injEq, Prod.mk.injEq] at h
            rw [← h.2]
            exact acceptInputFields_keys w _ m.m_fields _ _ f1
              (fun s hs => hfields ▸ hs) hf1 hkeys
      · have hdst' : m.m_text_dst = false := by simpa using hdst
        simp only [hdst', Bool.false_eq_true, if_false, Option.some.injEq, Prod.mk.injEq,
          reduceCtorEq, and_false] at h
    refine ⟨hok.1, fun key hkey hsyn hall => ?_, hok.2⟩
    rcases hok.1 key hkey with hs | ⟨s, hs, hsend, hname⟩
    · exact hsyn hs
    · rw [hall s hs hname] at hsend
      cases hsend
  · intro hdst hdrop
    unfold acceptInput
    simp only [hdst, if_true]
    by_cases hq : quitmode = .quit_mode_cancel
    · simp only [hq, if_true]
      exact ⟨_, _, rfl⟩
    · simp only [hq, if_false]
      obtain ⟨hkeys, hfields⟩ := acceptInputKeys_spec m.m_fields m _ h0
      obtain ⟨f1, hf1⟩ := acceptInputFields_some w
        (acceptInputKeys m (if quitmode = .quit_mode_accept then
          mapSet ([] : StringMap) "quit" "true" else [])).2
        (acceptInputKeys m (if quitmode = .quit_mode_accept then
          mapSet ([] : StringMap) "quit" "true" else [])).2.m_fields
        (acceptInputKeys m (if quitmode = .quit_mode_accept then
          mapSet ([] : StringMap) "quit" "true" else [])).1
        (by rw [hfields]; exact hdrop)
      rw [hf1]
      exact ⟨_, _, rfl⟩

/-! ### Style statements -/

/-- The loop of `parseStyle` never writes to the cascades. -/
theorem parseStyleProps_themes (element : String) (parts : List String) (m : GUIFormSpecMenu)
    (spec : StyleSpec) :
    (parseStyleProps element parts m spec).1.theme_by_type = m.theme_by_type ∧
    (parseStyleProps element parts m spec).1.theme_by_name = m.theme_by_name := by
  induction parts generalizing m spec with
  | nil => exact ⟨rfl, rfl⟩
  | cons part rest ih =>
    unfold parseStyleProps
    split
    · exact ⟨rfl, rfl⟩
    · dsimp only
      split_ifs
      · exact ⟨rfl, rfl⟩
      · exact ⟨rfl, rfl⟩
      · exact ih _ _

/-- The loop of `parseStyle` returns early as soon as a part cannot be read. -/
theorem parseStyleProps_reject (element : String) (parts : List String) (m : GUIFormSpecMenu)
    (spec : StyleSpec) (h : ∃ part ∈ parts, styleProperty part = none) :
    (parseStyleProps element parts m spec).2 = none := by
  induction parts generalizing m spec with
  | nil =>
    obtain ⟨part, hmem, _⟩ := h
    cases hmem
  | cons part rest ih =>
    unfold parseStyleProps
    split
    · rfl
    · next equal_pos heq =>
      dsimp only
      split_ifs with hnone hwarned
      · rfl
      · rfl
      · apply ih
        obtain ⟨p, hmem, hp⟩ := h
        rcases List.mem_cons.mp hmem with hpe | hpr
        · subst hpe
          exfalso
          unfold styleProperty at hp
          rw [heq] at hp
          simp only [hnone, if_false] at hp
          cases hp
        · exact ⟨p, hpr, hp⟩

/-- When every part can be read, the loop of `parseStyle` sets the properties
one after the other and leaves the menu as it is. -/
theorem parseStyleProps_accept (element : String) (parts : List String) (m : GUIFormSpecMenu)
    (spec : StyleSpec) (h : ∀ part ∈ parts, styleProperty part ≠ none) :
    parseStyleProps element parts m spec = (m, some (parts.foldl setStyleProperty spec)) := by
  induction parts generalizing m spec with
  | nil => rfl
  | cons part rest ih =>
    have hp := h part (List.mem_cons_self _ _)
    have hrest : ∀ p ∈ rest, styleProperty p ≠ none :=
      fun p hmem => h p (List.mem_cons_of_mem _ hmem)
    unfold parseStyleProps
    unfold styleProperty at hp
    split
    · next heq =>
      rw [heq] at hp
      exact absurd rfl hp
    · next equal_pos heq =>
      rw [heq] at hp
      dsimp only at hp ⊢
      by_cases hnone : StyleSpec.GetPropertyByName
          (tolower (trim (String.mk (part.data.take equal_pos)))) = Property.NONE
      · simp only [hnone, if_true] at hp
        exact absurd rfl hp
      · simp only [hnone, if_false]
        rw [ih _ _ hrest]
        have hset : setStyleProperty spec part = spec.set
            (StyleSpec.GetPropertyByName (tolower (trim (String.mk (part.data.take equal_pos)))))
            (trim (unescape_string (String.mk (part.data.drop (equal_pos + 1))))) := by
          unfold setStyleProperty styleProperty
          rw [heq]
          simp only [hnone, if_false]
        rw [List.foldl_cons, hset]

/-- C25: `parseStyle` is atomic on rejection.  For a statement with fewer than
2 parts, an empty selector, or a property part that has no `=` or names an
unknown property, it returns false and leaves both cascades as they were,
whatever the other parts of the statement are.  Otherwise it returns true, and
with `spec` holding the properties of the statement, set one after the other:
for `style_type` the by-type cascade gets `spec` overlaid onto the entry of the
selector (an empty entry when there was none) while its other selectors and
the by-name cascade are left as they were; for `style` the same holds with
the two cascades exchanged. -/
theorem parseStyle_atomic (m : GUIFormSpecMenu) (element : String) (style_type : Bool) :
    ((split element ';').length < 2 ∨ trim ((split element ';').headD "") = "" ∨
        (∃ part ∈ (split element ';').tail, styleProperty part = none) →
      (parseStyle m element style_type).2 = false ∧
      (parseStyle m element style_type).1.theme_by_type = m.theme_by_type ∧
      (parseStyle m element style_type).1.theme_by_name = m.theme_by_name) ∧
    (¬ ((split element ';').length < 2 ∨ trim ((split element ';').headD "") = "" ∨
        (∃ part ∈ (split element ';').tail, styleProperty part = none)) →
      (parseStyle m element style_type).2 = true ∧
      (style_type = true →
        (parseStyle m element style_type).1.theme_by_type
            (trim ((split element ';').headD "")) =
          some (((m.theme_by_type (trim ((split element ';').headD ""))).getD {}).overlay
            ((split element ';').tail.foldl setStyleProperty {})) ∧
        (∀ k, k ≠ trim ((split element ';').headD "") →
          (parseStyle m element style_type).1.theme_by_type k = m.theme_by_type k) ∧
        (parseStyle m element style_type).1.theme_by_name = m.theme_by_name) ∧
      (style_type = false →
        (parseStyle m element style_type).1.theme_by_name
            (trim ((split element ';').headD "")) =
          some (((m.theme_by_name (trim ((split element ';').headD ""))).getD {}).overlay
            ((split element ';').tail.foldl setStyleProperty {})) ∧
        (∀ k, k ≠ trim ((split element ';').headD "") →
          (parseStyle m element style_type).1.theme_by_name k = m.theme_by_name k) ∧
        (parseStyle m element style_type).1.theme_by_type = m.theme_by_type)) := by
  constructor
  · intro hbad
    unfold parseStyle
    by_cases hlen : (split element ';').length < 2
    · simp only [hlen, if_true]
      exact ⟨trivial, trivial, trivial⟩
    · by_cases hsel : trim ((split element ';').headD "") = ""
      · simp only [hlen, if_false, hsel, if_true]
        exact ⟨trivial, trivial, trivial⟩
      · have hex : ∃ part ∈ (split element ';').tail, styleProperty part = none := by
          rcases hbad with h | h | h
          · exact absurd h hlen
          · exact absurd h hsel
          · exact h
        have hrej := parseStyleProps_reject element _ m {} hex
        have hth := parseStyleProps_themes element (split element ';').tail m {}
        simp only [hlen, if_false, hsel]
        generalize parseStyleProps element (split element ';').tail m {} = r at hrej hth
        obtain ⟨m1, o⟩ := r
        simp only at hrej
        subst hrej
        exact ⟨rfl, hth.1, hth.2⟩
  · intro hgood
    have hlen : ¬ (split element ';').length < 2 := fun h => hgood (Or.inl h)
    have hsel : ¬ trim ((split element ';').headD "") = "" := fun h => hgood (Or.inr (Or.inl h))
    have hall : ∀ part ∈ (split element ';').tail, styleProperty part ≠ none :=
      fun part hmem hp => hgood (Or.inr (Or.inr ⟨part, hmem, hp⟩))
    have hacc := parseStyleProps_accept element _ m {} hall
    unfold parseStyle
    simp only [hlen, if_false, hsel, hacc]
    cases style_type with
    | true =>
      refine ⟨rfl, fun _ => ⟨?_, ?_, rfl⟩, fun h => absurd h (by decide)⟩
      · simp only [if_true, Theme.overlayAt]
      · intro k hk
        simp only [if_true, Theme.overlayAt, hk, if_false]
    | false =>
      refine ⟨rfl, fun h => absurd h (by decide), fun _ => ⟨?_, ?_, rfl⟩⟩
      · simp only [Bool.false_eq_true, if_false, Theme.overlayAt, if_true]
      · intro k hk
        simp only [Bool.false_eq_true, if_false, Theme.overlayAt, hk]

/-- The loop of `parseStyle` leaves the warned set as it is, and with an empty
warned set it writes no warning. -/
theorem parseStyleProps_warned (element : String) (parts : List String) (m : GUIFormSpecMenu)
    (spec : StyleSpec) :
    (parseStyleProps element parts m spec).1.property_warned = m.property_warned ∧
    (m.property_warned = [] →
      (parseStyleProps element parts m spec).1.warningstream = m.warningstream) := by
  induction parts generalizing m spec with
  | nil => exact ⟨rfl, fun _ => rfl⟩
  | cons part rest ih =>
    unfold parseStyleProps
    split
    · exact ⟨rfl, fun _ => rfl⟩
    · dsimp only
      split_ifs with hnone hwarned
      · refine ⟨?_, fun hempty => ?_⟩
        · simp only [insertSet, hwarned, if_true]
        · rw [hempty] at hwarned
          cases hwarned
      · exact ⟨rfl, fun _ => rfl⟩
      · exact ih _ _

/-- No style statement changes the warned set, and while the set is empty none
writes a warning. -/
theorem parseStyle_warned (m : GUIFormSpecMenu) (element : String) (style_type : Bool) :
    (parseStyle m element style_type).1.property_warned = m.property_warned ∧
    (m.property_warned = [] →
      (parseStyle m element style_type).1.warningstream = m.warningstream) := by
  have h := parseStyleProps_warned element (split element ';').tail m {}
  unfold parseStyle
  dsimp only
  split_ifs
  · exact ⟨rfl, fun _ => rfl⟩
  · exact ⟨rfl, fun _ => rfl⟩
  · split <;> simp_all
  · split <;> simp_all

/-! ### The prepend -/

/-- The layout step leaves the coordinate mode and the format version as they
are. -/
theorem regenerateGui_layout_mode (r : RenderEnv) (mydata : parserData) (m : GUIFormSpecMenu) :
    (regenerateGui_layout r mydata m).1.real_coordinates = mydata.real_coordinates ∧
    (regenerateGui_layout r mydata m).2.m_formspec_version = m.m_formspec_version := by
  unfold regenerateGui_layout
  dsimp only
  split_ifs <;> exact ⟨rfl, rfl⟩

/-- C30: prepend isolation.  With prepends enabled, for every prepend string
the prepend step is the parse of the elements of the prepend from the session
with the coordinate mode set to legacy, followed by putting back the
coordinate mode of the session and the format version of the menu that the
step was entered with; so whenever the step returns, both have the values from
before the prepend.  With prepends disabled it returns the session and the
menu unchanged.  In `regenerateGui` the step is entered with the
coordinate mode and the format version that the head of the main document
established (the layout step changes neither), so these are the values after
the prepend. -/
theorem regenerateGui_prepend_restores (env : ParseEnv) (r : RenderEnv) (mydata : parserData)
    (m : GUIFormSpecMenu) :
    regenerateGui_prepend env true mydata m =
      (parseElements env (split m.m_formspec_prepend ']')
          ({ mydata with real_coordinates := false }, m)).map
        (fun s' => ({ s'.1 with real_coordinates := mydata.real_coordinates },
          { s'.2 with m_formspec_version := m.m_formspec_version })) ∧
    (∀ enable_prepends s, regenerateGui_prepend env enable_prepends mydata m = some s →
        s.1.real_coordinates = mydata.real_coordinates ∧
        s.2.m_formspec_version = m.m_formspec_version) ∧
    regenerateGui_prepend env false mydata m = some (mydata, m) ∧
    (∀ enable_prepends s,
        regenerateGui_prepend env enable_prepends
            (regenerateGui_layout r (regenerateGui_head env mydata m).1.1
              (regenerateGui_head env mydata m).1.2).1
            { (regenerateGui_layout r (regenerateGui_head env mydata m).1.1
              (regenerateGui_head env mydata m).1.2).2 with pos_offset := {} } = some s →
        s.1.real_coordinates = (regenerateGui_head env mydata m).1.1.real_coordinates ∧
        s.2.m_formspec_version = (regenerateGui_head env mydata m).1.2.m_formspec_version) := by
  have hrestore : ∀ (d : parserData) (n : GUIFormSpecMenu) enable_prepends s,
      regenerateGui_prepend env enable_prepends d n = some s →
        s.1.real_coordinates = d.real_coordinates ∧
        s.2.m_formspec_version = n.m_formspec_version := by
    intro d n enable_prepends s h
    unfold regenerateGui_prepend at h
    cases enable_prepends with
    | false =>
      simp only [Bool.false_eq_true, if_false, Option.some.injEq] at h
      rw [← h]
      exact ⟨rfl, rfl⟩
    | true =>
      simp only [if_true] at h
      split at h
      · cases h
      · simp only [Option.some.injEq] at h
        rw [← h]
        exact ⟨rfl, rfl⟩
  refine ⟨?_, hrestore mydata m, ?_, ?_⟩
  · unfold regenerateGui_prepend
    simp only [if_true]
    split <;> simp_all
  · unfold regenerateGui_prepend
    simp only [Bool.false_eq_true, if_false]
  · intro enable_prepends s h
    have h1 := hrestore _ _ enable_prepends s h
    have h2 := regenerateGui_layout_mode r (regenerateGui_head env mydata m).1.1
      (regenerateGui_head env mydata m).1.2
    exact ⟨h1.1.trans h2.1, h1.2.trans h2.2⟩

/-! ### The statements about lists, submitting, styles and regeneration at examples -/

/-- Witness of C22: with the lists `main` and `craft` declared, `listring[]`
links `main` and then `craft`; `listring[current_player;main]` links that one
list; `listring[]` without declared lists links nothing. -/
theorem parseListRing_links_witness :
    (parseListRing exEnv {} exTwoLists "").2.m_inventory_rings =
      [{ inventoryloc := "current_player", listname := "main" },
       { inventoryloc := "current_player", listname := "craft" }] ∧
    (parseListRing exEnv {} {} "current_player;main").2.m_inventory_rings =
      [{ inventoryloc := "current_player", listname := "main" }] ∧
    (parseListRing exEnv {} {} "").2.m_inventory_rings = [] := by
  obtain ⟨h1, h2, h3, _⟩ := parseListRing_links exEnv {} exTwoLists ""
  obtain ⟨spa, spb, ha, hb, hr⟩ := h1 rfl rfl (by decide)
  have ea := Option.some.inj ha
  have eb := Option.some.inj hb
  subst ea eb
  refine ⟨hr, ?_, (parseListRing_links exEnv {} {} "").2.1 rfl (by decide)⟩
  rw [(parseListRing_links exEnv {} {} "current_player;main").2.2.1 rfl (by decide)]
  decide

/-- Counterexample to C22 as stated: without a client (`m_client == 0`) the
body `current_player;main` has exactly two parts, yet `parseListRing` appends
nothing and logs an error; with a client the same body appends one entry. -/
theorem parseListRing_client_counterexample :
    (split "current_player;main" ';').length = 2 ∧
    (parseListRing exEnv {} { m_client := false } "current_player;main").2.m_inventory_rings =
      [] ∧
    (parseListRing exEnv {} { m_client := false } "current_player;main").2.errorstream =
      ["WARNING: invalid use of 'listring' with m_client==0"] ∧
    (parseListRing exEnv {} {} "current_player;main").2.m_inventory_rings =
      [{ inventoryloc := "current_player", listname := "main" }] := by
  decide

/-- Witness of C23: `size[8,9]` gives the grid size (8, 9) with the lock off,
`size[8,9,true]` switches the lock on, `size[-8,9]` gives (0, 9), and `size[8]`
changes nothing. -/
theorem parseSize_sets_witness :
    (parseSize exEnv {} {} "8,9").1.invsize = { X := 8, Y := 9 } ∧
    (parseSize exEnv {} {} "8,9").1.explicit_size = true ∧
    (parseSize exEnv {} {} "8,9").2.m_lock = false ∧
    (parseSize exEnv {} {} "8,9,true").1.invsize = { X := 8, Y := 9 } ∧
    (parseSize exEnv {} {} "8,9,true").2.m_lock = true ∧
    (parseSize exEnv {} {} "-8,9").1.invsize = { X := 0, Y := 9 } ∧
    (parseSize exEnv {} {} "8").1.explicit_size = false := by
  obtain ⟨a1, _, _, a4, a5⟩ := (parseSize_sets exEnv {} {} "8,9").1 (Or.inl (by decide))
  obtain ⟨b1, _, _, _, b5⟩ := (parseSize_sets exEnv {} {} "8,9,true").1 (Or.inr (by decide))
  obtain ⟨c1, _, _, _, _⟩ := (parseSize_sets exEnv {} {} "-8,9").1 (Or.inl (by decide))
  obtain ⟨_, d2, _⟩ := (parseSize_sets exEnv {} {} "8").2 (Or.inl (by decide))
  refine ⟨?_, a4, ?_, ?_, b5.2 ⟨by decide, by decide⟩, ?_, d2⟩
  · rw [a1]; decide!
  · cases h : (parseSize exEnv {} {} "8,9").2.m_lock with
    | false => rfl
    | true => exact absurd (a5.1 h).1 (by decide)
  · rw [b1]; decide!
  · rw [c1]; decide!

/-- Witness of C24: accepting the example menu delivers the text field, the
button, the pending enter key and `quit`; the label `note`, which is not sent,
is no key of the map. -/
theorem acceptInput_keys_witness :
    ∃ m' fields, acceptInput exWidgets exSubmitMenu .quit_mode_accept = some (m', some fields) ∧
      fields = [("name", "hello"), ("ok", "OK"), ("key_enter", "true"), ("quit", "true")] ∧
      (∀ key ∈ fields.map Prod.fst,
        key ∈ ["quit", "key_up", "key_down", "key_enter", "key_enter_field", "key_escape"] ∨
        ∃ s ∈ exSubmitMenu.m_fields, s.send = true ∧ s.fname = key) ∧
      (fields.map Prod.fst).Nodup := by
  obtain ⟨m', fields, h⟩ :=
    (acceptInput_keys exWidgets exSubmitMenu .quit_mode_accept).2 rfl (by
      intro s hs hsend hd
      have : s.ftype ≠ .f_DropDown := by
        revert s
        decide
      exact absurd hd this)
  obtain ⟨h1, _, h3⟩ := (acceptInput_keys exWidgets exSubmitMenu .quit_mode_accept).1 m' fields h
  refine ⟨m', fields, h, ?_, h1, h3⟩
  have hv : (acceptInput exWidgets exSubmitMenu .quit_mode_accept).map (fun r => r.2) =
      some (some [("name", "hello"), ("ok", "OK"), ("key_enter", "true"), ("quit", "true")]) := by
    decide
  rw [h] at hv
  simpa using hv

/-- Witness of C25: `style[btn;bgcolor=#fff;foo=bar]` is rejected although its
first property is valid, and the cascades stay empty; `style_type[button;
bgcolor=#fff]` is accepted and sets `bgcolor` in the by-type entry of `button`
only. -/
theorem parseStyle_atomic_witness :
    (parseStyle {} "btn;bgcolor=#fff;foo=bar" false).2 = false ∧
    (parseStyle {} "btn;bgcolor=#fff;foo=bar" false).1.theme_by_name "btn" = none ∧
    (parseStyle {} "button;bgcolor=#fff" true).2 = true ∧
    ((parseStyle {} "button;bgcolor=#fff" true).1.theme_by_type "button").map
        (fun s => s.properties .BGCOLOR) = some (some "#fff") ∧
    (parseStyle {} "button;bgcolor=#fff" true).1.theme_by_name "button" = none := by
  obtain ⟨a1, _, a3⟩ := (parseStyle_atomic {} "btn;bgcolor=#fff;foo=bar" false).1
    (Or.inr (Or.inr ⟨"foo=bar", by decide, by decide⟩))
  obtain ⟨b1, b2, _⟩ := (parseStyle_atomic {} "button;bgcolor=#fff" true).2 (by decide)
  obtain ⟨b3, _, b5⟩ := b2 rfl
  refine ⟨a1, by rw [a3], b1, ?_, by rw [b5]⟩
  have e : trim ((split "button;bgcolor=#fff" ';').headD "") = "button" := by decide
  rw [e] at b3
  rw [b3]
  decide

/-- Witness of C30: entered in real-coordinate mode at format version 2, the
prepend step parses the prepend of `exPrependMenu`, which ends in legacy mode
at format version 3 with the fullscreen background set, and returns in
real-coordinate mode at format version 2. -/
theorem regenerateGui_prepend_restores_witness :
    (regenerateGui_prepend exEnv true { real_coordinates := true } exPrependMenu).isSome = true ∧
    ((regenerateGui_prepend exEnv true { real_coordinates := true } exPrependMenu).getD
      ({}, {})).1.real_coordinates = true ∧
    ((regenerateGui_prepend exEnv true { real_coordinates := true } exPrependMenu).getD
      ({}, {})).2.m_formspec_version = 2 ∧
    ((regenerateGui_prepend exEnv true { real_coordinates := true } exPrependMenu).getD
      ({}, {})).2.m_bgfullscreen = true ∧
    (parseElements exEnv (split exPrependMenu.m_formspec_prepend ']')
        ({ real_coordinates := false }, exPrependMenu)).map
      (fun s => (s.1.real_coordinates, s.2.m_formspec_version)) = some (false, 3) := by
  obtain ⟨h1, h2⟩ :=
    (regenerateGui_prepend_restores exEnv exRender { real_coordinates := true }
      exPrependMenu).2.1 true _ (getD_spec _ ({}, {}) (by decide))
  exact ⟨by decide, h1, h2, by decide, by decide⟩

/-- C26 at a failing input: the first statement with the unknown property
`foo` is rejected without a warning and without adding `foo` to the warned
set, and so is a second one; a warning is written only when the name is in the
warned set already, which the source never fills otherwise. -/
theorem parseStyle_unknown_property_silent :
    (parseStyle {} "btn;foo=bar" false).2 = false ∧
    (parseStyle {} "btn;foo=bar" false).1.warningstream = [] ∧
    (parseStyle {} "btn;foo=bar" false).1.property_warned = [] ∧
    (parseStyle (parseStyle {} "btn;foo=bar" false).1 "btn;foo=bar" false).1.warningstream = [] ∧
    (parseStyle { property_warned := ["foo"] } "btn;foo=bar" false).1.warningstream =
      ["Invalid style element (Unknown property foo): 'btn;foo=bar'"] := by
  decide

/-- C27 at a failing input: at format version 1 (the current version being 2)
a scrollbar body with six parts is not dropped: `parseScrollBar` registers a
scrollbar and the field 258 and logs no error. -/
theorem parseScrollBar_trailing :
    (split "1,1;2,2;horizontal;sb;0;extra" ';').length = 6 ∧
    ¬ (({} : GUIFormSpecMenu).m_formspec_version > exEnv.FORMSPEC_API_VERSION) ∧
    (parseScrollBar exEnv {} {} "1,1;2,2;horizontal;sb;0;extra").2.m_scrollbars =
      [{ fname := "sb", fid := 258, send := true, ftype := .f_ScrollBar }] ∧
    (parseScrollBar exEnv {} {} "1,1;2,2;horizontal;sb;0;extra").2.m_fields =
      [{ fname := "sb", fid := 258, send := true, ftype := .f_ScrollBar }] ∧
    (parseScrollBar exEnv {} {} "1,1;2,2;horizontal;sb;0;extra").2.errorstream = [] := by
  decide

/-- C28 at failing inputs, the current version being 2: at format version 2 a
hypertext body with three parts, or with one part, passes the test of
`parseHyperText` and a part is read past the end; a body with five parts is
accepted at format version 2, which does not exceed the current version, and
registers a field.  At format version 1 the body with three parts is
dropped. -/
theorem parseHyperText_short :
    (split "1,1;2,2;name" ';').length = 3 ∧
    (parseHyperText exEnv {} { m_formspec_version := 2 } "1,1;2,2;name").isNone = true ∧
    (parseHyperText exEnv {} { m_formspec_version := 2 } "1,1").isNone = true ∧
    ((parseHyperText exEnv {} { m_formspec_version := 2 } "1,1;2,2;name;text;more").map
      fun r => r.2.m_fields.map fun f => (f.fname, f.fid)) = some [("name", 258)] ∧
    ((parseHyperText exEnv {} { m_formspec_version := 1 } "1,1;2,2;name").map
      fun r => (r.2.m_fields, r.2.errorstream)) =
      some ([], ["Invalid text element(3): '1,1;2,2;name'"]) := by
  decide

/-- C29 at a failing input, the current version being 2: in the document
`size[8,9]formspec_version[3]button[0,0;2,1;ok;OK;extra]` the first element is
no version directive, yet after `regenerateGui` the format version is 3, and
the button after the directive, whose body has five parts, was parsed at
version 3 and registered; without the directive the format version is 1 and
the button is dropped. -/
theorem regenerateGui_version_later :
    (regenerateGui exEnv exRender
        { m_formspec_string := "size[8,9]formspec_version[3]button[0,0;2,1;ok;OK;extra]" }
        { X := 800, Y := 600 }).map
      (fun m => (m.m_formspec_version, m.m_fields.map fun f => f.fname)) = some (3, ["ok"]) ∧
    (regenerateGui exEnv exRender
        { m_formspec_string := "size[8,9]button[0,0;2,1;ok;OK;extra]" }
        { X := 800, Y := 600 }).map
      (fun m => (m.m_formspec_version, m.m_fields.map fun f => f.fname)) = some (1, []) ∧
    (regenerateGui exEnv exRender
        { m_formspec_string := "formspec_version[3]size[8,9]button[0,0;2,1;ok;OK;extra]" }
        { X := 800, Y := 600 }).map
      (fun m => (m.m_formspec_version, m.m_fields.map fun f => f.fname)) = some (3, ["ok"]) := by
  decide!

/-! ### Images in real-coordinate mode -/

/-- C31 at a failing input: in a session in real-coordinate mode the two-part
image body `1,1;texture.png` is accepted and stored at pixel (115, 153), the
position the legacy resolver `getElementBasePos` gives, while the real
resolver `getRealCoordinateBasePos` gives (80, 120); the three-part body
`1,1;1,1;texture.png` of the same session is stored at (80, 120). -/
theorem parseImage_two_part_legacy :
    (split "1,1;texture.png" ';').length = 2 ∧
    (parseImage exEnv exRealSession exLayout "1,1;texture.png").2.m_images =
      [{ name := "texture.png", pos := { X := 115, Y := 153 }, scale := false }] ∧
    getElementBasePos exLayout true (some ["1", "1"]) = { X := 115, Y := 153 } ∧
    getRealCoordinateBasePos exLayout true ["1", "1"] = { X := 80, Y := 120 } ∧
    (parseImage exEnv exRealSession exLayout "1,1;1,1;texture.png").2.m_images =
      [{ name := "texture.png", pos := { X := 80, Y := 120 }, geom := { X := 40, Y := 40 } }] := by
  decide!

/-! ### Absolute positions -/

/-! ### Containers across regenerations -/

/-- C34 at a failing input: the document of `exUnclosed` closes a container
that was never opened, places an image and leaves two containers open.  Both
regenerations at 800 by 600 pixels succeed, on the same document.  The first
one ends with the container stack (2, 3), (0, 0), the offset (3, 4) and the
image at pixel (205, 91).  The second one starts from that stack, not from an
empty one: `container_end[]` pops the stale entry (2, 3), the image lands at
pixel (305, 229), and the regeneration ends with three entries on the stack
and the offset (5, 7). -/
theorem regenerateGui_stale_containers :
    (regenerateGui exEnv exRender exUnclosed { X := 800, Y := 600 }).isSome = true ∧
    (regenerateGui exEnv exRender exUnclosedOnce { X := 800, Y := 600 }).isSome = true ∧
    exUnclosedOnce.m_formspec_string = exUnclosed.m_formspec_string ∧
    exUnclosedOnce.container_stack = [{ X := 2, Y := 3 }, { X := 0, Y := 0 }] ∧
    exUnclosedOnce.pos_offset = { X := 3, Y := 4 } ∧
    exUnclosedOnce.m_images.map (fun i => i.pos) = [{ X := 205, Y := 91 }] ∧
    exUnclosedTwice.container_stack =
      [{ X := 4, Y := 6 }, { X := 2, Y := 3 }, { X := 0, Y := 0 }] ∧
    exUnclosedTwice.pos_offset = { X := 5, Y := 7 } ∧
    exUnclosedTwice.m_images.map (fun i => i.pos) = [{ X := 305, Y := 229 }] := by
  decide!

/-! ### Slot crossing -/

/-- C35 at a failing input: the previous pointer position is on slot 0 of
`main` and the pointer is on slot 0 of `craft`, another list at the same
index.  The move with the right button held is not handled: nothing is moved,
5 items stay selected and `m_old_pointer` stays where it was.  The same move
onto slot 1 of `craft` is handled and moves one item there. -/
theorem OnEvent_move_same_index :
    getItemAtPos (exCrossMenu 5 25) { X := 5, Y := 5 } = exSlot 0 ∧
    getItemAtPos (exCrossMenu 5 25) { X := 5, Y := 25 } =
      { inventoryloc := "current_player", listname := "craft", i := 0 } ∧
    handlesMouse (exCrossMenu 5 25) rightMove = false ∧
    (OnEvent exRingCollab (exCrossMenu 5 25) rightMove).map
        (fun r => (r.1.m_selected_amount, r.1.m_old_pointer, r.2)) =
      some (5, { X := 5, Y := 5 }, []) ∧
    handlesMouse (exCrossMenu 17 25) rightMove = true ∧
    (OnEvent exRingCollab (exCrossMenu 17 25) rightMove).map
        (fun r => (r.1.m_selected_amount, r.1.m_old_pointer, r.2)) =
      some (4, { X := 17, Y := 25 },
        [.IMoveAction 1 "current_player" "main" 0 "current_player" "craft" 1 false]) := by
  decide

/-! ### Stale swaps -/

/-- The menu `exSwapped` is reachable: pick up the 10 stone of slot 0 and click
them onto the 3 dirt of slot 2. -/
theorem exSwapped_reachable : Reachable exSwapped :=
  Reachable.event exCollab exPickedOnDirt exSwapped leftDown
    [.IMoveAction 10 "current_player" "main" 0 "current_player" "main" 2 false]
    (Reachable.layout exPicked exPickedOnDirt
      (Reachable.event exCollab (exMenuAt 5) exPicked leftDown []
        (Reachable.init (exMenuAt 5) rfl rfl rfl rfl)
        (menuAfter_spec _ _ _ (by decide)))
      rfl rfl rfl rfl)
    (menuAfter_spec _ _ _ (by decide))

/-- C37 at a failing input: `exSwapped` is reachable and has slot 0 selected
with a swap of 3 dirt pending.  A validation pass that finds slot 0 empty
clears the selection and the amount and keeps the pending swap: `exStale` is
reachable, has no selected slot and `m_selected_swap` is 3 dirt.  Later one
gold is picked up from slot 0 and clicked onto the 10 stone of slot 2: the
swap is refused (no action, still 1 gold selected), while from the menu
without the stale swap the same click swaps the stacks (one Move action, 10
selected). -/
theorem verifySelectedItem_stale_swap :
    Reachable exStale ∧
    Reachable exStalePickedOnStone ∧
    exSwapped.m_selected_item = some (exSlot 0) ∧
    exSwapped.m_selected_swap = { name := "dirt", count := 3 } ∧
    exStale.m_selected_item = none ∧
    exStale.m_selected_amount = 0 ∧
    exStale.m_selected_swap = { name := "dirt", count := 3 } ∧
    exStalePickedOnStone.m_selected_item = some (exSlot 0) ∧
    exStalePickedOnStone.m_selected_amount = 1 ∧
    (OnEvent exCollabLater exStalePickedOnStone leftDown).map
        (fun r => (r.1.m_selected_item, r.1.m_selected_amount, r.2)) =
      some (some (exSlot 0), 1, []) ∧
    exGoldPickedOnStone.m_selected_item = some (exSlot 0) ∧
    exGoldPickedOnStone.m_selected_swap = {} ∧
    (OnEvent exCollabLater exGoldPickedOnStone leftDown).map
        (fun r => (r.1.m_selected_item, r.1.m_selected_amount, r.2)) =
      some (some (exSlot 0), 10,
        [.IMoveAction 1 "current_player" "main" 0 "current_player" "main" 2 false]) := by
  have h1 : Reachable exStale := Reachable.verify exCollabEmptied exSwapped exSwapped_reachable
  have h2 : Reachable exStalePickedOnStone :=
    Reachable.layout exStalePicked exStalePickedOnStone
      (Reachable.event exCollabLater exStaleOnGold exStalePicked leftDown []
        (Reachable.layout exStale exStaleOnGold h1 rfl rfl rfl rfl)
        (menuAfter_spec _ _ _ (by decide)))
      rfl rfl rfl rfl
  exact ⟨h1, h2, by decide, by decide, by decide, by decide, by decide, by decide, by decide,
    by decide, by decide, by decide, by decide⟩

/-! ### Repeating the validation pass -/

/-- The validation pass leaves a menu without a selection as it is. -/
theorem verifySelectedItem_of_none (c : Collab) (m : GUIFormSpecMenu)
    (h : m.m_selected_item = none) : verifySelectedItem c m = (m, {}) := by
  unfold verifySelectedItem
  simp only [h]

/-- The validation pass on a selected slot that exists and holds a non-empty
stack: the menu it leaves and the stack it returns. -/
theorem verifySelectedItem_kept_eq (c : Collab) (m : GUIFormSpecMenu) (sel : ItemSpec)
    (inv : Inventory) (list : InventoryList)
    (hsel : m.m_selected_item = some sel) (hv : sel.isValid = true)
    (hinv : c.getInventory sel.inventoryloc = some inv)
    (hlist : inv.getList sel.listname = some list)
    (hlt : toU32 sel.i < list.getSize)
    (hne : (list.getItem (toU32 sel.i)).count ≠ 0) :
    verifySelectedItem c m =
      (verifyKept m (list.getItem (toU32 sel.i)), list.getItem (toU32 sel.i)) := by
  have he : (list.getItem (toU32 sel.i)).empty = false := by
    simpa [ItemStack.empty] using hne
  unfold verifySelectedItem verifyKept
  simp only [hsel, hv, if_true, hinv, hlist, hlt, he, Bool.not_false]

/-- The two outcomes of the validation pass: nothing is selected afterwards,
an empty stack is returned and the pending swap is untouched; or the selected
slot exists and holds a non-empty stack. -/
theorem verifySelectedItem_shape (c : Collab) (m : GUIFormSpecMenu) :
    ((verifySelectedItem c m).1.m_selected_item = none ∧ (verifySelectedItem c m).2 = {} ∧
      (verifySelectedItem c m).1.m_selected_swap = m.m_selected_swap) ∨
    (∃ sel inv list, m.m_selected_item = some sel ∧ sel.isValid = true ∧
      c.getInventory sel.inventoryloc = some inv ∧ inv.getList sel.listname = some list ∧
      toU32 sel.i < list.getSize ∧ (list.getItem (toU32 sel.i)).count ≠ 0) := by
  cases hsel : m.m_selected_item with
  | none =>
    left
    rw [verifySelectedItem_of_none c m hsel]
    exact ⟨hsel, rfl, rfl⟩
  | some sel =>
    have hclear : verifySelectedItem c m = clearInvalidSelection m →
        ((verifySelectedItem c m).1.m_selected_item = none ∧ (verifySelectedItem c m).2 = {} ∧
          (verifySelectedItem c m).1.m_selected_swap = m.m_selected_swap) := by
      intro hx; rw [hx]
      exact ⟨rfl, rfl, rfl⟩
    by_cases hv : sel.isValid = true
    · cases hi : c.getInventory sel.inventoryloc with
      | none =>
        left
        apply hclear
        unfold verifySelectedItem
        simp [hsel, hv, hi]
      | some inv =>
        cases hl : inv.getList sel.listname with
        | none =>
          left
          apply hclear
          unfold verifySelectedItem
          simp [hsel, hv, hi, hl]
        | some list =>
          by_cases hlt : toU32 sel.i < list.getSize
          · by_cases hemp : (list.getItem (toU32 sel.i)).count = 0
            · left
              unfold verifySelectedItem clearInvalidSelection
              simp only [hsel, hv, hi, hl, hlt, if_true, ItemStack.empty, hemp]
              by_cases hsw : m.m_selected_swap.count = 0
              · simp [hsw]
              · by_cases hmatch : m.m_selected_swap.name = (list.getItem (toU32 sel.i)).name
                · simp [hsw, hmatch]
                · simp [hsw, hmatch]
            · right
              exact ⟨sel, inv, list, rfl, hv, hi, hl, hlt, hemp⟩
          · left
            apply hclear
            unfold verifySelectedItem
            simp [hsel, hv, hi, hl, hlt]
    · left
      apply hclear
      unfold verifySelectedItem
      simp [hsel, hv]

/-- The menu `verifyKept` leaves has the selected slot of the menu it started from. -/
theorem verifyKept_item (m : GUIFormSpecMenu) (stack : ItemStack) :
    (verifyKept m stack).m_selected_item = m.m_selected_item := by
  unfold verifyKept
  split_ifs <;> rfl

/-- The pass without a pending swap caps the selected amount. -/
theorem verifyKept_noswap (m : GUIFormSpecMenu) (stack : ItemStack)
    (h : m.m_selected_swap.empty = true) :
    verifyKept m stack = { m with m_selected_amount := min m.m_selected_amount stack.count } := by
  unfold verifyKept
  simp only [h, Bool.not_true, Bool.false_eq_true, if_false]

/-- The pass with a pending swap that the stack fulfils ends the swap. -/
theorem verifyKept_match (m : GUIFormSpecMenu) (stack : ItemStack)
    (h : m.m_selected_swap.empty = false)
    (hm : (m.m_selected_swap.name == stack.name && m.m_selected_swap.count == stack.count) = true) :
    verifyKept m stack = { m with m_selected_swap := {} } := by
  unfold verifyKept
  simp only [h, Bool.not_false, if_true, hm]

/-- The pass with a pending swap that the stack does not fulfil changes nothing. -/
theorem verifyKept_nomatch (m : GUIFormSpecMenu) (stack : ItemStack)
    (h : m.m_selected_swap.empty = false)
    (hm : ¬ (m.m_selected_swap.name == stack.name && m.m_selected_swap.count == stack.count) = true) :
    verifyKept m stack = m := by
  have hm' : (m.m_selected_swap.name == stack.name &&
      m.m_selected_swap.count == stack.count) = false := Bool.eq_false_iff.mpr hm
  unfold verifyKept
  simp only [h, Bool.not_false, if_true, hm', Bool.false_eq_true, if_false]

/-- A second `verifyKept` changes nothing when the first one left the pending
swap as it was. -/
theorem verifyKept_same (m : GUIFormSpecMenu) (stack : ItemStack)
    (h : (verifyKept m stack).m_selected_swap = m.m_selected_swap) :
    verifyKept (verifyKept m stack) stack = verifyKept m stack := by
  by_cases hsw : m.m_selected_swap.empty = true
  · rw [verifyKept_noswap m stack hsw,
      verifyKept_noswap { m with m_selected_amount := min m.m_selected_amount stack.count }
        stack hsw]
    show { m with m_selected_amount := min (min m.m_selected_amount stack.count) stack.count } =
      { m with m_selected_amount := min m.m_selected_amount stack.count }
    rw [min_assoc, min_self]
  · have hsw' : m.m_selected_swap.empty = false := by simpa using hsw
    by_cases hmatch : (m.m_selected_swap.name == stack.name &&
        m.m_selected_swap.count == stack.count) = true
    · rw [verifyKept_match m stack hsw' hmatch] at h
      have h' : ({} : ItemStack) = m.m_selected_swap := h
      rw [← h'] at hsw'
      exact absurd hsw' (by decide)
    · rw [verifyKept_nomatch m stack hsw' hmatch, verifyKept_nomatch m stack hsw' hmatch]

/-- A second `verifyKept` after one that ended the pending swap caps the
selected amount and changes nothing else. -/
theorem verifyKept_ended (m : GUIFormSpecMenu) (stack : ItemStack)
    (h : (verifyKept m stack).m_selected_swap ≠ m.m_selected_swap) :
    verifyKept (verifyKept m stack) stack =
      { verifyKept m stack with
        m_selected_amount := min (verifyKept m stack).m_selected_amount stack.count } := by
  by_cases hsw : m.m_selected_swap.empty = true
  · rw [verifyKept_noswap m stack hsw] at h
    exact absurd rfl h
  · have hsw' : m.m_selected_swap.empty = false := by simpa using hsw
    by_cases hmatch : (m.m_selected_swap.name == stack.name &&
        m.m_selected_swap.count == stack.count) = true
    · rw [verifyKept_match m stack hsw' hmatch]
      exact verifyKept_noswap _ stack rfl
    · rw [verifyKept_nomatch m stack hsw' hmatch] at h
      exact absurd rfl h

/-- C38, with the condition it needs: a validation pass repeated over the
same inventory.  When the first pass leaves `m_selected_swap` as it was (no
swap is pending, the selected stack does not fulfil the pending swap, or the
selection is cleared), the second pass gives the menu and the stack of the
first.  When the first pass ends a pending swap, the second pass returns the
same stack and the menu of the first with `m_selected_amount` capped to the
count of that stack.  A third pass gives what the second gave. -/
theorem verifySelectedItem_twice (c : Collab) (m : GUIFormSpecMenu) :
    ((verifySelectedItem c m).1.m_selected_swap = m.m_selected_swap →
      verifySelectedItem c (verifySelectedItem c m).1 = verifySelectedItem c m) ∧
    ((verifySelectedItem c m).1.m_selected_swap ≠ m.m_selected_swap →
      verifySelectedItem c (verifySelectedItem c m).1 =
        ({ (verifySelectedItem c m).1 with
            m_selected_amount :=
              min (verifySelectedItem c m).1.m_selected_amount (verifySelectedItem c m).2.count },
          (verifySelectedItem c m).2)) ∧
    verifySelectedItem c (verifySelectedItem c (verifySelectedItem c m).1).1 =
      verifySelectedItem c (verifySelectedItem c m).1 := by
  -- a pass that leaves nothing selected
  have hnone : ∀ n : GUIFormSpecMenu, (verifySelectedItem c n).1.m_selected_item = none →
      (verifySelectedItem c n).2 = {} →
      verifySelectedItem c (verifySelectedItem c n).1 = verifySelectedItem c n := by
    intro n h0 h2
    rw [verifySelectedItem_of_none c _ h0]
    exact Prod.ext rfl h2.symm
  rcases verifySelectedItem_shape c m with ⟨h0, h2, hs⟩ | ⟨sel, inv, list, hsel, hv, hi, hl, hlt, hne⟩
  · have e := hnone m h0 h2
    refine ⟨fun _ => e, fun h => absurd hs h, ?_⟩
    rw [e, e]
  · have e1 := verifySelectedItem_kept_eq c m sel inv list hsel hv hi hl hlt hne
    have e2 := verifySelectedItem_kept_eq c (verifyKept m (list.getItem (toU32 sel.i))) sel inv list
      ((verifyKept_item _ _).trans hsel) hv hi hl hlt hne
    have e3 := verifySelectedItem_kept_eq c
      (verifyKept (verifyKept m (list.getItem (toU32 sel.i))) (list.getItem (toU32 sel.i)))
      sel inv list
      ((verifyKept_item _ _).trans ((verifyKept_item _ _).trans hsel)) hv hi hl hlt hne
    rw [e1]
    simp only
    rw [e2]
    simp only
    rw [e3]
    refine ⟨fun h => ?_, fun h => ?_, ?_⟩
    · rw [verifyKept_same m _ h]
    · rw [verifyKept_ended m _ h]
    · by_cases h : (verifyKept m (list.getItem (toU32 sel.i))).m_selected_swap = m.m_selected_swap
      · rw [verifyKept_same m _ h, verifyKept_same m _ h]
      · have h' : (verifyKept (verifyKept m (list.getItem (toU32 sel.i)))
            (list.getItem (toU32 sel.i))).m_selected_swap =
            (verifyKept m (list.getItem (toU32 sel.i))).m_selected_swap := by
          rw [verifyKept_ended m _ h]
        rw [verifyKept_same _ _ h']

/-- C38 at a concrete input: in the example menu `exPicked` no swap is
pending, the pass leaves `m_selected_swap` as it was, and a second pass over
the example inventory gives the menu and the stack of the first. -/
theorem verifySelectedItem_twice_witness :
    (verifySelectedItem exCollab exPicked).1.m_selected_swap = exPicked.m_selected_swap ∧
    verifySelectedItem exCollab (verifySelectedItem exCollab exPicked).1 =
      verifySelectedItem exCollab exPicked :=
  ⟨by decide, (verifySelectedItem_twice exCollab exPicked).1 (by decide)⟩

/-- C38 as the spec states it fails on a reachable state. In `exSwapWheeled`
slot 0 is selected with amount 4 while the swap with 3 dirt is pending. Once
the inventory has carried out the swap (slot 0 holds 3 dirt), the first pass
ends the swap and leaves the amount at 4; the second pass caps it to 3. The
two passes return the same stack and different menus. -/
theorem verifySelectedItem_twice_counterexample :
    Reachable exSwapWheeled ∧
    exSwapWheeled.m_selected_item = some (exSlot 0) ∧
    exSwapWheeled.m_selected_amount = 4 ∧
    exSwapWheeled.m_selected_swap = { name := "dirt", count := 3 } ∧
    (verifySelectedItem exCollabSwapped exSwapWheeled).2 = { name := "dirt", count := 3 } ∧
    (verifySelectedItem exCollabSwapped exSwapWheeled).1.m_selected_swap = {} ∧
    (verifySelectedItem exCollabSwapped exSwapWheeled).1.m_selected_amount = 4 ∧
    (verifySelectedItem exCollabSwapped
      (verifySelectedItem exCollabSwapped exSwapWheeled).1).1.m_selected_amount = 3 ∧
    verifySelectedItem exCollabSwapped (verifySelectedItem exCollabSwapped exSwapWheeled).1 ≠
      verifySelectedItem exCollabSwapped exSwapWheeled := by
  refine ⟨?_, by decide, by decide, by decide, by decide, by decide, by decide, by decide, ?_⟩
  · exact Reachable.event exCollab exSwappedBack exSwapWheeled wheelDown []
      (Reachable.layout exSwapped exSwappedBack exSwapped_reachable rfl rfl rfl rfl)
      (menuAfter_spec _ _ _ (by decide))
  · intro h
    have h1 := congrArg (fun r => r.1.m_selected_amount) h
    exact absurd h1 (by decide)

/-! ### Initial focus -/

/-- A forward loop over children none of which passes the test returns nothing. -/
theorem firstChild_none (p : IGUIElement → Bool) (l : List IGUIElement)
    (h : ∀ e ∈ l, p e = false) : firstChild p l = none := by
  induction l with
  | nil => rfl
  | cons x xs ih =>
    have hx : p x = false := h x (List.mem_cons_self _ _)
    have hxs := ih fun e he => h e (List.mem_cons_of_mem _ he)
    simp [firstChild, hx, hxs]

/-- A forward loop returns the first child that passes the test. -/
theorem firstChild_of_firstAt (p : IGUIElement → Bool) (l : List IGUIElement) (i : Nat)
    (h : FirstAt p l i) : firstChild p l = some i := by
  induction l generalizing i with
  | nil => simp [FirstAt] at h
  | cons x xs ih =>
    cases i with
    | zero =>
      have hx : p x = true := by simpa [FirstAt] using h.1
      simp [firstChild, hx]
    | succ k =>
      have hx : p x = false := by simpa using h.2 0 (Nat.succ_pos k)
      have hk : FirstAt p xs k := by
        refine ⟨by simpa using h.1, fun j hj => ?_⟩
        simpa using h.2 (j + 1) (Nat.succ_lt_succ hj)
      simp [firstChild, hx, ih k hk]

/-- A backward loop over children none of which passes the test returns nothing. -/
theorem lastChild_none (p : IGUIElement → Bool) (l : List IGUIElement)
    (h : ∀ e ∈ l, p e = false) : lastChild p l = none := by
  unfold lastChild
  rw [firstChild_none p l.reverse fun e he => h e (List.mem_reverse.mp he)]
  rfl

/-- A backward loop returns the last child that passes the test. -/
theorem lastChild_of_lastAt (p : IGUIElement → Bool) (l : List IGUIElement) (i : Nat)
    (h : LastAt p l i) : lastChild p l = some i := by
  have hi : i < l.length := by
    by_contra hc
    have : l[i]? = none := List.getElem?_eq_none (Nat.le_of_not_lt hc)
    have h1 := h.1
    rw [this] at h1
    cases h1
  have hf : FirstAt p l.reverse (l.length - 1 - i) := by
    refine ⟨?_, fun j hj => ?_⟩
    · rw [List.getElem?_reverse (by omega)]
      have : l.length - 1 - (l.length - 1 - i) = i := by omega
      rw [this]
      exact h.1
    · rw [List.getElem?_reverse (by omega)]
      exact h.2 (l.length - 1 - j) (by omega) (by omega)
  unfold lastChild
  rw [firstChild_of_firstAt p l.reverse _ hf]
  simp only [Option.map_some']
  congr 1
  omega

/-- C36, with rule 6 as the source has it: `setInitialFocus` on the children
left after the null pointers are removed.  Rule 1: the first edit box whose
text is empty gets the focus.  Rule 2: with no such child, the first edit box.
Rule 3: with no edit box, the first child whose type name is `GUITable`.
Rule 4: with none of these, the last button.  Rule 5: with none of these, the
first child that is neither static text nor a tab control.  Rule 6: with none
of these and at least one child, the first child; the menu itself gets the
focus only when there is no child. -/
theorem setInitialFocus_rules (getChildren : List (Option IGUIElement)) :
    (∀ i, FirstAt isEmptyEditBox (getChildren.filterMap id) i →
      setInitialFocus getChildren = .child i) ∧
    ((∀ e ∈ getChildren.filterMap id, isEmptyEditBox e = false) →
      ∀ i, FirstAt isEditBox (getChildren.filterMap id) i →
        setInitialFocus getChildren = .child i) ∧
    ((∀ e ∈ getChildren.filterMap id, isEditBox e = false) →
      ∀ i, FirstAt isTable (getChildren.filterMap id) i →
        setInitialFocus getChildren = .child i) ∧
    ((∀ e ∈ getChildren.filterMap id, isEditBox e = false ∧ isTable e = false) →
      ∀ i, LastAt isButton (getChildren.filterMap id) i →
        setInitialFocus getChildren = .child i) ∧
    ((∀ e ∈ getChildren.filterMap id,
        isEditBox e = false ∧ isTable e = false ∧ isButton e = false) →
      ∀ i, FirstAt isFocusable (getChildren.filterMap id) i →
        setInitialFocus getChildren = .child i) ∧
    ((∀ e ∈ getChildren.filterMap id,
        isEditBox e = false ∧ isTable e = false ∧ isButton e = false ∧ isFocusable e = false) →
      getChildren.filterMap id ≠ [] → setInitialFocus getChildren = .child 0) ∧
    (getChildren.filterMap id = [] → setInitialFocus getChildren = .self) := by
  have hee : ∀ l : List IGUIElement, (∀ e ∈ l, isEditBox e = false) →
      ∀ e ∈ l, isEmptyEditBox e = false := by
    intro l h e he
    have := h e he
    unfold isEditBox at this
    unfold isEmptyEditBox
    rw [this]
    rfl
  refine ⟨fun i h => ?_, fun h1 i h => ?_, fun h2 i h => ?_, fun h3 i h => ?_, fun h4 i h => ?_,
    fun h5 hne => ?_, fun hnil => ?_⟩
  · unfold setInitialFocus
    simp only [firstChild_of_firstAt _ _ _ h]
  · unfold setInitialFocus
    simp only [firstChild_none _ _ h1, firstChild_of_firstAt _ _ _ h]
  · unfold setInitialFocus
    simp only [firstChild_none _ _ (hee _ h2), firstChild_none _ _ h2,
      firstChild_of_firstAt _ _ _ h]
  · unfold setInitialFocus
    simp only [firstChild_none _ _ (hee _ fun e he => (h3 e he).1),
      firstChild_none _ _ fun e he => (h3 e he).1,
      firstChild_none _ _ fun e he => (h3 e he).2, lastChild_of_lastAt _ _ _ h]
  · unfold setInitialFocus
    simp only [firstChild_none _ _ (hee _ fun e he => (h4 e he).1),
      firstChild_none _ _ fun e he => (h4 e he).1,
      firstChild_none _ _ fun e he => (h4 e he).2.1,
      lastChild_none _ _ fun e he => (h4 e he).2.2, firstChild_of_firstAt _ _ _ h]
  · unfold setInitialFocus
    have hemp : (getChildren.filterMap id).isEmpty = false := by
      cases hl : getChildren.filterMap id with
      | nil => exact absurd hl hne
      | cons _ _ => rfl
    simp only [firstChild_none _ _ (hee _ fun e he => (h5 e he).1),
      firstChild_none _ _ fun e he => (h5 e he).1,
      firstChild_none _ _ fun e he => (h5 e he).2.1,
      lastChild_none _ _ fun e he => (h5 e he).2.2.1,
      firstChild_none _ _ fun e he => (h5 e he).2.2.2, hemp, Bool.false_eq_true, if_false]
  · unfold setInitialFocus
    simp only [hnil, firstChild, lastChild, List.reverse_nil, Option.map_none', List.isEmpty_nil,
      if_true]

/-- C36 at a concrete input: the children of `exChildren` hold no empty edit
box, the first edit box is at position 2 of the children without the null
pointer, and it gets the focus. -/
theorem setInitialFocus_rules_witness :
    (∀ e ∈ exChildren.filterMap id, isEmptyEditBox e = false) ∧
    FirstAt isEditBox (exChildren.filterMap id) 2 ∧
    setInitialFocus exChildren = .child 2 :=
  ⟨by decide, by unfold FirstAt; decide,
   (setInitialFocus_rules exChildren).2.1 (by decide) 2 (by unfold FirstAt; decide)⟩

/-- C36 as the spec states it fails: the children of `exLabels` are a static
text and a tab control, so none of the rules 1 to 5 applies; the focus goes to
the first child, not to the menu itself. -/
theorem setInitialFocus_counterexample :
    (∀ e ∈ exLabels.filterMap id,
      isEmptyEditBox e = false ∧ isEditBox e = false ∧ isTable e = false ∧ isButton e = false ∧
        isFocusable e = false) ∧
    setInitialFocus exLabels = .child 0 ∧
    setInitialFocus exLabels ≠ .self := by
  decide

/-! ### Hit test -/

/-- The watched inner loop over a list with a column count other than 0 is the
search for the first slot under the point. -/
theorem findSlotChecked_eq (m : GUIFormSpecMenu) (p : v2s32) (s : ListDrawSpec) (l : List Nat)
    (h : s.geom.X ≠ 0) :
    findSlotChecked m p s l =
      some (l.find? fun (i : Nat) => (slotRect m s (Int.ofNat i)).isPointInside p) := by
  induction l with
  | nil => rfl
  | cons i rest ih =>
    unfold findSlotChecked slotRectChecked
    simp only [h, if_false, List.find?_cons]
    cases hin : (slotRect m s (Int.ofNat i)).isPointInside p
    · simp only [Bool.false_eq_true, if_false]
      exact ih
    · simp only [if_true]

/-- The parser `parseList` stores only lists with column count, row count and
start index at least 0. -/
theorem parseList_listsOk (env : ParseEnv) (data : parserData) (m : GUIFormSpecMenu)
    (element : String) (h : ListsOk m.m_inventorylists) :
    ListsOk (parseList env data m element).2.m_inventorylists := by
  unfold parseList
  dsimp only
  repeat' (first | split_ifs | split)
  all_goals first
    | exact h
    | (intro s hs
       rcases List.mem_append.mp hs with hs' | hs'
       · exact h s hs'
       · rw [List.mem_singleton] at hs'
         subst hs'
         dsimp only
         omega)

/-! ### Assertions of the event handler -/

/-- In a reachable menu a selected amount of 0 comes with no selected slot. -/
theorem reachable_amount_zero (m : GUIFormSpecMenu) (hr : Reachable m) :
    m.m_selected_amount = 0 → m.m_selected_item = none := by
  induction hr with
  | init m h1 _ _ _ => exact fun _ => h1
  | event c m n ev acts _ h ih => exact OnEvent_inv c m n ev acts ih h
  | verify c m _ ih => exact verifySelectedItem_inv c m ih
  | update c m _ ih => exact updateSelectedItem_inv c m ih
  | layout m n _ h1 h2 _ _ ih =>
    intro h0
    rw [h1]
    exact ih (by rw [← h2]; exact h0)

/-- The `case BET_DOWN` on a menu whose selected slot comes with an amount of
at least 1: the assertion holds and the amounts are in range. -/
theorem onButtonDown_ok (v : GUIFormSpecMenu) (h : Hovered) (identical : Bool)
    (button : ButtonEventType) (shift : Bool)
    (hpos : v.m_selected_item ≠ none → 1 ≤ v.m_selected_amount) :
    ∃ md a, onButtonDown v h identical button shift = some (md, a) ∧ AmountsOk v md h a := by
  unfold onButtonDown
  dsimp only
  cases hs : v.m_selected_item with
  | none =>
    simp only
    repeat' split
    all_goals
      refine ⟨_, _, rfl, ?_⟩
      unfold AmountsOk
      simp_all
    all_goals omega
  | some sel =>
    have h1 : 1 ≤ v.m_selected_amount := hpos (by simp [hs])
    simp only [ge_iff_le, h1, if_true]
    repeat' split
    all_goals
      refine ⟨_, _, rfl, ?_⟩
      unfold AmountsOk
      simp_all

/-- The `case BET_UP`: the amounts are in range. -/
theorem onButtonUp_ok (v : GUIFormSpecMenu) (h : Hovered) (identical : Bool) :
    AmountsOk v (onButtonUp v h identical).1 h (onButtonUp v h identical).2 := by
  unfold onButtonUp
  dsimp only
  cases hs : v.m_selected_item with
  | none =>
    unfold AmountsOk
    simp
  | some sel =>
    repeat' split
    all_goals
      unfold AmountsOk
      simp_all

/-- The `case BET_MOVE` on a menu whose selected slot is live and comes with an
amount of at least 1, the hovered slot having passed the existence checks:
the assertion holds and the amounts are in range. -/
theorem onMouseMove_ok (c : Collab) (v : GUIFormSpecMenu) (s : ItemSpec)
    (inv_sel : Option Inventory)
    (hpos : v.m_selected_item ≠ none → 1 ≤ v.m_selected_amount)
    (hlist : ∀ sel, v.m_selected_item = some sel →
      ∃ list, inv_sel.bind (·.getList sel.listname) = some list) :
    ∃ md a, onMouseMove v (resolveHovered c s) inv_sel = some (md, a) ∧
      AmountsOk v md (resolveHovered c s) a := by
  unfold onMouseMove
  cases hs : v.m_selected_item with
  | none =>
    refine ⟨_, _, rfl, ?_⟩
    unfold AmountsOk
    simp
  | some sel =>
    have h1 : 1 ≤ v.m_selected_amount := hpos (by simp [hs])
    obtain ⟨list_from, hfrom⟩ := hlist sel hs
    simp only
    by_cases hvalid : (resolveHovered c s).s.isValid = true
    · obtain ⟨inv, list_to, _, _, _, _, _, hto, _⟩ := resolveHovered_valid c s hvalid
      simp only [hfrom, hto]
      repeat' split
      all_goals
        refine ⟨_, _, rfl, ?_⟩
        unfold AmountsOk
        simp_all
    · simp only [hvalid, Bool.false_and, Bool.false_eq_true, if_false]
      refine ⟨_, _, rfl, ?_⟩
      unfold AmountsOk
      simp

/-- The `switch (updown)` after the validation pass: no assertion fails and
the amounts are in range. -/
theorem dispatch_ok (c : Collab) (v : GUIFormSpecMenu) (s : ItemSpec)
    (inv_sel : Option Inventory) (ev : SMouseInput)
    (hpos : v.m_selected_item ≠ none → 1 ≤ v.m_selected_amount)
    (hlist : ∀ sel, v.m_selected_item = some sel →
      ∃ list, inv_sel.bind (·.getList sel.listname) = some list) :
    ∃ md a, dispatch v (resolveHovered c s) inv_sel ev = some (md, a) ∧
      AmountsOk v md (resolveHovered c s) a := by
  unfold dispatch
  split
  · exact onButtonDown_ok v _ _ _ _ hpos
  · exact ⟨_, _, rfl, onButtonUp_ok v _ _⟩
  · exact onMouseMove_ok c v s inv_sel hpos hlist
  · refine ⟨_, _, rfl, ?_⟩
    unfold AmountsOk
    simp

/-- The inventory of a live selection as the head of the mouse branch finds
it, with the list of the selected slot and its non-empty stack. -/
theorem selectedInventory_some (c : Collab) (v : GUIFormSpecMenu) (hlive : SelectionLive c v)
    (inv_sel : Option Inventory) (hsi : selectedInventory c v = some inv_sel)
    (sel : ItemSpec) (hs : v.m_selected_item = some sel) :
    sel.isValid = true ∧ ∃ inv list, inv_sel = some inv ∧
      inv.getList sel.listname = some list ∧ (list.getItem (toU32 sel.i)).count ≠ 0 := by
  obtain ⟨hv, inv, list, hinv, hl, _, hne⟩ := hlive sel hs
  have h1 := selectedInventory_live c v hlive sel hs inv hinv
  rw [hsi] at h1
  exact ⟨hv, inv, list, Option.some.inj h1, hl, hne⟩

/-- With a live selection both `sanity_check`s at the head of the mouse branch
pass. -/
theorem selectedInventory_total (c : Collab) (v : GUIFormSpecMenu) (hlive : SelectionLive c v) :
    ∃ inv_sel, selectedInventory c v = some inv_sel := by
  cases hs : v.m_selected_item with
  | none => exact ⟨none, by unfold selectedInventory; simp only [hs]⟩
  | some sel =>
    obtain ⟨_, inv, _, hinv, _⟩ := hlive sel hs
    exact ⟨some inv, selectedInventory_live c v hlive sel hs inv hinv⟩

/-- The action chain after the `switch (updown)`: with amounts in range and a
live selection no assertion fails. -/
theorem sendAction_ok (c : Collab) (v md : GUIFormSpecMenu) (s : ItemSpec)
    (inv_sel : Option Inventory) (a : Amounts)
    (hok : AmountsOk v md (resolveHovered c s) a)
    (hlive : SelectionLive c v)
    (hsi : selectedInventory c v = some inv_sel) :
    ∃ mr acts, sendAction c md (resolveHovered c s) inv_sel a = some (mr, acts) := by
  obtain ⟨hmove, hshift, hdrop, hcraft⟩ := hok
  unfold sendAction
  by_cases h1 : a.move_amount > 0
  · simp only [h1, if_true]
    obtain ⟨hitem, hne, _, _, hvalid⟩ := hmove h1
    obtain ⟨sel, hs⟩ := Option.ne_none_iff_exists'.mp hne
    obtain ⟨hsv, inv, list_from, rfl, hfrom, _⟩ := selectedInventory_some c v hlive inv_sel hsi sel hs
    obtain ⟨inv2, list_to, _, _, _, _, hinvs, hto, _⟩ := resolveHovered_valid c s hvalid
    rw [moveResolution_eq c md _ inv inv2 a.move_amount sel list_from list_to _ _
      (hitem.trans hs) hsv hvalid hinvs hfrom hto rfl rfl]
    split
    · split
      · exact ⟨_, _, rfl⟩
      · exact ⟨_, _, rfl⟩
    · split
      · exact ⟨_, _, rfl⟩
      · exact ⟨_, _, rfl⟩
  · simp only [h1, if_false]
    by_cases h2 : a.shift_move_amount > 0
    · simp only [h2, if_true]
      obtain ⟨_, hle⟩ := hshift h2
      have hvalid := resolveHovered_count c s (by omega)
      obtain ⟨acts, hres, _⟩ := shiftMoveResolution_total c md s a.shift_move_amount hle hvalid
      exact ⟨_, _, hres⟩
    · simp only [h2, if_false]
      by_cases h3 : a.drop_amount > 0
      · simp only [h3, if_true]
        obtain ⟨_, _, hitem, hne, hamt, hle⟩ := hdrop h3
        obtain ⟨sel, hs⟩ := Option.ne_none_iff_exists'.mp hne
        obtain ⟨hsv, inv, list_from, rfl, hfrom, hcount⟩ :=
          selectedInventory_some c v hlive inv_sel hsi sel hs
        have hp := Nat.pos_of_ne_zero hcount
        have hd1 : min a.drop_amount (list_from.getItem (toU32 sel.i)).count > 0 := by omega
        have hd2 : min a.drop_amount (list_from.getItem (toU32 sel.i)).count ≤
            md.m_selected_amount := by omega
        unfold dropResolution
        simp only [hitem.trans hs, hsv, if_true, Option.bind, hfrom, hd1, hd2, and_self]
        exact ⟨_, _, rfl⟩
      · simp only [h3, if_false]
        by_cases h4 : a.craft_amount > 0
        · simp only [h4, if_true]
          obtain ⟨_, _, _, hvalid⟩ := hcraft h4
          obtain ⟨inv2, _, _, _, _, _, hinvs, _, _⟩ := resolveHovered_valid c s hvalid
          unfold craftResolution
          simp only [hvalid, if_true, hinvs]
          split
          · exact ⟨_, _, rfl⟩
          · exact ⟨_, _, rfl⟩
        · simp only [h4, if_false]
          exact ⟨_, _, rfl⟩

/-- The example `addItem` returns a leftover of at most the offered count. -/
theorem addItemMax_leftover (stack_max : Nat) (self newitem : ItemStack) :
    (addItemMax stack_max self newitem).2.count ≤ newitem.count := by
  unfold addItemMax
  split_ifs
  · exact Nat.le_refl _
  · exact Nat.zero_le _
  · exact Nat.le_refl _
  · exact Nat.zero_le _
  · exact Nat.sub_le _ _

/-- C40: a pointer event on a reachable menu `m`, with an `addItem` whose
leftover is at most the offered count; `v` is the menu after the validation
pass at the head of `OnEvent` and `h` the hovered slot.  A selected slot comes
with `m_selected_amount >= 1` (the assertion of the button-down branch).  No
assertion and no sanity check fails: `OnEvent` ends with a menu and a list of
actions.  When the `switch (updown)` asks for a move, the amount capped to the
count of the source stack is at most `m_selected_amount`, the leftover of
`addItem` is at most that amount, and their difference, which the partial
move subtracts, is computed without wrapping and is at most
`m_selected_amount`.  When it asks for a drop, the drop amount capped to the
count of the source stack is above 0 and at most `m_selected_amount` (the
assertion before the subtraction). -/
theorem OnEvent_asserts (c : Collab) (m v : GUIFormSpecMenu) (h : Hovered) (ev : SMouseInput)
    (hr : Reachable m)
    (hadd : ∀ self newitem, (c.addItem self newitem).2.count ≤ newitem.count)
    (hv : v = updateSelectedItem c m) (hh : h = hoveredSlot c v) :
    (v.m_selected_item ≠ none → 1 ≤ v.m_selected_amount) ∧
    (∃ n acts, OnEvent c m ev = some (n, acts)) ∧
    (∃ inv_sel md a,
      selectedInventory c v = some inv_sel ∧ dispatch v h inv_sel ev = some (md, a) ∧
      (0 < a.move_amount →
        ∃ sel inv list_from list_to,
          md.m_selected_item = some sel ∧ inv_sel = some inv ∧
          inv.getList sel.listname = some list_from ∧ h.list_s = some list_to ∧
          min a.move_amount (list_from.getItem (toU32 sel.i)).count ≤ md.m_selected_amount ∧
          (c.addItem (list_to.getItem (toU32 h.s.i))
            { list_from.getItem (toU32 sel.i) with
              count := min a.move_amount (list_from.getItem (toU32 sel.i)).count }).2.count ≤
            min a.move_amount (list_from.getItem (toU32 sel.i)).count ∧
          subU32 (min a.move_amount (list_from.getItem (toU32 sel.i)).count)
            (c.addItem (list_to.getItem (toU32 h.s.i))
              { list_from.getItem (toU32 sel.i) with
                count := min a.move_amount (list_from.getItem (toU32 sel.i)).count }).2.count ≤
            md.m_selected_amount) ∧
      (0 < a.drop_amount →
        a.move_amount = 0 ∧ a.shift_move_amount = 0 ∧
        ∃ sel inv list_from,
          md.m_selected_item = some sel ∧ inv_sel = some inv ∧
          inv.getList sel.listname = some list_from ∧
          0 < min a.drop_amount (list_from.getItem (toU32 sel.i)).count ∧
          min a.drop_amount (list_from.getItem (toU32 sel.i)).count ≤ md.m_selected_amount)) := by
  subst hv
  subst hh
  have hinv := updateSelectedItem_inv c m (reachable_amount_zero m hr)
  have hlive := updateSelectedItem_live c m
  have hpos : (updateSelectedItem c m).m_selected_item ≠ none →
      1 ≤ (updateSelectedItem c m).m_selected_amount := by
    intro hne
    by_contra hlt
    exact hne (hinv (by omega))
  obtain ⟨inv_sel, hsi⟩ := selectedInventory_total c _ hlive
  have hlist : ∀ sel, (updateSelectedItem c m).m_selected_item = some sel →
      ∃ list, inv_sel.bind (·.getList sel.listname) = some list := by
    intro sel hs
    obtain ⟨_, inv, list, rfl, hl, _⟩ := selectedInventory_some c _ hlive inv_sel hsi sel hs
    exact ⟨list, hl⟩
  obtain ⟨md, a, hd, hok⟩ := dispatch_ok c (updateSelectedItem c m)
    (getItemAtPos (updateSelectedItem c m) (updateSelectedItem c m).m_pointer) inv_sel ev
    hpos hlist
  obtain ⟨mr, acts, hsend⟩ := sendAction_ok c _ md _ inv_sel a hok hlive hsi
  refine ⟨hpos, ?_, inv_sel, md, a, hsi, hd, ?_, ?_⟩
  · unfold OnEvent
    split
    · simp only
      rw [hsi]
      simp only
      unfold hoveredSlot
      rw [hd]
      simp only
      rw [hsend]
      exact ⟨_, _, rfl⟩
    · exact ⟨_, _, rfl⟩
  · intro hm
    obtain ⟨hitem, hne, hamt, hle, hvalid⟩ := hok.1 hm
    obtain ⟨sel, hs⟩ := Option.ne_none_iff_exists'.mp hne
    obtain ⟨_, inv, list_from, rfl, hfrom, _⟩ := selectedInventory_some c _ hlive inv_sel hsi sel hs
    obtain ⟨_, list_to, _, _, _, _, _, hto, _⟩ := resolveHovered_valid c _ hvalid
    have hc : (c.addItem (list_to.getItem (toU32 (hoveredSlot c (updateSelectedItem c m)).s.i))
        { list_from.getItem (toU32 sel.i) with
          count := min a.move_amount (list_from.getItem (toU32 sel.i)).count }).2.count ≤
        min a.move_amount (list_from.getItem (toU32 sel.i)).count := hadd _ _
    refine ⟨sel, inv, list_from, list_to, hitem.trans hs, rfl, hfrom, hto, by omega, hc, ?_⟩
    rw [subU32_of_le hc]
    omega
  · intro hdp
    obtain ⟨h1, h2, hitem, hne, hamt, hle⟩ := hok.2.2.1 hdp
    obtain ⟨sel, hs⟩ := Option.ne_none_iff_exists'.mp hne
    obtain ⟨_, inv, list_from, rfl, hfrom, hcount⟩ :=
      selectedInventory_some c _ hlive inv_sel hsi sel hs
    have hp := Nat.pos_of_ne_zero hcount
    exact ⟨h1, h2, sel, inv, list_from, hitem.trans hs, rfl, hfrom, by omega, by omega⟩

/-- The example menu `exPickedOnFull` is reachable: a press on slot 0, then
the pointer moved to slot 3. -/
theorem exPickedOnFull_reachable : Reachable exPickedOnFull :=
  Reachable.layout exPicked exPickedOnFull
    (Reachable.event exCollab (exMenuAt 5) exPicked leftDown []
      (Reachable.init (exMenuAt 5) rfl rfl rfl rfl)
      (menuAfter_spec _ _ _ (by decide)))
    rfl rfl rfl rfl

/-- C40 at a concrete input: the 10 stone of slot 0 are selected and clicked
onto the 95 stone of slot 3, stacks holding at most 99.  The menu is
reachable, the example `addItem` keeps the contract, 10 are selected after the
validation pass, and the event ends: 4 stone are moved and 6 stay selected. -/
theorem OnEvent_asserts_witness :
    Reachable exPickedOnFull ∧
    (∀ self newitem, (exCollab.addItem self newitem).2.count ≤ newitem.count) ∧
    1 ≤ (updateSelectedItem exCollab exPickedOnFull).m_selected_amount ∧
    (∃ n acts, OnEvent exCollab exPickedOnFull leftDown = some (n, acts)) ∧
    (OnEvent exCollab exPickedOnFull leftDown).map (fun r => (r.1.m_selected_amount, r.2)) =
      some (6, [.IMoveAction 4 "current_player" "main" 0 "current_player" "main" 3 false]) :=
  ⟨exPickedOnFull_reachable, addItemMax_leftover 99,
   (OnEvent_asserts exCollab exPickedOnFull _ _ leftDown exPickedOnFull_reachable
     (addItemMax_leftover 99) rfl rfl).1 (by decide),
   (OnEvent_asserts exCollab exPickedOnFull _ _ leftDown exPickedOnFull_reachable
     (addItemMax_leftover 99) rfl rfl).2.1,
   by decide⟩

/-- The halving loop with enough fuel brackets `n` between two powers of 2. -/
theorem log2Fuel_spec (fuel n : Nat) (hn : 1 ≤ n) (hf : n ≤ fuel) :
    2 ^ log2Fuel fuel n ≤ n ∧ n < 2 ^ (log2Fuel fuel n + 1) := by
  induction fuel generalizing n with
  | zero => omega
  | succ fuel ih =>
    unfold log2Fuel
    by_cases h2 : n < 2
    · simp only [h2, if_true]
      omega
    · simp only [h2, if_false]
      have := ih (n / 2) (by omega) (by omega)
      rw [pow_succ, pow_succ]
      omega

/-- The leading bit of `n ≥ 1` brackets `n` between two powers of 2. -/
theorem ilog2_spec (n : Nat) (hn : 1 ≤ n) : 2 ^ ilog2 n ≤ n ∧ n < 2 ^ (ilog2 n + 1) :=
  log2Fuel_spec n n hn (Nat.le_refl n)

/-- The leading bit of a number below `2 ^ k` is below `k`. -/
theorem ilog2_lt (n k : Nat) (hn : 1 ≤ n) (h : n < 2 ^ k) : ilog2 n < k := by
  by_contra hc
  have h1 := (ilog2_spec n hn).1
  have h2 : 2 ^ k ≤ 2 ^ ilog2 n := Nat.pow_le_pow_right (by decide) (by omega)
  omega

/-- The leading bit of 1 is bit 0. -/
theorem ilog2_one : ilog2 1 = 0 := rfl

/-- A quotient without remainder rounds to itself. -/
theorem roundEvenDiv_one (a : Nat) : roundEvenDiv a 1 = a := by
  unfold roundEvenDiv
  simp [Nat.mod_one]

/-- Scaling up by a power of 2 and dividing by it gives the number back. -/
theorem mkRat_mul_pow (a k : Nat) : mkRat ((a * 2 ^ k : Nat) : Int) (2 ^ k) = (a : ℚ) := by
  rw [Rat.mkRat_eq_div]
  push_cast
  field_simp

/-- The absolute value of an integer with its sign is the integer. -/
theorem natAbs_signed (n : Int) :
    (if n < 0 then -((n.natAbs : Nat) : ℚ) else ((n.natAbs : Nat) : ℚ)) = (n : ℚ) := by
  have e : ((n.natAbs : ℕ) : ℚ) = ((n.natAbs : Int) : ℚ) := (Int.cast_natCast _).symm
  by_cases hneg : n < 0
  · have h : (n.natAbs : Int) = -n := by omega
    simp only [hneg, if_true, e, h]
    push_cast
    ring
  · have h : (n.natAbs : Int) = n := by omega
    simp only [hneg, if_false, e, h]

/-- A whole number of at most 24 bits is a binary32 value: rounding leaves it
as it is. -/
theorem f32_intCast (n : Int) (h1 : -16777216 ≤ n) (h2 : n ≤ 16777216) : f32 (n : ℚ) = n := by
  by_cases h24 : n.natAbs = 16777216
  · have hcases : n = 16777216 ∨ n = -16777216 := by omega
    rcases hcases with rfl | rfl <;> decide!
  · unfold f32 roundBin
    by_cases h0 : n = 0
    · subst h0
      simp
    · simp only [Rat.num_intCast, h0, if_false, Rat.den_intCast]
      have ha : 1 ≤ n.natAbs := by omega
      have hb : binade n.natAbs 1 = (ilog2 n.natAbs : Int) := by
        unfold binade
        simp only [ilog2_one, Nat.cast_zero, sub_zero, Int.natCast_nonneg, if_true,
          Int.toNat_ofNat, one_mul, (ilog2_spec n.natAbs ha).1]
      rw [hb]
      have hlt : ilog2 n.natAbs < 24 := ilog2_lt _ _ ha (by omega)
      have hmax : max (ilog2 n.natAbs : Int) (-126) = (ilog2 n.natAbs : Int) := by omega
      have hs : (0 : Int) ≤ ((24 : Nat) : Int) - 1 - (ilog2 n.natAbs : Int) := by omega
      simp only [hmax, hs, if_true, roundEvenDiv_one, mkRat_mul_pow]
      exact natAbs_signed n

/-- The conversion to `s32` of a whole number in range is that number. -/
theorem truncS32_intCast (n : Int) (h1 : -2147483648 ≤ n) (h2 : n ≤ 2147483647) :
    truncS32 (n : ℚ) = n := by
  unfold truncS32
  simp [h1, h2]



/-- An integer in the range of `s32` is not changed by the conversion. -/
theorem wrapS32_id (x : Int) (h1 : -2147483648 ≤ x) (h2 : x ≤ 2147483647) : wrapS32 x = x := by
  unfold wrapS32
  omega

/-- A whole number of at most 24 bits is in the range of `s32`. -/
theorem fits24_range (n : Int) (h : fits24 n) : -2147483648 ≤ n ∧ n ≤ 2147483647 := by
  unfold fits24 at h
  omega

/-- Rounding to binary32 leaves a whole number of at most 24 bits as it is. -/
theorem f32_fits (n : Int) (h : fits24 n) : f32 (n : ℚ) = n := f32_intCast n h.1 h.2

/-- The conversion to `s32` of a whole number of at most 24 bits is that number. -/
theorem truncS32_fits (n : Int) (h : fits24 n) : truncS32 (n : ℚ) = n :=
  truncS32_intCast n (fits24_range n h).1 (fits24_range n h).2

/-- The sum of two binary32 values that are whole, with a whole sum of at most
24 bits, is exact. -/
theorem f32_add_fits (a b : Int) (h : fits24 (a + b)) : f32 ((a : ℚ) + (b : ℚ)) = ((a + b : Int) : ℚ) := by
  rw [← Int.cast_add]
  exact f32_fits _ h

/-- The product of two whole binary32 values with a product of at most 24 bits
is exact. -/
theorem f32_mul_fits (a b : Int) (h : fits24 (a * b)) : f32 ((a : ℚ) * (b : ℚ)) = ((a * b : Int) : ℚ) := by
  rw [← Int.cast_mul]
  exact f32_fits _ h

/-- The legacy resolver on whole partial sums: the float sum of the pixel base,
the container term and the position term, converted to `s32`, is their sum. -/
theorem legacy_sum (pad a b : Int) (h : LegacyExact pad a b) :
    truncS32 (f32 (f32 (f32 (pad : ℚ) + (a : ℚ)) + (b : ℚ))) = pad + a + b := by
  obtain ⟨h1, h2, h3⟩ := h
  rw [f32_fits pad h1, f32_add_fits pad a h2, f32_add_fits (pad + a) b h3]
  exact truncS32_fits _ h3

/-- The X component of the relative legacy base position when the container
term and the position term are whole numbers. -/
theorem getElementBasePos_rel_X (m : GUIFormSpecMenu) (v : List String) (a b : Int)
    (ha : f32 (m.pos_offset.X * m.spacing.X) = (a : ℚ))
    (hb : f32 (stof (v.getD 0 "") * m.spacing.X) = (b : ℚ))
    (h : LegacyExact m.padding.X a b) :
    (getElementBasePos m false (some v)).X = m.padding.X + a + b := by
  unfold getElementBasePos getElementBasePosF
  simp only [Bool.false_eq_true, ↓reduceIte, ha, hb]
  exact legacy_sum _ a b h

/-- The Y component of the relative legacy base position when the container
term and the position term are whole numbers. -/
theorem getElementBasePos_rel_Y (m : GUIFormSpecMenu) (v : List String) (a b : Int)
    (ha : f32 (m.pos_offset.Y * m.spacing.Y) = (a : ℚ))
    (hb : f32 (stof (v.getD 1 "") * m.spacing.Y) = (b : ℚ))
    (h : LegacyExact m.padding.Y a b) :
    (getElementBasePos m false (some v)).Y = m.padding.Y + a + b := by
  unfold getElementBasePos getElementBasePosF
  simp only [Bool.false_eq_true, ↓reduceIte, ha, hb]
  exact legacy_sum _ a b h

/-- The X component of the absolute legacy base position when the container
term and the position term are whole numbers. -/
theorem getElementBasePos_abs_X (m : GUIFormSpecMenu) (v : List String) (a b : Int)
    (ha : f32 (m.pos_offset.X * m.spacing.X) = (a : ℚ))
    (hb : f32 (stof (v.getD 0 "") * m.spacing.X) = (b : ℚ))
    (h : LegacyExact (m.padding.X + m.AbsoluteRect.UpperLeftCorner.X) a b) :
    (getElementBasePos m true (some v)).X =
      m.padding.X + m.AbsoluteRect.UpperLeftCorner.X + a + b := by
  unfold getElementBasePos getElementBasePosF
  simp only [↓reduceIte, ha, hb]
  rw [wrapS32_id _ (fits24_range _ h.1).1 (fits24_range _ h.1).2]
  exact legacy_sum _ a b h

/-- The Y component of the absolute legacy base position when the container
term and the position term are whole numbers. -/
theorem getElementBasePos_abs_Y (m : GUIFormSpecMenu) (v : List String) (a b : Int)
    (ha : f32 (m.pos_offset.Y * m.spacing.Y) = (a : ℚ))
    (hb : f32 (stof (v.getD 1 "") * m.spacing.Y) = (b : ℚ))
    (h : LegacyExact (m.padding.Y + m.AbsoluteRect.UpperLeftCorner.Y) a b) :
    (getElementBasePos m true (some v)).Y =
      m.padding.Y + m.AbsoluteRect.UpperLeftCorner.Y + a + b := by
  unfold getElementBasePos getElementBasePosF
  simp only [↓reduceIte, ha, hb]
  rw [wrapS32_id _ (fits24_range _ h.1).1 (fits24_range _ h.1).2]
  exact legacy_sum _ a b h

/-- The real resolver on a whole pixel offset `k`: the relative component is
`k`, the absolute one `k` plus the corner. -/
theorem real_sum (k c : Int) (hk : fits24 k) (hc : fits24 c) (hs : fits24 (k + c)) :
    truncS32 (k : ℚ) = k ∧ truncS32 (f32 ((k : ℚ) + f32 (c : ℚ))) = k + c := by
  rw [f32_fits c hc, f32_add_fits k c hs]
  exact ⟨truncS32_fits k hk, truncS32_fits _ hs⟩



/-- The X component of the legacy base position, relative or absolute, when
the container term and the position term are whole numbers. -/
theorem getElementBasePos_X (m : GUIFormSpecMenu) (absolute : Bool) (v : List String) (a b : Int)
    (ha : f32 (m.pos_offset.X * m.spacing.X) = (a : ℚ))
    (hb : f32 (stof (v.getD 0 "") * m.spacing.X) = (b : ℚ))
    (h : LegacyExact
      (m.padding.X + if absolute = true then m.AbsoluteRect.UpperLeftCorner.X else 0) a b) :
    (getElementBasePos m absolute (some v)).X =
      m.padding.X + (if absolute = true then m.AbsoluteRect.UpperLeftCorner.X else 0) + a + b := by
  cases absolute with
  | false =>
    simp only [Bool.false_eq_true, ↓reduceIte, add_zero] at h ⊢
    exact getElementBasePos_rel_X m v a b ha hb h
  | true =>
    simp only [↓reduceIte] at h ⊢
    exact getElementBasePos_abs_X m v a b ha hb h

/-- The Y component of the legacy base position, relative or absolute, when
the container term and the position term are whole numbers. -/
theorem getElementBasePos_Y (m : GUIFormSpecMenu) (absolute : Bool) (v : List String) (a b : Int)
    (ha : f32 (m.pos_offset.Y * m.spacing.Y) = (a : ℚ))
    (hb : f32 (stof (v.getD 1 "") * m.spacing.Y) = (b : ℚ))
    (h : LegacyExact
      (m.padding.Y + if absolute = true then m.AbsoluteRect.UpperLeftCorner.Y else 0) a b) :
    (getElementBasePos m absolute (some v)).Y =
      m.padding.Y + (if absolute = true then m.AbsoluteRect.UpperLeftCorner.Y else 0) + a + b := by
  cases absolute with
  | false =>
    simp only [Bool.false_eq_true, ↓reduceIte, add_zero] at h ⊢
    exact getElementBasePos_rel_Y m v a b ha hb h
  | true =>
    simp only [↓reduceIte] at h ⊢
    exact getElementBasePos_abs_Y m v a b ha hb h

/-- The X component of the real base position, relative or absolute, when the
pixel offset is a whole number `k`. -/
theorem getRealCoordinateBasePos_X (m : GUIFormSpecMenu) (absolute : Bool) (w : List String)
    (k : Int)
    (hk : f32 ((getRealCoordinateBasePosF m w).X * f32 (m.imgsize.X : ℚ)) = (k : ℚ))
    (h1 : fits24 k) (h2 : fits24 m.AbsoluteRect.UpperLeftCorner.X)
    (h3 : fits24 (k + m.AbsoluteRect.UpperLeftCorner.X)) :
    (getRealCoordinateBasePos m absolute w).X =
      k + (if absolute = true then m.AbsoluteRect.UpperLeftCorner.X else 0) := by
  obtain ⟨e1, e2⟩ := real_sum k _ h1 h2 h3
  unfold getRealCoordinateBasePos
  cases absolute with
  | false =>
    simp only [Bool.false_eq_true, ↓reduceIte, add_zero, hk]
    exact e1
  | true =>
    simp only [↓reduceIte, hk]
    exact e2

/-- The Y component of the real base position, relative or absolute, when the
pixel offset is a whole number `k`. -/
theorem getRealCoordinateBasePos_Y (m : GUIFormSpecMenu) (absolute : Bool) (w : List String)
    (k : Int)
    (hk : f32 ((getRealCoordinateBasePosF m w).Y * f32 (m.imgsize.Y : ℚ)) = (k : ℚ))
    (h1 : fits24 k) (h2 : fits24 m.AbsoluteRect.UpperLeftCorner.Y)
    (h3 : fits24 (k + m.AbsoluteRect.UpperLeftCorner.Y)) :
    (getRealCoordinateBasePos m absolute w).Y =
      k + (if absolute = true then m.AbsoluteRect.UpperLeftCorner.Y else 0) := by
  obtain ⟨e1, e2⟩ := real_sum k _ h1 h2 h3
  unfold getRealCoordinateBasePos
  cases absolute with
  | false =>
    simp only [Bool.false_eq_true, ↓reduceIte, add_zero, hk]
    exact e1
  | true =>
    simp only [↓reduceIte, hk]
    exact e2

/-- The grid position of the real resolver when the position field and
`pos_offset` are whole numbers: their sum. -/
theorem real_grid (V P : Int) (h : fits24 (V + P)) :
    f32 (0 + f32 ((V : ℚ) + (P : ℚ))) = ((V + P : Int) : ℚ) := by
  rw [f32_add_fits V P h, zero_add]
  exact f32_fits _ h

/-- The pixel offset of the real resolver when the grid position and the image
size are whole numbers. -/
theorem real_pixel (G I : Int) (hI : fits24 I) (h : fits24 (G * I)) :
    f32 ((G : ℚ) * f32 (I : ℚ)) = ((G * I : Int) : ℚ) := by
  rw [f32_fits I hI]
  exact f32_mul_fits G I h

/-- C33, with the condition it needs: requesting absolute coordinates adds
exactly the upper left corner `c` of the absolute rectangle of the dialog to a
component of the base position when every float value of the computation is a
whole number that binary32 holds exactly.  For the legacy resolver: the
container term `pos_offset * spacing` and the position term `stof(v) * spacing`
are the whole numbers `a` and `b`, and the partial sums from `padding` and
from `padding + c` have at most 24 bits.  For the real resolver: the pixel
offset `(stof(v) + pos_offset) * imgsize` is the whole number `k`, and `k`,
`c` and `k + c` have at most 24 bits.  Otherwise the rounding of each float
operation and the truncation toward zero can change the difference. -/
theorem basePos_absolute (m : GUIFormSpecMenu) (v w : List String) (a b a2 b2 k k2 : Int) :
    (f32 (m.pos_offset.X * m.spacing.X) = (a : ℚ) →
      f32 (stof (v.getD 0 "") * m.spacing.X) = (b : ℚ) →
      LegacyExact m.padding.X a b →
      LegacyExact (m.padding.X + m.AbsoluteRect.UpperLeftCorner.X) a b →
      (getElementBasePos m true (some v)).X =
        (getElementBasePos m false (some v)).X + m.AbsoluteRect.UpperLeftCorner.X) ∧
    (f32 (m.pos_offset.Y * m.spacing.Y) = (a2 : ℚ) →
      f32 (stof (v.getD 1 "") * m.spacing.Y) = (b2 : ℚ) →
      LegacyExact m.padding.Y a2 b2 →
      LegacyExact (m.padding.Y + m.AbsoluteRect.UpperLeftCorner.Y) a2 b2 →
      (getElementBasePos m true (some v)).Y =
        (getElementBasePos m false (some v)).Y + m.AbsoluteRect.UpperLeftCorner.Y) ∧
    (f32 ((getRealCoordinateBasePosF m w).X * f32 (m.imgsize.X : ℚ)) = (k : ℚ) →
      fits24 k → fits24 m.AbsoluteRect.UpperLeftCorner.X →
      fits24 (k + m.AbsoluteRect.UpperLeftCorner.X) →
      (getRealCoordinateBasePos m true w).X =
        (getRealCoordinateBasePos m false w).X + m.AbsoluteRect.UpperLeftCorner.X) ∧
    (f32 ((getRealCoordinateBasePosF m w).Y * f32 (m.imgsize.Y : ℚ)) = (k2 : ℚ) →
      fits24 k2 → fits24 m.AbsoluteRect.UpperLeftCorner.Y →
      fits24 (k2 + m.AbsoluteRect.UpperLeftCorner.Y) →
      (getRealCoordinateBasePos m true w).Y =
        (getRealCoordinateBasePos m false w).Y + m.AbsoluteRect.UpperLeftCorner.Y) := by
  refine ⟨fun ha hb h1 h2 => ?_, fun ha hb h1 h2 => ?_, fun hk h1 h2 h3 => ?_,
    fun hk h1 h2 h3 => ?_⟩
  · rw [getElementBasePos_abs_X m v a b ha hb h2, getElementBasePos_rel_X m v a b ha hb h1]
    ring
  · rw [getElementBasePos_abs_Y m v a2 b2 ha hb h2, getElementBasePos_rel_Y m v a2 b2 ha hb h1]
    ring
  · rw [getRealCoordinateBasePos_X m true w k hk h1 h2 h3,
      getRealCoordinateBasePos_X m false w k hk h1 h2 h3]
    simp
  · rw [getRealCoordinateBasePos_Y m true w k2 hk h1 h2 h3,
      getRealCoordinateBasePos_Y m false w k2 hk h1 h2 h3]
    simp

/-- C33 at a concrete input: in the example dialog at (200, 100), with slots
every 50 by 46 pixels and a padding of 15, the position `1,1` has whole terms
(0 from the empty container offset, 50 and 46 from the position), so its
absolute legacy position is the relative one plus (200, 100); in real
coordinates the pixel offset is (40, 40) and the same holds. -/
theorem basePos_absolute_witness :
    (getElementBasePos exAbsLayout true (some ["1", "1"])).X =
      (getElementBasePos exAbsLayout false (some ["1", "1"])).X + 200 ∧
    (getElementBasePos exAbsLayout true (some ["1", "1"])).Y =
      (getElementBasePos exAbsLayout false (some ["1", "1"])).Y + 100 ∧
    (getRealCoordinateBasePos exAbsLayout true ["1", "1"]).X =
      (getRealCoordinateBasePos exAbsLayout false ["1", "1"]).X + 200 ∧
    (getRealCoordinateBasePos exAbsLayout true ["1", "1"]).Y =
      (getRealCoordinateBasePos exAbsLayout false ["1", "1"]).Y + 100 ∧
    getElementBasePos exAbsLayout false (some ["1", "1"]) = { X := 65, Y := 61 } ∧
    getRealCoordinateBasePos exAbsLayout false ["1", "1"] = { X := 40, Y := 40 } :=
  ⟨(basePos_absolute exAbsLayout ["1", "1"] ["1", "1"] 0 50 0 46 40 40).1
      (by decide!) (by decide!) (by unfold LegacyExact fits24; decide)
      (by unfold LegacyExact fits24; decide),
   (basePos_absolute exAbsLayout ["1", "1"] ["1", "1"] 0 50 0 46 40 40).2.1
      (by decide!) (by decide!) (by unfold LegacyExact fits24; decide)
      (by unfold LegacyExact fits24; decide),
   (basePos_absolute exAbsLayout ["1", "1"] ["1", "1"] 0 50 0 46 40 40).2.2.1
      (by decide!) (by unfold fits24; decide) (by unfold fits24; decide)
      (by unfold fits24; decide),
   (basePos_absolute exAbsLayout ["1", "1"] ["1", "1"] 0 50 0 46 40 40).2.2.2
      (by decide!) (by unfold fits24; decide) (by unfold fits24; decide)
      (by unfold fits24; decide),
   by decide!, by decide!⟩

/-- C33 as the spec states it fails, in the example dialog at (200, 100) with
a padding of 15 and slots every 50 pixels.  The legacy position `2.1,0`: the
float product is just below 105, the relative sum just below 120 is kept and
truncated to 119, the absolute sum rounds up to 320, so the difference is 201.
The legacy position `-0.31,0`: the float sum is -0.5, the relative position is
0 and the absolute one 199.  The real position `-0.0125,0`: relative 0,
absolute 199. -/
theorem basePos_absolute_counterexample :
    exAbsLayout.AbsoluteRect.UpperLeftCorner.X = 200 ∧
    (getElementBasePos exAbsLayout false (some ["2.1", "0"])).X = 119 ∧
    (getElementBasePos exAbsLayout true (some ["2.1", "0"])).X = 320 ∧
    (getElementBasePos exAbsLayout false (some ["-0.31", "0"])).X = 0 ∧
    (getElementBasePos exAbsLayout true (some ["-0.31", "0"])).X = 199 ∧
    (getRealCoordinateBasePos exAbsLayout false ["-0.0125", "0"]).X = 0 ∧
    (getRealCoordinateBasePos exAbsLayout true ["-0.0125", "0"]).X = 199 := by
  decide!

/-- C32, with the bounds it needs: `parseImage` in real-coordinate mode on a
three-part body whose position components read as the whole numbers `x`, `y`
and whose geometry components read as the whole numbers `w`, `h`, with the
whole offset `(ox, oy)` in `pos_offset`, when every value of the computation
has at most 24 bits (the grid position `x + ox`, the image size, their
product, the corner of the dialog, the sum of the last two, and the products
`w * imgsize.X`, `h * imgsize.Y`), so that binary32 holds each of them
exactly: exactly one image is appended; its pixel position is
`((x + ox) * imgsize.X, (y + oy) * imgsize.Y)` plus the upper left corner of
the absolute rectangle of the dialog, and its pixel size is
`(w * imgsize.X, h * imgsize.Y)`. -/
theorem parseImage_real_exact (env : ParseEnv) (data : parserData) (m : GUIFormSpecMenu)
    (element : String) (x y w h ox oy : Int)
    (hreal : data.real_coordinates = true)
    (hcount : (split element ';').length = 3 ∨
      ((split element ';').length > 3 ∧ m.m_formspec_version > env.FORMSPEC_API_VERSION))
    (hpos : (split ((split element ';').getD 0 "") ',').length = 2)
    (hgeom : (split ((split element ';').getD 1 "") ',').length = 2)
    (hx : stof ((split ((split element ';').getD 0 "") ',').getD 0 "") = (x : ℚ))
    (hy : stof ((split ((split element ';').getD 0 "") ',').getD 1 "") = (y : ℚ))
    (hw : stof ((split ((split element ';').getD 1 "") ',').getD 0 "") = (w : ℚ))
    (hh : stof ((split ((split element ';').getD 1 "") ',').getD 1 "") = (h : ℚ))
    (hox : m.pos_offset.X = (ox : ℚ)) (hoy : m.pos_offset.Y = (oy : ℚ))
    (hix : fits24 m.imgsize.X) (hiy : fits24 m.imgsize.Y)
    (hcx : fits24 m.AbsoluteRect.UpperLeftCorner.X)
    (hcy : fits24 m.AbsoluteRect.UpperLeftCorner.Y)
    (hgx : fits24 (x + ox)) (hgy : fits24 (y + oy))
    (hpx : fits24 ((x + ox) * m.imgsize.X)) (hpy : fits24 ((y + oy) * m.imgsize.Y))
    (hsx : fits24 ((x + ox) * m.imgsize.X + m.AbsoluteRect.UpperLeftCorner.X))
    (hsy : fits24 ((y + oy) * m.imgsize.Y + m.AbsoluteRect.UpperLeftCorner.Y))
    (hgw : fits24 (w * m.imgsize.X)) (hgh : fits24 (h * m.imgsize.Y)) :
    (parseImage env data m element).2.m_images = m.m_images ++
      [{ name := unescape_string ((split element ';').getD 2 ""),
         pos := { X := (x + ox) * m.imgsize.X + m.AbsoluteRect.UpperLeftCorner.X,
                  Y := (y + oy) * m.imgsize.Y + m.AbsoluteRect.UpperLeftCorner.Y },
         geom := { X := w * m.imgsize.X, Y := h * m.imgsize.Y } }] := by
  have hfx : f32 ((getRealCoordinateBasePosF m (split ((split element ';').getD 0 "") ',')).X *
      f32 (m.imgsize.X : ℚ)) = (((x + ox) * m.imgsize.X : Int) : ℚ) := by
    unfold getRealCoordinateBasePosF
    simp only [hx, hox]
    rw [real_grid x ox hgx]
    exact real_pixel _ _ hix hpx
  have hfy : f32 ((getRealCoordinateBasePosF m (split ((split element ';').getD 0 "") ',')).Y *
      f32 (m.imgsize.Y : ℚ)) = (((y + oy) * m.imgsize.Y : Int) : ℚ) := by
    unfold getRealCoordinateBasePosF
    simp only [hy, hoy]
    rw [real_grid y oy hgy]
    exact real_pixel _ _ hiy hpy
  have hp : getRealCoordinateBasePos m true (split ((split element ';').getD 0 "") ',') =
      { X := (x + ox) * m.imgsize.X + m.AbsoluteRect.UpperLeftCorner.X,
        Y := (y + oy) * m.imgsize.Y + m.AbsoluteRect.UpperLeftCorner.Y } := by
    have e1 := getRealCoordinateBasePos_X m true _ _ hfx hpx hcx hsx
    have e2 := getRealCoordinateBasePos_Y m true _ _ hfy hpy hcy hsy
    simp only [↓reduceIte] at e1 e2
    rw [← e1, ← e2]
  have hg : getRealCoordinateGeometry m (split ((split element ';').getD 1 "") ',') =
      { X := w * m.imgsize.X, Y := h * m.imgsize.Y } := by
    unfold getRealCoordinateGeometry
    rw [hw, hh, real_pixel w _ hix hgw, real_pixel h _ hiy hgh, truncS32_fits _ hgw,
      truncS32_fits _ hgh]
  unfold parseImage
  simp only [hcount, if_true, hpos, hgeom, ne_eq, not_true_eq_false, if_false, hreal, hp, hg]
  split <;> rfl

/-- C32 at a concrete input: `image[0,0;1,1;texture.png]` outside any
container, in the example dialog at (200, 100) with slots of 40 pixels, is
stored at the corner (200, 100) of the dialog with a size of 40 by 40
pixels. -/
theorem parseImage_real_exact_witness :
    (parseImage exEnv exRealSession exAbsLayout "0,0;1,1;texture.png").2.m_images =
      [{ name := "texture.png", pos := { X := 200, Y := 100 }, geom := { X := 40, Y := 40 } }] :=
  (parseImage_real_exact exEnv exRealSession exAbsLayout "0,0;1,1;texture.png" 0 0 1 1 0 0
    rfl (by decide) (by decide) (by decide) (by decide!) (by decide!) (by decide!) (by decide!)
    (by decide!) (by decide!)
    (by unfold fits24; decide) (by unfold fits24; decide) (by unfold fits24; decide)
    (by unfold fits24; decide) (by unfold fits24; decide) (by unfold fits24; decide)
    (by unfold fits24; decide) (by unfold fits24; decide) (by unfold fits24; decide)
    (by unfold fits24; decide) (by unfold fits24; decide) (by unfold fits24; decide)).trans
    (by decide!)

/-- C32 as the spec states it fails for whole numbers that binary32 does not
hold, in the example dialog at (200, 100) with slots of 40 pixels.  The
position and the width 16777217 are read as the float 16777216: the image of
`image[16777217,0;16777217,1;texture.png]` is stored at X = 671088832, not at
16777217 * 40 + 200 = 671088880, with the width 671088640, not 671088680.  The
position 16777216 is read exactly, its pixel offset 671088640 is a float, and
the sum with the corner 200 is rounded to 671088832, not 671088840. -/
theorem parseImage_real_counterexample :
    (parseImage exEnv exRealSession exAbsLayout
        "16777217,0;16777217,1;texture.png").2.m_images =
      [{ name := "texture.png", pos := { X := 671088832, Y := 100 },
         geom := { X := 671088640, Y := 40 } }] ∧
    (16777217 * exAbsLayout.imgsize.X + exAbsLayout.AbsoluteRect.UpperLeftCorner.X =
      671088880) ∧
    16777217 * exAbsLayout.imgsize.X = 671088680 ∧
    stof "16777216" = 16777216 ∧
    (parseImage exEnv exRealSession exAbsLayout
        "16777216,0;1,1;texture.png").2.m_images =
      [{ name := "texture.png", pos := { X := 671088832, Y := 100 },
         geom := { X := 40, Y := 40 } }] ∧
    (16777216 * exAbsLayout.imgsize.X + exAbsLayout.AbsoluteRect.UpperLeftCorner.X =
      671088840) := by
  decide!



/-- What `parseContainer` on a valid body leaves of the members the resolvers
read: `pos_offset` is the float sum, the rest is untouched. -/
theorem parseContainer_members (data : parserData) (m : GUIFormSpecMenu) (element : String)
    (hvalid : (split element ',').length ≥ 2) :
    (parseContainer data m element).2.pos_offset =
      { X := f32 (m.pos_offset.X + stof ((split element ',').getD 0 "")),
        Y := f32 (m.pos_offset.Y + stof (beforeSemicolon ((split element ',').getD 1 ""))) } ∧
    (parseContainer data m element).2.spacing = m.spacing ∧
    (parseContainer data m element).2.padding = m.padding ∧
    (parseContainer data m element).2.imgsize = m.imgsize ∧
    (parseContainer data m element).2.AbsoluteRect = m.AbsoluteRect := by
  unfold parseContainer
  simp only [hvalid, if_true, and_self]

/-- Inside a container the X component of a legacy base position is displaced
by the container offset times the spacing, when the float values are whole
numbers that binary32 holds exactly. -/
theorem displaced_legacy_X (m mc : GUIFormSpecMenu) (x : ℚ)
    (hoff : mc.pos_offset.X = f32 (m.pos_offset.X + x))
    (hsp : mc.spacing = m.spacing) (hpad : mc.padding = m.padding)
    (hrect : mc.AbsoluteRect = m.AbsoluteRect)
    (absolute : Bool) (v : List String) (P X S b : Int)
    (hP : m.pos_offset.X = (P : ℚ)) (hX : x = (X : ℚ)) (hS : m.spacing.X = (S : ℚ))
    (hb : f32 (stof (v.getD 0 "") * m.spacing.X) = (b : ℚ))
    (h1 : fits24 (P + X)) (h2 : fits24 (P * S)) (h3 : fits24 ((P + X) * S))
    (hL : LegacyExact
      (m.padding.X + if absolute = true then m.AbsoluteRect.UpperLeftCorner.X else 0)
      (P * S) b)
    (hL2 : LegacyExact
      (m.padding.X + if absolute = true then m.AbsoluteRect.UpperLeftCorner.X else 0)
      ((P + X) * S) b) :
    (getElementBasePos mc absolute (some v)).X =
      (getElementBasePos m absolute (some v)).X + X * S := by
  have ha : f32 (m.pos_offset.X * m.spacing.X) = ((P * S : Int) : ℚ) := by
    rw [hP, hS]
    exact f32_mul_fits P S h2
  have hoffX : mc.pos_offset.X = ((P + X : Int) : ℚ) := by
    rw [hoff, hP, hX]
    exact f32_add_fits P X h1
  have ha2 : f32 (mc.pos_offset.X * mc.spacing.X) = (((P + X) * S : Int) : ℚ) := by
    rw [hoffX, hsp, hS]
    exact f32_mul_fits _ _ h3
  have hb2 : f32 (stof (v.getD 0 "") * mc.spacing.X) = (b : ℚ) := by
    rw [hsp]
    exact hb
  rw [getElementBasePos_X mc absolute v _ b ha2 hb2 (by rw [hpad, hrect]; exact hL2),
    getElementBasePos_X m absolute v _ b ha hb hL, hpad, hrect]
  ring

/-- Inside a container the Y component of a legacy base position is displaced
by the container offset times the spacing, when the float values are whole
numbers that binary32 holds exactly. -/
theorem displaced_legacy_Y (m mc : GUIFormSpecMenu) (y : ℚ)
    (hoff : mc.pos_offset.Y = f32 (m.pos_offset.Y + y))
    (hsp : mc.spacing = m.spacing) (hpad : mc.padding = m.padding)
    (hrect : mc.AbsoluteRect = m.AbsoluteRect)
    (absolute : Bool) (v : List String) (P Y S b : Int)
    (hP : m.pos_offset.Y = (P : ℚ)) (hY : y = (Y : ℚ)) (hS : m.spacing.Y = (S : ℚ))
    (hb : f32 (stof (v.getD 1 "") * m.spacing.Y) = (b : ℚ))
    (h1 : fits24 (P + Y)) (h2 : fits24 (P * S)) (h3 : fits24 ((P + Y) * S))
    (hL : LegacyExact
      (m.padding.Y + if absolute = true then m.AbsoluteRect.UpperLeftCorner.Y else 0)
      (P * S) b)
    (hL2 : LegacyExact
      (m.padding.Y + if absolute = true then m.AbsoluteRect.UpperLeftCorner.Y else 0)
      ((P + Y) * S) b) :
    (getElementBasePos mc absolute (some v)).Y =
      (getElementBasePos m absolute (some v)).Y + Y * S := by
  have ha : f32 (m.pos_offset.Y * m.spacing.Y) = ((P * S : Int) : ℚ) := by
    rw [hP, hS]
    exact f32_mul_fits P S h2
  have hoffY : mc.pos_offset.Y = ((P + Y : Int) : ℚ) := by
    rw [hoff, hP, hY]
    exact f32_add_fits P Y h1
  have ha2 : f32 (mc.pos_offset.Y * mc.spacing.Y) = (((P + Y) * S : Int) : ℚ) := by
    rw [hoffY, hsp, hS]
    exact f32_mul_fits _ _ h3
  have hb2 : f32 (stof (v.getD 1 "") * mc.spacing.Y) = (b : ℚ) := by
    rw [hsp]
    exact hb
  rw [getElementBasePos_Y mc absolute v _ b ha2 hb2 (by rw [hpad, hrect]; exact hL2),
    getElementBasePos_Y m absolute v _ b ha hb hL, hpad, hrect]
  ring

/-- Inside a container the X component of a real base position is displaced by
the container offset times the image size, when the float values are whole
numbers that binary32 holds exactly. -/
theorem displaced_real_X (m mc : GUIFormSpecMenu) (x : ℚ)
    (hoff : mc.pos_offset.X = f32 (m.pos_offset.X + x))
    (himg : mc.imgsize = m.imgsize) (hrect : mc.AbsoluteRect = m.AbsoluteRect)
    (absolute : Bool) (w : List String) (V P X : Int)
    (hV : stof (w.getD 0 "") = (V : ℚ)) (hP : m.pos_offset.X = (P : ℚ)) (hX : x = (X : ℚ))
    (h1 : fits24 (P + X)) (h2 : fits24 (V + P)) (h3 : fits24 (V + (P + X)))
    (hI : fits24 m.imgsize.X) (hc : fits24 m.AbsoluteRect.UpperLeftCorner.X)
    (h4 : fits24 ((V + P) * m.imgsize.X)) (h5 : fits24 ((V + (P + X)) * m.imgsize.X))
    (h6 : fits24 ((V + P) * m.imgsize.X + m.AbsoluteRect.UpperLeftCorner.X))
    (h7 : fits24 ((V + (P + X)) * m.imgsize.X + m.AbsoluteRect.UpperLeftCorner.X)) :
    (getRealCoordinateBasePos mc absolute w).X =
      (getRealCoordinateBasePos m absolute w).X + X * m.imgsize.X := by
  have hk : f32 ((getRealCoordinateBasePosF m w).X * f32 (m.imgsize.X : ℚ)) =
      (((V + P) * m.imgsize.X : Int) : ℚ) := by
    unfold getRealCoordinateBasePosF
    simp only [hV, hP]
    rw [real_grid V P h2]
    exact real_pixel _ _ hI h4
  have hoffX : mc.pos_offset.X = ((P + X : Int) : ℚ) := by
    rw [hoff, hP, hX]
    exact f32_add_fits P X h1
  have hk2 : f32 ((getRealCoordinateBasePosF mc w).X * f32 (mc.imgsize.X : ℚ)) =
      (((V + (P + X)) * m.imgsize.X : Int) : ℚ) := by
    unfold getRealCoordinateBasePosF
    simp only [hV, hoffX, himg]
    rw [real_grid V (P + X) h3]
    exact real_pixel _ _ hI h5
  rw [getRealCoordinateBasePos_X mc absolute w _ hk2 h5 (by rw [hrect]; exact hc)
      (by rw [hrect]; exact h7),
    getRealCoordinateBasePos_X m absolute w _ hk h4 hc h6, hrect]
  ring

/-- Inside a container the Y component of a real base position is displaced by
the container offset times the image size, when the float values are whole
numbers that binary32 holds exactly. -/
theorem displaced_real_Y (m mc : GUIFormSpecMenu) (y : ℚ)
    (hoff : mc.pos_offset.Y = f32 (m.pos_offset.Y + y))
    (himg : mc.imgsize = m.imgsize) (hrect : mc.AbsoluteRect = m.AbsoluteRect)
    (absolute : Bool) (w : List String) (V P Y : Int)
    (hV : stof (w.getD 1 "") = (V : ℚ)) (hP : m.pos_offset.Y = (P : ℚ)) (hY : y = (Y : ℚ))
    (h1 : fits24 (P + Y)) (h2 : fits24 (V + P)) (h3 : fits24 (V + (P + Y)))
    (hI : fits24 m.imgsize.Y) (hc : fits24 m.AbsoluteRect.UpperLeftCorner.Y)
    (h4 : fits24 ((V + P) * m.imgsize.Y)) (h5 : fits24 ((V + (P + Y)) * m.imgsize.Y))
    (h6 : fits24 ((V + P) * m.imgsize.Y + m.AbsoluteRect.UpperLeftCorner.Y))
    (h7 : fits24 ((V + (P + Y)) * m.imgsize.Y + m.AbsoluteRect.UpperLeftCorner.Y)) :
    (getRealCoordinateBasePos mc absolute w).Y =
      (getRealCoordinateBasePos m absolute w).Y + Y * m.imgsize.Y := by
  have hk : f32 ((getRealCoordinateBasePosF m w).Y * f32 (m.imgsize.Y : ℚ)) =
      (((V + P) * m.imgsize.Y : Int) : ℚ) := by
    unfold getRealCoordinateBasePosF
    simp only [hV, hP]
    rw [real_grid V P h2]
    exact real_pixel _ _ hI h4
  have hoffY : mc.pos_offset.Y = ((P + Y : Int) : ℚ) := by
    rw [hoff, hP, hY]
    exact f32_add_fits P Y h1
  have hk2 : f32 ((getRealCoordinateBasePosF mc w).Y * f32 (mc.imgsize.Y : ℚ)) =
      (((V + (P + Y)) * m.imgsize.Y : Int) : ℚ) := by
    unfold getRealCoordinateBasePosF
    simp only [hV, hoffY, himg]
    rw [real_grid V (P + Y) h3]
    exact real_pixel _ _ hI h5
  rw [getRealCoordinateBasePos_Y mc absolute w _ hk2 h5 (by rw [hrect]; exact hc)
      (by rw [hrect]; exact h7),
    getRealCoordinateBasePos_Y m absolute w _ hk h4 hc h6, hrect]
  ring

/-- C17, with the condition the displacement needs: container round trip.  For
a body with at least two comma-separated parts, `x` and `y` being `stof` of
the first two: `parseContainer` pushes the current `pos_offset` on the
container stack and leaves in `pos_offset` the float sums of its components
with `x` and `y`, touching nothing else; a `parseContainerEnd` met with that
stack restores `pos_offset` and the stack to what they were before the
container, and right after `parseContainer` it gives back the session and the
menu themselves, so base positions (legacy and real, relative and absolute)
after the pair are those without the container.  Inside the container an
element is displaced by exactly the container offset in pixels, `x * spacing`
in legacy and `x * imgsize` in real coordinates, when every float value of the
computation is a whole number that binary32 holds exactly: `pos_offset`, `x`
and in legacy coordinates `spacing` are whole (`P`, `X`, `S`), the position
term of the element is whole (`b`, or the position `V` in real coordinates),
and the sums and products have at most 24 bits.  The same holds for the Y
components. -/
theorem container_round_trip (data : parserData) (m : GUIFormSpecMenu) (element : String)
    (x y : ℚ)
    (hvalid : (split element ',').length ≥ 2)
    (hx : x = stof ((split element ',').getD 0 ""))
    (hy : y = stof (beforeSemicolon ((split element ',').getD 1 ""))) :
    parseContainer data m element =
      (data, { m with
        container_stack := m.pos_offset :: m.container_stack,
        pos_offset := { X := f32 (m.pos_offset.X + x), Y := f32 (m.pos_offset.Y + y) } }) ∧
    (∀ (d2 : parserData) (m2 : GUIFormSpecMenu),
      m2.container_stack = (parseContainer data m element).2.container_stack →
      parseContainerEnd d2 m2 =
        (d2, { m2 with pos_offset := m.pos_offset, container_stack := m.container_stack })) ∧
    parseContainerEnd (parseContainer data m element).1 (parseContainer data m element).2 =
      (data, m) ∧
    (∀ absolute v,
      getElementBasePos (parseContainerEnd data (parseContainer data m element).2).2 absolute v =
        getElementBasePos m absolute v) ∧
    (∀ absolute v,
      getRealCoordinateBasePos (parseContainerEnd data (parseContainer data m element).2).2
          absolute v =
        getRealCoordinateBasePos m absolute v) ∧
    (∀ (absolute : Bool) (v : List String) (P X S b : Int),
      m.pos_offset.X = (P : ℚ) → x = (X : ℚ) → m.spacing.X = (S : ℚ) →
      f32 (stof (v.getD 0 "") * m.spacing.X) = (b : ℚ) →
      fits24 (P + X) → fits24 (P * S) → fits24 ((P + X) * S) →
      LegacyExact
        (m.padding.X + if absolute = true then m.AbsoluteRect.UpperLeftCorner.X else 0)
        (P * S) b →
      LegacyExact
        (m.padding.X + if absolute = true then m.AbsoluteRect.UpperLeftCorner.X else 0)
        ((P + X) * S) b →
      (getElementBasePos (parseContainer data m element).2 absolute (some v)).X =
        (getElementBasePos m absolute (some v)).X + X * S) ∧
    (∀ (absolute : Bool) (v : List String) (P Y S b : Int),
      m.pos_offset.Y = (P : ℚ) → y = (Y : ℚ) → m.spacing.Y = (S : ℚ) →
      f32 (stof (v.getD 1 "") * m.spacing.Y) = (b : ℚ) →
      fits24 (P + Y) → fits24 (P * S) → fits24 ((P + Y) * S) →
      LegacyExact
        (m.padding.Y + if absolute = true then m.AbsoluteRect.UpperLeftCorner.Y else 0)
        (P * S) b →
      LegacyExact
        (m.padding.Y + if absolute = true then m.AbsoluteRect.UpperLeftCorner.Y else 0)
        ((P + Y) * S) b →
      (getElementBasePos (parseContainer data m element).2 absolute (some v)).Y =
        (getElementBasePos m absolute (some v)).Y + Y * S) ∧
    (∀ (absolute : Bool) (w : List String) (V P X : Int),
      stof (w.getD 0 "") = (V : ℚ) → m.pos_offset.X = (P : ℚ) → x = (X : ℚ) →
      fits24 (P + X) → fits24 (V + P) → fits24 (V + (P + X)) → fits24 m.imgsize.X →
      fits24 m.AbsoluteRect.UpperLeftCorner.X →
      fits24 ((V + P) * m.imgsize.X) → fits24 ((V + (P + X)) * m.imgsize.X) →
      fits24 ((V + P) * m.imgsize.X + m.AbsoluteRect.UpperLeftCorner.X) →
      fits24 ((V + (P + X)) * m.imgsize.X + m.AbsoluteRect.UpperLeftCorner.X) →
      (getRealCoordinateBasePos (parseContainer data m element).2 absolute w).X =
        (getRealCoordinateBasePos m absolute w).X + X * m.imgsize.X) ∧
    (∀ (absolute : Bool) (w : List String) (V P Y : Int),
      stof (w.getD 1 "") = (V : ℚ) → m.pos_offset.Y = (P : ℚ) → y = (Y : ℚ) →
      fits24 (P + Y) → fits24 (V + P) → fits24 (V + (P + Y)) → fits24 m.imgsize.Y →
      fits24 m.AbsoluteRect.UpperLeftCorner.Y →
      fits24 ((V + P) * m.imgsize.Y) → fits24 ((V + (P + Y)) * m.imgsize.Y) →
      fits24 ((V + P) * m.imgsize.Y + m.AbsoluteRect.UpperLeftCorner.Y) →
      fits24 ((V + (P + Y)) * m.imgsize.Y + m.AbsoluteRect.UpperLeftCorner.Y) →
      (getRealCoordinateBasePos (parseContainer data m element).2 absolute w).Y =
        (getRealCoordinateBasePos m absolute w).Y + Y * m.imgsize.Y) := by
  have hA : parseContainer data m element =
      (data, { m with
        container_stack := m.pos_offset :: m.container_stack,
        pos_offset := { X := f32 (m.pos_offset.X + x), Y := f32 (m.pos_offset.Y + y) } }) := by
    unfold parseContainer
    simp only [hvalid, if_true, hx, hy]
  have hC : parseContainerEnd (parseContainer data m element).1
      (parseContainer data m element).2 = (data, m) := by
    rw [hA]
    cases m
    rfl
  obtain ⟨hoff, hsp, hpad, himg, hrect⟩ := parseContainer_members data m element hvalid
  rw [← hx, ← hy] at hoff
  have hoffX : (parseContainer data m element).2.pos_offset.X = f32 (m.pos_offset.X + x) := by
    rw [hoff]
  have hoffY : (parseContainer data m element).2.pos_offset.Y = f32 (m.pos_offset.Y + y) := by
    rw [hoff]
  refine ⟨hA, ?_, hC, ?_, ?_, ?_, ?_, ?_, ?_⟩
  · intro d2 m2 h2
    rw [hA] at h2
    unfold parseContainerEnd
    simp only [h2]
  · intro absolute v
    have : (parseContainer data m element).1 = data := by rw [hA]
    rw [this] at hC
    rw [hC]
  · intro absolute v
    have : (parseContainer data m element).1 = data := by rw [hA]
    rw [this] at hC
    rw [hC]
  · intro absolute v P X S b hP hX hS hb h1 h2 h3 hL hL2
    exact displaced_legacy_X m _ x hoffX hsp hpad hrect absolute v P X S b hP hX hS hb h1 h2 h3
      hL hL2
  · intro absolute v P Y S b hP hY hS hb h1 h2 h3 hL hL2
    exact displaced_legacy_Y m _ y hoffY hsp hpad hrect absolute v P Y S b hP hY hS hb h1 h2 h3
      hL hL2
  · intro absolute w V P X hV hP hX h1 h2 h3 hI hc h4 h5 h6 h7
    exact displaced_real_X m _ x hoffX himg hrect absolute w V P X hV hP hX h1 h2 h3 hI hc
      h4 h5 h6 h7
  · intro absolute w V P Y hV hP hY h1 h2 h3 hI hc h4 h5 h6 h7
    exact displaced_real_Y m _ y hoffY himg hrect absolute w V P Y hV hP hY h1 h2 h3 hI hc
      h4 h5 h6 h7

/-- C17 at a concrete input: `container[2,3]` inside a container at offset
(1, 2) gives offset (3, 5) with (1, 2) pushed, a `container_end[]` gives the
layout back, and a legacy element at `0,0` inside is displaced by 2 * 50
pixels in X and lies at pixel (165, 245). -/
theorem container_round_trip_witness :
    parseContainer {} exLayout "2,3" =
      ({}, { exLayout with
        container_stack := [{ X := 1, Y := 2 }, { X := 0, Y := 0 }],
        pos_offset := { X := 3, Y := 5 } }) ∧
    parseContainerEnd {} (parseContainer {} exLayout "2,3").2 = ({}, exLayout) ∧
    (getElementBasePos (parseContainer {} exLayout "2,3").2 false (some ["0", "0"])).X =
      (getElementBasePos exLayout false (some ["0", "0"])).X + 2 * 50 ∧
    getElementBasePos (parseContainer {} exLayout "2,3").2 false (some ["0", "0"]) =
      { X := 165, Y := 245 } := by
  obtain ⟨h1, _, h3, _, _, h6, _⟩ :=
    container_round_trip {} exLayout "2,3" 2 3 (by decide) (by decide!) (by decide!)
  refine ⟨?_, h3, ?_, ?_⟩
  · rw [h1]
    have e1 : f32 (exLayout.pos_offset.X + 2) = 3 := by decide!
    have e2 : f32 (exLayout.pos_offset.Y + 3) = 5 := by decide!
    rw [e1, e2]
    rfl
  · exact h6 false ["0", "0"] 1 2 50 0 (by decide!) (by decide!) (by decide!) (by decide!)
      (by unfold fits24; decide) (by unfold fits24; decide) (by unfold fits24; decide)
      (by unfold LegacyExact fits24; decide) (by unfold LegacyExact fits24; decide)
  · decide!

/-- C17 as the spec states it fails, in the example dialog with a padding of
15 and slots every 50 pixels.  A legacy element at `2.1,0` lies at X = 119
outside any container and at X = 170 inside `container[1,0]`: it is displaced
by 51 pixels, not by the container offset of 1 * 50 pixels.  The container
offsets themselves add up in binary32: after `container[0.7,0]`,
`container[0.9,0]` and `container[0.4,0]` the X offset is 16777215 / 8388608,
not 2. -/
theorem container_displacement_counterexample :
    (parseContainer {} exAbsLayout "1,0").2.pos_offset = { X := 1, Y := 0 } ∧
    exAbsLayout.spacing.X = 50 ∧
    (getElementBasePos exAbsLayout false (some ["2.1", "0"])).X = 119 ∧
    (getElementBasePos (parseContainer {} exAbsLayout "1,0").2 false (some ["2.1", "0"])).X =
      170 ∧
    (parseContainer {} (parseContainer {} (parseContainer {} exAbsLayout "0.7,0").2
      "0.9,0").2 "0.4,0").2.pos_offset.X = 16777215 / 8388608 := by
  decide!



/-- The watched inner loop does not divide by zero: with no columns there is
no slot to visit. -/
theorem findSlotChecked_range (m : GUIFormSpecMenu) (p : v2s32) (s : ListDrawSpec) :
    findSlotChecked m p s (List.range (wrapS32 (s.geom.X * s.geom.Y)).toNat) =
      some ((List.range (wrapS32 (s.geom.X * s.geom.Y)).toNat).find?
        fun (i : Nat) => (slotRect m s (Int.ofNat i)).isPointInside p) := by
  by_cases h : s.geom.X = 0
  · rw [h]
    have hz : wrapS32 (0 * s.geom.Y) = 0 := by rw [zero_mul]; rfl
    simp only [hz, Int.toNat_zero, List.range_zero, List.find?_nil]
    rfl
  · exact findSlotChecked_eq m p s _ h

/-- The watched outer loop returns what the loop of the model returns. -/
theorem getItemAtPosCheckedAux_eq (m : GUIFormSpecMenu) (p : v2s32) (l : List ListDrawSpec) :
    getItemAtPosCheckedAux m p l = some (getItemAtPosAux m p l) := by
  induction l with
  | nil => rfl
  | cons s rest ih =>
    unfold getItemAtPosCheckedAux getItemAtPosAux
    rw [findSlotChecked_range]
    cases (List.range (wrapS32 (s.geom.X * s.geom.Y)).toNat).find?
        fun (i : Nat) => (slotRect m s (Int.ofNat i)).isPointInside p with
    | none => exact ih
    | some i => rfl

/-- The outer loop of the hit test returns the invalid slot when no slot
rectangle holds the point, and otherwise the first slot under the point of the
first list that has one; the slot count and the index are `s32` values. -/
theorem getItemAtPosAux_spec (m : GUIFormSpecMenu) (p : v2s32) (l : List ListDrawSpec) :
    (getItemAtPosAux m p l = { inventoryloc := undefinedLocation, listname := "", i := -1 } ∧
      ∀ s ∈ l, ∀ i : Nat, Int.ofNat i < wrapS32 (s.geom.X * s.geom.Y) →
        (slotRect m s (Int.ofNat i)).isPointInside p = false) ∨
    (∃ pre s post, ∃ i : Nat, l = pre ++ s :: post ∧
      (∀ t ∈ pre, ∀ j : Nat, Int.ofNat j < wrapS32 (t.geom.X * t.geom.Y) →
        (slotRect m t (Int.ofNat j)).isPointInside p = false) ∧
      Int.ofNat i < wrapS32 (s.geom.X * s.geom.Y) ∧
      (slotRect m s (Int.ofNat i)).isPointInside p = true ∧
      (∀ j : Nat, j < i → (slotRect m s (Int.ofNat j)).isPointInside p = false) ∧
      getItemAtPosAux m p l =
        { inventoryloc := s.inventoryloc, listname := s.listname,
          i := wrapS32 (Int.ofNat i + s.start_item_i) }) := by
  induction l with
  | nil =>
    left
    exact ⟨rfl, fun s hs => (nomatch hs)⟩
  | cons s rest ih =>
    cases hf : (List.range (wrapS32 (s.geom.X * s.geom.Y)).toNat).find?
        fun (i : Nat) => (slotRect m s (Int.ofNat i)).isPointInside p with
    | some i =>
      right
      rw [List.find?_range_eq_some] at hf
      obtain ⟨hin, hmem, hbefore⟩ := hf
      have hlt : i < (wrapS32 (s.geom.X * s.geom.Y)).toNat := List.mem_range.mp hmem
      refine ⟨[], s, rest, i, rfl, fun t ht => (nomatch ht), ?_, hin, fun j hj => ?_, ?_⟩
      · have : (i : Int) < wrapS32 (s.geom.X * s.geom.Y) := by omega
        exact this
      · simpa using hbefore j hj
      · unfold getItemAtPosAux
        have hf' : (List.range (wrapS32 (s.geom.X * s.geom.Y)).toNat).find?
            (fun (i : Nat) => (slotRect m s (Int.ofNat i)).isPointInside p) = some i :=
          List.find?_range_eq_some.mpr ⟨hin, hmem, hbefore⟩
        rw [hf']
    | none =>
      have hstep : getItemAtPosAux m p (s :: rest) = getItemAtPosAux m p rest := by
        conv_lhs => unfold getItemAtPosAux
        rw [hf]
      have hmiss : ∀ i : Nat, Int.ofNat i < wrapS32 (s.geom.X * s.geom.Y) →
          (slotRect m s (Int.ofNat i)).isPointInside p = false := by
        intro i hi
        rw [List.find?_eq_none] at hf
        have hi' : (i : Int) < wrapS32 (s.geom.X * s.geom.Y) := hi
        have := hf i (List.mem_range.mpr (by omega))
        simpa using this
      rcases ih with ⟨h1, h2⟩ | ⟨pre, t, post, i, hl, hpre, hlt, hin, hbefore, hres⟩
      · left
        refine ⟨hstep.trans h1, fun t ht => ?_⟩
        rcases List.mem_cons.mp ht with rfl | ht'
        · exact hmiss
        · exact h2 t ht'
      · right
        refine ⟨s :: pre, t, post, i, by rw [hl]; rfl, fun u hu => ?_, hlt, hin, hbefore,
          hstep.trans hres⟩
        rcases List.mem_cons.mp hu with rfl | hu'
        · exact hmiss
        · exact hpre u hu'

/-- C39, with the bound it needs: `getItemAtPos` on lists as `parseList` stores
them (column count, row count and start index at least 0; `parseList` keeps
the stored lists so) whose slot arithmetic stays inside `s32` (the slot count
`columns * rows` and the largest index `start_item_i + columns * rows - 1` are
at most 2147483647).  The run with the divisions watched ends with the result
of `getItemAtPos`: neither `i % s.geom.X` nor `i / s.geom.X` is evaluated with
`s.geom.X == 0`, because a list without columns has no slot to visit.  The
result is either the invalid slot (undefined location, empty list name, index
-1), and then no slot rectangle of any list holds the point, or it is the slot
of the first list in declaration order that has a slot rectangle holding the
point: every list before it has none, `i` is the first slot of that list
whose rectangle holds the point, the result names the location and the list
name of that list with index `i + start_item_i`, it is valid, and its index
lies in `start_item_i ≤ index < start_item_i + columns * rows`. -/
theorem getItemAtPos_in_range (m : GUIFormSpecMenu) (p : v2s32)
    (h : ListsOk m.m_inventorylists) (hb : ListsInS32 m.m_inventorylists) :
    getItemAtPosChecked m p = some (getItemAtPos m p) ∧
    ((getItemAtPos m p = { inventoryloc := undefinedLocation, listname := "", i := -1 } ∧
        ∀ s ∈ m.m_inventorylists, ∀ i : Nat, Int.ofNat i < s.geom.X * s.geom.Y →
          (slotRect m s (Int.ofNat i)).isPointInside p = false) ∨
      (∃ pre s post, ∃ i : Nat, m.m_inventorylists = pre ++ s :: post ∧
        (∀ t ∈ pre, ∀ j : Nat, Int.ofNat j < t.geom.X * t.geom.Y →
          (slotRect m t (Int.ofNat j)).isPointInside p = false) ∧
        (slotRect m s (Int.ofNat i)).isPointInside p = true ∧
        (∀ j : Nat, j < i → (slotRect m s (Int.ofNat j)).isPointInside p = false) ∧
        getItemAtPos m p =
          { inventoryloc := s.inventoryloc, listname := s.listname,
            i := Int.ofNat i + s.start_item_i } ∧
        (getItemAtPos m p).isValid = true ∧
        s.start_item_i ≤ (getItemAtPos m p).i ∧
        (getItemAtPos m p).i < s.start_item_i + s.geom.X * s.geom.Y)) ∧
    (∀ env data element, ListsOk (parseList env data m element).2.m_inventorylists) := by
  have hcount : ∀ s ∈ m.m_inventorylists, wrapS32 (s.geom.X * s.geom.Y) = s.geom.X * s.geom.Y := by
    intro s hs
    have h1 := h s hs
    have h2 := hb s hs
    have h3 : 0 ≤ s.geom.X * s.geom.Y := Int.mul_nonneg h1.1 h1.2.1
    exact wrapS32_id _ (by omega) h2.1
  refine ⟨getItemAtPosCheckedAux_eq m p _, ?_, fun env data element =>
    parseList_listsOk env data m element h⟩
  rcases getItemAtPosAux_spec m p m.m_inventorylists with
    ⟨h1, h2⟩ | ⟨pre, s, post, i, hl, hpre, hlt, hin, hbefore, hres⟩
  · left
    refine ⟨h1, fun s hs i hi => h2 s hs i ?_⟩
    rw [hcount s hs]
    exact hi
  · right
    have hs : s ∈ m.m_inventorylists := by
      rw [hl]
      exact List.mem_append_right _ (List.mem_cons_self _ _)
    have hstart : 0 ≤ s.start_item_i := (h s hs).2.2
    have hbound := (hb s hs).2
    have hi : (0 : Int) ≤ Int.ofNat i := Int.ofNat_nonneg i
    rw [hcount s hs] at hlt
    have hidx : wrapS32 (Int.ofNat i + s.start_item_i) = Int.ofNat i + s.start_item_i :=
      wrapS32_id _ (by omega) (by omega)
    have hres2 : getItemAtPos m p =
        { inventoryloc := s.inventoryloc, listname := s.listname,
          i := Int.ofNat i + s.start_item_i } := by
      rw [← hidx]
      exact hres
    refine ⟨pre, s, post, i, hl, fun t ht j hj => hpre t ht j ?_, hin, hbefore, hres2, ?_, ?_, ?_⟩
    · have ht2 : t ∈ m.m_inventorylists := by
        rw [hl]
        exact List.mem_append_left _ ht
      rw [hcount t ht2]
      exact hj
    · rw [hres2]
      unfold ItemSpec.isValid
      simp only [bne_iff_ne, ne_eq]
      omega
    · rw [hres2]
      show s.start_item_i ≤ Int.ofNat i + s.start_item_i
      omega
    · rw [hres2]
      show Int.ofNat i + s.start_item_i < s.start_item_i + s.geom.X * s.geom.Y
      omega

/-- C39 at a concrete input: the first list of `exZeroColumns` has no columns,
the second is 2 by 2 from index 3.  The watched run at the point (17, 25) ends
without a division by zero, on slot 1 of the second list, index 4. -/
theorem getItemAtPos_in_range_witness :
    ListsOk exZeroColumns.m_inventorylists ∧
    ListsInS32 exZeroColumns.m_inventorylists ∧
    getItemAtPosChecked exZeroColumns { X := 17, Y := 25 } =
      some (getItemAtPos exZeroColumns { X := 17, Y := 25 }) ∧
    getItemAtPos exZeroColumns { X := 17, Y := 25 } =
      { inventoryloc := "current_player", listname := "craft", i := 4 } :=
  ⟨by unfold ListsOk; decide, by unfold ListsInS32; decide,
   (getItemAtPos_in_range exZeroColumns { X := 17, Y := 25 } (by unfold ListsOk; decide)
     (by unfold ListsInS32; decide)).1,
   by decide⟩

/-- C39 as the spec states it fails: `list[current_player;main;0,0;2,1;2147483647]`
passes `parseList` (columns 2, rows 1, start index 2147483647, all at least
0).  For a point in its second slot the sum `i + start_item_i` is
1 + 2147483647, which `s32` does not hold: the result has the index
-2147483648, below the start index. -/
theorem getItemAtPos_overflow_counterexample :
    (parseList exEnv {} {} "current_player;main;0,0;2,1;2147483647").2.m_inventorylists.map
        (fun s => (s.listname, s.geom, s.start_item_i)) =
      exIndexOverflow.m_inventorylists.map (fun s => (s.listname, s.geom, s.start_item_i)) ∧
    ListsOk exIndexOverflow.m_inventorylists ∧
    getItemAtPos exIndexOverflow { X := 5, Y := 5 } =
      { inventoryloc := "current_player", listname := "main", i := 2147483647 } ∧
    getItemAtPos exIndexOverflow { X := 17, Y := 5 } =
      { inventoryloc := "current_player", listname := "main", i := -2147483648 } := by
  refine ⟨by decide, by unfold ListsOk; decide, by decide, by decide⟩



/-- Counterexample to C2 as stated: a left click without shift arrives with
nothing selected, on slot 0 of `main` (valid, outside the craft preview,
holding 10 stone), while a craft result of 4 planks is waiting.  The
validation pass at the head of `OnEvent` selects the craft result; the click
then moves it: afterwards the craft result, not the hovered slot, is selected,
and one action has been emitted. -/
theorem OnEvent_down_select_counterexample :
    (buttonOf leftDown).2 = .BET_DOWN ∧ leftDown.Shift = false ∧
    exCraftReadyMenu.m_selected_item = none ∧
    (hoveredSlot exCraftReadyCollab exCraftReadyMenu).s =
      { inventoryloc := "current_player", listname := "main", i := 0 } ∧
    (hoveredSlot exCraftReadyCollab exCraftReadyMenu).s.isValid = true ∧
    (hoveredSlot exCraftReadyCollab exCraftReadyMenu).s_count = 10 ∧
    (updateSelectedItem exCraftReadyCollab exCraftReadyMenu).m_selected_item =
      some { inventoryloc := "current_player", listname := "craftresult", i := 0 } ∧
    (updateSelectedItem exCraftReadyCollab exCraftReadyMenu).m_selected_amount = 4 ∧
    (OnEvent exCraftReadyCollab exCraftReadyMenu leftDown).map
        (fun r => (r.1.m_selected_item, r.1.m_selected_amount, r.2)) =
      some (some { inventoryloc := "current_player", listname := "craftresult", i := 0 }, 10,
        [.IMoveAction 4 "current_player" "craftresult" 0 "current_player" "main" 0 false]) := by
  decide

/-- Counterexample to C12 as stated: a left click with shift held arrives with
nothing selected and amount 0, on slot 0 of `main` (valid, outside the craft
preview, holding 10 stone), while a craft result of 4 planks is waiting.  The
validation pass selects the craft result, so the `switch (updown)` requests a
move of those 4 and no shift-move; afterwards the craft result is selected
with a non-zero amount. -/
theorem OnEvent_down_shift_counterexample :
    (buttonOf shiftLeftDown).2 = .BET_DOWN ∧ shiftLeftDown.Shift = true ∧
    exCraftReadyMenu.m_selected_item = none ∧ exCraftReadyMenu.m_selected_amount = 0 ∧
    (hoveredSlot exCraftReadyCollab exCraftReadyMenu).s.isValid = true ∧
    (hoveredSlot exCraftReadyCollab exCraftReadyMenu).s.listname = "main" ∧
    (hoveredSlot exCraftReadyCollab exCraftReadyMenu).s_count = 10 ∧
    (dispatch (updateSelectedItem exCraftReadyCollab exCraftReadyMenu)
        (hoveredSlot exCraftReadyCollab exCraftReadyMenu)
        (selectedInventory exCraftReadyCollab
          (updateSelectedItem exCraftReadyCollab exCraftReadyMenu)).join shiftLeftDown).map
        (fun r => r.2) = some { move_amount := 4 } ∧
    (OnEvent exCraftReadyCollab exCraftReadyMenu shiftLeftDown).map
        (fun r => (r.1.m_selected_item, r.1.m_selected_amount, r.2)) =
      some (some { inventoryloc := "current_player", listname := "craftresult", i := 0 }, 10,
        [.IMoveAction 4 "current_player" "craftresult" 0 "current_player" "main" 0 false]) := by
  decide

end FormSpec
